import Mathlib

/-!
# Sprite manager of butano (`btn_sprites_manager.cpp`)

A shallow embedding of `btn::sprites_manager` and of the part of
`btn::fixed_point` it uses, followed by theorems about it.

The manager's global `data` object, the sort index (`sorted_sprites`), the
transform pool (`sprite_affine_mats_manager`) and the list of hardware
transfers issued so far are the components of one explicit `State`; the
camera position is an argument of every function that reads it.  A fatal
`BTN_ASSERT` is the result `none`.
-/

namespace btn

/-! ## Machine integers and `btn::fixed_point` -/

/-- Conversion of an `int` to `int8_t` (two's complement, 8 bits). -/
def int8_t (n : Int) : Int := (n + 128) % 256 - 128

/-- Wrapping of an integer to the signed 32-bit range. -/
def wrap32 (n : Int) : Int := (n + 2147483648) % 4294967296 - 2147483648

/-- Modelled from the spec: `btn::fixed` (`btn_fixed.h` is not part of the
sources at hand), the "sub-pixel fixed-point" coordinate: a signed 32-bit
integer with 12 fractional bits. -/
structure fixed where
  data : Int
deriving DecidableEq, Repr

namespace fixed

/-- Modelled from the spec: `fixed::integer()`, the whole pixels of the
coordinate (the fraction is dropped). -/
def integer (a : fixed) : Int := a.data.tdiv 4096

/-- Modelled from the spec: subtraction of two `fixed` values, on the wrapping
32-bit representation. -/
def sub (a b : fixed) : fixed := ⟨wrap32 (a.data - b.data)⟩

/-- Modelled from the spec: the `fixed` value of a whole number of pixels. -/
def of_int (n : Int) : fixed := ⟨wrap32 (n * 4096)⟩

end fixed

/-- The class `btn::fixed_point` of `btn_fixed_point.h` (fields `_x`, `_y`). -/
structure fixed_point where
  x : fixed
  y : fixed
deriving DecidableEq, Repr

namespace fixed_point

/-- The compound `operator-=`: returns the new value of the left operand. -/
def sub_assign (a other : fixed_point) : fixed_point :=
  let a1 := { a with x := a.x.sub other.x }
  { a1 with y := a1.y.sub other.y }

/-- The friend `operator-`. -/
def sub (a b : fixed_point) : fixed_point := ⟨a.x.sub b.x, a.y.sub b.y⟩

end fixed_point

/-! ## Collaborators whose sources are not at hand -/

/-- Modelled from the spec: the class `btn::size` (`btn_size.h` is not part of
the sources at hand), a width and a height in pixels. -/
structure size where
  width : Int
  height : Int
deriving DecidableEq, Repr

/-- Modelled from the spec: `hw::sprites::handle`, the "mirrored hardware
attribute block: position, tile index, palette index, shape, priority, flip,
mosaic, transform linkage" (the `hw` layer is not part of the sources at
hand).  `hidden` marks the "hidden" sentinel attribute. -/
structure handle where
  x : Int
  y : Int
  shape_width : Int
  shape_height : Int
  tiles_id : Int
  palette_id : Int
  bg_priority : Int
  horizontal_flip : Bool
  vertical_flip : Bool
  mosaic_enabled : Bool
  affine_mat_id : Option Nat
  double_size : Bool
  hidden : Bool
deriving DecidableEq, Repr

namespace hw.sprites

/-- Modelled from the spec: the "hidden" sentinel attribute block. -/
def hidden_handle : handle :=
  { x := 0, y := 0, shape_width := 0, shape_height := 0, tiles_id := 0, palette_id := 0,
    bg_priority := 0, horizontal_flip := false, vertical_flip := false,
    mosaic_enabled := false, affine_mat_id := none, double_size := false, hidden := true }

/-- Modelled from the spec: `hw::sprites::dimensions`, the footprint given by
the hardware size, enlarged (doubled) in wide-bounding-box mode. -/
def dimensions (h : handle) : size :=
  if h.double_size then ⟨h.shape_width * 2, h.shape_height * 2⟩
  else ⟨h.shape_width, h.shape_height⟩

/-- Modelled from the spec: `hw::sprites::set_position` writes the position
of the attribute block. -/
def set_position (x y : Int) (h : handle) : handle := { h with x := x, y := y }

/-- Modelled from the spec: `hw::sprites::set_tiles` writes the tile index. -/
def set_tiles (tiles_id : Int) (h : handle) : handle := { h with tiles_id := tiles_id }

/-- Modelled from the spec: `hw::sprites::set_palette` writes the palette
index. -/
def set_palette (palette_id : Int) (h : handle) : handle := { h with palette_id := palette_id }

/-- Modelled from the spec: `hw::sprites::set_bg_priority` writes the
priority. -/
def set_bg_priority (bg_priority : Int) (h : handle) : handle :=
  { h with bg_priority := bg_priority }

/-- Modelled from the spec: `hw::sprites::set_horizontal_flip` writes the
horizontal flip flag. -/
def set_horizontal_flip (v : Bool) (h : handle) : handle := { h with horizontal_flip := v }

/-- Modelled from the spec: `hw::sprites::set_vertical_flip` writes the
vertical flip flag. -/
def set_vertical_flip (v : Bool) (h : handle) : handle := { h with vertical_flip := v }

/-- Modelled from the spec: `hw::sprites::set_mosaic_enabled` writes the
mosaic flag. -/
def set_mosaic_enabled (v : Bool) (h : handle) : handle := { h with mosaic_enabled := v }

/-- Modelled from the spec: `hw::sprites::set_affine_mat` writes the transform
linkage and the wide-bounding-box (double size) flag. -/
def set_affine_mat (affine_mat_id : Nat) (double_size : Bool) (h : handle) : handle :=
  { h with affine_mat_id := some affine_mat_id, double_size := double_size }

/-- Modelled from the spec: `hw::sprites::remove_affine_mat` clears the
transform linkage and the wide-bounding-box flag. -/
def remove_affine_mat (h : handle) : handle :=
  { h with affine_mat_id := none, double_size := false }

/-- Modelled from the spec: `hw::sprites::hide(count, first)` writes the
hidden sentinel into `count` consecutive table entries from index `start`. -/
def hide : Nat → Nat → List handle → List handle
  | 0, _, handles => handles
  | count + 1, start, handles => hide count (start + 1) (handles.set start hidden_handle)

end hw.sprites

/-- Modelled from the spec: the enumeration `sprite_double_size_mode`, the
wide-bounding-box mode "in {always, never, auto}". -/
inductive sprite_double_size_mode where
  | AUTO
  | ENABLED
  | DISABLED
deriving DecidableEq, Repr

/-- Modelled from the spec: `sprite_tiles_ptr`, a reference to a tile set:
its identifier and its number of tiles. -/
structure sprite_tiles_ptr where
  id : Int
  tiles_count : Int
deriving DecidableEq, Repr

/-- Modelled from the spec: `sprite_palette_ptr`, a reference to a palette:
its identifier and its colour-depth mode. -/
structure sprite_palette_ptr where
  id : Int
  eight_bits_per_pixel : Bool
deriving DecidableEq, Repr

/-- Modelled from the spec: one entry of the transform pool as the manager
observes it ("is_identity", "changed(id)", "current_size_class(id)", and the
flips the pool keeps for a record rendered through the transform). -/
structure affine_mat where
  is_identity : Bool
  horizontal_flip : Bool
  vertical_flip : Bool
  double_size : Bool
  updated : Bool
deriving DecidableEq, Repr

/-- Modelled from the spec: the transform pool `sprite_affine_mats_manager`, a
black box reporting "has anything changed since last check", which ids
changed, and its own dirty range `(offset, count)`. -/
structure affine_mats_state where
  mats : List affine_mat
  updated : Bool
  commit_data : Option (Int × Int)
deriving DecidableEq, Repr

namespace sprite_affine_mats_manager

/-- Modelled from the spec: the pool entry of an id the pool does not hold. -/
def default_mat : affine_mat :=
  { is_identity := true, horizontal_flip := false, vertical_flip := false,
    double_size := false, updated := false }

/-- Modelled from the spec: the pool entry of the transform `id`. -/
def mat (m : affine_mats_state) (id : Nat) : affine_mat := m.mats.getD id default_mat

/-- Modelled from the spec: `updated()`, "has anything changed since last
check". -/
def updated (m : affine_mats_state) : Bool := m.updated

/-- Modelled from the spec: `updated(id)`, "changed(id)". -/
def updated_id (m : affine_mats_state) (id : Nat) : Bool := (mat m id).updated

/-- Modelled from the spec: `double_size(id)`, "current_size_class(id)". -/
def double_size (m : affine_mats_state) (id : Nat) : Bool := (mat m id).double_size

/-- Modelled from the spec: `is_identity()` of the transform `id`. -/
def is_identity (m : affine_mats_state) (id : Nat) : Bool := (mat m id).is_identity

/-- Modelled from the spec: `horizontal_flip()` of the transform `id`. -/
def horizontal_flip (m : affine_mats_state) (id : Nat) : Bool := (mat m id).horizontal_flip

/-- Modelled from the spec: `vertical_flip()` of the transform `id`. -/
def vertical_flip (m : affine_mats_state) (id : Nat) : Bool := (mat m id).vertical_flip

/-- Modelled from the spec: `set_horizontal_flip(v)` on the transform `id`. -/
def set_horizontal_flip (id : Nat) (v : Bool) (m : affine_mats_state) : affine_mats_state :=
  { m with mats := m.mats.set id { mat m id with horizontal_flip := v } }

/-- Modelled from the spec: `set_vertical_flip(v)` on the transform `id`. -/
def set_vertical_flip (id : Nat) (v : Bool) (m : affine_mats_state) : affine_mats_state :=
  { m with mats := m.mats.set id { mat m id with vertical_flip := v } }

/-- Modelled from the spec: the call `update()`: the changes reported so far
are consumed. -/
def update (m : affine_mats_state) : affine_mats_state :=
  { m with mats := m.mats.map (fun a => { a with updated := false }), updated := false }

/-- Modelled from the spec: the call `retrieve_commit_data()`: returns the
pool's dirty range, if any, and resets it. -/
def retrieve_commit_data (m : affine_mats_state) : Option (Int × Int) × affine_mats_state :=
  (m.commit_data, { m with commit_data := none })

end sprite_affine_mats_manager

/-- Modelled from the spec: what `create` reads from a `sprite_builder`
(`btn_sprite_builder.h` is not part of the sources at hand). -/
structure sprite_builder where
  position : fixed_point
  shape_width : Int
  shape_height : Int
  tiles : Option sprite_tiles_ptr
  palette : Option sprite_palette_ptr
  bg_priority : Int
  z_order : Int
  horizontal_flip : Bool
  vertical_flip : Bool
  mosaic_enabled : Bool
  visible : Bool
  ignore_camera : Bool
  affine_mat : Option Nat
  double_size_mode : sprite_double_size_mode
  remove_affine_mat_when_not_needed : Bool
deriving DecidableEq, Repr

/-- Modelled from the spec: the Sprite Record `sprites_manager_item`
(`btn_sprites_manager_item.h` is not part of the sources at hand), with the
fields `btn_sprites_manager.cpp` reads and writes.  `id` is the identity of
the record (the `id_type` pointer); the sort key is the pair
`(bg_priority, z_order)`. -/
structure item where
  id : Nat
  handle : handle
  handles_index : Int
  position : fixed_point
  tiles_ptr : sprite_tiles_ptr
  palette_ptr : sprite_palette_ptr
  affine_mat_ptr : Option Nat
  bg_priority : Int
  z_order : Int
  usages : Int
  double_size_mode : sprite_double_size_mode
  visible : Bool
  on_screen : Bool
  check_on_screen : Bool
  ignore_camera : Bool
  remove_affine_mat_when_not_needed : Bool
deriving DecidableEq, Repr

namespace item

/-- Modelled from the spec: `update_sort_key` stores the draw-order key
"(background-priority, z-order)". -/
def update_sort_key (bg_priority z_order : Int) (it : item) : item :=
  { it with bg_priority := bg_priority, z_order := z_order }

/-- Modelled from the spec: the wide-bounding-box flag derived "from
(transform scale, record's wide-bbox mode)". -/
def double_size (m : affine_mats_state) (it : item) : Bool :=
  match it.double_size_mode with
  | .AUTO =>
    match it.affine_mat_ptr with
    | some id => sprite_affine_mats_manager.double_size m id
    | none => false
  | .ENABLED => true
  | .DISABLED => false

end item

/-- The constants of the configuration and of the hardware layer. -/
structure config where
  /-- The value of `hw::sprites::count()`. -/
  sprites_count : Nat
  /-- The value of `hw::sprite_affine_mats::count()`. -/
  affine_mats_count : Nat
  /-- The value of `BTN_CFG_SPRITES_MAX_ITEMS`. -/
  max_items : Nat
  /-- The value of `hw::sprites::max_bg_priority()`. -/
  max_bg_priority : Int
  /-- The value of `item_type::z_orders()`. -/
  z_orders : Int
  /-- The value of `display::width()`. -/
  display_width : Int
  /-- The value of `display::height()`. -/
  display_height : Int
deriving DecidableEq, Repr

/-- The class `static_data`.  The pool `items_pool` is represented by the
number of records allocated in it; the records themselves are the nodes of
the sort index. -/
structure static_data where
  items_pool_size : Nat
  handles : List handle
  first_index_to_commit : Int
  last_index_to_commit : Int
  last_visible_items_count : Int
  check_items_on_screen : Bool
  rebuild_handles : Bool
deriving DecidableEq, Repr

/-- One layer of `sorted_sprites::layers()`: a sort key `(bg_priority,
z_order)` and (`second`) the records of that key. -/
structure layer where
  first : Int × Int
  second : List item
deriving DecidableEq, Repr

/-- The whole state the manager works on. -/
structure State where
  data : static_data
  layers : List layer
  affine_mats : affine_mats_state
  /-- The calls `hw::sprites::commit(handles, first, count)` issued so far,
  most recent first. -/
  transfers : List (Int × Int)
deriving DecidableEq, Repr

/-! ## The sort index `sorted_sprites` -/

namespace sorted_sprites

/-- Modelled from the spec: the order of two sort keys
`(bg_priority, z_order)`: "priority is the primary key, z-order the secondary
key". -/
def key_lt (a b : Int × Int) : Bool :=
  decide (a.1 < b.1) || (decide (a.1 = b.1) && decide (a.2 < b.2))

/-- Modelled from the spec: the draw-order key of a record. -/
def sort_key (it : item) : Int × Int := (it.bg_priority, it.z_order)

/-- The records in traversal order: `for layer in layers()`, `for item in
layer.second`. -/
def items : List layer → List item
  | [] => []
  | l :: ls => l.second ++ items ls

/-- Modelled from the spec: `sorted_sprites::insert` (the sort index is not
part of the sources at hand): the record joins the layer of its key, behind
the records already there ("ties broken by insertion order"); layers are kept
in ascending key order. -/
def insert (it : item) : List layer → List layer
  | [] => [⟨sort_key it, [it]⟩]
  | l :: ls =>
    if key_lt (sort_key it) l.first then ⟨sort_key it, [it]⟩ :: l :: ls
    else if l.first = sort_key it then ⟨l.first, l.second ++ [it]⟩ :: ls
    else l :: insert it ls

/-- Modelled from the spec: `sorted_sprites::erase` unlinks the record
from its layer. -/
def erase (id : Nat) (ls : List layer) : List layer :=
  ls.map (fun l => { l with second := l.second.filter (fun x => x.id != id) })

/-- The record an `id_type` points to (`static_cast<item_type*>(id)`). -/
def find (id : Nat) (ls : List layer) : Option item :=
  (items ls).find? (fun x => x.id == id)

/-- Writing a record back through its pointer. -/
def replace (it : item) (ls : List layer) : List layer :=
  ls.map (fun l => { l with second := l.second.map (fun x => if x.id = it.id then it else x) })

/-- The inner loop `for(item_type& item : layer.second)` with a body that
updates the record and a loop state. -/
def for_each_in_layer {σ : Type} (body : item → σ → item × σ) : List item → σ → List item × σ
  | [], d => ([], d)
  | it :: rest, d =>
    let r := body it d
    let q := for_each_in_layer body rest r.2
    (r.1 :: q.1, q.2)

/-- The loop `for(auto& layer : sorted_sprites::layers())` over the inner
loop. -/
def for_each_item {σ : Type} (body : item → σ → item × σ) : List layer → σ → List layer × σ
  | [], d => ([], d)
  | l :: ls, d =>
    let r := for_each_in_layer body l.second d
    let q := for_each_item body ls r.2
    ({ l with second := r.1 } :: q.1, q.2)

/-- The inner loop with a body that can fail a `BTN_ASSERT`. -/
def for_each_in_layer_checked {σ : Type} (body : item → σ → Option (item × σ)) :
    List item → σ → Option (List item × σ)
  | [], d => some ([], d)
  | it :: rest, d =>
    match body it d with
    | none => none
    | some r =>
      match for_each_in_layer_checked body rest r.2 with
      | none => none
      | some q => some (r.1 :: q.1, q.2)

/-- The outer loop with a body that can fail a `BTN_ASSERT`. -/
def for_each_item_checked {σ : Type} (body : item → σ → Option (item × σ)) :
    List layer → σ → Option (List layer × σ)
  | [], d => some ([], d)
  | l :: ls, d =>
    match for_each_in_layer_checked body l.second d with
    | none => none
    | some r =>
      match for_each_item_checked body ls r.2 with
      | none => none
      | some q => some ({ l with second := r.1 } :: q.1, q.2)

end sorted_sprites

/-- Modelled from the spec: the constructor of `sprites_manager_item` (not
part of the sources at hand): the record takes its state from the builder and
the acquired resources, holds one reference, has no slot, is not on screen,
and is flagged for evaluation exactly when it is visible; a transform that is
the identity is not attached under the detach-on-identity policy. -/
def item.create (camera_position : fixed_point) (m : affine_mats_state) (id : Nat)
    (builder : sprite_builder) (tiles : sprite_tiles_ptr) (palette : sprite_palette_ptr) :
    item :=
  let affine_mat_ptr : Option Nat :=
    match builder.affine_mat with
    | some a =>
      if builder.remove_affine_mat_when_not_needed && sprite_affine_mats_manager.is_identity m a
      then none else some a
    | none => none
  let real_position :=
    if ! builder.ignore_camera then builder.position.sub_assign camera_position
    else builder.position
  let it : item :=
    { id := id
      handle :=
        { x := real_position.x.integer, y := real_position.y.integer,
          shape_width := builder.shape_width, shape_height := builder.shape_height,
          tiles_id := tiles.id, palette_id := palette.id, bg_priority := builder.bg_priority,
          horizontal_flip := builder.horizontal_flip, vertical_flip := builder.vertical_flip,
          mosaic_enabled := builder.mosaic_enabled, affine_mat_id := none,
          double_size := false, hidden := false }
      handles_index := -1
      position := builder.position
      tiles_ptr := tiles
      palette_ptr := palette
      affine_mat_ptr := affine_mat_ptr
      bg_priority := builder.bg_priority
      z_order := builder.z_order
      usages := 1
      double_size_mode := builder.double_size_mode
      visible := builder.visible
      on_screen := false
      check_on_screen := builder.visible
      ignore_camera := builder.ignore_camera
      remove_affine_mat_when_not_needed := builder.remove_affine_mat_when_not_needed }
  match affine_mat_ptr with
  | some a => { it with handle := hw.sprites.set_affine_mat a (it.double_size m) it.handle }
  | none => it

/-! ## `btn::sprites_manager` -/

namespace sprites_manager

/-- The initial value of `data` (the member initialisers of `static_data`),
an empty sort index, and no transfer issued. -/
def init (cfg : config) (m : affine_mats_state) : State :=
  { data :=
      { items_pool_size := 0
        handles := List.replicate cfg.sprites_count hw.sprites.hidden_handle
        first_index_to_commit := cfg.sprites_count
        last_index_to_commit := 0
        last_visible_items_count := 0
        check_items_on_screen := false
        rebuild_handles := false }
    layers := []
    affine_mats := m
    transfers := [] }

/-- Runs `f` on the record `id` points to and on `data`, and writes both
back. -/
def with_item (id : Nat) (f : item → static_data → item × static_data) (s : State) : State :=
  match sorted_sprites.find id s.layers with
  | none => s
  | some it =>
    let r := f it s.data
    { s with data := r.2, layers := sorted_sprites.replace r.1 s.layers }

def _update_handles (it : item) (d : static_data) : static_data :=
  let handles_index := it.handles_index
  if handles_index ≥ 0 then
    { d with
      handles := d.handles.set handles_index.toNat it.handle
      first_index_to_commit := min d.first_index_to_commit handles_index
      last_index_to_commit := max d.last_index_to_commit handles_index }
  else d

/-- The body of `set_position`, on the record the id points to. -/
def set_position_item (camera_position position : fixed_point) (it : item) (d : static_data) :
    item × static_data :=
  let real_position :=
    if ! it.ignore_camera then position.sub_assign camera_position else position
  let x := real_position.x.integer
  let y := real_position.y.integer
  let it := { it with handle := hw.sprites.set_position x y it.handle }
  let it := { it with position := position }
  let d := _update_handles it d
  if it.visible then
    ({ it with check_on_screen := true }, { d with check_items_on_screen := true })
  else (it, d)

def _assign_affine_mat (camera_position : fixed_point) (m : affine_mats_state)
    (affine_mat_ptr : Nat) (it : item) (d : static_data) : item × static_data :=
  let it := { it with affine_mat_ptr := some affine_mat_ptr }
  let double_size := it.double_size m
  let it := { it with handle := hw.sprites.set_affine_mat affine_mat_ptr double_size it.handle }
  if double_size then set_position_item camera_position it.position it d
  else (it, _update_handles it d)

def _remove_affine_mat (camera_position : fixed_point) (m : affine_mats_state)
    (it : item) (d : static_data) : item × static_data :=
  match it.affine_mat_ptr with
  | none => (it, d)
  | some affine_mat_ptr =>
    let double_size := it.handle.double_size
    let horizontal_flip := sprite_affine_mats_manager.horizontal_flip m affine_mat_ptr
    let vertical_flip := sprite_affine_mats_manager.vertical_flip m affine_mat_ptr
    let it := { it with handle := hw.sprites.set_horizontal_flip horizontal_flip it.handle }
    let it := { it with handle := hw.sprites.set_vertical_flip vertical_flip it.handle }
    let it := { it with handle := hw.sprites.remove_affine_mat it.handle }
    let it := { it with affine_mat_ptr := none }
    if double_size then set_position_item camera_position it.position it d
    else (it, _update_handles it d)

/-- The loop body of `_check_affine_mats`. -/
def _check_affine_mats_item (camera_position : fixed_point) (m : affine_mats_state)
    (it : item) (d : static_data) : item × static_data :=
  match it.affine_mat_ptr with
  | none => (it, d)
  | some affine_mat_ptr_id =>
    if sprite_affine_mats_manager.updated_id m affine_mat_ptr_id then
      if it.remove_affine_mat_when_not_needed
          && sprite_affine_mats_manager.is_identity m affine_mat_ptr_id then
        _remove_affine_mat camera_position m it d
      else if it.double_size_mode = sprite_double_size_mode.AUTO then
        let old_double_size := it.handle.double_size
        let new_double_size := sprite_affine_mats_manager.double_size m affine_mat_ptr_id
        if old_double_size != new_double_size then
          let h := hw.sprites.set_affine_mat affine_mat_ptr_id new_double_size it.handle
          let it := { it with handle := h }
          set_position_item camera_position it.position it d
        else (it, d)
      else (it, d)
    else (it, d)

def _check_affine_mats (camera_position : fixed_point) (s : State) : State :=
  if sprite_affine_mats_manager.updated s.affine_mats then
    let r := sorted_sprites.for_each_item
      (_check_affine_mats_item camera_position s.affine_mats) s.layers s.data
    { s with data := r.2, layers := r.1,
             affine_mats := sprite_affine_mats_manager.update s.affine_mats }
  else s

/-- The value `on_screen` computed in the loop body of
`_check_items_on_screen`. -/
def compute_on_screen (cfg : config) (camera_position : fixed_point) (it : item) : Bool :=
  let position :=
    if ! it.ignore_camera then it.position.sub_assign camera_position else it.position
  let dimensions := hw.sprites.dimensions it.handle
  let x := position.x.integer - dimensions.width.tdiv 2
  if x + dimensions.width > 0 ∧ x < cfg.display_width then
    let y := position.y.integer - dimensions.height.tdiv 2
    if y + dimensions.height > 0 ∧ y < cfg.display_height then true else false
  else false

/-- The loop body of `_check_items_on_screen`; the loop state is the local
`rebuild_handles`. -/
def _check_items_on_screen_item (cfg : config) (camera_position : fixed_point)
    (it : item) (rebuild_handles : Bool) : item × Bool :=
  if it.check_on_screen then
    let on_screen := compute_on_screen cfg camera_position it
    let it := { it with check_on_screen := false }
    if on_screen != it.on_screen then ({ it with on_screen := on_screen }, true)
    else (it, rebuild_handles)
  else (it, rebuild_handles)

def _check_items_on_screen (cfg : config) (camera_position : fixed_point) (s : State) : State :=
  if s.data.check_items_on_screen then
    let rebuild_handles := s.data.rebuild_handles
    let d := { s.data with check_items_on_screen := false }
    let r := sorted_sprites.for_each_item
      (_check_items_on_screen_item cfg camera_position) s.layers rebuild_handles
    { s with data := { d with rebuild_handles := r.2 }, layers := r.1 }
  else s

/-- The loop body of `_rebuild_handles`; the loop state is the local
`visible_items_count` and the table `data.handles`. -/
def _rebuild_handles_item (cfg : config) (it : item) (st : Nat × List handle) :
    Option (item × (Nat × List handle)) :=
  let visible_items_count := st.1
  if it.on_screen then
    if visible_items_count < cfg.sprites_count then
      some ({ it with handles_index := int8_t visible_items_count },
            (visible_items_count + 1, st.2.set visible_items_count it.handle))
    else none
  else some ({ it with handles_index := -1 }, st)

def _rebuild_handles (cfg : config) (s : State) : Option State :=
  if s.data.rebuild_handles then
    let d := { s.data with rebuild_handles := false }
    match sorted_sprites.for_each_item_checked (_rebuild_handles_item cfg) s.layers
        (0, d.handles) with
    | none => none
    | some r =>
      let visible_items_count : Int := r.2.1
      let d := { d with handles := r.2.2 }
      let last_visible_items_count := d.last_visible_items_count
      let items_to_hide := last_visible_items_count - visible_items_count
      let d := { d with last_visible_items_count := visible_items_count }
      let d := if items_to_hide > 0 then
          { d with handles := hw.sprites.hide items_to_hide.toNat r.2.1 d.handles }
        else d
      let visible_items_count :=
        if items_to_hide > 0 then last_visible_items_count else visible_items_count
      let d := if visible_items_count ≠ 0 then
          { d with first_index_to_commit := 0
                   last_index_to_commit := visible_items_count - 1 }
        else d
      some { s with data := d, layers := r.1 }
  else some s

def max_bg_priority (cfg : config) : Int := cfg.max_bg_priority

def z_orders (cfg : config) : Int := cfg.z_orders

/-- The call `create(builder)`: the returned id, if any, and the new state. -/
def create (cfg : config) (camera_position : fixed_point) (builder : sprite_builder)
    (s : State) : Option Nat × State :=
  if s.data.items_pool_size ≥ cfg.max_items then (none, s)
  else
    match builder.tiles with
    | none => (none, s)
    | some tiles =>
      match builder.palette with
      | none => (none, s)
      | some palette =>
        let new_item := item.create camera_position s.affine_mats s.data.items_pool_size
          builder tiles palette
        let d := { s.data with items_pool_size := s.data.items_pool_size + 1 }
        let layers := sorted_sprites.insert new_item s.layers
        let d := if builder.visible then { d with check_items_on_screen := true } else d
        (some new_item.id, { s with data := d, layers := layers })

def increase_usages (id : Nat) (s : State) : State :=
  with_item id (fun it d => ({ it with usages := it.usages + 1 }, d)) s

def decrease_usages (id : Nat) (s : State) : State :=
  match sorted_sprites.find id s.layers with
  | none => s
  | some it =>
    let it := { it with usages := it.usages - 1 }
    if it.usages = 0 then
      let d := if it.on_screen then { s.data with rebuild_handles := true } else s.data
      { s with data := d, layers := sorted_sprites.erase id s.layers }
    else { s with layers := sorted_sprites.replace it s.layers }

def dimensions (id : Nat) (s : State) : Option size :=
  (sorted_sprites.find id s.layers).map (fun it => hw.sprites.dimensions it.handle)

def tiles_ptr (id : Nat) (s : State) : Option sprite_tiles_ptr :=
  (sorted_sprites.find id s.layers).map (fun it => it.tiles_ptr)

def set_tiles_ptr (id : Nat) (tiles_ptr : sprite_tiles_ptr) (s : State) : Option State :=
  match sorted_sprites.find id s.layers with
  | none => some s
  | some it =>
    if tiles_ptr ≠ it.tiles_ptr then
      if it.tiles_ptr.tiles_count = tiles_ptr.tiles_count then
        let it := { it with handle := hw.sprites.set_tiles tiles_ptr.id it.handle }
        let it := { it with tiles_ptr := tiles_ptr }
        some { s with data := _update_handles it s.data,
                      layers := sorted_sprites.replace it s.layers }
      else none
    else some s

def palette_ptr (id : Nat) (s : State) : Option sprite_palette_ptr :=
  (sorted_sprites.find id s.layers).map (fun it => it.palette_ptr)

def set_palette_ptr (id : Nat) (palette_ptr : sprite_palette_ptr) (s : State) : Option State :=
  match sorted_sprites.find id s.layers with
  | none => some s
  | some it =>
    if palette_ptr ≠ it.palette_ptr then
      if it.palette_ptr.eight_bits_per_pixel = palette_ptr.eight_bits_per_pixel then
        let it := { it with handle := hw.sprites.set_palette palette_ptr.id it.handle }
        let it := { it with palette_ptr := palette_ptr }
        some { s with data := _update_handles it s.data,
                      layers := sorted_sprites.replace it s.layers }
      else none
    else some s

def position (id : Nat) (s : State) : Option fixed_point :=
  (sorted_sprites.find id s.layers).map (fun it => it.position)

def set_position (camera_position : fixed_point) (id : Nat) (position : fixed_point)
    (s : State) : State :=
  with_item id (set_position_item camera_position position) s

def bg_priority (id : Nat) (s : State) : Option Int :=
  (sorted_sprites.find id s.layers).map (fun it => it.bg_priority)

def set_bg_priority (cfg : config) (id : Nat) (bg_priority : Int) (s : State) : Option State :=
  if bg_priority ≥ 0 ∧ bg_priority ≤ max_bg_priority cfg then
    match sorted_sprites.find id s.layers with
    | none => some s
    | some it =>
      if bg_priority ≠ it.bg_priority then
        let it := { it with handle := hw.sprites.set_bg_priority bg_priority it.handle }
        let layers := sorted_sprites.erase id s.layers
        let it := it.update_sort_key bg_priority it.z_order
        let layers := sorted_sprites.insert it layers
        let d := if it.on_screen then { s.data with rebuild_handles := true } else s.data
        some { s with data := d, layers := layers }
      else some s
  else none

def z_order (id : Nat) (s : State) : Option Int :=
  (sorted_sprites.find id s.layers).map (fun it => it.z_order)

def set_z_order (cfg : config) (id : Nat) (z_order : Int) (s : State) : Option State :=
  if z_order ≥ 0 ∧ z_order < z_orders cfg then
    match sorted_sprites.find id s.layers with
    | none => some s
    | some it =>
      if z_order ≠ it.z_order then
        let layers := sorted_sprites.erase id s.layers
        let it := it.update_sort_key it.bg_priority z_order
        let layers := sorted_sprites.insert it layers
        let d := if it.on_screen then { s.data with rebuild_handles := true } else s.data
        some { s with data := d, layers := layers }
      else some s
  else none

def horizontal_flip (id : Nat) (s : State) : Option Bool :=
  (sorted_sprites.find id s.layers).map (fun it =>
    match it.affine_mat_ptr with
    | some a => sprite_affine_mats_manager.horizontal_flip s.affine_mats a
    | none => it.handle.horizontal_flip)

def set_horizontal_flip (id : Nat) (horizontal_flip : Bool) (s : State) : State :=
  match sorted_sprites.find id s.layers with
  | none => s
  | some it =>
    match it.affine_mat_ptr with
    | some a =>
      { s with affine_mats :=
          sprite_affine_mats_manager.set_horizontal_flip a horizontal_flip s.affine_mats }
    | none =>
      let it := { it with handle := hw.sprites.set_horizontal_flip horizontal_flip it.handle }
      { s with data := _update_handles it s.data, layers := sorted_sprites.replace it s.layers }

def vertical_flip (id : Nat) (s : State) : Option Bool :=
  (sorted_sprites.find id s.layers).map (fun it =>
    match it.affine_mat_ptr with
    | some a => sprite_affine_mats_manager.vertical_flip s.affine_mats a
    | none => it.handle.vertical_flip)

def set_vertical_flip (id : Nat) (vertical_flip : Bool) (s : State) : State :=
  match sorted_sprites.find id s.layers with
  | none => s
  | some it =>
    match it.affine_mat_ptr with
    | some a =>
      { s with affine_mats :=
          sprite_affine_mats_manager.set_vertical_flip a vertical_flip s.affine_mats }
    | none =>
      let it := { it with handle := hw.sprites.set_vertical_flip vertical_flip it.handle }
      { s with data := _update_handles it s.data, layers := sorted_sprites.replace it s.layers }

def mosaic_enabled (id : Nat) (s : State) : Option Bool :=
  (sorted_sprites.find id s.layers).map (fun it => it.handle.mosaic_enabled)

def set_mosaic_enabled (id : Nat) (mosaic_enabled : Bool) (s : State) : State :=
  with_item id (fun it d =>
    let it := { it with handle := hw.sprites.set_mosaic_enabled mosaic_enabled it.handle }
    (it, _update_handles it d)) s

def double_size (id : Nat) (s : State) : Option Bool :=
  (sorted_sprites.find id s.layers).map (fun it => it.handle.double_size)

def double_size_mode (id : Nat) (s : State) : Option sprite_double_size_mode :=
  (sorted_sprites.find id s.layers).map (fun it => it.double_size_mode)

def set_double_size_mode (camera_position : fixed_point) (id : Nat)
    (double_size_mode : sprite_double_size_mode) (s : State) : State :=
  with_item id (fun it d =>
    let it := { it with double_size_mode := double_size_mode }
    match it.affine_mat_ptr with
    | some a =>
      let old_double_size := it.handle.double_size
      let new_double_size := it.double_size s.affine_mats
      if old_double_size != new_double_size then
        let it := { it with handle := hw.sprites.set_affine_mat a new_double_size it.handle }
        set_position_item camera_position it.position it d
      else (it, d)
    | none => (it, d)) s

def visible (id : Nat) (s : State) : Option Bool :=
  (sorted_sprites.find id s.layers).map (fun it => it.visible)

def set_visible (id : Nat) (visible : Bool) (s : State) : State :=
  with_item id (fun it d =>
    let it := { it with visible := visible }
    if visible then
      ({ it with check_on_screen := true }, { d with check_items_on_screen := true })
    else
      let d := if it.on_screen then { d with rebuild_handles := true } else d
      ({ it with on_screen := false, check_on_screen := false }, d)) s

def ignore_camera (id : Nat) (s : State) : Option Bool :=
  (sorted_sprites.find id s.layers).map (fun it => it.ignore_camera)

def set_ignore_camera (camera_position : fixed_point) (id : Nat) (ignore_camera : Bool)
    (s : State) : State :=
  with_item id (fun it d =>
    let it := { it with ignore_camera := ignore_camera }
    set_position_item camera_position it.position it d) s

def affine_mat_ptr (id : Nat) (s : State) : Option (Option Nat) :=
  (sorted_sprites.find id s.layers).map (fun it => it.affine_mat_ptr)

def set_affine_mat_ptr (camera_position : fixed_point) (id : Nat)
    (affine_mat_ptr : Option Nat) (s : State) : State :=
  with_item id (fun it d =>
    match affine_mat_ptr with
    | some affine_mat =>
      if it.affine_mat_ptr = some affine_mat then (it, d)
      else if it.remove_affine_mat_when_not_needed
          && sprite_affine_mats_manager.is_identity s.affine_mats affine_mat then
        if it.affine_mat_ptr.isSome then _remove_affine_mat camera_position s.affine_mats it d
        else (it, d)
      else _assign_affine_mat camera_position s.affine_mats affine_mat it d
    | none =>
      if it.affine_mat_ptr.isSome then _remove_affine_mat camera_position s.affine_mats it d
      else (it, d)) s

def remove_affine_mat_when_not_needed (id : Nat) (s : State) : Option Bool :=
  (sorted_sprites.find id s.layers).map (fun it => it.remove_affine_mat_when_not_needed)

def set_remove_affine_mat_when_not_needed (camera_position : fixed_point) (id : Nat)
    (remove_when_not_needed : Bool) (s : State) : State :=
  with_item id (fun it d =>
    let it := { it with remove_affine_mat_when_not_needed := remove_when_not_needed }
    match it.affine_mat_ptr with
    | some a =>
      if remove_when_not_needed && sprite_affine_mats_manager.is_identity s.affine_mats a then
        _remove_affine_mat camera_position s.affine_mats it d
      else (it, d)
    | none => (it, d)) s

def update_camera (camera_position : fixed_point) (s : State) : State :=
  let r := sorted_sprites.for_each_item
    (fun it d =>
      if ! it.ignore_camera then set_position_item camera_position it.position it d
      else (it, d)) s.layers s.data
  { s with data := r.2, layers := r.1 }

def update (cfg : config) (camera_position : fixed_point) (s : State) : Option State :=
  _rebuild_handles cfg
    (_check_items_on_screen cfg camera_position (_check_affine_mats camera_position s))

def commit (cfg : config) (s : State) : State :=
  let first_index_to_commit := s.data.first_index_to_commit
  let last_index_to_commit := s.data.last_index_to_commit
  let r := sprite_affine_mats_manager.retrieve_commit_data s.affine_mats
  let s := { s with affine_mats := r.2 }
  let range : Int × Int :=
    match r.1 with
    | some commit_data =>
      let multiplier := (cfg.sprites_count : Int).tdiv (cfg.affine_mats_count : Int)
      let first_mat_index_to_commit := commit_data.1 * multiplier
      let last_mat_index_to_commit := first_mat_index_to_commit + commit_data.2 * multiplier - 1
      (min first_index_to_commit first_mat_index_to_commit,
       max last_index_to_commit last_mat_index_to_commit)
    | none => (first_index_to_commit, last_index_to_commit)
  if range.1 < cfg.sprites_count then
    let commit_items_count := range.2 - range.1 + 1
    { s with
      transfers := (range.1, commit_items_count) :: s.transfers
      data := { s.data with first_index_to_commit := cfg.sprites_count
                            last_index_to_commit := 0 } }
  else s

/-- The camera-adjusted position of a record: the local `position` of the
loop body of `_check_items_on_screen`. -/
def real_position (camera_position : fixed_point) (it : item) : fixed_point :=
  if ! it.ignore_camera then it.position.sub_assign camera_position else it.position

/-- The left edge of the footprint: the local `x` of `_check_items_on_screen`. -/
def footprint_x (camera_position : fixed_point) (it : item) : Int :=
  (real_position camera_position it).x.integer - (hw.sprites.dimensions it.handle).width.tdiv 2

/-- The top edge of the footprint: the local `y` of `_check_items_on_screen`. -/
def footprint_y (camera_position : fixed_point) (it : item) : Int :=
  (real_position camera_position it).y.integer - (hw.sprites.dimensions it.handle).height.tdiv 2

/-- The effect "marks exactly slot `i`" of a mutation of the record `id` that
takes the state `s` to `s'`: the pending range becomes
`[min(first, i), max(last, i)]`, table slot `i` holds the attribute block the
record has in `s'` (the record keeps slot `i`), and every other table slot
is as in `s`. -/
def marks_exactly_slot (id : Nat) (i : Nat) (s s' : State) : Prop :=
  s'.data.first_index_to_commit = min s.data.first_index_to_commit (i : Int) ∧
  s'.data.last_index_to_commit = max s.data.last_index_to_commit (i : Int) ∧
  (∃ it', sorted_sprites.find id s'.layers = some it' ∧ it'.handles_index = (i : Int) ∧
    s'.data.handles[i]? = some it'.handle) ∧
  (∀ j : Nat, j ≠ i → s'.data.handles[j]? = s.data.handles[j]?)

/-- The spec's "camera-adjusted footprint intersects the display rectangle
`[0, width) x [0, height)`": the footprint, the rectangle of the record's
hardware dimensions centred on its camera-adjusted position, shares a pixel
with the display rectangle. -/
def footprint_intersects_display (cfg : config) (camera_position : fixed_point) (it : item) :
    Prop :=
  ∃ px py : Int,
    footprint_x camera_position it ≤ px ∧
    px < footprint_x camera_position it + (hw.sprites.dimensions it.handle).width ∧
    footprint_y camera_position it ≤ py ∧
    py < footprint_y camera_position it + (hw.sprites.dimensions it.handle).height ∧
    0 ≤ px ∧ px < cfg.display_width ∧ 0 ≤ py ∧ py < cfg.display_height

/-- The record is consistent before a visibility pass: its shape has positive
dimensions, it is flagged for evaluation only if it is visible, and if it is
not flagged its `on_screen` flag is already right. -/
def evaluation_pending_or_done (cfg : config) (camera_position : fixed_point) (it : item) :
    Prop :=
  (0 < it.handle.shape_width ∧ 0 < it.handle.shape_height) ∧
  (it.check_on_screen = true → it.visible = true) ∧
  (it.check_on_screen = false →
    (it.on_screen = true ↔
      it.visible = true ∧ footprint_intersects_display cfg camera_position it))

/-- The number of on-screen records of a traversal. -/
def visible_count (its : List item) : Nat := (its.filter (fun it => it.on_screen)).length

end sprites_manager

end btn

/-! ## Sequences of operations -/

namespace btn

namespace sorted_sprites

/-- Ascending order of sort keys (priority first, then z-order). -/
def key_le (a b : Int × Int) : Prop := a.1 < b.1 ∨ (a.1 = b.1 ∧ a.2 ≤ b.2)

instance key_le_decidable : DecidableRel key_le := fun a b =>
  inferInstanceAs (Decidable (a.1 < b.1 ∨ (a.1 = b.1 ∧ a.2 ≤ b.2)))

/-- The representation invariant of the sort index: the layers are in
strictly ascending key order and each record lies in the layer of its key. -/
def well_formed (ls : List layer) : Prop :=
  ls.Pairwise (fun l1 l2 => key_lt l1.first l2.first = true) ∧
  ∀ l ∈ ls, ∀ it ∈ l.second, sort_key it = l.first

/-- Ascending key order on log entries `(id, key)`. -/
def entry_le (a b : Nat × (Int × Int)) : Prop := key_le a.2 b.2

instance entry_le_decidable : DecidableRel entry_le := fun a b =>
  inferInstanceAs (Decidable (key_le a.2 b.2))

/-- The identities of the live records are pairwise different and were handed
out by the record pool. -/
def ids_valid (ls : List layer) (items_pool_size : Nat) : Prop :=
  ((items ls).map (fun it => it.id)).Nodup ∧ ∀ it ∈ items ls, it.id < items_pool_size

/-- What the draw order of a record depends on: its identity and its key. -/
def entry (it : item) : Nat × (Int × Int) := (it.id, sort_key it)

end sorted_sprites

/-- The operations that change the sort index. -/
inductive sort_op where
  | create (builder : sprite_builder)
  | set_bg_priority (id : Nat) (bg_priority : Int)
  | set_z_order (id : Nat) (z_order : Int)
  | release (id : Nat)
deriving DecidableEq, Repr

namespace sort_op

/-- Runs one operation; `none` is a failed `BTN_ASSERT`. -/
def apply (cfg : config) (camera_position : fixed_point) : sort_op → State → Option State
  | create builder, s => some (sprites_manager.create cfg camera_position builder s).2
  | set_bg_priority id bg_priority, s => sprites_manager.set_bg_priority cfg id bg_priority s
  | set_z_order id z_order, s => sprites_manager.set_z_order cfg id z_order s
  | release id, s => some (sprites_manager.decrease_usages id s)

/-- The insertion log kept beside the manager: the live records, each with the
key it was inserted with, in the order of their insertion into the sort index.
A created record is appended; a record whose key changes is taken out and
appended anew (the manager erases and inserts it); a record released to zero
is taken out. -/
def log (cfg : config) (camera_position : fixed_point) :
    sort_op → State → List (Nat × (Int × Int)) → List (Nat × (Int × Int))
  | create builder, s, l =>
    match (sprites_manager.create cfg camera_position builder s).1 with
    | some id => l ++ [(id, (builder.bg_priority, builder.z_order))]
    | none => l
  | set_bg_priority id bg_priority, s, l =>
    match sorted_sprites.find id s.layers with
    | some it =>
      if bg_priority ≠ it.bg_priority then
        l.filter (fun e => e.1 != id) ++ [(id, (bg_priority, it.z_order))]
      else l
    | none => l
  | set_z_order id z_order, s, l =>
    match sorted_sprites.find id s.layers with
    | some it =>
      if z_order ≠ it.z_order then
        l.filter (fun e => e.1 != id) ++ [(id, (it.bg_priority, z_order))]
      else l
    | none => l
  | release id, s, l =>
    match sorted_sprites.find id s.layers with
    | some it => if it.usages - 1 = 0 then l.filter (fun e => e.1 != id) else l
    | none => l

/-- The invariant of `run`: the sort index is well formed, the identities
are valid, and for every key the records of that key are traversed in the
order in which the insertion log lists them. -/
def inv (sl : State × List (Nat × (Int × Int))) : Prop :=
  sorted_sprites.well_formed sl.1.layers ∧
  sorted_sprites.ids_valid sl.1.layers sl.1.data.items_pool_size ∧
  ∀ k : Int × Int,
    ((sorted_sprites.items sl.1.layers).map sorted_sprites.entry).filter
        (fun e => decide (e.2 = k)) =
      sl.2.filter (fun e => decide (e.2 = k))

/-- Runs a sequence of operations on the manager and on the insertion log. -/
def run (cfg : config) (camera_position : fixed_point) :
    List sort_op → State × List (Nat × (Int × Int)) → Option (State × List (Nat × (Int × Int)))
  | [], sl => some sl
  | o :: os, sl =>
    match o.apply cfg camera_position sl.1 with
    | none => none
    | some s' => run cfg camera_position os (s', o.log cfg camera_position sl.1 sl.2)

end sort_op

/-- The public operations of the manager that change its state. -/
inductive op where
  | create (builder : sprite_builder)
  | increase_usages (id : Nat)
  | decrease_usages (id : Nat)
  | set_tiles_ptr (id : Nat) (tiles_ptr : sprite_tiles_ptr)
  | set_palette_ptr (id : Nat) (palette_ptr : sprite_palette_ptr)
  | set_position (id : Nat) (position : fixed_point)
  | set_bg_priority (id : Nat) (bg_priority : Int)
  | set_z_order (id : Nat) (z_order : Int)
  | set_horizontal_flip (id : Nat) (horizontal_flip : Bool)
  | set_vertical_flip (id : Nat) (vertical_flip : Bool)
  | set_mosaic_enabled (id : Nat) (mosaic_enabled : Bool)
  | set_double_size_mode (id : Nat) (double_size_mode : sprite_double_size_mode)
  | set_visible (id : Nat) (visible : Bool)
  | set_ignore_camera (id : Nat) (ignore_camera : Bool)
  | set_affine_mat_ptr (id : Nat) (affine_mat_ptr : Option Nat)
  | set_remove_affine_mat_when_not_needed (id : Nat) (remove_when_not_needed : Bool)
  | update_camera
  | update
  | commit
deriving DecidableEq, Repr

namespace op

/-- Runs one public operation with the camera at `camera_position`; `none` is
a failed `BTN_ASSERT`. -/
def apply (cfg : config) (camera_position : fixed_point) : op → State → Option State
  | create builder, s => some (sprites_manager.create cfg camera_position builder s).2
  | increase_usages id, s => some (sprites_manager.increase_usages id s)
  | decrease_usages id, s => some (sprites_manager.decrease_usages id s)
  | set_tiles_ptr id tiles_ptr, s => sprites_manager.set_tiles_ptr id tiles_ptr s
  | set_palette_ptr id palette_ptr, s => sprites_manager.set_palette_ptr id palette_ptr s
  | set_position id position, s =>
    some (sprites_manager.set_position camera_position id position s)
  | set_bg_priority id bg_priority, s => sprites_manager.set_bg_priority cfg id bg_priority s
  | set_z_order id z_order, s => sprites_manager.set_z_order cfg id z_order s
  | set_horizontal_flip id v, s => some (sprites_manager.set_horizontal_flip id v s)
  | set_vertical_flip id v, s => some (sprites_manager.set_vertical_flip id v s)
  | set_mosaic_enabled id v, s => some (sprites_manager.set_mosaic_enabled id v s)
  | set_double_size_mode id mode, s =>
    some (sprites_manager.set_double_size_mode camera_position id mode s)
  | set_visible id v, s => some (sprites_manager.set_visible id v s)
  | set_ignore_camera id v, s =>
    some (sprites_manager.set_ignore_camera camera_position id v s)
  | set_affine_mat_ptr id a, s =>
    some (sprites_manager.set_affine_mat_ptr camera_position id a s)
  | set_remove_affine_mat_when_not_needed id v, s =>
    some (sprites_manager.set_remove_affine_mat_when_not_needed camera_position id v s)
  | update_camera, s => some (sprites_manager.update_camera camera_position s)
  | update, s => sprites_manager.update cfg camera_position s
  | commit, s => some (sprites_manager.commit cfg s)

end op

/-- The states the manager can reach: from the initial state, by public
operations that complete (with the camera anywhere), and by changes the
transform pool makes on its own. -/
inductive reachable (cfg : config) : State → Prop
  | init (m : affine_mats_state) : reachable cfg (sprites_manager.init cfg m)
  | step (s s' : State) (camera_position : fixed_point) (o : op) :
      reachable cfg s → o.apply cfg camera_position s = some s' → reachable cfg s'
  | pool (s : State) (m : affine_mats_state) :
      reachable cfg s → reachable cfg { s with affine_mats := m }

namespace sprites_manager

/-- What the slot invariants of a record depend on: its identity, its slot
index and its `on_screen` flag. -/
def slot_info (it : item) : Nat × Int × Bool := (it.id, it.handles_index, it.on_screen)

/-- The slot invariants on the list of `slot_info` of the live records: the
identities are pairwise different and were handed out by the pool; an assigned
slot index is below the table capacity; no two records share an assigned slot
index; and, while no recompaction is pending, a record with an assigned slot
is on screen. -/
def slots_ok (sprites_count : Nat) (l : List (Nat × Int × Bool)) (rebuild_handles : Bool)
    (items_pool_size : Nat) : Prop :=
  (l.map (fun e => e.1)).Nodup ∧
  (∀ e ∈ l, e.1 < items_pool_size) ∧
  (∀ e ∈ l, 0 ≤ e.2.1 → e.2.1 < (sprites_count : Int)) ∧
  ((l.map (fun e => e.2.1)).filter (fun i => decide (0 ≤ i))).Nodup ∧
  (rebuild_handles = false → ∀ e ∈ l, 0 ≤ e.2.1 → e.2.2 = true)

/-- The slot invariants of a state. -/
def slots_inv (cfg : config) (s : State) : Prop :=
  slots_ok cfg.sprites_count ((sorted_sprites.items s.layers).map slot_info)
    s.data.rebuild_handles s.data.items_pool_size

/-- A record-level function that changes neither the identity, the slot index
or the `on_screen` flag of the record, nor the rebuild flag or the occupancy
of the pool. -/
def frame_fn (f : item → static_data → item × static_data) : Prop :=
  ∀ it d, slot_info (f it d).1 = slot_info it ∧
    (f it d).2.rebuild_handles = d.rebuild_handles ∧
    (f it d).2.items_pool_size = d.items_pool_size

end sprites_manager

end btn

/-! ## Calls that end at an assertion -/

namespace btn

namespace sprites_manager

/-- How a call ended and the manager state it ended in: `completed s` when it
returned, `asserted s` when a `BTN_ASSERT` failed with the manager in state
`s`. -/
inductive outcome where
  | completed (s : State)
  | asserted (s : State)
deriving DecidableEq

/-- The state a call returned, if it returned. -/
def outcome.returned : outcome → Option State
  | outcome.completed s => some s
  | outcome.asserted _ => none

namespace traced

/-- The function `set_tiles_ptr`, keeping the state in which its assertion
fails. -/
def set_tiles_ptr (id : Nat) (tiles_ptr : sprite_tiles_ptr) (s : State) : outcome :=
  match sorted_sprites.find id s.layers with
  | none => outcome.completed s
  | some it =>
    if tiles_ptr ≠ it.tiles_ptr then
      if it.tiles_ptr.tiles_count = tiles_ptr.tiles_count then
        let it := { it with handle := hw.sprites.set_tiles tiles_ptr.id it.handle }
        let it := { it with tiles_ptr := tiles_ptr }
        outcome.completed { s with data := _update_handles it s.data,
                                   layers := sorted_sprites.replace it s.layers }
      else outcome.asserted s
    else outcome.completed s

/-- The function `set_palette_ptr`, keeping the state in which its assertion
fails. -/
def set_palette_ptr (id : Nat) (palette_ptr : sprite_palette_ptr) (s : State) : outcome :=
  match sorted_sprites.find id s.layers with
  | none => outcome.completed s
  | some it =>
    if palette_ptr ≠ it.palette_ptr then
      if it.palette_ptr.eight_bits_per_pixel = palette_ptr.eight_bits_per_pixel then
        let it := { it with handle := hw.sprites.set_palette palette_ptr.id it.handle }
        let it := { it with palette_ptr := palette_ptr }
        outcome.completed { s with data := _update_handles it s.data,
                                   layers := sorted_sprites.replace it s.layers }
      else outcome.asserted s
    else outcome.completed s

/-- The function `set_bg_priority`, keeping the state in which its assertion
fails. -/
def set_bg_priority (cfg : config) (id : Nat) (bg_priority : Int) (s : State) : outcome :=
  if bg_priority ≥ 0 ∧ bg_priority ≤ max_bg_priority cfg then
    match sorted_sprites.find id s.layers with
    | none => outcome.completed s
    | some it =>
      if bg_priority ≠ it.bg_priority then
        let it := { it with handle := hw.sprites.set_bg_priority bg_priority it.handle }
        let layers := sorted_sprites.erase id s.layers
        let it := it.update_sort_key bg_priority it.z_order
        let layers := sorted_sprites.insert it layers
        let d := if it.on_screen then { s.data with rebuild_handles := true } else s.data
        outcome.completed { s with data := d, layers := layers }
      else outcome.completed s
  else outcome.asserted s

end traced

/-- The local `multiplier` of `commit()`:
`hw::sprites::count() / hw::sprite_affine_mats::count()`. -/
def commit_multiplier (cfg : config) : Int :=
  (cfg.sprites_count : Int).tdiv (cfg.affine_mats_count : Int)

/-- The locals `first_mat_index_to_commit` and `last_mat_index_to_commit` of
`commit()` for the dirty range `(offset, count)` reported by the transform
pool. -/
def commit_mat_range (cfg : config) (commit_data : Int × Int) : Int × Int :=
  let multiplier := commit_multiplier cfg
  let first_mat_index_to_commit := commit_data.1 * multiplier
  let last_mat_index_to_commit := first_mat_index_to_commit + commit_data.2 * multiplier - 1
  (first_mat_index_to_commit, last_mat_index_to_commit)

/-- What the membership of a record in the sort index depends on: its
identity and its reference count. -/
def member_info (it : item) : Nat × Int := (it.id, it.usages)

/-- The membership invariants on the list of `member_info` of the records of
the sort index: no identity occurs twice, every identity was handed out by
the pool, and every reference count is positive. -/
def members_ok (l : List (Nat × Int)) (items_pool_size : Nat) : Prop :=
  (l.map (fun e => e.1)).Nodup ∧ ∀ e ∈ l, e.1 < items_pool_size ∧ 0 < e.2

/-- The membership invariants of a state. -/
def members_inv (s : State) : Prop :=
  members_ok ((sorted_sprites.items s.layers).map member_info) s.data.items_pool_size

/-- The sort index of `s'` holds the members of the sort index of `s`, with
the same reference counts, and the pool is as occupied as before. -/
def same_members (s s' : State) : Prop :=
  ((sorted_sprites.items s'.layers).map member_info).Perm
    ((sorted_sprites.items s.layers).map member_info) ∧
  s'.data.items_pool_size = s.data.items_pool_size

/-- A record-level function that changes neither the identity or the reference
count of the record nor the occupancy of the pool. -/
def keeps_member (f : item → static_data → item × static_data) : Prop :=
  ∀ it d, member_info (f it d).1 = member_info it ∧
    (f it d).2.items_pool_size = d.items_pool_size

/-- The live records as the specification describes them, kept beside the
manager as a table of `(identity, reference count)`: a record is live from
the `create` that returned it, with one reference, until its reference count
drops to zero; `increase_usages` and `decrease_usages` count the references;
no other operation creates or destroys a record. -/
def live_step (cfg : config) (camera_position : fixed_point) :
    op → State → List (Nat × Int) → List (Nat × Int)
  | op.create builder, s, l =>
    match (create cfg camera_position builder s).1 with
    | some id => (id, 1) :: l
    | none => l
  | op.increase_usages id, _, l => l.map (fun e => if e.1 = id then (e.1, e.2 + 1) else e)
  | op.decrease_usages id, _, l =>
    (l.map (fun e => if e.1 = id then (e.1, e.2 - 1) else e)).filter (fun e => e.2 != 0)
  | _, _, l => l

/-- The reachable states, each with the table of the records that are live in
it. -/
inductive reachable_live (cfg : config) : State → List (Nat × Int) → Prop
  | init (m : affine_mats_state) : reachable_live cfg (init cfg m) []
  | step (s s' : State) (lv : List (Nat × Int)) (camera_position : fixed_point) (o : op) :
      reachable_live cfg s lv → o.apply cfg camera_position s = some s' →
      reachable_live cfg s' (live_step cfg camera_position o s lv)
  | pool (s : State) (lv : List (Nat × Int)) (m : affine_mats_state) :
      reachable_live cfg s lv → reachable_live cfg { s with affine_mats := m } lv

/-- The slots are compact: while no recompaction is pending, the slot indexes
of the on-screen records, read in traversal order, are `0, 1, ...`, and
`last_visible_items_count` is the number of on-screen records. -/
def compact_ok (l : List item) (rebuild_handles : Bool) (last_visible_items_count : Int) :
    Prop :=
  rebuild_handles = false →
    (l.filter (fun x => x.on_screen)).map (fun x => x.handles_index) =
      (List.range (visible_count l)).map (fun (i : Nat) => (i : Int)) ∧
    last_visible_items_count = (visible_count l : Int)

/-- The table has `hw::sprites::count()` entries and the slots are compact. -/
def compact_inv (cfg : config) (s : State) : Prop :=
  s.data.handles.length = cfg.sprites_count ∧
  compact_ok (sorted_sprites.items s.layers) s.data.rebuild_handles
    s.data.last_visible_items_count

/-- A record-level function that keeps the identity and the slot index of the
record and the length of the table, and that changes the `on_screen` flag or
`last_visible_items_count` only while setting the rebuild flag. -/
def keeps_compact (f : item → static_data → item × static_data) : Prop :=
  ∀ it d, (f it d).1.id = it.id ∧ (f it d).1.handles_index = it.handles_index ∧
    (f it d).2.handles.length = d.handles.length ∧
    ((f it d).2.rebuild_handles = false →
      d.rebuild_handles = false ∧ (f it d).1.on_screen = it.on_screen ∧
      (f it d).2.last_visible_items_count = d.last_visible_items_count)

/-- A record-level function that changes neither `last_visible_items_count`
nor the length of the table. -/
def keeps_table (f : item → static_data → item × static_data) : Prop :=
  ∀ it d, (f it d).2.last_visible_items_count = d.last_visible_items_count ∧
    (f it d).2.handles.length = d.handles.length

end sprites_manager

end btn

namespace btn

namespace sprites_manager

/-- Two records agree on what only `create`, the reordering setters,
`set_visible` and `update()` write: identity, slot index, sort key,
`on_screen`, `visible` and `check_on_screen`. -/
def same_core (a b : item) : Prop :=
  a.id = b.id ∧ a.handles_index = b.handles_index ∧ a.bg_priority = b.bg_priority ∧
  a.z_order = b.z_order ∧ a.on_screen = b.on_screen ∧ a.visible = b.visible ∧
  a.check_on_screen = b.check_on_screen

/-- What the mutation of one record does to the record `it` and to `data`,
with `r` the record and the `data` after it: the identity, the slot index, the
sort key, `on_screen` and `visible` of the record are kept, and so are the
occupancy of the pool, `last_visible_items_count` and the rebuild flag; the
record is flagged for evaluation only together with the manager, and only if
it is visible; and either the attribute block, the table and the pending range
are kept, or the table and the pending range are those `_update_handles`
leaves for the new record. -/
def tidy_result (it : item) (d : static_data) (r : item × static_data) : Prop :=
  r.1.id = it.id ∧ r.1.handles_index = it.handles_index ∧
  r.1.bg_priority = it.bg_priority ∧ r.1.z_order = it.z_order ∧
  r.1.on_screen = it.on_screen ∧ r.1.visible = it.visible ∧
  r.2.items_pool_size = d.items_pool_size ∧
  r.2.last_visible_items_count = d.last_visible_items_count ∧
  r.2.rebuild_handles = d.rebuild_handles ∧
  ((r.1.check_on_screen = it.check_on_screen ∧
      r.2.check_items_on_screen = d.check_items_on_screen) ∨
    (it.visible = true ∧ r.1.check_on_screen = true ∧ r.2.check_items_on_screen = true)) ∧
  ((r.1.handle = it.handle ∧ r.2.handles = d.handles ∧
      r.2.first_index_to_commit = d.first_index_to_commit ∧
      r.2.last_index_to_commit = d.last_index_to_commit) ∨
    (r.2.handles = (_update_handles r.1 d).handles ∧
      r.2.first_index_to_commit = (_update_handles r.1 d).first_index_to_commit ∧
      r.2.last_index_to_commit = (_update_handles r.1 d).last_index_to_commit))

end sprites_manager

end btn

namespace btn
namespace sprites_manager

/-- Every record flagged for evaluation leaves the needs-evaluation flag of
the manager set. -/
def flags_inv (s : State) : Prop :=
  ∀ it ∈ sorted_sprites.items s.layers, it.check_on_screen = true →
    s.data.check_items_on_screen = true

end sprites_manager
end btn

namespace btn
namespace sprites_manager

/-- The table entry of every assigned slot is the handle of its record. -/
def table_ok (l : List item) (handles : List handle) : Prop :=
  ∀ it ∈ l, 0 ≤ it.handles_index → handles[it.handles_index.toNat]? = some it.handle

/-- The table is in step with the records while no recompaction is
pending. -/
def table_inv (s : State) : Prop :=
  s.data.rebuild_handles = false → table_ok (sorted_sprites.items s.layers) s.data.handles

end sprites_manager
end btn

namespace btn
namespace sprites_manager

/-- The slot `i` lies in the pending dirty range
`[first_index_to_commit, last_index_to_commit]`. -/
def pending (s : State) (i : Int) : Prop :=
  s.data.first_index_to_commit ≤ i ∧ i ≤ s.data.last_index_to_commit

instance pending_decidable (s : State) (i : Int) : Decidable (pending s i) :=
  inferInstanceAs (Decidable
    (s.data.first_index_to_commit ≤ i ∧ i ≤ s.data.last_index_to_commit))

/-- The pending dirty range does not reach beyond the part of the table in
use, the slots below `last_visible_items_count` (an empty range is kept as
`[hw::sprites::count(), 0]`). -/
def pending_bounded (s : State) : Prop :=
  0 ≤ s.data.first_index_to_commit ∧
  s.data.last_index_to_commit < max 1 s.data.last_visible_items_count

instance pending_bounded_decidable (s : State) : Decidable (pending_bounded s) :=
  inferInstanceAs (Decidable
    (0 ≤ s.data.first_index_to_commit ∧
      s.data.last_index_to_commit < max 1 s.data.last_visible_items_count))

/-- Every slot pending in `s` is pending in `s'`. -/
def pending_kept (s s' : State) : Prop := ∀ i, pending s i → pending s' i

/-- Every assigned slot index is smaller than `last_visible_items_count`. -/
def slots_in_use (s : State) : Prop :=
  ∀ it ∈ sorted_sprites.items s.layers, 0 ≤ it.handles_index →
    it.handles_index < s.data.last_visible_items_count

end sprites_manager
end btn

namespace btn

/-- The value is one a 32-bit `fixed` can hold. -/
def fixed.in_range (a : fixed) : Prop := -2147483648 ≤ a.data ∧ a.data < 2147483648

instance fixed.in_range_decidable (a : fixed) : Decidable a.in_range :=
  inferInstanceAs (Decidable (-2147483648 ≤ a.data ∧ a.data < 2147483648))

/-- Both coordinates are values a 32-bit `fixed` can hold. -/
def fixed_point.in_range (a : fixed_point) : Prop := a.x.in_range ∧ a.y.in_range

instance fixed_point.in_range_decidable (a : fixed_point) : Decidable a.in_range :=
  inferInstanceAs (Decidable (a.x.in_range ∧ a.y.in_range))

namespace sprites_manager

/-- The table and the pending range of `s'` are those of `s`. -/
def table_untouched (s s' : State) : Prop :=
  s'.data.handles = s.data.handles ∧
  s'.data.first_index_to_commit = s.data.first_index_to_commit ∧
  s'.data.last_index_to_commit = s.data.last_index_to_commit

end sprites_manager
end btn

namespace btn
namespace sprites_manager

/-- A record hidden by the user is neither on screen nor flagged for
evaluation. -/
def hidden_ok (it : item) : Prop :=
  it.visible = false → it.on_screen = false ∧ it.check_on_screen = false

/-- Every record hidden by the user is neither on screen nor flagged for
evaluation. -/
def hidden_inv (s : State) : Prop := ∀ it ∈ sorted_sprites.items s.layers, hidden_ok it

end sprites_manager
end btn

namespace btn
namespace sprites_manager

/-- The stored pending range is empty (`first` is the capacity of the table
and `last` is 0) or lies inside the table. -/
def range_ok (sprites_count : Nat) (d : static_data) : Prop :=
  (d.first_index_to_commit = (sprites_count : Int) ∧ d.last_index_to_commit = 0) ∨
  (0 ≤ d.first_index_to_commit ∧ d.first_index_to_commit ≤ d.last_index_to_commit ∧
    d.last_index_to_commit < (sprites_count : Int))

/-- The stored pending range is empty or inside the table, and
`last_visible_items_count` is at most the capacity of the table. -/
def range_inv (cfg : config) (s : State) : Prop :=
  range_ok cfg.sprites_count s.data ∧
  s.data.last_visible_items_count ≤ (cfg.sprites_count : Int)

end sprites_manager
end btn

namespace btn

namespace op

/-- The shape a `create` gives the new record has positive width and height,
as every shape of the hardware has; the other operations carry no shape. -/
def positive_shape : op → Bool
  | create builder => decide (0 < builder.shape_width) && decide (0 < builder.shape_height)
  | _ => true

/-- The attach that skips the placement: `set_affine_mat_ptr(id, a)` reaches
`_assign_affine_mat` on a visible record, not flagged for evaluation, whose
attribute block is in double size while the flag computed with the new
transform is false; that branch of `_assign_affine_mat` clears the double-size
flag, calls `_update_handles` and does not place the record again. -/
def skips_placement : op → State → Bool
  | set_affine_mat_ptr id (some a), s =>
    match sorted_sprites.find id s.layers with
    | none => false
    | some it =>
      decide (it.affine_mat_ptr ≠ some a) &&
      !(it.remove_affine_mat_when_not_needed
          && sprite_affine_mats_manager.is_identity s.affine_mats a) &&
      it.handle.double_size &&
      !(({ it with affine_mat_ptr := some a } : item).double_size s.affine_mats) &&
      it.visible && !it.check_on_screen
  | _, _ => false

end op

/-- The states the manager reaches without the attach that skips the
placement: from the initial state, with the camera at `camera_position`, by
public operations that complete, none of them that attach, records being
created with shapes of positive size; by a move of the camera, after which
`update_camera()` runs; and by changes the transform pool makes on its own. -/
inductive reachable_placed (cfg : config) : fixed_point → State → Prop
  | init (camera_position : fixed_point) (m : affine_mats_state) :
      reachable_placed cfg camera_position (sprites_manager.init cfg m)
  | step (s s' : State) (camera_position : fixed_point) (o : op) :
      reachable_placed cfg camera_position s → o.positive_shape = true →
      o.skips_placement s = false → o.apply cfg camera_position s = some s' →
      reachable_placed cfg camera_position s'
  | camera (s : State) (camera_position new_position : fixed_point) :
      reachable_placed cfg camera_position s →
      reachable_placed cfg new_position (sprites_manager.update_camera new_position s)
  | pool (s : State) (camera_position : fixed_point) (m : affine_mats_state) :
      reachable_placed cfg camera_position s →
      reachable_placed cfg camera_position { s with affine_mats := m }

end btn

/-! ## Concrete inputs used to instantiate the theorems -/

namespace btn

namespace sample

def cfg : config :=
  { sprites_count := 4, affine_mats_count := 2, max_items := 3, max_bg_priority := 3,
    z_orders := 65535, display_width := 240, display_height := 160 }

def mats : affine_mats_state := { mats := [], updated := false, commit_data := none }

def camera : fixed_point := ⟨⟨0⟩, ⟨0⟩⟩

/-- A builder of a visible 8x8 record at pixel `(x, y)` with sort key
`(bg_priority, z_order)`. -/
def builder (bg_priority z_order x y : Int) : sprite_builder :=
  { position := ⟨fixed.of_int x, fixed.of_int y⟩, shape_width := 8, shape_height := 8,
    tiles := some ⟨bg_priority, 1⟩, palette := some ⟨0, false⟩, bg_priority := bg_priority,
    z_order := z_order, horizontal_flip := false, vertical_flip := false,
    mosaic_enabled := false, visible := true, ignore_camera := false, affine_mat := none,
    double_size_mode := sprite_double_size_mode.AUTO,
    remove_affine_mat_when_not_needed := false }

/-- A newly constructed visible 8x8 record at pixel `(x, y)`. -/
def record (x y : Int) : item :=
  item.create camera mats 0 (builder 0 0 x y) ⟨0, 1⟩ ⟨0, false⟩

/-- One record, at `(10, 10)`. -/
def s1 : State :=
  (sprites_manager.create cfg camera (builder 1 5 10 10) (sprites_manager.init cfg mats)).2

/-- Two records, the second at `(20, 20)`. -/
def s2 : State := (sprites_manager.create cfg camera (builder 0 5 20 20) s1).2

/-- Three records, the third at `(300, 20)`, right of the display. -/
def s3 : State := (sprites_manager.create cfg camera (builder 2 1 300 20) s2).2

/-- The state after `update()` on `s3`: two records on screen, the range
`[0, 1]` pending. -/
def s4 : State := (sprites_manager.update cfg camera s3).getD s3

/-- The record of id 0 in `s4`; it is assigned slot 1. -/
def r0 : item := (sorted_sprites.find 0 s4.layers).getD (record 0 0)

/-- The state `s4` with the transform pool reporting the dirty range
`(offset, count) = (1, 1)`. -/
def s5 : State := { s4 with affine_mats := { mats with commit_data := some (1, 1) } }

/-- The state `s4` after record 1, on screen with slot 0, is hidden by
`set_visible`: one record remains on screen and a recompaction is pending. -/
def s6 : State := sprites_manager.set_visible 1 false s4

/-- The state after `update()` on `s6`. -/
def s7 : State := (sprites_manager.update cfg camera s6).getD s6

/-- The record of id 1 in `s7`: hidden by `set_visible`, at `(20, 20)`. -/
def r1 : item := (sorted_sprites.find 1 s7.layers).getD (record 0 0)

/-- The operations that lead from the initial state to `s3`. -/
def ops3 : List sort_op :=
  [sort_op.create (builder 1 5 10 10), sort_op.create (builder 0 5 20 20),
   sort_op.create (builder 2 1 300 20)]

/-- The constants of `cfg` with a table of one slot. -/
def tiny : config := { cfg with sprites_count := 1 }

/-- The state `s4`, which holds two on-screen records, with a recompaction
pending. -/
def s8 : State := { s4 with data := { s4.data with rebuild_handles := true } }

/-- The state `s4` after record 1 is told to remove its transform when it is
not needed; it holds no transform. -/
def s9 : State :=
  sprites_manager.set_remove_affine_mat_when_not_needed camera 1 true s4

/-- The state `s4` after the transform 1 is attached to record 0. -/
def s10 : State := sprites_manager.set_affine_mat_ptr camera 0 (some 1) s4

/-- The record of id 1 in `s4`; it is on screen with slot 0. -/
def r2 : item := (sorted_sprites.find 1 s4.layers).getD (record 0 0)

/-- A transform pool with a double-size transform 0 and a normal-size
transform 1, neither of them the identity; every other transform is the
identity. -/
def mats2 : affine_mats_state :=
  { mats := [⟨false, false, false, true, false⟩, ⟨false, false, false, false, false⟩],
    updated := false, commit_data := none }

/-- The state `s4` with the transform pool `mats2`. -/
def s11 : State := { s4 with affine_mats := mats2 }

/-- The state `s11` after record 1 is told to remove its transform when it is
not needed and the transform 1 is attached to it. -/
def s12 : State :=
  sprites_manager.set_affine_mat_ptr camera 1 (some 1)
    (sprites_manager.set_remove_affine_mat_when_not_needed camera 1 true s11)

/-- The state `s11` after the double-size transform 0 is attached to record 0
and `update()` has run: record 0 is visible, in wide-bounding-box mode, and
not flagged for evaluation. -/
def s13 : State :=
  (sprites_manager.update cfg camera
    (sprites_manager.set_affine_mat_ptr camera 0 (some 0) s11)).getD s11

/-- The transform pool `mats2` after the transform 1 has become the identity,
which the pool reports as a change. -/
def mats3 : affine_mats_state :=
  { mats := [⟨false, false, false, true, false⟩, ⟨true, false, false, false, true⟩],
    updated := true, commit_data := none }

/-- The state `s12` after the pool has turned the transform 1, held by
record 1, into the identity. -/
def s14 : State := { s12 with affine_mats := mats3 }

/-- The record of id 1 in `s14`: it holds the transform 1 and removes its
transform when it is not needed. -/
def r3 : item := (sorted_sprites.find 1 s14.layers).getD (record 0 0)

/-- The state after `update()` on `s14`. -/
def s15 : State := (sprites_manager.update cfg camera s14).getD s14

/-- The state `s11` after the double-size transform 0 is attached to record 0,
the record is moved to `(-6, 10)` and `update()` has run: with the doubled
footprint of 16 x 16 the record reaches into the display, it is on screen and
not flagged for evaluation. -/
def s16 : State :=
  (sprites_manager.update cfg camera
    (sprites_manager.set_position camera 0 ⟨fixed.of_int (-6), fixed.of_int 10⟩
      (sprites_manager.set_affine_mat_ptr camera 0 (some 0) s11))).getD s11

/-- The transform pool `mats2` after the transform 0 has shrunk to normal
size, which the pool reports as a change. -/
def mats4 : affine_mats_state :=
  { mats := [⟨false, false, false, false, true⟩, ⟨false, false, false, false, false⟩],
    updated := true, commit_data := none }

/-- The state `s16` with the transform pool `mats4`. -/
def s17 : State := { s16 with affine_mats := mats4 }

/-- The record of id 0 in `s17`: on screen and not flagged for evaluation. -/
def r4 : item := (sorted_sprites.find 0 s17.layers).getD (record 0 0)

/-- The state after `update()` on `s17`. -/
def s18 : State := (sprites_manager.update cfg camera s17).getD s17

/-- The state after `commit()` on `s4`: the slots 0 and 1 were transferred and
no range is pending. -/
def s19 : State := sprites_manager.commit cfg s4

/-- The state `s19` after record 1 is hidden and `update()` has run: one
record remains on screen, slot 1 holds the hidden sentinel and the range
`[0, 1]` is pending. -/
def s20 : State :=
  (sprites_manager.update cfg camera (sprites_manager.set_visible 1 false s19)).getD s19

/-- The state `s20` after the z-order of record 0, on screen, is set to 7: a
recompaction is pending. -/
def s21 : State := (sprites_manager.set_z_order cfg 0 7 s20).getD s20

/-- The state after a second `update()`, on `s21`, with no `commit()` since
`s19`. -/
def s22 : State := (sprites_manager.update cfg camera s21).getD s21

/-- The record of id 2 in `s4`: off screen, without a slot. -/
def r5 : item := (sorted_sprites.find 2 s4.layers).getD (record 0 0)

/-- The record of id 0 in `s10`: it holds the transform 1. -/
def r6 : item := (sorted_sprites.find 0 s10.layers).getD (record 0 0)

/-- The record of id 0 in `s17`: it holds the transform 0 in AUTO mode with the
double-size flag set, and the pool reports that the transform changed. -/
def r7 : item := (sorted_sprites.find 0 s17.layers).getD (record 0 0)

/-- The state `s16` after the normal-size transform 1 is attached to record 0,
which holds the double-size transform 0. -/
def s23 : State := sprites_manager.set_affine_mat_ptr camera 0 (some 1) s16

/-- The state after `update()` on `s23`. -/
def s24 : State := (sprites_manager.update cfg camera s23).getD s23

/-- The record of id 0 in `s16`: visible, on screen, with the doubled
footprint. -/
def r8 : item := (sorted_sprites.find 0 s16.layers).getD (record 0 0)

/-- The record of id 0 in `s24`. -/
def r9 : item := (sorted_sprites.find 0 s24.layers).getD (record 0 0)

/-- The state after the transform of record 0 is detached in `s16` and
`update()` has run. -/
def s25 : State :=
  (sprites_manager.update cfg camera
    (sprites_manager.set_affine_mat_ptr camera 0 none s16)).getD s16

/-- The state `s6`, in which record 1 is hidden, after the pool has become
`mats2`, the double-size transform 0 is attached to record 0 and record 0 is
placed at `(-6, 10)`. -/
def s26 : State :=
  sprites_manager.set_position camera 0 ⟨fixed.of_int (-6), fixed.of_int 10⟩
    (sprites_manager.set_affine_mat_ptr camera 0 (some 0) { s6 with affine_mats := mats2 })

/-- The camera moved 1000 pixels to the right. -/
def camera2 : fixed_point := ⟨fixed.of_int 1000, fixed.of_int 0⟩

/-- The state after `update()` on `s4` with the camera at `camera2`, no
`update_camera()` having run. -/
def s27 : State := (sprites_manager.update cfg camera2 s4).getD s4

/-- The state after `update_camera()` and `update()` on `s4` with the camera
at `camera2`. -/
def s28 : State :=
  (sprites_manager.update cfg camera2 (sprites_manager.update_camera camera2 s4)).getD s4

end sample

end btn

/-! ## Theorems -/

namespace btn
/-! ### The traversal loops -/

namespace sorted_sprites

theorem for_each_in_layer_checked_cons {σ : Type} (body : item → σ → Option (item × σ))
    (x : item) (xs : List item) (d : σ) :
    for_each_in_layer_checked body (x :: xs) d =
      (body x d).bind (fun r =>
        (for_each_in_layer_checked body xs r.2).map (fun q => (r.1 :: q.1, q.2))) := by
  cases h1 : body x d with
  | none => simp [for_each_in_layer_checked, h1]
  | some r =>
    cases h2 : for_each_in_layer_checked body xs r.2 <;>
      simp [for_each_in_layer_checked, h1, h2]

theorem for_each_in_layer_checked_append {σ : Type} (body : item → σ → Option (item × σ))
    (a b : List item) (d : σ) :
    for_each_in_layer_checked body (a ++ b) d =
      (for_each_in_layer_checked body a d).bind (fun r =>
        (for_each_in_layer_checked body b r.2).map (fun q => (r.1 ++ q.1, q.2))) := by
  induction a generalizing d with
  | nil => simp [for_each_in_layer_checked]
  | cons x xs ih =>
    simp only [List.cons_append, for_each_in_layer_checked_cons, ih]
    cases h1 : body x d with
    | none => simp
    | some r =>
      cases h2 : for_each_in_layer_checked body xs r.2 with
      | none => simp [h2]
      | some q =>
        cases h3 : for_each_in_layer_checked body b q.2 <;> simp [h2, h3]

theorem for_each_item_checked_cons {σ : Type} (body : item → σ → Option (item × σ))
    (l : layer) (ls : List layer) (d : σ) :
    for_each_item_checked body (l :: ls) d =
      (for_each_in_layer_checked body l.second d).bind (fun r =>
        (for_each_item_checked body ls r.2).map
          (fun q => ({ l with second := r.1 } :: q.1, q.2))) := by
  cases h1 : for_each_in_layer_checked body l.second d with
  | none => simp [for_each_item_checked, h1]
  | some r =>
    cases h2 : for_each_item_checked body ls r.2 <;> simp [for_each_item_checked, h1, h2]

theorem for_each_item_checked_items {σ : Type} (body : item → σ → Option (item × σ))
    (ls : List layer) (d : σ) :
    (for_each_item_checked body ls d).map (fun r => (items r.1, r.2)) =
      for_each_in_layer_checked body (items ls) d := by
  induction ls generalizing d with
  | nil => simp [for_each_item_checked, items, for_each_in_layer_checked]
  | cons l ls ih =>
    simp only [for_each_item_checked_cons, items, for_each_in_layer_checked_append]
    cases h1 : for_each_in_layer_checked body l.second d with
    | none => simp
    | some r =>
      have h := ih r.2
      cases h2 : for_each_item_checked body ls r.2 with
      | none => rw [h2] at h; simp [h2, ← h]
      | some q => rw [h2] at h; simp [h2, ← h, items]

theorem for_each_in_layer_append {σ : Type} (body : item → σ → item × σ)
    (a b : List item) (d : σ) :
    for_each_in_layer body (a ++ b) d =
      ((for_each_in_layer body a d).1 ++
        (for_each_in_layer body b (for_each_in_layer body a d).2).1,
       (for_each_in_layer body b (for_each_in_layer body a d).2).2) := by
  induction a generalizing d with
  | nil => simp [for_each_in_layer]
  | cons x xs ih => simp [for_each_in_layer, ih]

theorem for_each_item_items {σ : Type} (body : item → σ → item × σ)
    (ls : List layer) (d : σ) :
    (items (for_each_item body ls d).1, (for_each_item body ls d).2) =
      for_each_in_layer body (items ls) d := by
  induction ls generalizing d with
  | nil => simp [for_each_item, items, for_each_in_layer]
  | cons l ls ih =>
    have h := ih (for_each_in_layer body l.second d).2
    simp only [for_each_item, items, for_each_in_layer_append, ← h]

end sorted_sprites

/-! ### Recompaction, commit and the visibility test -/

namespace sprites_manager
open sorted_sprites

theorem int8_t_of_lt (n : Nat) (h : n < 128) : int8_t (n : Int) = (n : Int) := by
  unfold int8_t
  omega

theorem visible_count_cons (it : item) (rest : List item) :
    visible_count (it :: rest) = (if it.on_screen then 1 else 0) + visible_count rest := by
  by_cases h : it.on_screen = true <;> simp [visible_count, h, Nat.add_comm]

theorem rebuild_loop_some (cfg : config) (its : List item) (n : Nat) (hs : List handle)
    (h : n + visible_count its ≤ cfg.sprites_count) :
    ∃ r, for_each_in_layer_checked (_rebuild_handles_item cfg) its (n, hs) = some r := by
  induction its generalizing n hs with
  | nil => exact ⟨_, rfl⟩
  | cons it rest ih =>
    rw [for_each_in_layer_checked_cons]
    rw [visible_count_cons] at h
    by_cases hon : it.on_screen = true
    · simp only [hon, if_true] at h
      have hlt : n < cfg.sprites_count := by omega
      obtain ⟨r, hr⟩ := ih (n + 1) (hs.set n it.handle) (by omega)
      simp [_rebuild_handles_item, hon, hlt, hr]
    · simp only [hon] at h
      obtain ⟨r, hr⟩ := ih n hs (by simpa using h)
      simp [_rebuild_handles_item, hon, hr]

theorem rebuild_loop_spec (cfg : config) (its : List item) (n : Nat) (hs : List handle)
    (r : List item × (Nat × List handle))
    (h : for_each_in_layer_checked (_rebuild_handles_item cfg) its (n, hs) = some r) :
    r.2.1 = n + visible_count its ∧
    r.1.map (fun it => { it with handles_index := 0 }) =
      its.map (fun it => { it with handles_index := 0 }) ∧
    (r.1.filter (fun it => it.on_screen)).map (fun it => it.handles_index) =
      (List.range' n (visible_count its)).map (fun (k : Nat) => int8_t (k : Int)) ∧
    (∀ it ∈ r.1, it.on_screen = false → it.handles_index = -1) ∧
    r.2.2.length = hs.length := by
  induction its generalizing n hs r with
  | nil =>
    simp [for_each_in_layer_checked] at h
    subst h
    simp [visible_count]
  | cons it rest ih =>
    rw [for_each_in_layer_checked_cons] at h
    rw [visible_count_cons]
    by_cases hon : it.on_screen = true
    · by_cases hlt : n < cfg.sprites_count
      · simp [_rebuild_handles_item, hon, hlt] at h
        obtain ⟨its1, n1, hs1, hq, rfl⟩ := h
        obtain ⟨h1, h3, h4, h5, h6⟩ := ih (n + 1) (hs.set n it.handle) _ hq
        simp only at h1 h3 h4 h5 h6
        refine ⟨?_, ?_, ?_, ?_, ?_⟩
        · simp [h1, hon]; omega
        · simp [h3, hon]
        · simp [hon, h4, Nat.add_comm 1, List.range'_succ]
        · intro x hx hoff
          simp at hx
          rcases hx with rfl | hx
          · simp [hon] at hoff
          · exact h5 x hx hoff
        · simp [h6]
      · simp [_rebuild_handles_item, hon, hlt] at h
    · simp [_rebuild_handles_item, hon] at h
      obtain ⟨its1, n1, hs1, hq, rfl⟩ := h
      obtain ⟨h1, h3, h4, h5, h6⟩ := ih n hs _ hq
      simp only at h1 h3 h4 h5 h6
      refine ⟨?_, ?_, ?_, ?_, ?_⟩
      · simp [h1, hon]
      · simp [h3, hon]
      · simp [hon, h4]
      · intro x hx hoff
        simp at hx
        rcases hx with rfl | hx
        · rfl
        · exact h5 x hx hoff
      · simp [h6]

theorem for_each_item_checked_of_flat {σ : Type} (body : item → σ → Option (item × σ))
    (ls : List layer) (d : σ) (q : List item × σ)
    (h : for_each_in_layer_checked body (items ls) d = some q) :
    ∃ r, for_each_item_checked body ls d = some r ∧ items r.1 = q.1 ∧ r.2 = q.2 := by
  have h0 := for_each_item_checked_items body ls d
  rw [h] at h0
  cases hr : for_each_item_checked body ls d with
  | none => rw [hr] at h0; simp at h0
  | some r =>
    rw [hr] at h0
    simp only [Option.map_some', Option.some.injEq] at h0
    exact ⟨r, rfl, by rw [← h0], by rw [← h0]⟩

theorem flat_of_for_each_item_checked {σ : Type} (body : item → σ → Option (item × σ))
    (ls : List layer) (d : σ) (r : List layer × σ)
    (h : for_each_item_checked body ls d = some r) :
    for_each_in_layer_checked body (items ls) d = some (items r.1, r.2) := by
  have h0 := for_each_item_checked_items body ls d
  rw [h] at h0
  simpa using h0.symm

/-- The slot assignment made by a successful pass of the loop of
`_rebuild_handles` over a traversal with at most 128 on-screen records. -/
theorem rebuild_loop_slots (cfg : config) (its : List item) (hs : List handle)
    (q : List item × (Nat × List handle))
    (hcap : visible_count its ≤ 128)
    (h : for_each_in_layer_checked (_rebuild_handles_item cfg) its (0, hs) = some q) :
    (∀ it ∈ q.1, 0 ≤ it.handles_index ↔ it.on_screen = true) ∧
    (q.1.filter (fun it => it.on_screen)).map (fun it => it.handles_index) =
      (List.range (visible_count q.1)).map (fun (k : Nat) => (k : Int)) ∧
    q.1.Pairwise (fun a b => a.on_screen = true → b.on_screen = true →
      a.handles_index < b.handles_index) ∧
    (∀ it ∈ q.1, it.on_screen = false → it.handles_index = -1) ∧
    q.1.map (fun it => it.on_screen) = its.map (fun it => it.on_screen) ∧
    visible_count q.1 = visible_count its := by
  obtain ⟨h1, h3, h4, h5, h6⟩ := rebuild_loop_spec cfg its 0 hs q h
  have hmap : q.1.map (fun it => it.on_screen) = its.map (fun it => it.on_screen) := by
    have := congrArg (List.map (fun (it : item) => it.on_screen)) h3
    simpa [List.map_map, Function.comp_def] using this
  have hvc : visible_count q.1 = visible_count its := by
    have := congrArg List.length h4
    simpa [visible_count] using this
  have h4' : (q.1.filter (fun it => it.on_screen)).map (fun it => it.handles_index) =
      (List.range (visible_count q.1)).map (fun (k : Nat) => (k : Int)) := by
    rw [h4, hvc, List.range_eq_range']
    apply List.map_congr_left
    intro k hk
    simp at hk
    exact int8_t_of_lt k (by omega)
  have hpw : ((q.1.filter (fun it => it.on_screen)).map (fun it => it.handles_index)).Pairwise
      (fun a b => a < b) := by
    rw [h4', List.pairwise_map]
    exact (List.pairwise_lt_range _).imp (fun hab => by exact_mod_cast hab)
  refine ⟨?_, h4', ?_, h5, hmap, hvc⟩
  · intro it hit
    constructor
    · intro hge
      by_contra hoff
      have := h5 it hit (by simpa using hoff)
      omega
    · intro hon
      have hmem : it.handles_index ∈
          (q.1.filter (fun it => it.on_screen)).map (fun it => it.handles_index) :=
        List.mem_map.2 ⟨it, List.mem_filter.2 ⟨hit, hon⟩, rfl⟩
      rw [h4'] at hmem
      obtain ⟨k, _, hk⟩ := List.mem_map.1 hmem
      omega
  · have hf : q.1.filter (fun it => it.on_screen) =
        q.1.filter (fun it => decide (it.on_screen = true)) := by simp
    rw [List.pairwise_map, hf, List.pairwise_filter] at hpw
    exact hpw

theorem _rebuild_handles_layers (cfg : config) (s : State) (r : List layer × (Nat × List handle))
    (hflag : s.data.rebuild_handles = true)
    (hr : for_each_item_checked (_rebuild_handles_item cfg) s.layers (0, s.data.handles) =
      some r) :
    ∃ s', _rebuild_handles cfg s = some s' ∧ s'.layers = r.1 := by
  simp [_rebuild_handles, hflag, hr]

/-- C1: when `update()` reaches `_rebuild_handles` with the rebuild flag set
and at most `hw::sprites::count()` on-screen records (a table of at most 128
entries, so that the `int8_t` slot field holds every index), it completes, and
afterwards: a record has a slot (index `>= 0`) exactly when it is on screen;
the slots of the on-screen records, read in traversal order, are
`0, 1, ..., visible_count - 1`; of two on-screen records the one traversed
first has the smaller slot; every record that is not on screen has slot `-1`;
and the recompaction changes no `on_screen` flag. -/
theorem update_recompaction_assigns_dense_slots (cfg : config)
    (camera_position : fixed_point) (s : State)
    (hcap : cfg.sprites_count ≤ 128)
    (hflag : (_check_items_on_screen cfg camera_position
      (_check_affine_mats camera_position s)).data.rebuild_handles = true)
    (hcount : visible_count (items (_check_items_on_screen cfg camera_position
      (_check_affine_mats camera_position s)).layers) ≤ cfg.sprites_count) :
    ∃ s', update cfg camera_position s = some s' ∧
      (∀ it ∈ items s'.layers, 0 ≤ it.handles_index ↔ it.on_screen = true) ∧
      ((items s'.layers).filter (fun it => it.on_screen)).map (fun it => it.handles_index) =
        (List.range (visible_count (items s'.layers))).map (fun (k : Nat) => (k : Int)) ∧
      (items s'.layers).Pairwise (fun a b => a.on_screen = true → b.on_screen = true →
        a.handles_index < b.handles_index) ∧
      (∀ it ∈ items s'.layers, it.on_screen = false → it.handles_index = -1) ∧
      (items s'.layers).map (fun it => it.on_screen) =
        (items (_check_items_on_screen cfg camera_position
          (_check_affine_mats camera_position s)).layers).map (fun it => it.on_screen) := by
  unfold update
  generalize _check_items_on_screen cfg camera_position
    (_check_affine_mats camera_position s) = s1 at hflag hcount ⊢
  obtain ⟨q, hq⟩ := rebuild_loop_some cfg (items s1.layers) 0 s1.data.handles (by omega)
  obtain ⟨r, hr, hi, _⟩ := for_each_item_checked_of_flat _ _ _ _ hq
  obtain ⟨h1, h2, h3, h4, h5, _⟩ :=
    rebuild_loop_slots cfg (items s1.layers) s1.data.handles q (by omega) hq
  obtain ⟨s', hs', hl⟩ := _rebuild_handles_layers cfg s1 r hflag hr
  refine ⟨s', hs', ?_⟩
  rw [hl, hi]
  exact ⟨h1, h2, h3, h4, h5⟩

theorem update_recompaction_assigns_dense_slots_witness :
    ∃ s', update sample.cfg sample.camera sample.s3 = some s' ∧
      (∀ it ∈ items s'.layers, 0 ≤ it.handles_index ↔ it.on_screen = true) ∧
      ((items s'.layers).filter (fun it => it.on_screen)).map (fun it => it.handles_index) =
        (List.range (visible_count (items s'.layers))).map (fun (k : Nat) => (k : Int)) ∧
      (items s'.layers).Pairwise (fun a b => a.on_screen = true → b.on_screen = true →
        a.handles_index < b.handles_index) ∧
      (∀ it ∈ items s'.layers, it.on_screen = false → it.handles_index = -1) ∧
      (items s'.layers).map (fun it => it.on_screen) =
        (items (_check_items_on_screen sample.cfg sample.camera
          (_check_affine_mats sample.camera sample.s3)).layers).map (fun it => it.on_screen) :=
  update_recompaction_assigns_dense_slots sample.cfg sample.camera sample.s3
    (by decide) (by decide) (by decide)

/-- C3: when a dirty range is pending at `commit()` (the merged `first` is
below the table capacity), exactly one transfer is added to those issued; it
starts at `first`, the minimum of the sprite range's `first` and, if the pool
reports a dirty range `(offset, count)`, of the rescaled `offset * m`; its
length is `last - first + 1` with `last` the maximum of the sprite range's
`last` and of the rescaled `offset * m + count * m - 1`; afterwards the stored
range is empty (`first` = capacity, `last` = 0). -/
theorem commit_issues_one_merged_transfer (cfg : config) (s : State) :
    (s.affine_mats.commit_data = none →
      s.data.first_index_to_commit < cfg.sprites_count →
      (commit cfg s).transfers =
        (s.data.first_index_to_commit,
          s.data.last_index_to_commit - s.data.first_index_to_commit + 1) :: s.transfers ∧
      (commit cfg s).data.first_index_to_commit = cfg.sprites_count ∧
      (commit cfg s).data.last_index_to_commit = 0) ∧
    (∀ offset count : Int, s.affine_mats.commit_data = some (offset, count) →
      min s.data.first_index_to_commit
        (offset * (cfg.sprites_count : Int).tdiv (cfg.affine_mats_count : Int)) <
          cfg.sprites_count →
      (commit cfg s).transfers =
        (min s.data.first_index_to_commit
            (offset * (cfg.sprites_count : Int).tdiv (cfg.affine_mats_count : Int)),
          max s.data.last_index_to_commit
            (offset * (cfg.sprites_count : Int).tdiv (cfg.affine_mats_count : Int) +
              count * (cfg.sprites_count : Int).tdiv (cfg.affine_mats_count : Int) - 1) -
          min s.data.first_index_to_commit
            (offset * (cfg.sprites_count : Int).tdiv (cfg.affine_mats_count : Int)) + 1)
          :: s.transfers ∧
      (commit cfg s).data.first_index_to_commit = cfg.sprites_count ∧
      (commit cfg s).data.last_index_to_commit = 0) := by
  constructor
  · intro hnone hlt
    simp [commit, sprite_affine_mats_manager.retrieve_commit_data, hnone, hlt]
  · intro offset count hsome hlt
    simp only [commit, sprite_affine_mats_manager.retrieve_commit_data, hsome]
    simp only [hlt, if_true]
    exact ⟨trivial, trivial, trivial⟩

theorem commit_issues_one_merged_transfer_witness :
    ((commit sample.cfg sample.s4).transfers = [(0, 2)] ∧
      (commit sample.cfg sample.s4).data.first_index_to_commit = 4 ∧
      (commit sample.cfg sample.s4).data.last_index_to_commit = 0) ∧
    ((commit sample.cfg sample.s5).transfers = [(0, 4)] ∧
      (commit sample.cfg sample.s5).data.first_index_to_commit = 4 ∧
      (commit sample.cfg sample.s5).data.last_index_to_commit = 0) :=
  ⟨(commit_issues_one_merged_transfer sample.cfg sample.s4).1 (by decide) (by decide),
   (commit_issues_one_merged_transfer sample.cfg sample.s5).2 1 1 (by decide) (by decide)⟩

/-- C4: `commit()` with no sprite range pending (`first_index_to_commit` at
the table capacity or above) and no commit data reported by the transform pool
issues no transfer and leaves the whole state unchanged; and for every state a
second `commit()` right after a first one changes nothing: it issues no
transfer, so the two calls together issue at most one. -/
theorem commit_idempotent (cfg : config) (s : State) :
    ((cfg.sprites_count : Int) ≤ s.data.first_index_to_commit →
      s.affine_mats.commit_data = none → commit cfg s = s) ∧
    commit cfg (commit cfg s) = commit cfg s ∧
    (commit cfg (commit cfg s)).transfers = (commit cfg s).transfers ∧
    (commit cfg (commit cfg s)).transfers.length ≤ s.transfers.length + 1 := by
  have key : ∀ t : State, (cfg.sprites_count : Int) ≤ t.data.first_index_to_commit →
      t.affine_mats.commit_data = none → commit cfg t = t := by
    intro t hge hnone
    have hlt : ¬ t.data.first_index_to_commit < (cfg.sprites_count : Int) := by omega
    obtain ⟨d, ls, ⟨m, u, c⟩, tr⟩ := t
    simp only at hnone hlt
    subst hnone
    simp [commit, sprite_affine_mats_manager.retrieve_commit_data, hlt]
  have hpost : (cfg.sprites_count : Int) ≤ (commit cfg s).data.first_index_to_commit ∧
      (commit cfg s).affine_mats.commit_data = none ∧
      (commit cfg s).transfers.length ≤ s.transfers.length + 1 := by
    simp only [commit, sprite_affine_mats_manager.retrieve_commit_data]
    split
    · simp
    · rename_i hnot
      cases hc : s.affine_mats.commit_data with
      | none => simp [hc] at hnot ⊢; omega
      | some cd =>
        simp [hc] at hnot ⊢
        have := min_le_left s.data.first_index_to_commit
          (cd.1 * (cfg.sprites_count : Int).tdiv (cfg.affine_mats_count : Int))
        omega
  have h2 := key (commit cfg s) hpost.1 hpost.2.1
  refine ⟨key s, h2, by rw [h2], by rw [h2]; exact hpost.2.2⟩

theorem commit_idempotent_witness :
    commit sample.cfg (commit sample.cfg sample.s4) = commit sample.cfg sample.s4 :=
  (commit_idempotent sample.cfg (commit sample.cfg sample.s4)).1 (by decide) (by decide)

/-- C5 (evaluation of the code): `decrease_usages` never changes the
occupancy of the record pool; with the pool full (three records, capacity
three), releasing the only reference to record 0 removes it from the sort
index, yet the pool stays full and a following `create` still returns none. -/
theorem decrease_usages_keeps_pool_occupied :
    (∀ (id : Nat) (s : State),
      (decrease_usages id s).data.items_pool_size = s.data.items_pool_size) ∧
    (find 0 sample.s3.layers).map (fun it => it.usages) = some 1 ∧
    sample.s3.data.items_pool_size = sample.cfg.max_items ∧
    find 0 (decrease_usages 0 sample.s3).layers = none ∧
    (decrease_usages 0 sample.s3).data.items_pool_size = sample.cfg.max_items ∧
    (create sample.cfg sample.camera (sample.builder 0 0 10 10)
      (decrease_usages 0 sample.s3)).1 = none := by
  refine ⟨?_, by decide, by decide, by decide, by decide, by decide⟩
  intro id s
  unfold decrease_usages
  cases find id s.layers with
  | none => rfl
  | some it =>
    simp only
    by_cases h1 : it.usages - 1 = 0
    · by_cases h2 : it.on_screen = true <;> simp [h1, h2]
    · simp [h1]

theorem check_item_on_screen_flagged (cfg : config) (camera_position : fixed_point)
    (it : item) (rebuild_handles : Bool) (hflag : it.check_on_screen = true) :
    (_check_items_on_screen_item cfg camera_position it rebuild_handles).1.on_screen =
      compute_on_screen cfg camera_position it := by
  simp only [_check_items_on_screen_item, hflag, if_true]
  split
  · rfl
  · rename_i h
    simp only [bne_iff_ne, ne_eq, Decidable.not_not] at h
    exact h.symm

theorem compute_on_screen_eq (cfg : config) (camera_position : fixed_point) (it : item) :
    compute_on_screen cfg camera_position it =
      decide ((footprint_x camera_position it + (hw.sprites.dimensions it.handle).width > 0 ∧
          footprint_x camera_position it < cfg.display_width) ∧
        (footprint_y camera_position it + (hw.sprites.dimensions it.handle).height > 0 ∧
          footprint_y camera_position it < cfg.display_height)) := by
  simp only [compute_on_screen, footprint_x, footprint_y, real_position]
  by_cases h1 : ((if (!it.ignore_camera) = true then it.position.sub_assign camera_position
      else it.position).x.integer - (hw.sprites.dimensions it.handle).width.tdiv 2 +
      (hw.sprites.dimensions it.handle).width > 0 ∧
      (if (!it.ignore_camera) = true then it.position.sub_assign camera_position
      else it.position).x.integer - (hw.sprites.dimensions it.handle).width.tdiv 2 <
      cfg.display_width)
  · by_cases h2 : ((if (!it.ignore_camera) = true then it.position.sub_assign camera_position
        else it.position).y.integer - (hw.sprites.dimensions it.handle).height.tdiv 2 +
        (hw.sprites.dimensions it.handle).height > 0 ∧
        (if (!it.ignore_camera) = true then it.position.sub_assign camera_position
        else it.position).y.integer - (hw.sprites.dimensions it.handle).height.tdiv 2 <
        cfg.display_height)
    · simp [h1, h2]
    · simp [h1, h2]
  · simp [h1]

/-- C9: the visibility test is a half-open interval test.  For a record flagged
for evaluation, the loop body of `_check_items_on_screen` computes
`on_screen = false` when the left edge `x` of its footprint equals the display
width, when its right edge `x + w` equals 0, when its top edge `y` equals the
display height, and when its bottom edge `y + h` equals 0; and it computes
`on_screen = true` when `x = width - 1` (with a footprint and a display of
positive width) and the footprint overlaps the display vertically. -/
theorem on_screen_test_half_open (cfg : config) (camera_position : fixed_point)
    (it : item) (rebuild_handles : Bool) (hflag : it.check_on_screen = true) :
    (footprint_x camera_position it = cfg.display_width →
      (_check_items_on_screen_item cfg camera_position it rebuild_handles).1.on_screen
        = false) ∧
    (footprint_x camera_position it + (hw.sprites.dimensions it.handle).width = 0 →
      (_check_items_on_screen_item cfg camera_position it rebuild_handles).1.on_screen
        = false) ∧
    (footprint_y camera_position it = cfg.display_height →
      (_check_items_on_screen_item cfg camera_position it rebuild_handles).1.on_screen
        = false) ∧
    (footprint_y camera_position it + (hw.sprites.dimensions it.handle).height = 0 →
      (_check_items_on_screen_item cfg camera_position it rebuild_handles).1.on_screen
        = false) ∧
    (footprint_x camera_position it = cfg.display_width - 1 →
      0 < (hw.sprites.dimensions it.handle).width → 0 < cfg.display_width →
      footprint_y camera_position it + (hw.sprites.dimensions it.handle).height > 0 →
      footprint_y camera_position it < cfg.display_height →
      (_check_items_on_screen_item cfg camera_position it rebuild_handles).1.on_screen
        = true) := by
  rw [check_item_on_screen_flagged cfg camera_position it rebuild_handles hflag,
    compute_on_screen_eq]
  refine ⟨?_, ?_, ?_, ?_, ?_⟩
  · intro h; simp; omega
  · intro h; simp; omega
  · intro h; simp; omega
  · intro h; simp; omega
  · intro h hw hd hy1 hy2; simp; omega

theorem on_screen_test_half_open_witness :
    (_check_items_on_screen_item sample.cfg sample.camera (sample.record 244 80)
      false).1.on_screen = false ∧
    (_check_items_on_screen_item sample.cfg sample.camera (sample.record (-4) 80)
      false).1.on_screen = false ∧
    (_check_items_on_screen_item sample.cfg sample.camera (sample.record 120 164)
      false).1.on_screen = false ∧
    (_check_items_on_screen_item sample.cfg sample.camera (sample.record 120 (-4))
      false).1.on_screen = false ∧
    (_check_items_on_screen_item sample.cfg sample.camera (sample.record 243 80)
      false).1.on_screen = true :=
  ⟨(on_screen_test_half_open sample.cfg sample.camera (sample.record 244 80) false
      (by decide)).1 (by decide),
   (on_screen_test_half_open sample.cfg sample.camera (sample.record (-4) 80) false
      (by decide)).2.1 (by decide),
   (on_screen_test_half_open sample.cfg sample.camera (sample.record 120 164) false
      (by decide)).2.2.1 (by decide),
   (on_screen_test_half_open sample.cfg sample.camera (sample.record 120 (-4)) false
      (by decide)).2.2.2.1 (by decide),
   (on_screen_test_half_open sample.cfg sample.camera (sample.record 243 80) false
      (by decide)).2.2.2.2 (by decide) (by decide) (by decide) (by decide) (by decide)⟩

end sprites_manager

/-! ### Looking up and writing back a record -/

namespace sorted_sprites

theorem items_replace (it : item) (ls : List layer) :
    items (replace it ls) = (items ls).map (fun x => if x.id = it.id then it else x) := by
  induction ls with
  | nil => rfl
  | cons l ls ih =>
    simp only [replace, List.map_cons, items, List.map_append] at ih ⊢
    rw [ih]

theorem items_erase (id : Nat) (ls : List layer) :
    items (erase id ls) = (items ls).filter (fun x => x.id != id) := by
  induction ls with
  | nil => rfl
  | cons l ls ih =>
    simp only [erase, List.map_cons, items, List.filter_append] at ih ⊢
    rw [ih]

theorem find_id (id : Nat) (ls : List layer) (it : item) (h : find id ls = some it) :
    it.id = id := by
  have := List.find?_some h
  simpa using this

theorem find_mem (id : Nat) (ls : List layer) (it : item) (h : find id ls = some it) :
    it ∈ items ls := List.mem_of_find?_eq_some h

theorem find_replace (id : Nat) (ls : List layer) (it it' : item)
    (h : find id ls = some it) (hid : it'.id = id) :
    find id (replace it' ls) = some it' := by
  unfold find at h ⊢
  rw [items_replace]
  generalize items ls = l at h
  induction l with
  | nil => simp at h
  | cons x xs ih =>
    by_cases hx : x.id = id
    · simp [List.find?_cons, hx, hid]
    · have hx' : (x.id == id) = false := by simpa using hx
      rw [List.find?_cons, hx'] at h
      have hne : ¬ x.id = it'.id := by rw [hid]; exact hx
      simp only [List.map_cons, hne, if_false, List.find?_cons, hx']
      exact ih h

end sorted_sprites

/-! ### Writes to the table -/

namespace sprites_manager
open sorted_sprites

theorem marks_after_update_handles (s : State) (id i : Nat) (it it' : item) (d' : static_data)
    (hfind : find id s.layers = some it) (hid : it'.id = it.id)
    (hidx : it'.handles_index = (i : Int)) (hlen : i < s.data.handles.length)
    (h1 : d'.handles = s.data.handles.set i it'.handle)
    (h2 : d'.first_index_to_commit = min s.data.first_index_to_commit (i : Int))
    (h3 : d'.last_index_to_commit = max s.data.last_index_to_commit (i : Int)) :
    marks_exactly_slot id i s { s with data := d', layers := replace it' s.layers } := by
  refine ⟨h2, h3, ⟨it', ?_, hidx, ?_⟩, ?_⟩
  · exact find_replace id s.layers it it' hfind (by rw [hid]; exact find_id id s.layers it hfind)
  · simp [h1, hlen]
  · intro j hj
    simp [h1, List.getElem?_set, Ne.symm hj]

/-- C10: for a live record `id` that is assigned table slot `i`, each direct
attribute mutation that rewrites its attribute block marks exactly slot `i`
(the pending range becomes `[min(first, i), max(last, i)]`, table slot `i`
becomes the record's new attribute block, every other slot is unchanged):
`set_position`; `set_tiles_ptr` with different tiles of equal count;
`set_palette_ptr` with a different palette of the same colour depth;
`set_mosaic_enabled`; and `set_horizontal_flip` / `set_vertical_flip` when no
transform is attached. -/
theorem direct_mutation_marks_exactly_its_slot (camera_position : fixed_point) (s : State)
    (id i : Nat) (it : item)
    (hfind : find id s.layers = some it) (hidx : it.handles_index = (i : Int))
    (hlen : i < s.data.handles.length) :
    (∀ p, marks_exactly_slot id i s (set_position camera_position id p s)) ∧
    (∀ tiles, tiles ≠ it.tiles_ptr → it.tiles_ptr.tiles_count = tiles.tiles_count →
      ∃ s', set_tiles_ptr id tiles s = some s' ∧ marks_exactly_slot id i s s') ∧
    (∀ palette, palette ≠ it.palette_ptr →
      it.palette_ptr.eight_bits_per_pixel = palette.eight_bits_per_pixel →
      ∃ s', set_palette_ptr id palette s = some s' ∧ marks_exactly_slot id i s s') ∧
    (∀ v, marks_exactly_slot id i s (set_mosaic_enabled id v s)) ∧
    (it.affine_mat_ptr = none → ∀ v, marks_exactly_slot id i s (set_horizontal_flip id v s)) ∧
    (it.affine_mat_ptr = none → ∀ v, marks_exactly_slot id i s (set_vertical_flip id v s)) := by
  refine ⟨?_, ?_, ?_, ?_, ?_, ?_⟩
  · intro p
    simp only [set_position, with_item, hfind, set_position_item]
    by_cases hv : it.visible = true
    · simp only [hv, if_true]
      refine marks_after_update_handles s id i it _ _ hfind ?_ ?_ hlen ?_ ?_ ?_ <;>
        simp [_update_handles, hidx]
    · simp only [hv]
      refine marks_after_update_handles s id i it _ _ hfind ?_ ?_ hlen ?_ ?_ ?_ <;>
        simp [_update_handles, hidx]
  · intro tiles hne hcount
    simp only [set_tiles_ptr, hfind, hne, hcount, ne_eq, not_false_eq_true, if_true]
    refine ⟨_, rfl, ?_⟩
    refine marks_after_update_handles s id i it _ _ hfind ?_ ?_ hlen ?_ ?_ ?_ <;>
      simp [_update_handles, hidx]
  · intro palette hne hbpp
    simp only [set_palette_ptr, hfind, hne, hbpp, ne_eq, not_false_eq_true, if_true]
    refine ⟨_, rfl, ?_⟩
    refine marks_after_update_handles s id i it _ _ hfind ?_ ?_ hlen ?_ ?_ ?_ <;>
      simp [_update_handles, hidx]
  · intro v
    simp only [set_mosaic_enabled, with_item, hfind]
    refine marks_after_update_handles s id i it _ _ hfind ?_ ?_ hlen ?_ ?_ ?_ <;>
      simp [_update_handles, hidx]
  · intro hnone v
    simp only [set_horizontal_flip, hfind, hnone]
    refine marks_after_update_handles s id i it _ _ hfind ?_ ?_ hlen ?_ ?_ ?_ <;>
      simp [_update_handles, hidx]
  · intro hnone v
    simp only [set_vertical_flip, hfind, hnone]
    refine marks_after_update_handles s id i it _ _ hfind ?_ ?_ hlen ?_ ?_ ?_ <;>
      simp [_update_handles, hidx]

theorem direct_mutation_marks_exactly_its_slot_witness :
    marks_exactly_slot 0 1 sample.s4
      (set_position sample.camera 0 ⟨fixed.of_int 30, fixed.of_int 30⟩ sample.s4) ∧
    (∃ s', set_tiles_ptr 0 ⟨7, 1⟩ sample.s4 = some s' ∧ marks_exactly_slot 0 1 sample.s4 s') ∧
    (∃ s', set_palette_ptr 0 ⟨3, false⟩ sample.s4 = some s' ∧
      marks_exactly_slot 0 1 sample.s4 s') ∧
    marks_exactly_slot 0 1 sample.s4 (set_mosaic_enabled 0 true sample.s4) ∧
    marks_exactly_slot 0 1 sample.s4 (set_horizontal_flip 0 true sample.s4) ∧
    marks_exactly_slot 0 1 sample.s4 (set_vertical_flip 0 true sample.s4) :=
  have h := direct_mutation_marks_exactly_its_slot sample.camera sample.s4 0 1 sample.r0
    (by decide) (by decide) (by decide)
  ⟨h.1 _, h.2.1 ⟨7, 1⟩ (by decide) (by decide), h.2.2.1 ⟨3, false⟩ (by decide) (by decide),
   h.2.2.2.1 true, h.2.2.2.2.1 (by decide) true, h.2.2.2.2.2 (by decide) true⟩

theorem hide_getElem? (count start : Nat) (hs : List handle) (k : Nat) :
    (hw.sprites.hide count start hs)[k]? =
      if start ≤ k ∧ k < start + count ∧ k < hs.length then some hw.sprites.hidden_handle
      else hs[k]? := by
  induction count generalizing start hs with
  | zero =>
    have h : ¬ (start ≤ k ∧ k < start + 0 ∧ k < hs.length) := by omega
    simp only [hw.sprites.hide]
    rw [if_neg h]
  | succ c ih =>
    simp only [hw.sprites.hide, ih, List.length_set, List.getElem?_set]
    by_cases h1 : start = k
    · subst h1
      by_cases h2 : start < hs.length
      · simp [h2]
      · simp [h2]
        omega
    · by_cases h2 : start + 1 ≤ k ∧ k < start + 1 + c ∧ k < hs.length
      · have h3 : start ≤ k ∧ k < start + (c + 1) ∧ k < hs.length := by omega
        simp [h2, h3]
      · have h3 : ¬ (start ≤ k ∧ k < start + (c + 1) ∧ k < hs.length) := by omega
        simp [h2, h3, h1]

theorem rebuild_loop_handles (cfg : config) (its : List item) (n : Nat) (hs : List handle)
    (q : List item × (Nat × List handle))
    (h : for_each_in_layer_checked (_rebuild_handles_item cfg) its (n, hs) = some q)
    (hlen : n + visible_count its ≤ hs.length) (k : Nat) :
    q.2.2[k]? =
      if n ≤ k ∧ k < n + visible_count its then
        ((its.filter (fun it => it.on_screen)).map (fun it => it.handle))[k - n]?
      else hs[k]? := by
  induction its generalizing n hs q with
  | nil =>
    simp [for_each_in_layer_checked] at h
    subst h
    have h0 : ¬ (n ≤ k ∧ k < n + visible_count []) := by simp [visible_count]
    rw [if_neg h0]
  | cons it rest ih =>
    rw [for_each_in_layer_checked_cons] at h
    rw [visible_count_cons] at hlen ⊢
    by_cases hon : it.on_screen = true
    · by_cases hlt : n < cfg.sprites_count
      · simp [_rebuild_handles_item, hon, hlt] at h
        obtain ⟨its1, n1, hs1, hq, rfl⟩ := h
        simp only [hon, if_true] at hlen ⊢
        have := ih (n + 1) (hs.set n it.handle) _ hq (by simp; omega)
        simp only at this
        rw [this]
        by_cases hk : n = k
        · subst hk
          have h1 : ¬ (n + 1 ≤ n ∧ n < n + 1 + visible_count rest) := by omega
          have h2 : n ≤ n ∧ n < n + (1 + visible_count rest) := by omega
          have h3 : n < hs.length := by omega
          simp [h1, h2, h3, hon]
        · by_cases hk2 : n + 1 ≤ k ∧ k < n + 1 + visible_count rest
          · have h2 : n ≤ k ∧ k < n + (1 + visible_count rest) := by omega
            obtain ⟨j, rfl⟩ : ∃ j, k = n + 1 + j := ⟨k - (n + 1), by omega⟩
            have e1 : n + 1 + j - (n + 1) = j := by omega
            have e2 : n + 1 + j - n = j + 1 := by omega
            simp [hk2, h2, hon, e1, e2]
          · have h2 : ¬ (n ≤ k ∧ k < n + (1 + visible_count rest)) := by omega
            simp [hk2, h2, List.getElem?_set, hk]
      · simp [_rebuild_handles_item, hon, hlt] at h
    · simp [_rebuild_handles_item, hon] at h
      obtain ⟨its1, n1, hs1, hq, rfl⟩ := h
      simp only [hon] at hlen ⊢
      have := ih n hs _ hq (by simpa using hlen)
      simp only at this
      rw [this]
      simp [hon]

theorem _rebuild_handles_result (cfg : config) (s : State)
    (r : List layer × (Nat × List handle))
    (hflag : s.data.rebuild_handles = true)
    (hr : for_each_item_checked (_rebuild_handles_item cfg) s.layers (0, s.data.handles) =
      some r) :
    ∃ s', _rebuild_handles cfg s = some s' ∧ s'.layers = r.1 ∧
      s'.affine_mats = s.affine_mats ∧ s'.transfers = s.transfers ∧
      s'.data.rebuild_handles = false ∧
      s'.data.check_items_on_screen = s.data.check_items_on_screen ∧
      s'.data.items_pool_size = s.data.items_pool_size ∧
      s'.data.last_visible_items_count = (r.2.1 : Int) ∧
      s'.data.handles =
        (if s.data.last_visible_items_count - (r.2.1 : Int) > 0 then
          hw.sprites.hide (s.data.last_visible_items_count - (r.2.1 : Int)).toNat r.2.1 r.2.2
        else r.2.2) ∧
      (max s.data.last_visible_items_count (r.2.1 : Int) ≠ 0 →
        s'.data.first_index_to_commit = 0 ∧
        s'.data.last_index_to_commit = max s.data.last_visible_items_count (r.2.1 : Int) - 1) ∧
      (max s.data.last_visible_items_count (r.2.1 : Int) = 0 →
        s'.data.first_index_to_commit = s.data.first_index_to_commit ∧
        s'.data.last_index_to_commit = s.data.last_index_to_commit) := by
  simp only [_rebuild_handles, hflag, if_true, hr]
  refine ⟨_, rfl, rfl, rfl, rfl, ?_, ?_, ?_, ?_, ?_, ?_, ?_⟩
  · split <;> split <;> rfl
  · split <;> split <;> rfl
  · split <;> split <;> rfl
  · split <;> split <;> rfl
  · by_cases h : s.data.last_visible_items_count - (r.2.1 : Int) > 0
    · simp only [h, if_true]; split <;> rfl
    · simp only [h, if_false]; split <;> rfl
  · intro hne
    by_cases h : s.data.last_visible_items_count - (r.2.1 : Int) > 0
    · have hm : max s.data.last_visible_items_count (r.2.1 : Int) =
          s.data.last_visible_items_count := by omega
      rw [hm] at hne ⊢
      simp [h, hne]
    · have hm : max s.data.last_visible_items_count (r.2.1 : Int) = (r.2.1 : Int) := by omega
      rw [hm] at hne ⊢
      simp only [h, if_false]
      simp [hne]
  · intro he
    have h : ¬ s.data.last_visible_items_count - (r.2.1 : Int) > 0 := by omega
    have h0 : (r.2.1 : Int) = 0 := by omega
    have h1 : ¬ 0 < s.data.last_visible_items_count := by omega
    simp [h0, h1]

theorem rebuild_loop_visible_handles (cfg : config) (its : List item) (n : Nat)
    (hs : List handle) (q : List item × (Nat × List handle))
    (h : for_each_in_layer_checked (_rebuild_handles_item cfg) its (n, hs) = some q) :
    (q.1.filter (fun it => it.on_screen)).map (fun it => it.handle) =
      (its.filter (fun it => it.on_screen)).map (fun it => it.handle) := by
  obtain ⟨_, h3, _⟩ := rebuild_loop_spec cfg its n hs q h
  have e : ∀ l : List item, (l.filter (fun it => it.on_screen)).map (fun it => it.handle) =
      ((l.map (fun it => { it with handles_index := 0 })).filter
        (fun it => it.on_screen)).map (fun it => it.handle) := by
    intro l
    induction l with
    | nil => rfl
    | cons x xs ih =>
      by_cases hx : x.on_screen = true <;> simp [List.filter_cons, hx, ih]
  rw [e q.1, e its, h3]

/-- C8: a recompaction that reduces the visible count from `N`, the count of
the previous recompaction (`last_visible_items_count`, at most the table
capacity), to `M < N` completes, stores `M` as the new count, leaves the
hidden sentinel in every table slot of `[M, N - 1]`, and leaves in slots
`[0, M - 1]` the attribute blocks of the on-screen records, in traversal
order. -/
theorem recompaction_hides_vacated_slots (cfg : config) (s : State)
    (hflag : s.data.rebuild_handles = true)
    (hlen : s.data.handles.length = cfg.sprites_count)
    (hN : s.data.last_visible_items_count ≤ (cfg.sprites_count : Int))
    (hshrink : (visible_count (items s.layers) : Int) < s.data.last_visible_items_count) :
    ∃ s', _rebuild_handles cfg s = some s' ∧
      s'.data.last_visible_items_count = (visible_count (items s.layers) : Int) ∧
      visible_count (items s'.layers) = visible_count (items s.layers) ∧
      (∀ k : Nat, visible_count (items s.layers) ≤ k →
        (k : Int) < s.data.last_visible_items_count →
        s'.data.handles[k]? = some hw.sprites.hidden_handle) ∧
      (∀ k : Nat, k < visible_count (items s.layers) →
        s'.data.handles[k]? =
          (((items s'.layers).filter (fun it => it.on_screen)).map
            (fun it => it.handle))[k]?) := by
  obtain ⟨q, hq⟩ := rebuild_loop_some cfg (items s.layers) 0 s.data.handles (by omega)
  obtain ⟨r, hr, hi, h2⟩ := for_each_item_checked_of_flat _ _ _ _ hq
  obtain ⟨s', hs', hl, _, _, _, _, _, hcnt, hh, _, _⟩ := _rebuild_handles_result cfg s r hflag hr
  obtain ⟨hn, _, _, _, hlen'⟩ := rebuild_loop_spec cfg (items s.layers) 0 s.data.handles q hq
  have hvis := rebuild_loop_visible_handles cfg (items s.layers) 0 s.data.handles q hq
  have hcount : visible_count q.1 = visible_count (items s.layers) := by
    have := congrArg List.length hvis
    simpa [visible_count] using this
  have hget := rebuild_loop_handles cfg (items s.layers) 0 s.data.handles q hq (by omega)
  rw [h2] at hcnt hh
  have hn' : q.2.1 = visible_count (items s.layers) := by omega
  have hpos : s.data.last_visible_items_count - (q.2.1 : Int) > 0 := by omega
  rw [if_pos hpos] at hh
  refine ⟨s', hs', by rw [hcnt, hn'], by rw [hl, hi, hcount], ?_, ?_⟩
  · intro k hk1 hk2
    rw [hh, hide_getElem?]
    have : q.2.1 ≤ k ∧ k < q.2.1 + (s.data.last_visible_items_count - (q.2.1 : Int)).toNat ∧
        k < q.2.2.length := by
      refine ⟨by omega, by omega, ?_⟩
      rw [hlen']
      omega
    rw [if_pos this]
  · intro k hk
    rw [hh, hide_getElem?]
    have : ¬ (q.2.1 ≤ k ∧ k < q.2.1 + (s.data.last_visible_items_count - (q.2.1 : Int)).toNat ∧
        k < q.2.2.length) := by omega
    rw [if_neg this, hget k, hl, hi, hvis]
    have : 0 ≤ k ∧ k < 0 + visible_count (items s.layers) := by omega
    rw [if_pos this]
    simp

theorem recompaction_hides_vacated_slots_witness :
    ∃ s', _rebuild_handles sample.cfg sample.s6 = some s' ∧
      s'.data.last_visible_items_count = (visible_count (items sample.s6.layers) : Int) ∧
      visible_count (items s'.layers) = visible_count (items sample.s6.layers) ∧
      (∀ k : Nat, visible_count (items sample.s6.layers) ≤ k →
        (k : Int) < sample.s6.data.last_visible_items_count →
        s'.data.handles[k]? = some hw.sprites.hidden_handle) ∧
      (∀ k : Nat, k < visible_count (items sample.s6.layers) →
        s'.data.handles[k]? =
          (((items s'.layers).filter (fun it => it.on_screen)).map
            (fun it => it.handle))[k]?) :=
  recompaction_hides_vacated_slots sample.cfg sample.s6 (by decide) (by decide) (by decide)
    (by decide)

end sprites_manager

/-! ### The order of the sort index -/

namespace sorted_sprites

theorem key_lt_iff (a b : Int × Int) :
    key_lt a b = true ↔ a.1 < b.1 ∨ (a.1 = b.1 ∧ a.2 < b.2) := by
  simp [key_lt]

theorem key_lt_trans {a b c : Int × Int} (h1 : key_lt a b = true) (h2 : key_lt b c = true) :
    key_lt a c = true := by
  rw [key_lt_iff] at *
  omega

theorem key_lt_of_not {a b : Int × Int} (h1 : ¬ key_lt a b = true) (h2 : b ≠ a) :
    key_lt b a = true := by
  rw [key_lt_iff] at *
  have h3 : ¬ (b.1 = a.1 ∧ b.2 = a.2) := fun h => h2 (Prod.ext h.1 h.2)
  omega

theorem key_lt_ne {a b : Int × Int} (h : key_lt a b = true) : a ≠ b := by
  intro e
  subst e
  rw [key_lt_iff] at h
  omega

theorem key_le_of_lt {a b : Int × Int} (h : key_lt a b = true) : key_le a b := by
  rw [key_lt_iff] at h
  unfold key_le
  omega

theorem mem_items {x : item} {ls : List layer} : x ∈ items ls ↔ ∃ l ∈ ls, x ∈ l.second := by
  induction ls with
  | nil => simp [items]
  | cons l ls ih => simp [items, ih]

theorem items_insert_perm (it : item) (ls : List layer) :
    (items (insert it ls)).Perm (it :: items ls) := by
  induction ls with
  | nil => simp [insert, items]
  | cons l ls ih =>
    simp only [insert]
    split
    · simp [items]
    · split
      · simp only [items, List.append_assoc]
        exact (List.perm_middle).trans (List.Perm.refl _)
      · simp only [items]
        exact (List.Perm.append_left _ ih).trans List.perm_middle

theorem insert_first (it : item) (ls : List layer) :
    ∀ l' ∈ insert it ls, l'.first = sort_key it ∨ ∃ l0 ∈ ls, l'.first = l0.first := by
  induction ls with
  | nil => simp [insert]
  | cons l ls ih =>
    intro l' hl'
    simp only [insert] at hl'
    split at hl'
    · simp at hl'
      rcases hl' with rfl | rfl | h
      · exact Or.inl rfl
      · exact Or.inr ⟨_, List.mem_cons_self _ _, rfl⟩
      · exact Or.inr ⟨l', List.mem_cons_of_mem _ h, rfl⟩
    · split at hl'
      · simp at hl'
        rcases hl' with rfl | h
        · exact Or.inr ⟨l, List.mem_cons_self _ _, rfl⟩
        · exact Or.inr ⟨l', List.mem_cons_of_mem _ h, rfl⟩
      · simp at hl'
        rcases hl' with rfl | h
        · exact Or.inr ⟨_, List.mem_cons_self _ _, rfl⟩
        · rcases ih l' h with h1 | ⟨l0, h0, h1⟩
          · exact Or.inl h1
          · exact Or.inr ⟨l0, List.mem_cons_of_mem _ h0, h1⟩

theorem well_formed_nil : well_formed [] := by
  simp [well_formed]

theorem well_formed_tail {l : layer} {ls : List layer} (h : well_formed (l :: ls)) :
    well_formed ls :=
  ⟨(List.pairwise_cons.1 h.1).2, fun l' hl' => h.2 l' (List.mem_cons_of_mem _ hl')⟩

theorem well_formed_tail_gt {l : layer} {ls : List layer} (h : well_formed (l :: ls)) :
    ∀ x ∈ items ls, key_lt l.first (sort_key x) = true := by
  intro x hx
  obtain ⟨l', hl', hx'⟩ := mem_items.1 hx
  rw [h.2 l' (List.mem_cons_of_mem _ hl') x hx']
  exact (List.pairwise_cons.1 h.1).1 l' hl'

theorem well_formed_insert (it : item) (ls : List layer) (h : well_formed ls) :
    well_formed (insert it ls) := by
  induction ls with
  | nil => simp [insert, well_formed]
  | cons l ls ih =>
    have hp := List.pairwise_cons.1 h.1
    simp only [insert]
    split
    · rename_i hlt
      refine ⟨List.pairwise_cons.2 ⟨?_, h.1⟩, ?_⟩
      · intro l' hl'
        simp at hl'
        rcases hl' with rfl | hl'
        · exact hlt
        · exact key_lt_trans hlt (hp.1 l' hl')
      · intro l' hl' x hx
        simp at hl'
        rcases hl' with rfl | rfl | hl'
        · simp at hx; rw [hx]
        · exact h.2 _ (List.mem_cons_self _ _) x hx
        · exact h.2 l' (List.mem_cons_of_mem _ hl') x hx
    · split
      · rename_i heq
        refine ⟨List.pairwise_cons.2 ⟨hp.1, hp.2⟩, ?_⟩
        intro l' hl' x hx
        simp at hl'
        rcases hl' with rfl | hl'
        · simp at hx
          rcases hx with hx | rfl
          · exact h.2 _ (List.mem_cons_self _ _) x hx
          · exact heq.symm
        · exact h.2 l' (List.mem_cons_of_mem _ hl') x hx
      · rename_i hnlt hne
        have hwf := ih (well_formed_tail h)
        have hlt : key_lt l.first (sort_key it) = true := key_lt_of_not hnlt hne
        refine ⟨List.pairwise_cons.2 ⟨?_, hwf.1⟩, ?_⟩
        · intro l' hl'
          rcases insert_first it ls l' hl' with h1 | ⟨l0, h0, h1⟩
          · rw [h1]; exact hlt
          · rw [h1]; exact hp.1 l0 h0
        · intro l' hl' x hx
          simp at hl'
          rcases hl' with rfl | hl'
          · exact h.2 _ (List.mem_cons_self _ _) x hx
          · exact hwf.2 l' hl' x hx

theorem well_formed_erase (id : Nat) (ls : List layer) (h : well_formed ls) :
    well_formed (erase id ls) := by
  refine ⟨?_, ?_⟩
  · simp only [erase, List.pairwise_map]
    exact h.1
  · intro l' hl' x hx
    simp only [erase, List.mem_map] at hl'
    obtain ⟨l0, h0, rfl⟩ := hl'
    simp only [List.mem_filter] at hx
    exact h.2 l0 h0 x hx.1

theorem sorted_of_well_formed (ls : List layer) (h : well_formed ls) :
    (items ls).Pairwise (fun a b => key_le (sort_key a) (sort_key b)) := by
  induction ls with
  | nil => simp [items]
  | cons l ls ih =>
    simp only [items, List.pairwise_append]
    refine ⟨?_, ih (well_formed_tail h), ?_⟩
    · apply List.pairwise_of_forall_mem_list
      intro a ha b hb
      rw [h.2 l (List.mem_cons_self _ _) a ha, h.2 l (List.mem_cons_self _ _) b hb]
      unfold key_le
      omega
    · intro a ha b hb
      rw [h.2 l (List.mem_cons_self _ _) a ha]
      exact key_le_of_lt (well_formed_tail_gt h b hb)

theorem filter_key_eq_nil (k : Int × Int) (l : List item)
    (h : ∀ x ∈ l, key_lt k (sort_key x) = true) :
    l.filter (fun x => decide (sort_key x = k)) = [] := by
  rw [List.filter_eq_nil_iff]
  intro x hx
  have := key_lt_ne (h x hx)
  simpa using fun e => this e.symm

theorem filter_key_insert (it : item) (ls : List layer) (h : well_formed ls) (k : Int × Int) :
    (items (insert it ls)).filter (fun x => decide (sort_key x = k)) =
      (items ls).filter (fun x => decide (sort_key x = k)) ++
        (if sort_key it = k then [it] else []) := by
  induction ls with
  | nil =>
    by_cases hk : sort_key it = k <;> simp [insert, items, hk]
  | cons l ls ih =>
    simp only [insert]
    split
    · rename_i hlt
      by_cases hk : sort_key it = k
      · have hnil : (items (l :: ls)).filter (fun x => decide (sort_key x = k)) = [] := by
          apply filter_key_eq_nil
          intro x hx
          simp only [items, List.mem_append] at hx
          rw [← hk]
          rcases hx with hx | hx
          · rw [h.2 l (List.mem_cons_self _ _) x hx]; exact hlt
          · exact key_lt_trans hlt (well_formed_tail_gt h x hx)
        simp only [items, List.nil_append, List.singleton_append] at hnil ⊢
        simp [hk, hnil]
      · simp [items, hk]
    · split
      · rename_i heq
        by_cases hk : sort_key it = k
        · have hnil : (items ls).filter (fun x => decide (sort_key x = k)) = [] := by
            apply filter_key_eq_nil
            intro x hx
            rw [← hk, ← heq]
            exact well_formed_tail_gt h x hx
          simp [items, hk, hnil]
        · simp [items, hk]
      · simp only [items, List.filter_append, ih (well_formed_tail h), List.append_assoc]

theorem eq_of_id_eq {l : List item} (h : (l.map (fun it => it.id)).Nodup) {a b : item}
    (ha : a ∈ l) (hb : b ∈ l) (hab : a.id = b.id) : a = b :=
  List.inj_on_of_nodup_map h ha hb hab

theorem items_replace_map {β : Type} (g : item → β) (id : Nat) (ls : List layer)
    (it it' : item) (hn : ((items ls).map (fun it => it.id)).Nodup)
    (hfind : find id ls = some it) (hid : it'.id = it.id) (hg : g it' = g it) :
    (items (replace it' ls)).map g = (items ls).map g := by
  rw [items_replace, List.map_map]
  apply List.map_congr_left
  intro x hx
  simp only [Function.comp]
  split
  · rename_i hx'
    have : x = it := eq_of_id_eq hn hx (find_mem id ls it hfind) (by rw [hx', hid])
    rw [hg, this]
  · rfl

theorem well_formed_replace (id : Nat) (ls : List layer) (it it' : item)
    (h : well_formed ls) (hn : ((items ls).map (fun it => it.id)).Nodup)
    (hfind : find id ls = some it) (hid : it'.id = it.id)
    (hkey : sort_key it' = sort_key it) :
    well_formed (replace it' ls) := by
  refine ⟨?_, ?_⟩
  · simp only [replace, List.pairwise_map]
    exact h.1
  · intro l' hl' x hx
    simp only [replace, List.mem_map] at hl'
    obtain ⟨l0, h0, rfl⟩ := hl'
    simp only [List.mem_map] at hx
    obtain ⟨y, hy, rfl⟩ := hx
    split
    · rename_i hy'
      have hmem : y ∈ items ls := mem_items.2 ⟨l0, h0, hy⟩
      have : y = it := eq_of_id_eq hn hmem (find_mem id ls it hfind) (by rw [hy', hid])
      rw [hkey, ← this]
      exact h.2 l0 h0 y hy
    · exact h.2 l0 h0 y hy

theorem ids_valid_insert (it : item) (ls : List layer) (n m : Nat)
    (h : ids_valid ls n) (hnew : ∀ x ∈ items ls, x.id ≠ it.id) (hlt : it.id < m) (hnm : n ≤ m) :
    ids_valid (insert it ls) m := by
  have hp := items_insert_perm it ls
  refine ⟨?_, ?_⟩
  · rw [(hp.map _).nodup_iff]
    simp only [List.map_cons, List.nodup_cons, List.mem_map, not_exists, not_and]
    exact ⟨fun x hx => hnew x hx, h.1⟩
  · intro x hx
    have := hp.mem_iff.1 hx
    simp at this
    rcases this with rfl | hx'
    · exact hlt
    · exact Nat.lt_of_lt_of_le (h.2 x hx') hnm

theorem ids_valid_erase (id : Nat) (ls : List layer) (n : Nat) (h : ids_valid ls n) :
    ids_valid (erase id ls) n := by
  rw [ids_valid, items_erase]
  refine ⟨?_, ?_⟩
  · exact h.1.sublist ((List.filter_sublist _).map _)
  · intro x hx
    exact h.2 x (List.mem_filter.1 hx).1

theorem ids_valid_replace (id : Nat) (ls : List layer) (n : Nat) (it it' : item)
    (h : ids_valid ls n) (hfind : find id ls = some it) (hid : it'.id = it.id) :
    ids_valid (replace it' ls) n := by
  have hmap := items_replace_map (fun it => it.id) id ls it it' h.1 hfind hid hid
  refine ⟨by rw [hmap]; exact h.1, ?_⟩
  intro x hx
  rw [items_replace] at hx
  simp only [List.mem_map] at hx
  obtain ⟨y, hy, rfl⟩ := hx
  split
  · rw [hid]; exact h.2 it (find_mem id ls it hfind)
  · exact h.2 y hy

theorem erase_no_id (id : Nat) (ls : List layer) : ∀ x ∈ items (erase id ls), x.id ≠ id := by
  intro x hx
  rw [items_erase] at hx
  simpa using (List.mem_filter.1 hx).2

end sorted_sprites

/-! ### Sequences of operations on the sort index -/

namespace sort_op
open sorted_sprites sprites_manager

theorem entries_filter_key (l : List item) (k : Int × Int) :
    (l.map entry).filter (fun e => decide (e.2 = k)) =
      (l.filter (fun x => decide (sort_key x = k))).map entry := by
  rw [List.filter_map]
  rfl

theorem inv_insert (s : State) (lg : List (Nat × (Int × Int))) (it : item) (d : static_data)
    (h : inv (s, lg)) (hnew : ∀ x ∈ items s.layers, x.id ≠ it.id)
    (hlt : it.id < d.items_pool_size) (hle : s.data.items_pool_size ≤ d.items_pool_size) :
    inv ({ s with data := d, layers := insert it s.layers }, lg ++ [entry it]) := by
  obtain ⟨hwf, hids, hlog⟩ := h
  refine ⟨well_formed_insert it _ hwf, ids_valid_insert it _ _ _ hids hnew hlt hle, ?_⟩
  intro k
  have := hlog k
  simp only [entries_filter_key] at this ⊢
  rw [filter_key_insert it _ hwf k, List.map_append, this, List.filter_append]
  by_cases hk : sort_key it = k
  · simp [hk, entry]
  · simp [hk, entry]

theorem inv_erase (s : State) (lg : List (Nat × (Int × Int))) (id : Nat) (d : static_data)
    (h : inv (s, lg)) (hd : d.items_pool_size = s.data.items_pool_size) :
    inv ({ s with data := d, layers := erase id s.layers },
      lg.filter (fun e => e.1 != id)) := by
  obtain ⟨hwf, hids, hlog⟩ := h
  refine ⟨well_formed_erase id _ hwf, by simpa [hd] using ids_valid_erase id _ _ hids, ?_⟩
  intro k
  have e1 : ((items s.layers).filter (fun x => x.id != id)).map entry =
      ((items s.layers).map entry).filter (fun e => e.1 != id) := by
    rw [List.filter_map]
    rfl
  simp only [items_erase]
  rw [e1, List.filter_comm, hlog k, List.filter_comm]

theorem item_create_id (camera_position : fixed_point) (m : affine_mats_state) (id : Nat)
    (b : sprite_builder) (t : sprite_tiles_ptr) (p : sprite_palette_ptr) :
    (item.create camera_position m id b t p).id = id ∧
    sort_key (item.create camera_position m id b t p) = (b.bg_priority, b.z_order) := by
  unfold item.create
  simp only
  split <;> exact ⟨rfl, rfl⟩

theorem inv_replace (s : State) (lg : List (Nat × (Int × Int))) (id : Nat) (it it' : item)
    (h : inv (s, lg)) (hfind : find id s.layers = some it) (hid : it'.id = it.id)
    (hkey : sort_key it' = sort_key it) :
    inv ({ s with layers := replace it' s.layers }, lg) := by
  obtain ⟨hwf, hids, hlog⟩ := h
  refine ⟨well_formed_replace id _ it it' hwf hids.1 hfind hid hkey,
    ids_valid_replace id _ _ it it' hids hfind hid, ?_⟩
  intro k
  have : (items (replace it' s.layers)).map entry = (items s.layers).map entry :=
    items_replace_map entry id _ it it' hids.1 hfind hid (by simp [entry, hid, hkey])
  simp only [this]
  exact hlog k

theorem inv_reinsert (s : State) (lg : List (Nat × (Int × Int))) (id : Nat) (it it' : item)
    (d : static_data) (h : inv (s, lg)) (hfind : find id s.layers = some it)
    (hid : it'.id = it.id) (hd : d.items_pool_size = s.data.items_pool_size) :
    inv ({ s with data := d, layers := insert it' (erase id s.layers) },
      lg.filter (fun e => e.1 != id) ++ [(id, sort_key it')]) := by
  have hid0 : it.id = id := find_id id s.layers it hfind
  have h1 := inv_erase s lg id s.data h rfl
  have h2 := inv_insert _ _ it' d h1
    (fun x hx => by rw [hid, hid0]; exact erase_no_id id s.layers x hx)
    (by rw [hid, hd]; exact h.2.1.2 it (find_mem id s.layers it hfind))
    (by simp [hd])
  simpa [entry, hid, hid0] using h2

theorem inv_step (cfg : config) (camera_position : fixed_point) (o : sort_op) (s s' : State)
    (lg : List (Nat × (Int × Int))) (h : inv (s, lg))
    (ha : o.apply cfg camera_position s = some s') :
    inv (s', o.log cfg camera_position s lg) := by
  cases o with
  | create b =>
    simp only [apply, Option.some.injEq] at ha
    subst ha
    simp only [log, sprites_manager.create]
    by_cases hfull : s.data.items_pool_size ≥ cfg.max_items
    · simpa [hfull] using h
    · simp only [hfull, if_false]
      cases ht : b.tiles with
      | none => simpa using h
      | some t =>
        cases hp : b.palette with
        | none => simpa using h
        | some p =>
          simp only
          obtain ⟨hid, hkey⟩ := item_create_id camera_position s.affine_mats
            s.data.items_pool_size b t p
          have := inv_insert s lg
            (item.create camera_position s.affine_mats s.data.items_pool_size b t p)
            (if b.visible = true then
              { s.data with items_pool_size := s.data.items_pool_size + 1,
                            check_items_on_screen := true }
            else { s.data with items_pool_size := s.data.items_pool_size + 1 }) h
            (fun x hx => by rw [hid]; exact Nat.ne_of_lt (h.2.1.2 x hx))
            (by rw [hid]; split <;> simp)
            (by split <;> simp)
          simp only [entry, hid, hkey] at this
          by_cases hv : b.visible = true
          · simpa [hv, hid] using this
          · simpa [hv, hid] using this
  | set_bg_priority id p =>
    simp only [apply, sprites_manager.set_bg_priority] at ha
    simp only [log]
    split at ha
    · cases hfind : find id s.layers with
      | none =>
        simp only [hfind, Option.some.injEq] at ha
        subst ha
        simpa [hfind] using h
      | some it =>
        simp only [hfind] at ha
        dsimp only
        by_cases hne : p ≠ it.bg_priority
        · rw [if_pos hne, Option.some.injEq] at ha
          subst ha
          rw [if_pos hne]
          exact inv_reinsert s lg id it _ _ h hfind rfl (by split <;> rfl)
        · rw [if_neg hne, Option.some.injEq] at ha
          subst ha
          rw [if_neg hne]
          exact h
    · simp at ha
  | set_z_order id z =>
    simp only [apply, sprites_manager.set_z_order] at ha
    simp only [log]
    split at ha
    · cases hfind : find id s.layers with
      | none =>
        simp only [hfind, Option.some.injEq] at ha
        subst ha
        simpa [hfind] using h
      | some it =>
        simp only [hfind] at ha
        dsimp only
        by_cases hne : z ≠ it.z_order
        · rw [if_pos hne, Option.some.injEq] at ha
          subst ha
          rw [if_pos hne]
          exact inv_reinsert s lg id it _ _ h hfind rfl (by split <;> rfl)
        · rw [if_neg hne, Option.some.injEq] at ha
          subst ha
          rw [if_neg hne]
          exact h
    · simp at ha
  | release id =>
    simp only [apply, Option.some.injEq] at ha
    subst ha
    simp only [log, decrease_usages]
    cases hfind : find id s.layers with
    | none => simpa [hfind] using h
    | some it =>
      simp only
      by_cases hz : it.usages - 1 = 0
      · simp only [hz, if_true]
        exact inv_erase s lg id _ h (by split <;> rfl)
      · simp only [hz, if_false]
        exact inv_replace s lg id it _ h hfind rfl rfl

theorem inv_run (cfg : config) (camera_position : fixed_point) (os : List sort_op)
    (sl sl' : State × List (Nat × (Int × Int))) (h : inv sl)
    (hr : run cfg camera_position os sl = some sl') : inv sl' := by
  induction os generalizing sl with
  | nil =>
    simp only [run, Option.some.injEq] at hr
    rw [← hr]; exact h
  | cons o os ih =>
    simp only [run] at hr
    cases ha : o.apply cfg camera_position sl.1 with
    | none => simp [ha] at hr
    | some s' =>
      simp only [ha] at hr
      exact ih _ (inv_step cfg camera_position o sl.1 s' sl.2 h ha) hr

theorem inv_init (cfg : config) (m : affine_mats_state) : inv (init cfg m, []) := by
  refine ⟨well_formed_nil, ?_, ?_⟩
  · simp [ids_valid, init, items]
  · intro k
    simp [init, items]

end sort_op

/-! ### Stable sorting by key -/

namespace sorted_sprites

instance entry_le_total : IsTotal (Nat × (Int × Int)) entry_le :=
  ⟨fun a b => by unfold entry_le key_le; omega⟩

instance entry_le_trans : IsTrans (Nat × (Int × Int)) entry_le :=
  ⟨fun a b c h1 h2 => by unfold entry_le key_le at *; omega⟩

theorem entry_key_eq_of_le {a b : Nat × (Int × Int)} (h1 : entry_le a b) (h2 : entry_le b a) :
    a.2 = b.2 := by
  unfold entry_le key_le at *
  exact Prod.ext (by omega) (by omega)

theorem filter_key_orderedInsert (a : Nat × (Int × Int)) (l : List (Nat × (Int × Int)))
    (k : Int × Int) :
    (List.orderedInsert entry_le a l).filter (fun e => decide (e.2 = k)) =
      (if a.2 = k then [a] else []) ++ l.filter (fun e => decide (e.2 = k)) := by
  induction l with
  | nil => by_cases h : a.2 = k <;> simp [h]
  | cons b l ih =>
    simp only [List.orderedInsert]
    split
    · by_cases h : a.2 = k <;> simp [List.filter_cons, h]
    · rename_i hnle
      have hne : b.2 ≠ a.2 := by
        intro e
        apply hnle
        unfold entry_le key_le
        rw [e]
        omega
      rw [List.filter_cons, ih]
      by_cases hb : b.2 = k
      · have ha : ¬ a.2 = k := fun e => hne (hb.trans e.symm)
        simp [hb, ha, List.filter_cons]
      · by_cases ha : a.2 = k <;> simp [hb, ha, List.filter_cons]

/-- Insertion sort by key is stable: for every key it keeps the entries of
that key in their original order. -/
theorem filter_key_insertionSort (l : List (Nat × (Int × Int))) (k : Int × Int) :
    (List.insertionSort entry_le l).filter (fun e => decide (e.2 = k)) =
      l.filter (fun e => decide (e.2 = k)) := by
  induction l with
  | nil => rfl
  | cons a l ih =>
    rw [List.insertionSort, filter_key_orderedInsert, ih]
    by_cases h : a.2 = k <;> simp [List.filter_cons, h]

/-- Two lists sorted by key that agree, for every key, on the sequence of
their entries of that key are equal. -/
theorem eq_of_sorted_of_filter_key_eq (l1 l2 : List (Nat × (Int × Int)))
    (h1 : l1.Pairwise entry_le) (h2 : l2.Pairwise entry_le)
    (h : ∀ k : Int × Int, l1.filter (fun e => decide (e.2 = k)) =
      l2.filter (fun e => decide (e.2 = k))) : l1 = l2 := by
  have mem12 : ∀ {l1 l2 : List (Nat × (Int × Int))},
      (∀ k : Int × Int, l1.filter (fun e => decide (e.2 = k)) =
        l2.filter (fun e => decide (e.2 = k))) → ∀ x ∈ l1, x ∈ l2 := by
    intro l1 l2 h x hx
    have : x ∈ l1.filter (fun e => decide (e.2 = x.2)) := List.mem_filter.2 ⟨hx, by simp⟩
    rw [h] at this
    exact (List.mem_filter.1 this).1
  induction l1 generalizing l2 with
  | nil =>
    cases l2 with
    | nil => rfl
    | cons b t2 =>
      have := mem12 (fun k => (h k).symm) b (List.mem_cons_self _ _)
      simp at this
  | cons a t1 ih =>
    cases l2 with
    | nil =>
      have := mem12 h a (List.mem_cons_self _ _)
      simp at this
    | cons b t2 =>
      have hp1 := List.pairwise_cons.1 h1
      have hp2 := List.pairwise_cons.1 h2
      have hab : entry_le a b := by
        have := mem12 (fun k => (h k).symm) b (List.mem_cons_self _ _)
        rcases List.mem_cons.1 this with e | hm
        · rw [e]; unfold entry_le key_le; omega
        · exact hp1.1 b hm
      have hba : entry_le b a := by
        have := mem12 h a (List.mem_cons_self _ _)
        rcases List.mem_cons.1 this with e | hm
        · rw [e]; unfold entry_le key_le; omega
        · exact hp2.1 a hm
      have hkey := entry_key_eq_of_le hab hba
      have e := h a.2
      simp only [List.filter_cons, hkey, decide_True, if_true] at e
      rw [← hkey] at e
      simp only [decide_True, if_true, List.cons.injEq] at e
      obtain ⟨rfl, _⟩ := e
      congr 1
      apply ih t2 hp1.2 hp2.2
      intro k
      have e := h k
      simp only [List.filter_cons] at e
      split at e
      · exact (List.cons.inj e).2
      · exact e

end sorted_sprites

/-! ### The traversal order -/

namespace sort_op
open sorted_sprites sprites_manager

/-- C6: after every sequence of `create` / `set_bg_priority` / `set_z_order` /
release (`decrease_usages`) operations run from the initial state, traversing
the sort index visits the live records in the order of a stable sort, by
ascending (priority, z-order), of the insertion log (the live records in the
order of their latest insertion into the index): the traversal equals the
insertion sort of the log, it is ascending in the key, and for every key the
records of that key come in insertion order.  Creating three records with
priorities `[1, 0, 2]` and z-orders `[5, 5, 1]` yields the traversal
priority 0, priority 1, priority 2. -/
theorem sort_index_order_is_stable_sort (cfg : config) (camera_position : fixed_point)
    (m : affine_mats_state) :
    (∀ (os : List sort_op) (s : State) (lg : List (Nat × (Int × Int))),
      run cfg camera_position os (init cfg m, []) = some (s, lg) →
        (items s.layers).map entry = List.insertionSort entry_le lg ∧
        (items s.layers).Pairwise (fun a b => key_le (sort_key a) (sort_key b)) ∧
        ∀ k : Int × Int,
          ((items s.layers).map entry).filter (fun e => decide (e.2 = k)) =
            lg.filter (fun e => decide (e.2 = k))) ∧
    (run sample.cfg sample.camera
        [create (sample.builder 1 5 10 10), create (sample.builder 0 5 20 20),
         create (sample.builder 2 1 300 20)]
        (init sample.cfg sample.mats, [])).map
      (fun sl => (items sl.1.layers).map (fun it => (it.bg_priority, it.z_order))) =
      some [(0, 5), (1, 5), (2, 1)] := by
  refine ⟨?_, by decide⟩
  intro os s lg hr
  obtain ⟨hwf, _, hlog⟩ := inv_run cfg camera_position os _ _ (inv_init cfg m) hr
  have hsorted := sorted_of_well_formed _ hwf
  refine ⟨?_, hsorted, hlog⟩
  apply eq_of_sorted_of_filter_key_eq
  · rw [List.pairwise_map]
    exact hsorted
  · exact List.sorted_insertionSort entry_le lg
  · intro k
    rw [filter_key_insertionSort]
    exact hlog k

theorem sort_index_order_is_stable_sort_witness :
    (items sample.s3.layers).map entry =
      List.insertionSort entry_le [(0, (1, 5)), (1, (0, 5)), (2, (2, 1))] ∧
    (items sample.s3.layers).Pairwise (fun a b => key_le (sort_key a) (sort_key b)) ∧
    ∀ k : Int × Int,
      ((items sample.s3.layers).map entry).filter (fun e => decide (e.2 = k)) =
        [(0, (1, 5)), (1, (0, 5)), (2, (2, 1))].filter (fun e => decide (e.2 = k)) :=
  (sort_index_order_is_stable_sort sample.cfg sample.camera sample.mats).1 sample.ops3
    sample.s3 [(0, (1, 5)), (1, (0, 5)), (2, (2, 1))] (by decide)

end sort_op

/-! ### Slot invariants of the reachable states -/

namespace sprites_manager
open sorted_sprites

theorem slots_ok_perm {cap : Nat} {l l' : List (Nat × Int × Bool)} {r : Bool} {p : Nat}
    (hp : l.Perm l') (h : slots_ok cap l r p) : slots_ok cap l' r p := by
  obtain ⟨h1, h2, h3, h4, h5⟩ := h
  refine ⟨(hp.map _).nodup_iff.1 h1, fun e he => h2 e (hp.mem_iff.2 he),
    fun e he => h3 e (hp.mem_iff.2 he), ((hp.map _).filter _).nodup_iff.1 h4,
    fun hr e he => h5 hr e (hp.mem_iff.2 he)⟩

theorem slots_ok_sublist {cap : Nat} {l l' : List (Nat × Int × Bool)} {r : Bool} {p : Nat}
    (hs : l'.Sublist l) (h : slots_ok cap l r p) : slots_ok cap l' r p := by
  obtain ⟨h1, h2, h3, h4, h5⟩ := h
  refine ⟨h1.sublist (hs.map _), fun e he => h2 e (hs.subset he),
    fun e he => h3 e (hs.subset he), h4.sublist ((hs.map _).filter _),
    fun hr e he => h5 hr e (hs.subset he)⟩

theorem slots_ok_flag {cap : Nat} {l : List (Nat × Int × Bool)} {r r' : Bool} {p p' : Nat}
    (h : slots_ok cap l r p) (hr : r' = false → r = false) (hp : p ≤ p') :
    slots_ok cap l r' p' := by
  obtain ⟨h1, h2, h3, h4, h5⟩ := h
  exact ⟨h1, fun e he => Nat.lt_of_lt_of_le (h2 e he) hp, h3, h4, fun h' => h5 (hr h')⟩

theorem slots_ok_cons_unassigned {cap : Nat} {l : List (Nat × Int × Bool)} {r : Bool}
    {p : Nat} (h : slots_ok cap l r p) (b : Bool) :
    slots_ok cap ((p, -1, b) :: l) r (p + 1) := by
  obtain ⟨h1, h2, h3, h4, h5⟩ := h
  refine ⟨?_, ?_, ?_, ?_, ?_⟩
  · simp only [List.map_cons, List.nodup_cons, List.mem_map, not_exists, not_and]
    exact ⟨fun e he heq => by have := h2 e he; omega, h1⟩
  · intro e he
    rcases List.mem_cons.1 he with rfl | he
    · simp
    · exact Nat.lt_succ_of_lt (h2 e he)
  · intro e he
    rcases List.mem_cons.1 he with rfl | he
    · intro h0; simp at h0
    · exact h3 e he
  · simpa using h4
  · intro hr e he
    rcases List.mem_cons.1 he with rfl | he
    · intro h0; simp at h0
    · exact h5 hr e he

/-- The slot invariants carry over to a state with the same identities and
slot indices in which, unless a recompaction is pending, no `on_screen` flag
has changed. -/
theorem slots_ok_of_same_slots {cap : Nat} {l l' : List (Nat × Int × Bool)} {r r' : Bool}
    {p : Nat} (h : slots_ok cap l r p)
    (hsame : l'.map (fun e => (e.1, e.2.1)) = l.map (fun e => (e.1, e.2.1)))
    (hflag : r' = false → r = false ∧ l' = l) : slots_ok cap l' r' p := by
  obtain ⟨h1, h2, h3, h4, h5⟩ := h
  have hid : l'.map (fun e => e.1) = l.map (fun e => e.1) := by
    have := congrArg (List.map (fun (e : Nat × Int) => e.1)) hsame
    simpa [List.map_map, Function.comp_def] using this
  have hidx : l'.map (fun e => e.2.1) = l.map (fun e => e.2.1) := by
    have := congrArg (List.map (fun (e : Nat × Int) => e.2)) hsame
    simpa [List.map_map, Function.comp_def] using this
  have hmem : ∀ e ∈ l', ∃ e0 ∈ l, e0.1 = e.1 ∧ e0.2.1 = e.2.1 := by
    intro e he
    have : (e.1, e.2.1) ∈ l'.map (fun e => (e.1, e.2.1)) := List.mem_map.2 ⟨e, he, rfl⟩
    rw [hsame] at this
    obtain ⟨e0, he0, heq⟩ := List.mem_map.1 this
    simp only [Prod.mk.injEq] at heq
    exact ⟨e0, he0, heq.1, heq.2⟩
  refine ⟨by rw [hid]; exact h1, ?_, ?_, by rw [hidx]; exact h4, ?_⟩
  · intro e he
    obtain ⟨e0, he0, h01, _⟩ := hmem e he
    rw [← h01]; exact h2 e0 he0
  · intro e he
    obtain ⟨e0, he0, _, h02⟩ := hmem e he
    rw [← h02]; exact h3 e0 he0
  · intro hr e he
    obtain ⟨hr0, hl⟩ := hflag hr
    rw [hl] at he
    exact h5 hr0 e he

theorem _update_handles_frame (it : item) (d : static_data) :
    (_update_handles it d).rebuild_handles = d.rebuild_handles ∧
    (_update_handles it d).items_pool_size = d.items_pool_size ∧
    (_update_handles it d).check_items_on_screen = d.check_items_on_screen ∧
    (_update_handles it d).last_visible_items_count = d.last_visible_items_count := by
  unfold _update_handles
  simp only
  split <;> exact ⟨rfl, rfl, rfl, rfl⟩

theorem frame_set_position_item (camera_position position : fixed_point) :
    frame_fn (set_position_item camera_position position) := by
  intro it d
  unfold set_position_item
  simp only
  split
  · exact ⟨rfl, (_update_handles_frame _ d).1, (_update_handles_frame _ d).2.1⟩
  · exact ⟨rfl, (_update_handles_frame _ d).1, (_update_handles_frame _ d).2.1⟩

theorem frame_update_handles (g : item → item) (hg : ∀ it, slot_info (g it) = slot_info it) :
    frame_fn (fun it d => (g it, _update_handles (g it) d)) := by
  intro it d
  exact ⟨hg it, (_update_handles_frame _ d).1, (_update_handles_frame _ d).2.1⟩

theorem frame_assign_affine_mat (camera_position : fixed_point) (m : affine_mats_state)
    (a : Nat) : frame_fn (_assign_affine_mat camera_position m a) := by
  intro it d
  unfold _assign_affine_mat
  simp only
  split
  · exact frame_set_position_item camera_position _ _ d
  · exact ⟨rfl, (_update_handles_frame _ d).1, (_update_handles_frame _ d).2.1⟩

theorem frame_remove_affine_mat (camera_position : fixed_point) (m : affine_mats_state) :
    frame_fn (_remove_affine_mat camera_position m) := by
  intro it d
  unfold _remove_affine_mat
  split
  · exact ⟨rfl, rfl, rfl⟩
  · simp only
    split
    · exact frame_set_position_item camera_position _ _ d
    · exact ⟨rfl, (_update_handles_frame _ d).1, (_update_handles_frame _ d).2.1⟩

theorem frame_check_affine_mats_item (camera_position : fixed_point) (m : affine_mats_state) :
    frame_fn (_check_affine_mats_item camera_position m) := by
  intro it d
  unfold _check_affine_mats_item
  split
  · exact ⟨rfl, rfl, rfl⟩
  · split
    · split
      · exact frame_remove_affine_mat camera_position m it d
      · split
        · simp only
          split
          · exact frame_set_position_item camera_position _ _ d
          · exact ⟨rfl, rfl, rfl⟩
        · exact ⟨rfl, rfl, rfl⟩
    · exact ⟨rfl, rfl, rfl⟩

theorem with_item_frame (id : Nat) (f : item → static_data → item × static_data) (s : State)
    (hn : ((items s.layers).map (fun it => it.id)).Nodup) (hf : frame_fn f) :
    (items (with_item id f s).layers).map slot_info = (items s.layers).map slot_info ∧
    (with_item id f s).data.rebuild_handles = s.data.rebuild_handles ∧
    (with_item id f s).data.items_pool_size = s.data.items_pool_size := by
  unfold with_item
  cases hfind : find id s.layers with
  | none => exact ⟨rfl, rfl, rfl⟩
  | some it =>
    obtain ⟨h1, h2, h3⟩ := hf it s.data
    refine ⟨?_, h2, h3⟩
    exact items_replace_map slot_info id s.layers it _ hn hfind
      (by have := congrArg Prod.fst h1; exact this) h1

theorem for_each_in_layer_frame (body : item → static_data → item × static_data)
    (hf : frame_fn body) (l : List item) (d : static_data) :
    (for_each_in_layer body l d).1.map slot_info = l.map slot_info ∧
    (for_each_in_layer body l d).2.rebuild_handles = d.rebuild_handles ∧
    (for_each_in_layer body l d).2.items_pool_size = d.items_pool_size := by
  induction l generalizing d with
  | nil => exact ⟨rfl, rfl, rfl⟩
  | cons x xs ih =>
    obtain ⟨h1, h2, h3⟩ := hf x d
    obtain ⟨i1, i2, i3⟩ := ih (body x d).2
    simp only [for_each_in_layer, List.map_cons]
    exact ⟨by rw [h1, i1], by rw [i2, h2], by rw [i3, h3]⟩

theorem for_each_item_frame (body : item → static_data → item × static_data)
    (hf : frame_fn body) (ls : List layer) (d : static_data) :
    (items (for_each_item body ls d).1).map slot_info = (items ls).map slot_info ∧
    (for_each_item body ls d).2.rebuild_handles = d.rebuild_handles ∧
    (for_each_item body ls d).2.items_pool_size = d.items_pool_size := by
  have h := for_each_item_items body ls d
  have h1 : items (for_each_item body ls d).1 = (for_each_in_layer body (items ls) d).1 := by
    rw [← h]
  have h2 : (for_each_item body ls d).2 = (for_each_in_layer body (items ls) d).2 := by
    rw [← h]
  rw [h1, h2]
  exact for_each_in_layer_frame body hf (items ls) d

theorem rebuild_loop_bound (cfg : config) (its : List item) (n : Nat) (hs : List handle)
    (q : List item × (Nat × List handle))
    (h : for_each_in_layer_checked (_rebuild_handles_item cfg) its (n, hs) = some q) :
    visible_count its = 0 ∨ n + visible_count its ≤ cfg.sprites_count := by
  induction its generalizing n hs q with
  | nil => left; rfl
  | cons it rest ih =>
    rw [for_each_in_layer_checked_cons] at h
    rw [visible_count_cons]
    by_cases hon : it.on_screen = true
    · by_cases hlt : n < cfg.sprites_count
      · simp [_rebuild_handles_item, hon, hlt] at h
        obtain ⟨its1, n1, hs1, hq, _⟩ := h
        rcases ih (n + 1) _ _ hq with h0 | h1
        · right; simp [hon, h0]; omega
        · right; simp [hon]; omega
      · simp [_rebuild_handles_item, hon, hlt] at h
    · simp [_rebuild_handles_item, hon] at h
      obtain ⟨its1, n1, hs1, hq, _⟩ := h
      rcases ih n _ _ hq with h0 | h1
      · left; simp [hon, h0]
      · right; simpa [hon] using h1

theorem slots_inv_of_frame (cfg : config) (s s' : State) (h : slots_inv cfg s)
    (h1 : (items s'.layers).map slot_info = (items s.layers).map slot_info)
    (h2 : s'.data.rebuild_handles = s.data.rebuild_handles)
    (h3 : s'.data.items_pool_size = s.data.items_pool_size) : slots_inv cfg s' := by
  unfold slots_inv at *
  rw [h1, h2, h3]
  exact h

theorem slots_inv_ids (cfg : config) (s : State) (h : slots_inv cfg s) :
    ((items s.layers).map (fun it => it.id)).Nodup := by
  have := h.1
  simpa [List.map_map, Function.comp_def, slot_info] using this

/-- A completed recompaction establishes the slot invariants. -/
theorem slots_inv_rebuild (cfg : config) (s s' : State) (hcap : cfg.sprites_count ≤ 128)
    (h : slots_inv cfg s) (hflag : s.data.rebuild_handles = true)
    (hs' : _rebuild_handles cfg s = some s') : slots_inv cfg s' := by
  cases hr : for_each_item_checked (_rebuild_handles_item cfg) s.layers (0, s.data.handles) with
  | none => simp [_rebuild_handles, hflag, hr] at hs'
  | some r =>
    obtain ⟨s2, hs2, hl, _, _, hrb, _, hpool, _⟩ := _rebuild_handles_result cfg s r hflag hr
    rw [hs2, Option.some.injEq] at hs'
    subst hs'
    have hq := flat_of_for_each_item_checked _ _ _ _ hr
    have hb := rebuild_loop_bound cfg _ _ _ _ hq
    have hvc : visible_count (items s.layers) ≤ cfg.sprites_count := by omega
    obtain ⟨g1, g2, g3, g4, g5, g6⟩ :=
      rebuild_loop_slots cfg (items s.layers) s.data.handles _ (by omega) hq
    obtain ⟨_, k3, _⟩ := rebuild_loop_spec cfg (items s.layers) 0 s.data.handles _ hq
    simp only at g1 g2 g3 g4 g5 g6 k3
    have hids : (items r.1).map (fun it => it.id) = (items s.layers).map (fun it => it.id) := by
      have := congrArg (List.map (fun (it : item) => it.id)) k3
      simpa [List.map_map, Function.comp_def] using this
    unfold slots_inv
    rw [hl, hrb, hpool]
    obtain ⟨i1, i2, _⟩ := h
    refine ⟨?_, ?_, ?_, ?_, ?_⟩
    · simp only [List.map_map, Function.comp_def, slot_info] at i1 ⊢
      rw [hids]; exact i1
    · intro e he
      obtain ⟨it, hit, rfl⟩ := List.mem_map.1 he
      have : it.id ∈ (items r.1).map (fun it => it.id) := List.mem_map.2 ⟨it, hit, rfl⟩
      rw [hids] at this
      obtain ⟨it0, hit0, he0⟩ := List.mem_map.1 this
      simp only [slot_info]
      rw [← he0]
      exact i2 (slot_info it0) (List.mem_map.2 ⟨it0, hit0, rfl⟩)
    · intro e he h0
      obtain ⟨it, hit, rfl⟩ := List.mem_map.1 he
      simp only [slot_info] at h0 ⊢
      have hon := (g1 it hit).1 h0
      have hmem : it.handles_index ∈
          ((items r.1).filter (fun it => it.on_screen)).map (fun it => it.handles_index) :=
        List.mem_map.2 ⟨it, List.mem_filter.2 ⟨hit, hon⟩, rfl⟩
      rw [g2] at hmem
      obtain ⟨k, hk, hk'⟩ := List.mem_map.1 hmem
      simp at hk
      omega
    · have e1 : (((items r.1).map slot_info).map (fun e => e.2.1)).filter
          (fun i => decide (0 ≤ i)) =
          ((items r.1).filter (fun it => it.on_screen)).map (fun it => it.handles_index) := by
        rw [List.map_map, List.filter_map]
        congr 1
        apply List.filter_congr
        intro it hit
        have := g1 it hit
        simp only [Function.comp, slot_info]
        by_cases hon : it.on_screen = true
        · simp [hon, this.2 hon]
        · have : ¬ 0 ≤ it.handles_index := fun h0 => hon (this.1 h0)
          simp [hon, this]
      rw [e1, g2]
      exact (List.nodup_range _).map (fun a b hab => by exact_mod_cast hab)
    · intro _ e he h0
      obtain ⟨it, hit, rfl⟩ := List.mem_map.1 he
      exact (g1 it hit).1 h0

theorem check_items_on_screen_loop (cfg : config) (camera_position : fixed_point)
    (l : List item) (rb : Bool) :
    ((for_each_in_layer (_check_items_on_screen_item cfg camera_position) l rb).1.map
        slot_info).map (fun e => (e.1, e.2.1)) =
      (l.map slot_info).map (fun e => (e.1, e.2.1)) ∧
    ((for_each_in_layer (_check_items_on_screen_item cfg camera_position) l rb).2 = false →
      rb = false ∧
      (for_each_in_layer (_check_items_on_screen_item cfg camera_position) l rb).1.map
        slot_info = l.map slot_info) := by
  induction l generalizing rb with
  | nil => exact ⟨rfl, fun h => ⟨h, rfl⟩⟩
  | cons x xs ih =>
    simp only [for_each_in_layer, List.map_cons]
    obtain ⟨i1, i2⟩ := ih (_check_items_on_screen_item cfg camera_position x rb).2
    have hx : (_check_items_on_screen_item cfg camera_position x rb).1.id = x.id ∧
        (_check_items_on_screen_item cfg camera_position x rb).1.handles_index =
          x.handles_index ∧
        ((_check_items_on_screen_item cfg camera_position x rb).2 = false →
          rb = false ∧
          (_check_items_on_screen_item cfg camera_position x rb).1.on_screen = x.on_screen) := by
      unfold _check_items_on_screen_item
      split
      · simp only
        split
        · exact ⟨rfl, rfl, fun h => by simp at h⟩
        · exact ⟨rfl, rfl, fun h => ⟨h, rfl⟩⟩
      · exact ⟨rfl, rfl, fun h => ⟨h, rfl⟩⟩
    refine ⟨?_, ?_⟩
    · rw [i1]
      simp only [slot_info, hx.1, hx.2.1]
    · intro hfin
      obtain ⟨j1, j2⟩ := i2 hfin
      obtain ⟨k1, k2⟩ := hx.2.2 j1
      refine ⟨k1, ?_⟩
      rw [j2]
      simp only [slot_info, hx.1, hx.2.1, k2]

theorem slots_inv_check_items_on_screen (cfg : config) (camera_position : fixed_point)
    (s : State) (h : slots_inv cfg s) :
    slots_inv cfg (_check_items_on_screen cfg camera_position s) := by
  unfold _check_items_on_screen
  split
  · simp only
    have hi := for_each_item_items (_check_items_on_screen_item cfg camera_position)
      s.layers s.data.rebuild_handles
    have h1 : items (for_each_item (_check_items_on_screen_item cfg camera_position)
        s.layers s.data.rebuild_handles).1 =
        (for_each_in_layer (_check_items_on_screen_item cfg camera_position)
          (items s.layers) s.data.rebuild_handles).1 := by rw [← hi]
    have h2 : (for_each_item (_check_items_on_screen_item cfg camera_position)
        s.layers s.data.rebuild_handles).2 =
        (for_each_in_layer (_check_items_on_screen_item cfg camera_position)
          (items s.layers) s.data.rebuild_handles).2 := by rw [← hi]
    obtain ⟨c1, c2⟩ := check_items_on_screen_loop cfg camera_position (items s.layers)
      s.data.rebuild_handles
    unfold slots_inv
    simp only [h1, h2]
    exact slots_ok_of_same_slots h c1 c2
  · exact h

/-- A record-level function that keeps the identity and the slot index of the
record and the occupancy of the pool, and that changes the `on_screen` flag
only while setting the rebuild flag. -/
theorem slots_inv_with_item_soft (cfg : config) (id : Nat)
    (f : item → static_data → item × static_data) (s : State) (h : slots_inv cfg s)
    (hf : ∀ it d, (f it d).1.id = it.id ∧ (f it d).1.handles_index = it.handles_index ∧
      (f it d).2.items_pool_size = d.items_pool_size ∧
      ((f it d).2.rebuild_handles = false →
        d.rebuild_handles = false ∧ (f it d).1.on_screen = it.on_screen)) :
    slots_inv cfg (with_item id f s) := by
  unfold with_item
  cases hfind : find id s.layers with
  | none => exact h
  | some it =>
    obtain ⟨f1, f2, f3, f4⟩ := hf it s.data
    have hn := slots_inv_ids cfg s h
    unfold slots_inv
    simp only [f3]
    apply slots_ok_of_same_slots h
    · have := items_replace_map (fun it => (it.id, it.handles_index)) id s.layers it _ hn hfind
        f1 (by simp only [f1, f2])
      simpa [List.map_map, Function.comp_def, slot_info] using this
    · intro hr
      obtain ⟨g1, g2⟩ := f4 hr
      exact ⟨g1, items_replace_map slot_info id s.layers it _ hn hfind f1
        (by simp only [slot_info, f1, f2, g2])⟩

theorem filter_id_eq_singleton (l : List item) (it : item)
    (hn : (l.map (fun it => it.id)).Nodup) (hit : it ∈ l) :
    l.filter (fun x => x.id == it.id) = [it] := by
  induction l with
  | nil => simp at hit
  | cons x xs ih =>
    simp only [List.map_cons, List.nodup_cons, List.mem_map, not_exists, not_and] at hn
    rcases List.mem_cons.1 hit with rfl | hmem
    · have : xs.filter (fun x => x.id == it.id) = [] := by
        rw [List.filter_eq_nil_iff]
        intro y hy
        simpa using hn.1 y hy
      simp [List.filter_cons, this]
    · have hne : ¬ x.id = it.id := fun e => hn.1 it hmem e.symm
      simp [List.filter_cons, hne, ih hn.2 hmem]

/-- Erasing a record and inserting it again, with the same slot fields,
permutes the list of slot fields of the traversal. -/
theorem reinsert_slot_info_perm (id : Nat) (ls : List layer) (it it' : item)
    (hn : ((items ls).map (fun it => it.id)).Nodup) (hfind : find id ls = some it)
    (hinfo : slot_info it' = slot_info it) :
    ((items (insert it' (erase id ls))).map slot_info).Perm ((items ls).map slot_info) := by
  have hid : it.id = id := find_id id ls it hfind
  have hmem := find_mem id ls it hfind
  have h1 : (items (insert it' (erase id ls))).Perm (it' :: items (erase id ls)) :=
    items_insert_perm it' _
  have h2 : (items ls).Perm (it :: items (erase id ls)) := by
    rw [items_erase]
    have := List.filter_append_perm (fun x => x.id == id) (items ls)
    rw [← hid, filter_id_eq_singleton _ it hn hmem] at this
    have e : (items ls).filter (fun x => x.id != it.id) =
        (items ls).filter (fun x => !(x.id == it.id)) := rfl
    rw [hid] at this e
    rw [e]
    exact this.symm
  have h3 := h1.map slot_info
  have h4 := h2.map slot_info
  simp only [List.map_cons, hinfo] at h3 h4
  exact h3.trans h4.symm

theorem item_create_slot_info (camera_position : fixed_point) (m : affine_mats_state) (id : Nat)
    (b : sprite_builder) (t : sprite_tiles_ptr) (p : sprite_palette_ptr) :
    slot_info (item.create camera_position m id b t p) = (id, -1, false) := by
  unfold item.create
  simp only
  split <;> rfl

theorem slots_inv_create (cfg : config) (camera_position : fixed_point) (b : sprite_builder)
    (s : State) (h : slots_inv cfg s) :
    slots_inv cfg (create cfg camera_position b s).2 := by
  unfold create
  split
  · exact h
  · split
    · exact h
    · split
      · exact h
      · rename_i _ t _ _ p _
        have hp := (items_insert_perm (item.create camera_position s.affine_mats
          s.data.items_pool_size b t p) s.layers).map slot_info
        rw [List.map_cons, item_create_slot_info] at hp
        have h1 := slots_ok_perm hp.symm (slots_ok_cons_unassigned h false)
        unfold slots_inv
        simp only
        split <;> exact h1

theorem slots_inv_reinsert (cfg : config) (id : Nat) (s : State) (it it' : item)
    (d : static_data) (h : slots_inv cfg s) (hfind : find id s.layers = some it)
    (hinfo : slot_info it' = slot_info it)
    (hd1 : d.rebuild_handles = false → s.data.rebuild_handles = false)
    (hd2 : d.items_pool_size = s.data.items_pool_size) :
    slots_inv cfg { s with data := d, layers := insert it' (erase id s.layers) } := by
  have hp := reinsert_slot_info_perm id s.layers it it' (slots_inv_ids cfg s h) hfind hinfo
  unfold slots_inv
  simp only
  exact slots_ok_flag (slots_ok_perm hp.symm h) hd1 (by rw [hd2])

theorem slots_inv_replace (cfg : config) (id : Nat) (s : State) (it it' : item)
    (d : static_data) (h : slots_inv cfg s) (hfind : find id s.layers = some it)
    (hinfo : slot_info it' = slot_info it)
    (hd1 : d.rebuild_handles = s.data.rebuild_handles)
    (hd2 : d.items_pool_size = s.data.items_pool_size) :
    slots_inv cfg { s with data := d, layers := replace it' s.layers } :=
  slots_inv_of_frame cfg s _ h
    (items_replace_map slot_info id s.layers it it' (slots_inv_ids cfg s h) hfind
      (congrArg Prod.fst hinfo) hinfo) hd1 hd2

theorem slots_inv_decrease_usages (cfg : config) (id : Nat) (s : State)
    (h : slots_inv cfg s) : slots_inv cfg (decrease_usages id s) := by
  unfold decrease_usages
  cases hfind : find id s.layers with
  | none => exact h
  | some it =>
    simp only
    split
    · unfold slots_inv
      simp only [items_erase]
      have hs : (((items s.layers).filter (fun x => x.id != id)).map slot_info).Sublist
          ((items s.layers).map slot_info) := (List.filter_sublist _).map _
      refine slots_ok_flag (slots_ok_sublist hs h) ?_ ?_
      · split
        · intro h0; simp at h0
        · exact fun h0 => h0
      · split <;> exact Nat.le_refl _
    · exact slots_inv_replace cfg id s it _ s.data h hfind rfl rfl rfl

theorem slots_inv_with_item (cfg : config) (id : Nat)
    (f : item → static_data → item × static_data) (s : State) (h : slots_inv cfg s)
    (hf : frame_fn f) : slots_inv cfg (with_item id f s) := by
  obtain ⟨h1, h2, h3⟩ := with_item_frame id f s (slots_inv_ids cfg s h) hf
  exact slots_inv_of_frame cfg s _ h h1 h2 h3

theorem slots_inv_for_each (cfg : config) (f : item → static_data → item × static_data)
    (s : State) (m : affine_mats_state) (h : slots_inv cfg s) (hf : frame_fn f) :
    slots_inv cfg { s with data := (for_each_item f s.layers s.data).2,
                           layers := (for_each_item f s.layers s.data).1,
                           affine_mats := m } := by
  obtain ⟨h1, h2, h3⟩ := for_each_item_frame f hf s.layers s.data
  exact slots_inv_of_frame cfg s _ h h1 h2 h3

theorem slots_inv_check_affine_mats (cfg : config) (camera_position : fixed_point) (s : State)
    (h : slots_inv cfg s) : slots_inv cfg (_check_affine_mats camera_position s) := by
  unfold _check_affine_mats
  split
  · exact slots_inv_for_each cfg _ s _ h (frame_check_affine_mats_item camera_position _)
  · exact h

theorem slots_inv_update (cfg : config) (camera_position : fixed_point) (s s' : State)
    (hcap : cfg.sprites_count ≤ 128) (h : slots_inv cfg s)
    (hs' : update cfg camera_position s = some s') : slots_inv cfg s' := by
  unfold update at hs'
  have h2 := slots_inv_check_items_on_screen cfg camera_position _
    (slots_inv_check_affine_mats cfg camera_position s h)
  generalize _check_items_on_screen cfg camera_position
    (_check_affine_mats camera_position s) = s2 at hs' h2
  by_cases hflag : s2.data.rebuild_handles = true
  · exact slots_inv_rebuild cfg s2 s' hcap h2 hflag hs'
  · simp only [_rebuild_handles, hflag] at hs'
    simp only [Bool.false_eq_true, if_false, Option.some.injEq] at hs'
    rw [← hs']
    exact h2

theorem slots_inv_set_resource (cfg : config) (id : Nat) (s : State) (it it' : item)
    (h : slots_inv cfg s) (hfind : find id s.layers = some it)
    (hinfo : slot_info it' = slot_info it) :
    slots_inv cfg { s with data := _update_handles it' s.data,
                           layers := replace it' s.layers } :=
  slots_inv_replace cfg id s it it' _ h hfind hinfo (_update_handles_frame it' s.data).1
    (_update_handles_frame it' s.data).2.1

theorem slots_inv_step (cfg : config) (camera_position : fixed_point) (o : op) (s s' : State)
    (hcap : cfg.sprites_count ≤ 128) (h : slots_inv cfg s)
    (ha : o.apply cfg camera_position s = some s') : slots_inv cfg s' := by
  cases o with
  | create b =>
    simp only [op.apply, Option.some.injEq] at ha
    rw [← ha]; exact slots_inv_create cfg camera_position b s h
  | increase_usages id =>
    simp only [op.apply, Option.some.injEq] at ha
    rw [← ha]
    exact slots_inv_with_item cfg id _ s h (fun it d => ⟨rfl, rfl, rfl⟩)
  | decrease_usages id =>
    simp only [op.apply, Option.some.injEq] at ha
    rw [← ha]; exact slots_inv_decrease_usages cfg id s h
  | set_tiles_ptr id t =>
    simp only [op.apply, sprites_manager.set_tiles_ptr] at ha
    cases hfind : find id s.layers with
    | none => simp only [hfind, Option.some.injEq] at ha; rw [← ha]; exact h
    | some it =>
      simp only [hfind] at ha
      split at ha
      · split at ha
        · rw [Option.some.injEq] at ha
          rw [← ha]
          exact slots_inv_set_resource cfg id s it _ h hfind rfl
        · simp at ha
      · rw [Option.some.injEq] at ha; rw [← ha]; exact h
  | set_palette_ptr id p =>
    simp only [op.apply, sprites_manager.set_palette_ptr] at ha
    cases hfind : find id s.layers with
    | none => simp only [hfind, Option.some.injEq] at ha; rw [← ha]; exact h
    | some it =>
      simp only [hfind] at ha
      split at ha
      · split at ha
        · rw [Option.some.injEq] at ha
          rw [← ha]
          exact slots_inv_set_resource cfg id s it _ h hfind rfl
        · simp at ha
      · rw [Option.some.injEq] at ha; rw [← ha]; exact h
  | set_position id p =>
    simp only [op.apply, Option.some.injEq] at ha
    rw [← ha]
    exact slots_inv_with_item cfg id _ s h (frame_set_position_item camera_position p)
  | set_bg_priority id p =>
    simp only [op.apply, sprites_manager.set_bg_priority] at ha
    split at ha
    · cases hfind : find id s.layers with
      | none => simp only [hfind, Option.some.injEq] at ha; rw [← ha]; exact h
      | some it =>
        simp only [hfind] at ha
        split at ha
        · rw [Option.some.injEq] at ha
          rw [← ha]
          refine slots_inv_reinsert cfg id s it _ _ h hfind rfl ?_ ?_
          · split
            · intro h0; simp at h0
            · exact fun h0 => h0
          · split <;> rfl
        · rw [Option.some.injEq] at ha; rw [← ha]; exact h
    · simp at ha
  | set_z_order id z =>
    simp only [op.apply, sprites_manager.set_z_order] at ha
    split at ha
    · cases hfind : find id s.layers with
      | none => simp only [hfind, Option.some.injEq] at ha; rw [← ha]; exact h
      | some it =>
        simp only [hfind] at ha
        split at ha
        · rw [Option.some.injEq] at ha
          rw [← ha]
          refine slots_inv_reinsert cfg id s it _ _ h hfind rfl ?_ ?_
          · split
            · intro h0; simp at h0
            · exact fun h0 => h0
          · split <;> rfl
        · rw [Option.some.injEq] at ha; rw [← ha]; exact h
    · simp at ha
  | set_horizontal_flip id v =>
    simp only [op.apply, sprites_manager.set_horizontal_flip, Option.some.injEq] at ha
    rw [← ha]
    cases hfind : find id s.layers with
    | none => exact h
    | some it =>
      simp only
      split
      · exact h
      · exact slots_inv_set_resource cfg id s it _ h hfind rfl
  | set_vertical_flip id v =>
    simp only [op.apply, sprites_manager.set_vertical_flip, Option.some.injEq] at ha
    rw [← ha]
    cases hfind : find id s.layers with
    | none => exact h
    | some it =>
      simp only
      split
      · exact h
      · exact slots_inv_set_resource cfg id s it _ h hfind rfl
  | set_mosaic_enabled id v =>
    simp only [op.apply, Option.some.injEq] at ha
    rw [← ha]
    exact slots_inv_with_item cfg id _ s h
      (frame_update_handles
        (fun it => { it with handle := hw.sprites.set_mosaic_enabled v it.handle })
        (fun it => rfl))
  | set_double_size_mode id mode =>
    simp only [op.apply, Option.some.injEq] at ha
    rw [← ha]
    refine slots_inv_with_item cfg id _ s h ?_
    intro it d
    simp only
    split
    · split
      · exact frame_set_position_item camera_position _ _ d
      · exact ⟨rfl, rfl, rfl⟩
    · exact ⟨rfl, rfl, rfl⟩
  | set_visible id v =>
    simp only [op.apply, Option.some.injEq] at ha
    rw [← ha]
    refine slots_inv_with_item_soft cfg id _ s h ?_
    intro it d
    simp only
    split
    · exact ⟨rfl, rfl, rfl, fun h0 => ⟨h0, rfl⟩⟩
    · refine ⟨rfl, rfl, by split <;> rfl, ?_⟩
      by_cases hon : it.on_screen = true
      · simp [hon]
      · simp only [hon]
        intro h0
        exact ⟨h0, by simp [hon]⟩
  | set_ignore_camera id v =>
    simp only [op.apply, Option.some.injEq] at ha
    rw [← ha]
    refine slots_inv_with_item cfg id _ s h ?_
    intro it d
    exact frame_set_position_item camera_position _ _ d
  | set_affine_mat_ptr id a =>
    simp only [op.apply, Option.some.injEq] at ha
    rw [← ha]
    refine slots_inv_with_item cfg id _ s h ?_
    intro it d
    simp only
    split
    · split
      · exact ⟨rfl, rfl, rfl⟩
      · split
        · split
          · exact frame_remove_affine_mat camera_position _ it d
          · exact ⟨rfl, rfl, rfl⟩
        · exact frame_assign_affine_mat camera_position _ _ it d
    · split
      · exact frame_remove_affine_mat camera_position _ it d
      · exact ⟨rfl, rfl, rfl⟩
  | set_remove_affine_mat_when_not_needed id v =>
    simp only [op.apply, Option.some.injEq] at ha
    rw [← ha]
    refine slots_inv_with_item cfg id _ s h ?_
    intro it d
    simp only
    split
    · split
      · exact frame_remove_affine_mat camera_position _ _ d
      · exact ⟨rfl, rfl, rfl⟩
    · exact ⟨rfl, rfl, rfl⟩
  | update_camera =>
    simp only [op.apply, Option.some.injEq] at ha
    rw [← ha]
    refine slots_inv_for_each cfg _ s s.affine_mats h ?_
    intro it d
    simp only
    split
    · exact frame_set_position_item camera_position _ _ d
    · exact ⟨rfl, rfl, rfl⟩
  | update =>
    exact slots_inv_update cfg camera_position s s' hcap h ha
  | commit =>
    simp only [op.apply, Option.some.injEq] at ha
    rw [← ha]
    unfold sprites_manager.commit
    simp only
    split <;> exact h

theorem slots_inv_init (cfg : config) (m : affine_mats_state) : slots_inv cfg (init cfg m) := by
  simp [slots_inv, slots_ok, init, items]

theorem slots_inv_reachable (cfg : config) (s : State) (hcap : cfg.sprites_count ≤ 128)
    (h : reachable cfg s) : slots_inv cfg s := by
  induction h with
  | init m => exact slots_inv_init cfg m
  | step s s' camera_position o _ ha ih =>
    exact slots_inv_step cfg camera_position o s s' hcap ih ha
  | pool s m _ ih => exact ih

theorem sample_s4_reachable : reachable sample.cfg sample.s4 :=
  reachable.step sample.s3 sample.s4 sample.camera op.update
    (reachable.step sample.s2 sample.s3 sample.camera (op.create (sample.builder 2 1 300 20))
      (reachable.step sample.s1 sample.s2 sample.camera (op.create (sample.builder 0 5 20 20))
        (reachable.step (init sample.cfg sample.mats) sample.s1 sample.camera
          (op.create (sample.builder 1 5 10 10)) (reachable.init sample.mats) rfl)
        rfl)
      rfl)
    (by decide)

theorem sample_s6_reachable : reachable sample.cfg sample.s6 :=
  reachable.step sample.s4 sample.s6 sample.camera (op.set_visible 1 false)
    sample_s4_reachable rfl

/-- C7 (as stated, refuted): the state reached by creating three records,
`update()`, and `set_visible(1, false)` holds a live record that still has an
assigned slot (index 0) while its `on_screen` flag is false. -/
theorem assigned_slot_while_off_screen_reachable :
    reachable sample.cfg sample.s6 ∧
    ∃ it ∈ items sample.s6.layers, 0 ≤ it.handles_index ∧ it.on_screen = false :=
  ⟨sample_s6_reachable, by decide⟩

/-- C7 (amended): in every state reachable through the public operations
(table of at most 128 entries): while no recompaction is pending
(`rebuild_handles` clear), every record with an assigned slot (index `>= 0`)
is on screen; and always, an assigned slot index lies in
`[0, table capacity)`, and no two live records share an assigned slot
index. -/
theorem slot_invariants_in_reachable_states (cfg : config) (s : State)
    (hcap : cfg.sprites_count ≤ 128) (h : reachable cfg s) :
    (s.data.rebuild_handles = false →
      ∀ it ∈ items s.layers, 0 ≤ it.handles_index → it.on_screen = true) ∧
    (∀ it ∈ items s.layers, 0 ≤ it.handles_index →
      it.handles_index < (cfg.sprites_count : Int)) ∧
    (items s.layers).Pairwise
      (fun a b => 0 ≤ a.handles_index → a.handles_index ≠ b.handles_index) ∧
    (((items s.layers).map (fun it => it.handles_index)).filter
      (fun i => decide (0 ≤ i))).Nodup := by
  obtain ⟨_, _, h3, h4, h5⟩ := slots_inv_reachable cfg s hcap h
  have h4' : (((items s.layers).map (fun it => it.handles_index)).filter
      (fun i => decide (0 ≤ i))).Nodup := by
    simpa [List.map_map, Function.comp_def, slot_info] using h4
  refine ⟨?_, ?_, ?_, h4'⟩
  · intro hr it hit h0
    exact h5 hr (slot_info it) (List.mem_map.2 ⟨it, hit, rfl⟩) h0
  · intro it hit h0
    exact h3 (slot_info it) (List.mem_map.2 ⟨it, hit, rfl⟩) h0
  · have hp := h4'
    rw [List.Nodup, List.filter_map, List.pairwise_map] at hp
    have hf : (items s.layers).filter ((fun i => decide (0 ≤ i)) ∘ fun it => it.handles_index) =
        (items s.layers).filter (fun it => decide (0 ≤ it.handles_index)) := rfl
    rw [hf, List.pairwise_filter] at hp
    refine hp.imp ?_
    intro a b hab ha
    by_cases hb : 0 ≤ b.handles_index
    · exact hab ha hb
    · omega

theorem slot_invariants_in_reachable_states_witness :
    (sample.s4.data.rebuild_handles = false →
      ∀ it ∈ items sample.s4.layers, 0 ≤ it.handles_index → it.on_screen = true) ∧
    (∀ it ∈ items sample.s4.layers, 0 ≤ it.handles_index →
      it.handles_index < (sample.cfg.sprites_count : Int)) ∧
    (items sample.s4.layers).Pairwise
      (fun a b => 0 ≤ a.handles_index → a.handles_index ≠ b.handles_index) ∧
    (((items sample.s4.layers).map (fun it => it.handles_index)).filter
      (fun i => decide (0 ≤ i))).Nodup :=
  slot_invariants_in_reachable_states sample.cfg sample.s4 (by decide) sample_s4_reachable

/-! ### The visibility of the records after `update()` -/

theorem dimensions_pos (h : handle) (hw1 : 0 < h.shape_width) (hh1 : 0 < h.shape_height) :
    0 < (hw.sprites.dimensions h).width ∧ 0 < (hw.sprites.dimensions h).height := by
  unfold hw.sprites.dimensions
  split
  · simp only; omega
  · exact ⟨hw1, hh1⟩

/-- The interval test of `_check_items_on_screen` decides whether the
footprint intersects the display rectangle (footprint and display of positive
size). -/
theorem compute_on_screen_iff (cfg : config) (camera_position : fixed_point) (it : item)
    (hdw : 0 < cfg.display_width) (hdh : 0 < cfg.display_height)
    (hw1 : 0 < (hw.sprites.dimensions it.handle).width)
    (hh1 : 0 < (hw.sprites.dimensions it.handle).height) :
    compute_on_screen cfg camera_position it = true ↔
      footprint_intersects_display cfg camera_position it := by
  rw [compute_on_screen_eq]
  simp only [decide_eq_true_eq]
  unfold footprint_intersects_display
  constructor
  · intro h
    by_cases hx : 0 ≤ footprint_x camera_position it
    · by_cases hy : 0 ≤ footprint_y camera_position it
      · exact ⟨footprint_x camera_position it, footprint_y camera_position it, by omega⟩
      · exact ⟨footprint_x camera_position it, 0, by omega⟩
    · by_cases hy : 0 ≤ footprint_y camera_position it
      · exact ⟨0, footprint_y camera_position it, by omega⟩
      · exact ⟨0, 0, by omega⟩
  · rintro ⟨px, py, h⟩
    omega

theorem footprint_congr (cfg : config) (camera_position : fixed_point) (it it' : item)
    (h1 : it'.position = it.position) (h2 : it'.ignore_camera = it.ignore_camera)
    (h3 : hw.sprites.dimensions it'.handle = hw.sprites.dimensions it.handle) :
    footprint_intersects_display cfg camera_position it' ↔
      footprint_intersects_display cfg camera_position it := by
  unfold footprint_intersects_display footprint_x footprint_y real_position
  rw [h1, h2, h3]

theorem evaluation_off (cfg : config) (camera_position : fixed_point) (it : item)
    (h : evaluation_pending_or_done cfg camera_position it) (hv : it.visible = false) :
    it.on_screen = false := by
  obtain ⟨_, h2, h3⟩ := h
  have hc : it.check_on_screen = false := by
    by_contra hc
    have := h2 (by simpa using hc)
    rw [hv] at this
    exact Bool.false_ne_true this
  by_contra hon
  have := (h3 hc).1 (by simpa using hon)
  rw [hv] at this
  exact Bool.false_ne_true this.1

/-- Placing a record again keeps it consistent for the next visibility pass:
a visible record is flagged, a hidden one stays off screen. -/
theorem evaluation_set_position_item (cfg : config) (camera_position : fixed_point)
    (it : item) (d : static_data)
    (hshape : 0 < it.handle.shape_width ∧ 0 < it.handle.shape_height)
    (hoff : it.visible = false → it.on_screen = false ∧ it.check_on_screen = false) :
    evaluation_pending_or_done cfg camera_position
      (set_position_item camera_position it.position it d).1 ∧
    (d.check_items_on_screen = true →
      (set_position_item camera_position it.position it d).2.check_items_on_screen = true) ∧
    ((set_position_item camera_position it.position it d).1.check_on_screen = true →
      (set_position_item camera_position it.position it d).2.check_items_on_screen = true) := by
  unfold set_position_item
  simp only
  split
  · rename_i hv
    exact ⟨⟨hshape, fun _ => hv, fun h0 => absurd h0 (by simp)⟩, fun _ => rfl, fun _ => rfl⟩
  · rename_i hv
    have hv' : it.visible = false := by simpa using hv
    obtain ⟨h1, h2⟩ := hoff hv'
    refine ⟨⟨hshape, ?_, ?_⟩, ?_, ?_⟩
    · intro h0
      exact absurd (h2.symm.trans h0) Bool.false_ne_true
    · intro _
      constructor
      · intro h0; exact absurd (h1.symm.trans h0) Bool.false_ne_true
      · intro h0; exact absurd (hv'.symm.trans h0.1) Bool.false_ne_true
    · intro h0
      rw [(_update_handles_frame _ d).2.2.1]
      exact h0
    · intro h0
      exact absurd (h2.symm.trans h0) Bool.false_ne_true

theorem evaluation_hidden (cfg : config) (camera_position : fixed_point) (it : item)
    (h : evaluation_pending_or_done cfg camera_position it) (hv : it.visible = false) :
    it.on_screen = false ∧ it.check_on_screen = false := by
  refine ⟨evaluation_off cfg camera_position it h hv, ?_⟩
  by_contra hc
  have := h.2.1 (by simpa using hc)
  rw [hv] at this
  exact Bool.false_ne_true this

/-- The three facts a loop body of `update()` keeps: the record stays
consistent, the needs-evaluation flag is only ever set, and a record flagged
by the body leaves the needs-evaluation flag set. -/
theorem evaluation_remove_affine_mat (cfg : config) (camera_position : fixed_point)
    (m : affine_mats_state) (it : item) (d : static_data)
    (h : evaluation_pending_or_done cfg camera_position it) :
    evaluation_pending_or_done cfg camera_position
      (_remove_affine_mat camera_position m it d).1 ∧
    (d.check_items_on_screen = true →
      (_remove_affine_mat camera_position m it d).2.check_items_on_screen = true) ∧
    ((_remove_affine_mat camera_position m it d).1.check_on_screen = true →
      it.check_on_screen = true ∨
      (_remove_affine_mat camera_position m it d).2.check_items_on_screen = true) := by
  unfold _remove_affine_mat
  cases hptr : it.affine_mat_ptr with
  | none => exact ⟨h, fun h0 => h0, fun h0 => Or.inl h0⟩
  | some a =>
    simp only
    split
    · have := evaluation_set_position_item cfg camera_position
        { it with
          handle := hw.sprites.remove_affine_mat
            (hw.sprites.set_vertical_flip (sprite_affine_mats_manager.vertical_flip m a)
              (hw.sprites.set_horizontal_flip
                (sprite_affine_mats_manager.horizontal_flip m a) it.handle))
          affine_mat_ptr := none } d h.1
        (fun hv => evaluation_hidden cfg camera_position it h hv)
      exact ⟨this.1, this.2.1, fun h0 => Or.inr (this.2.2 h0)⟩
    · rename_i hds
      refine ⟨⟨h.1, h.2.1, ?_⟩, ?_, fun h0 => Or.inl h0⟩
      · intro hc
        have hf := footprint_congr cfg camera_position it
          { it with
            handle := hw.sprites.remove_affine_mat
              (hw.sprites.set_vertical_flip (sprite_affine_mats_manager.vertical_flip m a)
                (hw.sprites.set_horizontal_flip
                  (sprite_affine_mats_manager.horizontal_flip m a) it.handle))
            affine_mat_ptr := none } rfl rfl
          (by
            simp only [hw.sprites.dimensions, hw.sprites.remove_affine_mat,
              hw.sprites.set_vertical_flip, hw.sprites.set_horizontal_flip]
            simp [hds])
        rw [hf]
        exact h.2.2 hc
      · intro h0
        rw [(_update_handles_frame _ d).2.2.1]
        exact h0

theorem evaluation_check_affine_mats_item (cfg : config) (camera_position : fixed_point)
    (m : affine_mats_state) (it : item) (d : static_data)
    (h : evaluation_pending_or_done cfg camera_position it) :
    evaluation_pending_or_done cfg camera_position
      (_check_affine_mats_item camera_position m it d).1 ∧
    (d.check_items_on_screen = true →
      (_check_affine_mats_item camera_position m it d).2.check_items_on_screen = true) ∧
    ((_check_affine_mats_item camera_position m it d).1.check_on_screen = true →
      it.check_on_screen = true ∨
      (_check_affine_mats_item camera_position m it d).2.check_items_on_screen = true) := by
  unfold _check_affine_mats_item
  cases hptr : it.affine_mat_ptr with
  | none => exact ⟨h, fun h0 => h0, fun h0 => Or.inl h0⟩
  | some a =>
    simp only
    split
    · split
      · exact evaluation_remove_affine_mat cfg camera_position m it d h
      · split
        · split
          · have := evaluation_set_position_item cfg camera_position
              { it with handle := hw.sprites.set_affine_mat a
                          (sprite_affine_mats_manager.double_size m a) it.handle }
              d h.1 (fun hv => evaluation_hidden cfg camera_position it h hv)
            simp only [hptr] at this
            exact ⟨this.1, this.2.1, fun h0 => Or.inr (this.2.2 h0)⟩
          · exact ⟨h, fun h0 => h0, fun h0 => Or.inl h0⟩
        · exact ⟨h, fun h0 => h0, fun h0 => Or.inl h0⟩
    · exact ⟨h, fun h0 => h0, fun h0 => Or.inl h0⟩

theorem for_each_in_layer_evaluation (cfg : config) (camera_position : fixed_point)
    (f : item → static_data → item × static_data)
    (hf : ∀ it d, evaluation_pending_or_done cfg camera_position it →
      evaluation_pending_or_done cfg camera_position (f it d).1 ∧
      (d.check_items_on_screen = true → (f it d).2.check_items_on_screen = true) ∧
      ((f it d).1.check_on_screen = true →
        it.check_on_screen = true ∨ (f it d).2.check_items_on_screen = true))
    (l : List item) (d : static_data)
    (hE : ∀ it ∈ l, evaluation_pending_or_done cfg camera_position it)
    (hfl : ∀ it ∈ l, it.check_on_screen = true → d.check_items_on_screen = true) :
    (∀ it ∈ (for_each_in_layer f l d).1, evaluation_pending_or_done cfg camera_position it) ∧
    (∀ it ∈ (for_each_in_layer f l d).1, it.check_on_screen = true →
      (for_each_in_layer f l d).2.check_items_on_screen = true) ∧
    (d.check_items_on_screen = true →
      (for_each_in_layer f l d).2.check_items_on_screen = true) := by
  induction l generalizing d with
  | nil => exact ⟨fun it hit => by simp [for_each_in_layer] at hit,
      fun it hit => by simp [for_each_in_layer] at hit, fun h0 => h0⟩
  | cons x xs ih =>
    obtain ⟨f1, f2, f3⟩ := hf x d (hE x (List.mem_cons_self _ _))
    obtain ⟨i1, i2, i3⟩ := ih (f x d).2 (fun it hit => hE it (List.mem_cons_of_mem _ hit))
      (fun it hit hc => f2 (hfl it (List.mem_cons_of_mem _ hit) hc))
    simp only [for_each_in_layer]
    refine ⟨?_, ?_, fun h0 => i3 (f2 h0)⟩
    · intro it hit
      rcases List.mem_cons.1 hit with rfl | hit
      · exact f1
      · exact i1 it hit
    · intro it hit hc
      rcases List.mem_cons.1 hit with rfl | hit
      · rcases f3 hc with h1 | h1
        · exact i3 (f2 (hfl x (List.mem_cons_self _ _) h1))
        · exact i3 h1
      · exact i2 it hit hc

theorem check_affine_mats_evaluation (cfg : config) (camera_position : fixed_point) (s : State)
    (hE : ∀ it ∈ items s.layers, evaluation_pending_or_done cfg camera_position it)
    (hfl : ∀ it ∈ items s.layers, it.check_on_screen = true →
      s.data.check_items_on_screen = true) :
    (∀ it ∈ items (_check_affine_mats camera_position s).layers,
      evaluation_pending_or_done cfg camera_position it) ∧
    (∀ it ∈ items (_check_affine_mats camera_position s).layers, it.check_on_screen = true →
      (_check_affine_mats camera_position s).data.check_items_on_screen = true) := by
  unfold _check_affine_mats
  split
  · simp only
    have hi := for_each_item_items (_check_affine_mats_item camera_position s.affine_mats)
      s.layers s.data
    have h1 : items (for_each_item (_check_affine_mats_item camera_position s.affine_mats)
        s.layers s.data).1 =
        (for_each_in_layer (_check_affine_mats_item camera_position s.affine_mats)
          (items s.layers) s.data).1 := by rw [← hi]
    have h2 : (for_each_item (_check_affine_mats_item camera_position s.affine_mats)
        s.layers s.data).2 =
        (for_each_in_layer (_check_affine_mats_item camera_position s.affine_mats)
          (items s.layers) s.data).2 := by rw [← hi]
    rw [h1, h2]
    obtain ⟨g1, g2, _⟩ := for_each_in_layer_evaluation cfg camera_position _
      (fun it d h => evaluation_check_affine_mats_item cfg camera_position s.affine_mats it d h)
      (items s.layers) s.data hE hfl
    exact ⟨g1, g2⟩
  · exact ⟨hE, hfl⟩

theorem for_each_in_layer_pointwise {σ : Type} (f : item → σ → item × σ)
    (P Q : item → Prop) (hf : ∀ it d, P it → Q (f it d).1) (l : List item) (d : σ)
    (hP : ∀ it ∈ l, P it) : ∀ it ∈ (for_each_in_layer f l d).1, Q it := by
  induction l generalizing d with
  | nil => intro it hit; simp [for_each_in_layer] at hit
  | cons x xs ih =>
    intro it hit
    simp only [for_each_in_layer] at hit
    rcases List.mem_cons.1 hit with rfl | hit
    · exact hf x d (hP x (List.mem_cons_self _ _))
    · exact ih _ (fun y hy => hP y (List.mem_cons_of_mem _ hy)) it hit

theorem check_items_on_screen_item_result (cfg : config) (camera_position : fixed_point)
    (hdw : 0 < cfg.display_width) (hdh : 0 < cfg.display_height) (it : item) (rb : Bool)
    (h : evaluation_pending_or_done cfg camera_position it) :
    ((_check_items_on_screen_item cfg camera_position it rb).1.on_screen = true ↔
      (_check_items_on_screen_item cfg camera_position it rb).1.visible = true ∧
      footprint_intersects_display cfg camera_position
        (_check_items_on_screen_item cfg camera_position it rb).1) := by
  by_cases hc : it.check_on_screen = true
  · have hon := check_item_on_screen_flagged cfg camera_position it rb hc
    have hrest : (_check_items_on_screen_item cfg camera_position it rb).1.visible =
          it.visible ∧
        (_check_items_on_screen_item cfg camera_position it rb).1.position = it.position ∧
        (_check_items_on_screen_item cfg camera_position it rb).1.ignore_camera =
          it.ignore_camera ∧
        (_check_items_on_screen_item cfg camera_position it rb).1.handle = it.handle := by
      simp only [_check_items_on_screen_item, hc, if_true]
      split <;> exact ⟨rfl, rfl, rfl, rfl⟩
    obtain ⟨r1, r2, r3, r4⟩ := hrest
    rw [hon, r1, footprint_congr cfg camera_position it _ r2 r3 (by rw [r4])]
    have hd := dimensions_pos it.handle h.1.1 h.1.2
    rw [compute_on_screen_iff cfg camera_position it hdw hdh hd.1 hd.2]
    exact ⟨fun h0 => ⟨h.2.1 hc, h0⟩, fun h0 => h0.2⟩
  · have he : (_check_items_on_screen_item cfg camera_position it rb).1 = it := by
      simp only [_check_items_on_screen_item, hc]
      rfl
    rw [he]
    exact h.2.2 (by simpa using hc)

theorem check_items_on_screen_result (cfg : config) (camera_position : fixed_point) (s : State)
    (hdw : 0 < cfg.display_width) (hdh : 0 < cfg.display_height)
    (hE : ∀ it ∈ items s.layers, evaluation_pending_or_done cfg camera_position it)
    (hfl : ∀ it ∈ items s.layers, it.check_on_screen = true →
      s.data.check_items_on_screen = true) :
    ∀ it ∈ items (_check_items_on_screen cfg camera_position s).layers,
      (it.on_screen = true ↔
        it.visible = true ∧ footprint_intersects_display cfg camera_position it) := by
  unfold _check_items_on_screen
  split
  · simp only
    have hi := for_each_item_items (_check_items_on_screen_item cfg camera_position)
      s.layers s.data.rebuild_handles
    have h1 : items (for_each_item (_check_items_on_screen_item cfg camera_position)
        s.layers s.data.rebuild_handles).1 =
        (for_each_in_layer (_check_items_on_screen_item cfg camera_position)
          (items s.layers) s.data.rebuild_handles).1 := by rw [← hi]
    rw [h1]
    exact for_each_in_layer_pointwise _ _ _
      (fun it rb h => check_items_on_screen_item_result cfg camera_position hdw hdh it rb h)
      (items s.layers) s.data.rebuild_handles hE
  · rename_i hg
    intro it hit
    have hc : it.check_on_screen = false := by
      by_contra hc
      exact hg (hfl it hit (by simpa using hc))
    exact (hE it hit).2.2 hc

theorem rebuild_handles_items (cfg : config) (s s' : State)
    (hs' : _rebuild_handles cfg s = some s') :
    (items s'.layers).map (fun it => { it with handles_index := 0 }) =
      (items s.layers).map (fun it => { it with handles_index := 0 }) := by
  by_cases hflag : s.data.rebuild_handles = true
  · cases hr : for_each_item_checked (_rebuild_handles_item cfg) s.layers
        (0, s.data.handles) with
    | none => simp [_rebuild_handles, hflag, hr] at hs'
    | some r =>
      obtain ⟨s2, hs2, hl, _⟩ := _rebuild_handles_result cfg s r hflag hr
      rw [hs2, Option.some.injEq] at hs'
      subst hs'
      have hq := flat_of_for_each_item_checked _ _ _ _ hr
      obtain ⟨_, k3, _⟩ := rebuild_loop_spec cfg (items s.layers) 0 s.data.handles _ hq
      rw [hl]
      exact k3
  · simp only [_rebuild_handles, hflag] at hs'
    simp only [Bool.false_eq_true, if_false, Option.some.injEq] at hs'
    rw [← hs']

theorem update_completes (cfg : config) (camera_position : fixed_point) (s : State)
    (h : (items s.layers).length ≤ cfg.sprites_count) :
    ∃ s', update cfg camera_position s = some s' := by
  unfold update
  have h1 : (items (_check_affine_mats camera_position s).layers).length =
      (items s.layers).length := by
    unfold _check_affine_mats
    split
    · have := congrArg List.length (for_each_item_frame _
        (frame_check_affine_mats_item camera_position s.affine_mats) s.layers s.data).1
      simpa using this
    · rfl
  have h2 : ∀ t : State, (items (_check_items_on_screen cfg camera_position t).layers).length =
      (items t.layers).length := by
    intro t
    unfold _check_items_on_screen
    split
    · simp only
      have hi := for_each_item_items (_check_items_on_screen_item cfg camera_position)
        t.layers t.data.rebuild_handles
      have e : items (for_each_item (_check_items_on_screen_item cfg camera_position)
          t.layers t.data.rebuild_handles).1 =
          (for_each_in_layer (_check_items_on_screen_item cfg camera_position)
            (items t.layers) t.data.rebuild_handles).1 := by rw [← hi]
      rw [e]
      have := congrArg List.length (check_items_on_screen_loop cfg camera_position
        (items t.layers) t.data.rebuild_handles).1
      simpa using this
    · rfl
  have h3 := h2 (_check_affine_mats camera_position s)
  generalize _check_items_on_screen cfg camera_position
    (_check_affine_mats camera_position s) = s2 at h3 ⊢
  by_cases hflag : s2.data.rebuild_handles = true
  · have hv : visible_count (items s2.layers) ≤ cfg.sprites_count := by
      have : visible_count (items s2.layers) ≤ (items s2.layers).length :=
        List.length_filter_le _ _
      omega
    obtain ⟨q, hq⟩ := rebuild_loop_some cfg (items s2.layers) 0 s2.data.handles (by omega)
    obtain ⟨r, hr, _, _⟩ := for_each_item_checked_of_flat _ _ _ _ hq
    obtain ⟨s', hs', _⟩ := _rebuild_handles_layers cfg s2 r hflag hr
    exact ⟨s', hs'⟩
  · exact ⟨s2, by simp [_rebuild_handles, hflag]⟩

/-- C2 (as stated, refuted): after `update()` on the state in which record 1,
placed at `(20, 20)` inside the display, was hidden with
`set_visible(1, false)`, the record has `on_screen == false` although its
camera-adjusted footprint intersects the display rectangle. -/
theorem hidden_record_inside_display_is_off_screen :
    ∃ s', update sample.cfg sample.camera sample.s6 = some s' ∧
      ∃ it ∈ items s'.layers, it.on_screen = false ∧
        footprint_intersects_display sample.cfg sample.camera it :=
  ⟨sample.s7, by decide, sample.r1, by decide, by decide, 20, 20, by decide⟩

/-- One `update()` on consistent records: `update()` completes when the live
records are at most `hw::sprites::count()`, and if before the call every
record is consistent (positive shape; flagged for evaluation only if visible;
if not flagged, `on_screen` already right), a flagged record leaves the
needs-evaluation flag set and the display has positive size, then after a
completed `update()` every live record has `on_screen == true` if and only if
it is visible and its camera-adjusted footprint intersects the display
rectangle `[0, width) x [0, height)`. -/
theorem update_settles_consistent_records (cfg : config)
    (camera_position : fixed_point) (s : State)
    (hdw : 0 < cfg.display_width) (hdh : 0 < cfg.display_height)
    (hE : ∀ it ∈ items s.layers, evaluation_pending_or_done cfg camera_position it)
    (hfl : ∀ it ∈ items s.layers, it.check_on_screen = true →
      s.data.check_items_on_screen = true) :
    ((items s.layers).length ≤ cfg.sprites_count →
      ∃ s', update cfg camera_position s = some s') ∧
    ∀ s', update cfg camera_position s = some s' →
      ∀ it ∈ items s'.layers,
        (it.on_screen = true ↔
          it.visible = true ∧ footprint_intersects_display cfg camera_position it) := by
  refine ⟨update_completes cfg camera_position s, ?_⟩
  intro s' hs' it hit
  unfold update at hs'
  obtain ⟨a1, a2⟩ := check_affine_mats_evaluation cfg camera_position s hE hfl
  have hQ := check_items_on_screen_result cfg camera_position _ hdw hdh a1 a2
  have hmap := rebuild_handles_items cfg _ s' hs'
  have hmem : ({ it with handles_index := 0 } : item) ∈
      (items s'.layers).map (fun it => { it with handles_index := 0 }) :=
    List.mem_map.2 ⟨it, hit, rfl⟩
  rw [hmap] at hmem
  obtain ⟨it0, hit0, he⟩ := List.mem_map.1 hmem
  have e1 : it0.on_screen = it.on_screen := by
    have h0 := congrArg item.on_screen he
    exact h0
  have e2 : it0.visible = it.visible := by
    have h0 := congrArg item.visible he
    exact h0
  have e3 : it0.position = it.position := by
    have h0 := congrArg item.position he
    exact h0
  have e4 : it0.ignore_camera = it.ignore_camera := by
    have h0 := congrArg item.ignore_camera he
    exact h0
  have e5 : it0.handle = it.handle := by
    have h0 := congrArg item.handle he
    exact h0
  have := hQ it0 hit0
  rw [e1, e2, footprint_congr cfg camera_position it it0 e3 e4 (by rw [e5])] at this
  exact this

theorem update_settles_consistent_records_witness :
    ((items sample.s3.layers).length ≤ sample.cfg.sprites_count →
      ∃ s', update sample.cfg sample.camera sample.s3 = some s') ∧
    ∀ s', update sample.cfg sample.camera sample.s3 = some s' →
      ∀ it ∈ items s'.layers,
        (it.on_screen = true ↔
          it.visible = true ∧ footprint_intersects_display sample.cfg sample.camera it) :=
  update_settles_consistent_records sample.cfg sample.camera sample.s3
    (by decide) (by decide)
    (fun it hit => by
      have h : (0 < it.handle.shape_width ∧ 0 < it.handle.shape_height) ∧
          it.check_on_screen = true ∧ it.visible = true := by
        revert it
        decide
      exact ⟨h.1, fun _ => h.2.2, fun hc => absurd (h.2.1.symm.trans hc) (by decide)⟩)
    (fun it hit _ => by decide)

end sprites_manager
namespace sprites_manager
open sorted_sprites

/-! ### Calls that fail -/

/-- C13: `create` returns no identifier exactly when the record pool is full,
the builder holds no tile resource or it holds no palette resource; and
whenever it returns none, the whole manager state is the one before the
call. -/
theorem create_none_iff_and_state_unchanged (cfg : config) (cam : fixed_point)
    (b : sprite_builder) (s : State) :
    ((create cfg cam b s).1 = none ↔
      (s.data.items_pool_size ≥ cfg.max_items ∨ b.tiles = none ∨ b.palette = none)) ∧
    ((create cfg cam b s).1 = none → (create cfg cam b s).2 = s) := by
  unfold create
  by_cases hfull : s.data.items_pool_size ≥ cfg.max_items
  · simp [hfull]
  · cases ht : b.tiles with
    | none => simp [hfull]
    | some t =>
      cases hp : b.palette with
      | none => simp [hfull]
      | some p => simp [hfull]

theorem create_none_iff_and_state_unchanged_witness :
    (create sample.cfg sample.camera (sample.builder 0 0 0 0) sample.s3).1 = none ∧
    (create sample.cfg sample.camera (sample.builder 0 0 0 0) sample.s3).2 = sample.s3 :=
  ⟨by decide,
   (create_none_iff_and_state_unchanged sample.cfg sample.camera (sample.builder 0 0 0 0)
      sample.s3).2 (by decide)⟩

/-- The z-order `-1` fails the assertion of `set_z_order`, whatever the number
of z-orders, the record and the state. -/
theorem set_z_order_minus_one_asserts (cfg : config) (id : Nat) (s : State) :
    set_z_order cfg id (-1) s = none := by
  simp [set_z_order]

theorem returned_traced_set_bg_priority (cfg : config) (id : Nat) (p : Int) (s : State) :
    (traced.set_bg_priority cfg id p s).returned = set_bg_priority cfg id p s := by
  unfold traced.set_bg_priority sprites_manager.set_bg_priority
  by_cases h : p ≥ 0 ∧ p ≤ max_bg_priority cfg
  · rw [if_pos h, if_pos h]
    cases hf : find id s.layers with
    | none => rfl
    | some it =>
      dsimp only
      by_cases hne : p ≠ it.bg_priority
      · rw [if_pos hne, if_pos hne]; rfl
      · rw [if_neg hne, if_neg hne]; rfl
  · rw [if_neg h, if_neg h]; rfl

theorem returned_traced_set_tiles_ptr (id : Nat) (t : sprite_tiles_ptr) (s : State) :
    (traced.set_tiles_ptr id t s).returned = set_tiles_ptr id t s := by
  unfold traced.set_tiles_ptr sprites_manager.set_tiles_ptr
  cases hf : find id s.layers with
  | none => rfl
  | some it =>
    dsimp only
    by_cases hne : t ≠ it.tiles_ptr
    · rw [if_pos hne, if_pos hne]
      by_cases hc : it.tiles_ptr.tiles_count = t.tiles_count
      · rw [if_pos hc, if_pos hc]; rfl
      · rw [if_neg hc, if_neg hc]; rfl
    · rw [if_neg hne, if_neg hne]; rfl

theorem returned_traced_set_palette_ptr (id : Nat) (p : sprite_palette_ptr) (s : State) :
    (traced.set_palette_ptr id p s).returned = set_palette_ptr id p s := by
  unfold traced.set_palette_ptr sprites_manager.set_palette_ptr
  cases hf : find id s.layers with
  | none => rfl
  | some it =>
    dsimp only
    by_cases hne : p ≠ it.palette_ptr
    · rw [if_pos hne, if_pos hne]
      by_cases hc : it.palette_ptr.eight_bits_per_pixel = p.eight_bits_per_pixel
      · rw [if_pos hc, if_pos hc]; rfl
      · rw [if_neg hc, if_neg hc]; rfl
    · rw [if_neg hne, if_neg hne]; rfl

end sprites_manager

namespace sorted_sprites

theorem find_insert_erase (id : Nat) (ls : List layer) (it : item) (hid : it.id = id) :
    find id (insert it (erase id ls)) = some it := by
  have hperm := items_insert_perm it (erase id ls)
  have hmem : it ∈ items (insert it (erase id ls)) :=
    hperm.symm.subset (List.mem_cons_self _ _)
  cases h : find id (insert it (erase id ls)) with
  | none =>
    have h0 := List.find?_eq_none.mp h it hmem
    simp [hid] at h0
  | some x =>
    have hx := hperm.subset (find_mem _ _ _ h)
    have hxid := find_id _ _ _ h
    rcases List.mem_cons.mp hx with rfl | hx
    · rfl
    · rw [items_erase] at hx
      have := (List.mem_filter.mp hx).2
      simp [hxid] at this

end sorted_sprites

namespace sprites_manager
open sorted_sprites

/-- C16: `set_bg_priority(id, p)` fails its assertion exactly when `p < 0` or
`p > max_bg_priority()`; the assertion fails in the state the call started
in; and when the call returns for a live record, `bg_priority(id)` is `p`
afterwards. -/
theorem set_bg_priority_asserts_iff_out_of_range (cfg : config) (id : Nat) (p : Int)
    (s : State) :
    ((∃ s', traced.set_bg_priority cfg id p s = outcome.asserted s') ↔
      (p < 0 ∨ p > max_bg_priority cfg)) ∧
    (∀ s', traced.set_bg_priority cfg id p s = outcome.asserted s' → s' = s) ∧
    (∀ s', traced.set_bg_priority cfg id p s = outcome.completed s' →
      (find id s.layers).isSome = true → bg_priority id s' = some p) := by
  unfold traced.set_bg_priority
  by_cases h : p ≥ 0 ∧ p ≤ max_bg_priority cfg
  · rw [if_pos h]
    cases hf : find id s.layers with
    | none =>
      refine ⟨⟨?_, ?_⟩, ?_, ?_⟩
      · rintro ⟨s', hs'⟩; cases hs'
      · intro h1; omega
      · intro s' hs'; cases hs'
      · intro s' _ h1; simp at h1
    | some it =>
      dsimp only
      by_cases hne : p ≠ it.bg_priority
      · rw [if_pos hne]
        refine ⟨⟨?_, ?_⟩, ?_, ?_⟩
        · rintro ⟨s', hs'⟩; cases hs'
        · intro h1; omega
        · intro s' hs'; cases hs'
        · intro s' hs' _
          cases hs'
          unfold bg_priority
          dsimp only
          rw [find_insert_erase id s.layers _ (by simpa [item.update_sort_key] using find_id _ _ _ hf)]
          simp [item.update_sort_key]
      · rw [if_neg hne]
        refine ⟨⟨?_, ?_⟩, ?_, ?_⟩
        · rintro ⟨s', hs'⟩; cases hs'
        · intro h1; omega
        · intro s' hs'; cases hs'
        · intro s' hs' _
          cases hs'
          have : p = it.bg_priority := by simpa using hne
          simp [bg_priority, hf, this]
  · rw [if_neg h]
    refine ⟨⟨fun _ => by omega, fun _ => ⟨s, rfl⟩⟩, ?_, ?_⟩
    · intro s' hs'; cases hs'; rfl
    · intro s' hs'; cases hs'

theorem set_bg_priority_asserts_iff_out_of_range_witness :
    traced.set_bg_priority sample.cfg 1 2 sample.s4 =
        outcome.completed ((set_bg_priority sample.cfg 1 2 sample.s4).getD sample.s4) ∧
    (find 1 sample.s4.layers).isSome = true ∧
    bg_priority 1 ((set_bg_priority sample.cfg 1 2 sample.s4).getD sample.s4) = some 2 :=
  ⟨by decide, by decide,
   (set_bg_priority_asserts_iff_out_of_range sample.cfg 1 2 sample.s4).2.2 _ (by decide)
     (by decide)⟩

/-- C17: a replacement that fails is atomic. For a live record,
`set_palette_ptr` with a different palette of another colour depth and
`set_tiles_ptr` with different tiles of another tiles count fail their
assertion in the state the call started in (no record, table entry or
pending range has been written), and the call does not return. -/
theorem failed_replacement_is_atomic (id : Nat) (it : item) (s : State)
    (hfind : find id s.layers = some it) :
    (∀ p : sprite_palette_ptr, p ≠ it.palette_ptr →
      p.eight_bits_per_pixel ≠ it.palette_ptr.eight_bits_per_pixel →
      traced.set_palette_ptr id p s = outcome.asserted s ∧ set_palette_ptr id p s = none) ∧
    (∀ t : sprite_tiles_ptr, t ≠ it.tiles_ptr →
      t.tiles_count ≠ it.tiles_ptr.tiles_count →
      traced.set_tiles_ptr id t s = outcome.asserted s ∧ set_tiles_ptr id t s = none) := by
  refine ⟨?_, ?_⟩
  · intro p hne hbpp
    have hbpp' : ¬ it.palette_ptr.eight_bits_per_pixel = p.eight_bits_per_pixel :=
      fun h => hbpp h.symm
    simp [traced.set_palette_ptr, set_palette_ptr, hfind, hne, hbpp']
  · intro t hne hc
    have hc' : ¬ it.tiles_ptr.tiles_count = t.tiles_count := fun h => hc h.symm
    simp [traced.set_tiles_ptr, set_tiles_ptr, hfind, hne, hc']

theorem failed_replacement_is_atomic_witness :
    find 0 sample.s4.layers = some sample.r0 ∧
    traced.set_palette_ptr 0 ⟨0, true⟩ sample.s4 = outcome.asserted sample.s4 ∧
    set_palette_ptr 0 ⟨0, true⟩ sample.s4 = none :=
  ⟨by decide,
   (failed_replacement_is_atomic 0 sample.r0 sample.s4 (by decide)).1 ⟨0, true⟩
     (by decide) (by decide)⟩

/-- C18: a recompaction (a call of `_rebuild_handles` with the flag set)
fails its assertion exactly when the sort index holds more on-screen records
than the table has slots; with at most that many it returns. -/
theorem rebuild_asserts_iff_too_many_on_screen (cfg : config) (s : State) :
    (_rebuild_handles cfg s = none ↔
      (s.data.rebuild_handles = true ∧
        cfg.sprites_count < visible_count (items s.layers))) ∧
    (visible_count (items s.layers) ≤ cfg.sprites_count →
      ∃ s', _rebuild_handles cfg s = some s') := by
  have hmain : _rebuild_handles cfg s = none ↔
      (s.data.rebuild_handles = true ∧
        cfg.sprites_count < visible_count (items s.layers)) := by
    by_cases hflag : s.data.rebuild_handles = true
    · constructor
      · intro hnone
        refine ⟨hflag, ?_⟩
        by_contra hle
        obtain ⟨q, hq⟩ := rebuild_loop_some cfg (items s.layers) 0 s.data.handles
          (by omega)
        obtain ⟨r, hr, _, _⟩ := for_each_item_checked_of_flat _ _ _ _ hq
        obtain ⟨s', hs', _⟩ := _rebuild_handles_result cfg s r hflag hr
        rw [hnone] at hs'
        cases hs'
      · rintro ⟨_, hlt⟩
        cases hr : for_each_item_checked (_rebuild_handles_item cfg) s.layers
            (0, s.data.handles) with
        | none => simp [_rebuild_handles, hflag, hr]
        | some r =>
          have hflat := flat_of_for_each_item_checked _ _ _ _ hr
          have := rebuild_loop_bound cfg _ _ _ _ hflat
          omega
    · have hflag' : s.data.rebuild_handles = false := by simpa using hflag
      simp [_rebuild_handles, hflag']
  refine ⟨hmain, ?_⟩
  intro hle
  cases h : _rebuild_handles cfg s with
  | none =>
    have := (hmain.mp h).2
    omega
  | some s' => exact ⟨s', rfl⟩

theorem rebuild_asserts_iff_too_many_on_screen_witness :
    (visible_count (items sample.s6.layers) ≤ sample.cfg.sprites_count ∧
      ∃ s', _rebuild_handles sample.cfg sample.s6 = some s') ∧
    (sample.tiny.sprites_count < visible_count (items sample.s8.layers) ∧
      _rebuild_handles sample.tiny sample.s8 = none) :=
  ⟨⟨by decide,
    (rebuild_asserts_iff_too_many_on_screen sample.cfg sample.s6).2 (by decide)⟩,
   by decide,
   (rebuild_asserts_iff_too_many_on_screen sample.tiny sample.s8).1.mpr
     ⟨by decide, by decide⟩⟩

/-! ### The rescaled range of the transform pool -/

/-- C11: for a dirty range `(offset, count)` reported by the transform pool,
`commit()` rescales it to the sprite slots `[offset * m, (offset + count) * m - 1]`
with `m` the sprite capacity divided by the transform capacity; this range is
merged with the sprite range by min and max in the transfer issued; and for
`0 < m` the slots of the rescaled range are exactly the `m` consecutive slots
`[t * m, t * m + m - 1]` of the dirty entries `offset <= t < offset + count`. -/
theorem commit_rescales_pool_range (cfg : config) (s : State) (offset count : Int)
    (hsome : s.affine_mats.commit_data = some (offset, count)) :
    commit_mat_range cfg (offset, count) =
      (offset * commit_multiplier cfg, (offset + count) * commit_multiplier cfg - 1) ∧
    (min s.data.first_index_to_commit (commit_mat_range cfg (offset, count)).1 <
        cfg.sprites_count →
      (commit cfg s).transfers =
        (min s.data.first_index_to_commit (commit_mat_range cfg (offset, count)).1,
         max s.data.last_index_to_commit (commit_mat_range cfg (offset, count)).2 -
           min s.data.first_index_to_commit (commit_mat_range cfg (offset, count)).1 + 1)
          :: s.transfers) ∧
    (0 < commit_multiplier cfg → ∀ j : Int,
      ((commit_mat_range cfg (offset, count)).1 ≤ j ∧
          j ≤ (commit_mat_range cfg (offset, count)).2) ↔
        ∃ t : Int, offset ≤ t ∧ t < offset + count ∧
          t * commit_multiplier cfg ≤ j ∧ j < t * commit_multiplier cfg + commit_multiplier cfg) := by
  have hrange : commit_mat_range cfg (offset, count) =
      (offset * commit_multiplier cfg, (offset + count) * commit_multiplier cfg - 1) := by
    simp only [commit_mat_range, add_mul]
  refine ⟨hrange, ?_, ?_⟩
  · intro hlt
    simp only [commit_mat_range, commit_multiplier] at hlt ⊢
    simp only [commit, sprite_affine_mats_manager.retrieve_commit_data, hsome]
    simp only [hlt, if_true]
  · intro hm j
    rw [hrange]
    simp only
    generalize commit_multiplier cfg = m at hm
    constructor
    · rintro ⟨h1, h2⟩
      refine ⟨j / m, Int.le_ediv_of_mul_le hm h1, ?_, ?_, ?_⟩
      · exact Int.ediv_lt_of_lt_mul hm (by omega)
      · have := Int.ediv_mul_le j (Int.ne_of_gt hm)
        exact this
      · have := Int.lt_ediv_add_one_mul_self j hm
        rw [add_mul, one_mul] at this
        exact this
    · rintro ⟨t, h1, h2, h3, h4⟩
      constructor
      · have := mul_le_mul_of_nonneg_right h1 (le_of_lt hm)
        omega
      · have h5 : t + 1 ≤ offset + count := by omega
        have := mul_le_mul_of_nonneg_right h5 (le_of_lt hm)
        rw [add_mul, one_mul] at this
        omega

theorem commit_rescales_pool_range_witness :
    sample.s5.affine_mats.commit_data = some (1, 1) ∧
    commit_multiplier sample.cfg = 2 ∧
    commit_mat_range sample.cfg (1, 1) = (2, 3) ∧
    (commit sample.cfg sample.s5).transfers = [(0, 4)] :=
  ⟨by decide, by decide,
   (commit_rescales_pool_range sample.cfg sample.s5 1 1 (by decide)).1,
   (commit_rescales_pool_range sample.cfg sample.s5 1 1 (by decide)).2.1 (by decide)⟩

end sprites_manager

/-! ### Membership of the sort index in the reachable states -/

namespace sorted_sprites

theorem for_each_in_layer_map {σ β : Type} (g : item → β) (body : item → σ → item × σ)
    (hb : ∀ it d, g (body it d).1 = g it) (l : List item) (d : σ) :
    (for_each_in_layer body l d).1.map g = l.map g := by
  induction l generalizing d with
  | nil => rfl
  | cons x xs ih =>
    simp only [for_each_in_layer, List.map_cons]
    rw [hb x d, ih]

theorem for_each_item_map {σ β : Type} (g : item → β) (body : item → σ → item × σ)
    (hb : ∀ it d, g (body it d).1 = g it) (ls : List layer) (d : σ) :
    (items (for_each_item body ls d).1).map g = (items ls).map g := by
  have h := for_each_item_items body ls d
  have h1 : items (for_each_item body ls d).1 = (for_each_in_layer body (items ls) d).1 := by
    rw [← h]
  rw [h1]
  exact for_each_in_layer_map g body hb (items ls) d

theorem for_each_in_layer_state {σ β : Type} (p : σ → β) (body : item → σ → item × σ)
    (hb : ∀ it d, p (body it d).2 = p d) (l : List item) (d : σ) :
    p (for_each_in_layer body l d).2 = p d := by
  induction l generalizing d with
  | nil => rfl
  | cons x xs ih =>
    simp only [for_each_in_layer]
    rw [ih, hb x d]

theorem for_each_item_state {σ β : Type} (p : σ → β) (body : item → σ → item × σ)
    (hb : ∀ it d, p (body it d).2 = p d) (ls : List layer) (d : σ) :
    p (for_each_item body ls d).2 = p d := by
  have h := for_each_item_items body ls d
  have h2 : (for_each_item body ls d).2 = (for_each_in_layer body (items ls) d).2 := by
    rw [← h]
  rw [h2]
  exact for_each_in_layer_state p body hb (items ls) d

end sorted_sprites

namespace sprites_manager
open sorted_sprites

theorem members_inv_ids (s : State) (h : members_inv s) :
    ((items s.layers).map (fun it => it.id)).Nodup := by
  have := h.1
  simpa [List.map_map, Function.comp_def, member_info] using this

theorem members_ok_perm {l l' : List (Nat × Int)} {p : Nat} (hp : l.Perm l')
    (h : members_ok l p) : members_ok l' p :=
  ⟨(hp.map _).nodup_iff.1 h.1, fun e he => h.2 e (hp.mem_iff.2 he)⟩

theorem members_ok_sublist {l l' : List (Nat × Int)} {p : Nat} (hs : l'.Sublist l)
    (h : members_ok l p) : members_ok l' p :=
  ⟨h.1.sublist (hs.map _), fun e he => h.2 e (hs.subset he)⟩

theorem members_inv_of_same (s s' : State) (h : members_inv s) (hs : same_members s s') :
    members_inv s' := by
  unfold members_inv at *
  rw [hs.2]
  exact members_ok_perm hs.1.symm h

theorem same_members_trans {s1 s2 s3 : State} (h12 : same_members s1 s2)
    (h23 : same_members s2 s3) : same_members s1 s3 :=
  ⟨h23.1.trans h12.1, h23.2.trans h12.2⟩

theorem same_members_refl (s : State) : same_members s s := ⟨List.Perm.refl _, rfl⟩

theorem keeps_set_position_item (camera_position position : fixed_point) :
    keeps_member (set_position_item camera_position position) := by
  intro it d
  unfold set_position_item
  simp only
  split
  · exact ⟨rfl, (_update_handles_frame _ d).2.1⟩
  · exact ⟨rfl, (_update_handles_frame _ d).2.1⟩

theorem keeps_update_handles (g : item → item)
    (hg : ∀ it, member_info (g it) = member_info it) :
    keeps_member (fun it d => (g it, _update_handles (g it) d)) := by
  intro it d
  exact ⟨hg it, (_update_handles_frame _ d).2.1⟩

theorem keeps_assign_affine_mat (camera_position : fixed_point) (m : affine_mats_state)
    (a : Nat) : keeps_member (_assign_affine_mat camera_position m a) := by
  intro it d
  unfold _assign_affine_mat
  simp only
  split
  · exact keeps_set_position_item camera_position _ _ d
  · exact ⟨rfl, (_update_handles_frame _ d).2.1⟩

theorem keeps_remove_affine_mat (camera_position : fixed_point) (m : affine_mats_state) :
    keeps_member (_remove_affine_mat camera_position m) := by
  intro it d
  unfold _remove_affine_mat
  split
  · exact ⟨rfl, rfl⟩
  · simp only
    split
    · exact keeps_set_position_item camera_position _ _ d
    · exact ⟨rfl, (_update_handles_frame _ d).2.1⟩

theorem keeps_check_affine_mats_item (camera_position : fixed_point) (m : affine_mats_state) :
    keeps_member (_check_affine_mats_item camera_position m) := by
  intro it d
  unfold _check_affine_mats_item
  split
  · exact ⟨rfl, rfl⟩
  · split
    · split
      · exact keeps_remove_affine_mat camera_position m it d
      · split
        · simp only
          split
          · exact keeps_set_position_item camera_position _ _ d
          · exact ⟨rfl, rfl⟩
        · exact ⟨rfl, rfl⟩
    · exact ⟨rfl, rfl⟩

theorem same_members_replace (id : Nat) (s : State) (it it' : item) (d : static_data)
    (h : members_inv s) (hfind : find id s.layers = some it)
    (hinfo : member_info it' = member_info it)
    (hd : d.items_pool_size = s.data.items_pool_size) :
    same_members s { s with data := d, layers := replace it' s.layers } :=
  ⟨List.Perm.of_eq (items_replace_map member_info id s.layers it it' (members_inv_ids s h)
    hfind (congrArg Prod.fst hinfo) hinfo), hd⟩

theorem same_members_with_item (id : Nat) (f : item → static_data → item × static_data)
    (s : State) (h : members_inv s) (hf : keeps_member f) :
    same_members s (with_item id f s) := by
  unfold with_item
  cases hfind : find id s.layers with
  | none => exact same_members_refl s
  | some it =>
    exact same_members_replace id s it _ _ h hfind (hf it s.data).1 (hf it s.data).2

theorem same_members_for_each (f : item → static_data → item × static_data)
    (s : State) (m : affine_mats_state) (hf : keeps_member f) :
    same_members s { s with data := (for_each_item f s.layers s.data).2,
                            layers := (for_each_item f s.layers s.data).1,
                            affine_mats := m } :=
  ⟨List.Perm.of_eq
      (for_each_item_map member_info f (fun it d => (hf it d).1) s.layers s.data),
    for_each_item_state (fun d => d.items_pool_size) f (fun it d => (hf it d).2)
      s.layers s.data⟩

theorem items_perm_cons_erase (id : Nat) (ls : List layer) (it : item)
    (hn : ((items ls).map (fun it => it.id)).Nodup) (hfind : find id ls = some it) :
    (items ls).Perm (it :: items (erase id ls)) := by
  have hid : it.id = id := find_id id ls it hfind
  have hmem := find_mem id ls it hfind
  rw [items_erase]
  have := List.filter_append_perm (fun x => x.id == id) (items ls)
  rw [← hid, filter_id_eq_singleton _ it hn hmem] at this
  have e : (items ls).filter (fun x => x.id != it.id) =
      (items ls).filter (fun x => !(x.id == it.id)) := rfl
  rw [hid] at this e
  rw [e]
  exact this.symm

theorem item_create_member_info (camera_position : fixed_point) (m : affine_mats_state)
    (id : Nat) (b : sprite_builder) (t : sprite_tiles_ptr) (p : sprite_palette_ptr) :
    member_info (item.create camera_position m id b t p) = (id, 1) := by
  unfold item.create
  simp only
  split <;> rfl

theorem members_ok_cons_new {l : List (Nat × Int)} {p : Nat} (h : members_ok l p) :
    members_ok ((p, 1) :: l) (p + 1) := by
  refine ⟨?_, ?_⟩
  · simp only [List.map_cons, List.nodup_cons, List.mem_map, not_exists, not_and]
    refine ⟨?_, h.1⟩
    intro e he heq
    have := (h.2 e he).1
    omega
  · intro e he
    rcases List.mem_cons.1 he with rfl | he
    · exact ⟨Nat.lt_succ_self _, Int.one_pos⟩
    · exact ⟨Nat.lt_succ_of_lt (h.2 e he).1, (h.2 e he).2⟩

/-- What `create` does: it returns none and leaves the state alone, or it
returns the next identity of the pool and inserts one new record, of that
identity and with one reference, into the sort index. -/
theorem create_result (cfg : config) (camera_position : fixed_point) (b : sprite_builder)
    (s : State) :
    ((create cfg camera_position b s).1 = none ∧ (create cfg camera_position b s).2 = s) ∨
    ∃ new : item, (create cfg camera_position b s).1 = some s.data.items_pool_size ∧
      member_info new = (s.data.items_pool_size, 1) ∧
      (create cfg camera_position b s).2.layers = insert new s.layers ∧
      (create cfg camera_position b s).2.data.items_pool_size = s.data.items_pool_size + 1 := by
  unfold create
  split
  · exact Or.inl ⟨rfl, rfl⟩
  · split
    · exact Or.inl ⟨rfl, rfl⟩
    · split
      · exact Or.inl ⟨rfl, rfl⟩
      · rename_i _ t _ _ p _
        refine Or.inr ⟨item.create camera_position s.affine_mats s.data.items_pool_size b t p,
          ?_, item_create_member_info _ _ _ _ _ _, rfl, ?_⟩
        · exact congrArg some (congrArg Prod.fst
            (item_create_member_info camera_position s.affine_mats s.data.items_pool_size
              b t p))
        · simp only
          split <;> rfl

theorem same_members_reinsert (id : Nat) (s : State) (it it' : item) (d : static_data)
    (h : members_inv s) (hfind : find id s.layers = some it)
    (hinfo : member_info it' = member_info it)
    (hd : d.items_pool_size = s.data.items_pool_size) :
    same_members s { s with data := d, layers := insert it' (erase id s.layers) } := by
  have h1 := (items_insert_perm it' (erase id s.layers)).map member_info
  have h2 := (items_perm_cons_erase id s.layers it (members_inv_ids s h) hfind).map
    member_info
  simp only [List.map_cons, hinfo] at h1 h2
  exact ⟨h1.trans h2.symm, hd⟩

theorem same_members_check_affine_mats (camera_position : fixed_point) (s : State) :
    same_members s (_check_affine_mats camera_position s) := by
  unfold _check_affine_mats
  split
  · exact same_members_for_each _ s _ (keeps_check_affine_mats_item camera_position _)
  · exact same_members_refl s

theorem same_members_check_items_on_screen (cfg : config) (camera_position : fixed_point)
    (s : State) : same_members s (_check_items_on_screen cfg camera_position s) := by
  unfold _check_items_on_screen
  split
  · refine ⟨List.Perm.of_eq ?_, rfl⟩
    apply for_each_item_map
    intro it rb
    unfold _check_items_on_screen_item
    split
    · simp only
      split <;> rfl
    · rfl
  · exact same_members_refl s

theorem _rebuild_handles_pool (cfg : config) (s s' : State)
    (hs' : _rebuild_handles cfg s = some s') :
    s'.data.items_pool_size = s.data.items_pool_size := by
  by_cases hflag : s.data.rebuild_handles = true
  · cases hr : for_each_item_checked (_rebuild_handles_item cfg) s.layers
        (0, s.data.handles) with
    | none => simp [_rebuild_handles, hflag, hr] at hs'
    | some r =>
      obtain ⟨s2, hs2, _, _, _, _, _, hpool, _⟩ := _rebuild_handles_result cfg s r hflag hr
      rw [hs2, Option.some.injEq] at hs'
      subst hs'
      exact hpool
  · simp only [_rebuild_handles, hflag] at hs'
    simp only [Bool.false_eq_true, if_false, Option.some.injEq] at hs'
    rw [← hs']

theorem same_members_rebuild (cfg : config) (s s' : State)
    (hs' : _rebuild_handles cfg s = some s') : same_members s s' := by
  refine ⟨List.Perm.of_eq ?_, _rebuild_handles_pool cfg s s' hs'⟩
  have h0 := congrArg (List.map member_info) (rebuild_handles_items cfg s s' hs')
  simpa [List.map_map, Function.comp_def, member_info] using h0

theorem same_members_update (cfg : config) (camera_position : fixed_point) (s s' : State)
    (hs' : update cfg camera_position s = some s') : same_members s s' := by
  unfold update at hs'
  exact same_members_trans
    (same_members_trans (same_members_check_affine_mats camera_position s)
      (same_members_check_items_on_screen cfg camera_position _))
    (same_members_rebuild cfg _ s' hs')

theorem same_members_set_resource (id : Nat) (s : State) (it it' : item)
    (h : members_inv s) (hfind : find id s.layers = some it)
    (hinfo : member_info it' = member_info it) :
    same_members s { s with data := _update_handles it' s.data,
                            layers := replace it' s.layers } :=
  same_members_replace id s it it' _ h hfind hinfo (_update_handles_frame it' s.data).2.1

theorem find_none_ne (id : Nat) (ls : List layer) (h : find id ls = none) :
    ∀ x ∈ items ls, x.id ≠ id := by
  intro x hx
  have := List.find?_eq_none.mp h x hx
  simpa using this

theorem live_create (cfg : config) (camera_position : fixed_point) (b : sprite_builder)
    (s : State) (h : members_inv s) :
    ((items (create cfg camera_position b s).2.layers).map member_info).Perm
      (live_step cfg camera_position (op.create b) s ((items s.layers).map member_info)) ∧
    members_inv (create cfg camera_position b s).2 := by
  rcases create_result cfg camera_position b s with ⟨h1, h2⟩ | ⟨new, h1, h2, h3, h4⟩
  · simp only [live_step, h1]
    rw [h2]
    exact ⟨List.Perm.refl _, h⟩
  · simp only [live_step, h1]
    have hp := (items_insert_perm new s.layers).map member_info
    rw [List.map_cons, h2] at hp
    rw [h3]
    refine ⟨hp, ?_⟩
    unfold members_inv
    rw [h3, h4]
    exact members_ok_perm hp.symm (members_ok_cons_new h)

theorem live_increase_usages (id : Nat) (s : State) (h : members_inv s) :
    (items (increase_usages id s).layers).map member_info =
      ((items s.layers).map member_info).map
        (fun e => if e.1 = id then (e.1, e.2 + 1) else e) := by
  unfold increase_usages with_item
  cases hfind : find id s.layers with
  | none =>
    have hne := find_none_ne id s.layers hfind
    simp only [List.map_map]
    apply List.map_congr_left
    intro x hx
    simp [Function.comp, member_info, hne x hx]
  | some it =>
    have hid := find_id id s.layers it hfind
    simp only [items_replace, List.map_map]
    apply List.map_congr_left
    intro x hx
    simp only [Function.comp, member_info, hid]
    by_cases hx' : x.id = id
    · have hxit : x = it :=
        eq_of_id_eq (members_inv_ids s h) hx (find_mem id _ it hfind) (hx'.trans hid.symm)
      subst hxit
      simp [hx']
    · simp [hx']

theorem live_decrease_usages (id : Nat) (s : State) (h : members_inv s) :
    (items (decrease_usages id s).layers).map member_info =
      (((items s.layers).map member_info).map
        (fun e => if e.1 = id then (e.1, e.2 - 1) else e)).filter (fun e => e.2 != 0) := by
  have hpos : ∀ x ∈ items s.layers, 0 < x.usages := fun x hx =>
    (h.2 (member_info x) (List.mem_map_of_mem _ hx)).2
  unfold decrease_usages
  cases hfind : find id s.layers with
  | none =>
    have hne := find_none_ne id s.layers hfind
    simp only [List.map_map]
    rw [List.filter_eq_self.mpr]
    · apply List.map_congr_left
      intro x hx
      simp [Function.comp, member_info, hne x hx]
    · intro e he
      simp only [List.mem_map, Function.comp] at he
      obtain ⟨x, hx, rfl⟩ := he
      have := hpos x hx
      simp only [member_info, hne x hx, if_false]
      simp
      omega
  | some it =>
    have hid := find_id id s.layers it hfind
    have hmem := find_mem id s.layers it hfind
    have hsame : ∀ x ∈ items s.layers, x.id = id → x = it := fun x hx hx' =>
      eq_of_id_eq (members_inv_ids s h) hx hmem (hx'.trans hid.symm)
    simp only
    split
    · rename_i hz
      simp only [items_erase, List.map_map, List.filter_map]
      have hfilter : (items s.layers).filter
          ((fun e : Nat × Int => e.2 != 0) ∘
            ((fun e : Nat × Int => if e.1 = id then (e.1, e.2 - 1) else e) ∘ member_info)) =
          (items s.layers).filter (fun x => x.id != id) := by
        apply List.filter_congr
        intro x hx
        by_cases hx' : x.id = id
        · have := hsame x hx hx'
          subst this
          simp [Function.comp, member_info, hx', hz]
        · have := hpos x hx
          have h1 : (x.usages != 0) = true := by simp; omega
          have h2 : (x.id != id) = true := by simpa using hx'
          simp only [Function.comp, member_info, hx', if_false, h1, h2]
      rw [hfilter]
      apply List.map_congr_left
      intro x hx
      have hx' : x.id ≠ id := by
        have := (List.mem_filter.mp hx).2
        simpa using this
      simp [Function.comp, member_info, hx']
    · rename_i hz
      simp only [items_replace, List.map_map]
      rw [List.filter_eq_self.mpr]
      · apply List.map_congr_left
        intro x hx
        simp only [Function.comp, member_info, hid]
        by_cases hx' : x.id = id
        · have := hsame x hx hx'
          subst this
          simp [hx']
        · simp [hx']
      · intro e he
        simp only [List.mem_map, Function.comp] at he
        obtain ⟨x, hx, rfl⟩ := he
        by_cases hx' : x.id = id
        · have := hsame x hx hx'
          subst this
          simpa [member_info, hx'] using hz
        · have := hpos x hx
          have hne : x.usages ≠ 0 := by omega
          simp [member_info, hx', hne]

theorem members_ok_increase {l : List (Nat × Int)} {p : Nat} (id : Nat)
    (h : members_ok l p) :
    members_ok (l.map (fun e => if e.1 = id then (e.1, e.2 + 1) else e)) p := by
  refine ⟨?_, ?_⟩
  · have : (l.map (fun e => if e.1 = id then (e.1, e.2 + 1) else e)).map (fun e => e.1) =
        l.map (fun e => e.1) := by
      rw [List.map_map]
      apply List.map_congr_left
      intro e _
      simp only [Function.comp]
      split <;> rfl
    rw [this]
    exact h.1
  · intro e he
    simp only [List.mem_map] at he
    obtain ⟨x, hx, rfl⟩ := he
    have := h.2 x hx
    split
    · exact ⟨this.1, by have := this.2; simp only; omega⟩
    · exact this

theorem members_ok_decrease {l : List (Nat × Int)} {p : Nat} (id : Nat)
    (h : members_ok l p) :
    members_ok ((l.map (fun e => if e.1 = id then (e.1, e.2 - 1) else e)).filter
      (fun e => e.2 != 0)) p := by
  refine ⟨?_, ?_⟩
  · have : (l.map (fun e => if e.1 = id then (e.1, e.2 - 1) else e)).map (fun e => e.1) =
        l.map (fun e => e.1) := by
      rw [List.map_map]
      apply List.map_congr_left
      intro e _
      simp only [Function.comp]
      split <;> rfl
    have hs0 : ((l.map (fun e => if e.1 = id then (e.1, e.2 - 1) else e)).filter
        (fun e => e.2 != 0)).Sublist
        (l.map (fun e => if e.1 = id then (e.1, e.2 - 1) else e)) := List.filter_sublist _
    have hs := hs0.map (fun e => e.1)
    rw [this] at hs
    exact h.1.sublist hs
  · intro e he
    obtain ⟨he1, he2⟩ := List.mem_filter.mp he
    simp only [List.mem_map] at he1
    obtain ⟨x, hx, rfl⟩ := he1
    have := h.2 x hx
    have hne : (if x.1 = id then (x.1, x.2 - 1) else x).2 ≠ 0 := by simpa using he2
    split
    · rename_i hx'
      simp only [hx', if_true] at hne
      exact ⟨this.1, by have := this.2; simp only; omega⟩
    · exact this

theorem members_inv_increase_usages (id : Nat) (s : State) (h : members_inv s) :
    members_inv (increase_usages id s) := by
  have hpool : (increase_usages id s).data.items_pool_size = s.data.items_pool_size := by
    unfold increase_usages with_item
    cases find id s.layers <;> rfl
  unfold members_inv
  rw [live_increase_usages id s h, hpool]
  exact members_ok_increase id h

theorem members_inv_decrease_usages (id : Nat) (s : State) (h : members_inv s) :
    members_inv (decrease_usages id s) := by
  have hpool : (decrease_usages id s).data.items_pool_size = s.data.items_pool_size := by
    unfold decrease_usages
    cases find id s.layers with
    | none => rfl
    | some it =>
      simp only
      split
      · split <;> rfl
      · rfl
  unfold members_inv
  rw [live_decrease_usages id s h, hpool]
  exact members_ok_decrease id h

/-- One completed operation keeps the sort index in step with the table of
live records, and keeps the membership invariants. -/
theorem live_step_members (cfg : config) (camera_position : fixed_point) (o : op)
    (s s' : State) (h : members_inv s) (ha : o.apply cfg camera_position s = some s') :
    ((items s'.layers).map member_info).Perm
      (live_step cfg camera_position o s ((items s.layers).map member_info)) ∧
    members_inv s' := by
  have other : ∀ (o : op) (s' : State),
      live_step cfg camera_position o s ((items s.layers).map member_info) =
        (items s.layers).map member_info →
      same_members s s' →
      ((items s'.layers).map member_info).Perm
        (live_step cfg camera_position o s ((items s.layers).map member_info)) ∧
      members_inv s' := by
    intro o s' ho hs
    rw [ho]
    exact ⟨hs.1, members_inv_of_same s s' h hs⟩
  cases o with
  | create b =>
    simp only [op.apply, Option.some.injEq] at ha
    rw [← ha]; exact live_create cfg camera_position b s h
  | increase_usages id =>
    simp only [op.apply, Option.some.injEq] at ha
    rw [← ha]
    exact ⟨List.Perm.of_eq (live_increase_usages id s h), members_inv_increase_usages id s h⟩
  | decrease_usages id =>
    simp only [op.apply, Option.some.injEq] at ha
    rw [← ha]
    exact ⟨List.Perm.of_eq (live_decrease_usages id s h), members_inv_decrease_usages id s h⟩
  | set_tiles_ptr id t =>
    refine other _ _ rfl ?_
    simp only [op.apply, sprites_manager.set_tiles_ptr] at ha
    cases hfind : find id s.layers with
    | none => simp only [hfind, Option.some.injEq] at ha; rw [← ha]; exact same_members_refl s
    | some it =>
      simp only [hfind] at ha
      split at ha
      · split at ha
        · rw [Option.some.injEq] at ha
          rw [← ha]
          exact same_members_set_resource id s it _ h hfind rfl
        · simp at ha
      · rw [Option.some.injEq] at ha; rw [← ha]; exact same_members_refl s
  | set_palette_ptr id p =>
    refine other _ _ rfl ?_
    simp only [op.apply, sprites_manager.set_palette_ptr] at ha
    cases hfind : find id s.layers with
    | none => simp only [hfind, Option.some.injEq] at ha; rw [← ha]; exact same_members_refl s
    | some it =>
      simp only [hfind] at ha
      split at ha
      · split at ha
        · rw [Option.some.injEq] at ha
          rw [← ha]
          exact same_members_set_resource id s it _ h hfind rfl
        · simp at ha
      · rw [Option.some.injEq] at ha; rw [← ha]; exact same_members_refl s
  | set_position id p =>
    refine other _ _ rfl ?_
    simp only [op.apply, Option.some.injEq] at ha
    rw [← ha]
    exact same_members_with_item id _ s h (keeps_set_position_item camera_position p)
  | set_bg_priority id p =>
    refine other _ _ rfl ?_
    simp only [op.apply, sprites_manager.set_bg_priority] at ha
    split at ha
    · cases hfind : find id s.layers with
      | none => simp only [hfind, Option.some.injEq] at ha; rw [← ha]; exact same_members_refl s
      | some it =>
        simp only [hfind] at ha
        split at ha
        · rw [Option.some.injEq] at ha
          rw [← ha]
          refine same_members_reinsert id s it _ _ h hfind ?_ ?_
          · rfl
          · split <;> rfl
        · rw [Option.some.injEq] at ha; rw [← ha]; exact same_members_refl s
    · simp at ha
  | set_z_order id z =>
    refine other _ _ rfl ?_
    simp only [op.apply, sprites_manager.set_z_order] at ha
    split at ha
    · cases hfind : find id s.layers with
      | none => simp only [hfind, Option.some.injEq] at ha; rw [← ha]; exact same_members_refl s
      | some it =>
        simp only [hfind] at ha
        split at ha
        · rw [Option.some.injEq] at ha
          rw [← ha]
          refine same_members_reinsert id s it _ _ h hfind ?_ ?_
          · rfl
          · split <;> rfl
        · rw [Option.some.injEq] at ha; rw [← ha]; exact same_members_refl s
    · simp at ha
  | set_horizontal_flip id v =>
    refine other _ _ rfl ?_
    simp only [op.apply, sprites_manager.set_horizontal_flip, Option.some.injEq] at ha
    rw [← ha]
    cases hfind : find id s.layers with
    | none => exact same_members_refl s
    | some it =>
      simp only
      split
      · exact same_members_refl s
      · exact same_members_set_resource id s it _ h hfind rfl
  | set_vertical_flip id v =>
    refine other _ _ rfl ?_
    simp only [op.apply, sprites_manager.set_vertical_flip, Option.some.injEq] at ha
    rw [← ha]
    cases hfind : find id s.layers with
    | none => exact same_members_refl s
    | some it =>
      simp only
      split
      · exact same_members_refl s
      · exact same_members_set_resource id s it _ h hfind rfl
  | set_mosaic_enabled id v =>
    refine other _ _ rfl ?_
    simp only [op.apply, Option.some.injEq] at ha
    rw [← ha]
    exact same_members_with_item id _ s h
      (keeps_update_handles
        (fun it => { it with handle := hw.sprites.set_mosaic_enabled v it.handle })
        (fun it => rfl))
  | set_double_size_mode id mode =>
    refine other _ _ rfl ?_
    simp only [op.apply, Option.some.injEq] at ha
    rw [← ha]
    refine same_members_with_item id _ s h ?_
    intro it d
    simp only
    split
    · split
      · exact keeps_set_position_item camera_position _ _ d
      · exact ⟨rfl, rfl⟩
    · exact ⟨rfl, rfl⟩
  | set_visible id v =>
    refine other _ _ rfl ?_
    simp only [op.apply, Option.some.injEq] at ha
    rw [← ha]
    refine same_members_with_item id _ s h ?_
    intro it d
    simp only
    split
    · exact ⟨rfl, rfl⟩
    · exact ⟨rfl, by split <;> rfl⟩
  | set_ignore_camera id v =>
    refine other _ _ rfl ?_
    simp only [op.apply, Option.some.injEq] at ha
    rw [← ha]
    refine same_members_with_item id _ s h ?_
    intro it d
    exact keeps_set_position_item camera_position _ _ d
  | set_affine_mat_ptr id a =>
    refine other _ _ rfl ?_
    simp only [op.apply, Option.some.injEq] at ha
    rw [← ha]
    refine same_members_with_item id _ s h ?_
    intro it d
    simp only
    split
    · split
      · exact ⟨rfl, rfl⟩
      · split
        · split
          · exact keeps_remove_affine_mat camera_position _ it d
          · exact ⟨rfl, rfl⟩
        · exact keeps_assign_affine_mat camera_position _ _ it d
    · split
      · exact keeps_remove_affine_mat camera_position _ it d
      · exact ⟨rfl, rfl⟩
  | set_remove_affine_mat_when_not_needed id v =>
    refine other _ _ rfl ?_
    simp only [op.apply, Option.some.injEq] at ha
    rw [← ha]
    refine same_members_with_item id _ s h ?_
    intro it d
    simp only
    split
    · split
      · exact keeps_remove_affine_mat camera_position _ _ d
      · exact ⟨rfl, rfl⟩
    · exact ⟨rfl, rfl⟩
  | update_camera =>
    refine other _ _ rfl ?_
    simp only [op.apply, Option.some.injEq] at ha
    rw [← ha]
    refine same_members_for_each _ s s.affine_mats ?_
    intro it d
    simp only
    split
    · exact keeps_set_position_item camera_position _ _ d
    · exact ⟨rfl, rfl⟩
  | update =>
    exact other _ _ rfl (same_members_update cfg camera_position s s' ha)
  | commit =>
    refine other _ _ rfl ?_
    simp only [op.apply, Option.some.injEq] at ha
    rw [← ha]
    unfold sprites_manager.commit
    simp only
    split <;> exact same_members_refl s

theorem members_inv_init (cfg : config) (m : affine_mats_state) : members_inv (init cfg m) := by
  simp [members_inv, members_ok, init, items]

theorem live_step_perm (cfg : config) (camera_position : fixed_point) (o : op) (s : State)
    {l l' : List (Nat × Int)} (hp : l.Perm l') :
    (live_step cfg camera_position o s l).Perm (live_step cfg camera_position o s l') := by
  cases o with
  | create b =>
    simp only [live_step]
    split
    · exact hp.cons _
    · exact hp
  | increase_usages id => exact hp.map _
  | decrease_usages id => exact (hp.map _).filter _
  | _ => exact hp

/-- In a reachable state the sort index holds the records of the table of
live records, and the membership invariants hold. -/
theorem live_reachable (cfg : config) (s : State) (lv : List (Nat × Int))
    (h : reachable_live cfg s lv) :
    ((items s.layers).map member_info).Perm lv ∧ members_inv s := by
  induction h with
  | init m => exact ⟨by simp [init, items], members_inv_init cfg m⟩
  | step s s' lv camera_position o _ ha ih =>
    obtain ⟨h1, h2⟩ := live_step_members cfg camera_position o s s' ih.2 ha
    exact ⟨h1.trans (live_step_perm cfg camera_position o s ih.1), h2⟩
  | pool s lv m _ ih => exact ih

theorem reachable_has_live (cfg : config) (s : State) (h : reachable cfg s) :
    ∃ lv, reachable_live cfg s lv := by
  induction h with
  | init m => exact ⟨[], reachable_live.init m⟩
  | step s s' camera_position o _ ha ih =>
    obtain ⟨lv, hlv⟩ := ih
    exact ⟨_, reachable_live.step s s' lv camera_position o hlv ha⟩
  | pool s m _ ih =>
    obtain ⟨lv, hlv⟩ := ih
    exact ⟨lv, reachable_live.pool s lv m hlv⟩

theorem members_inv_reachable (cfg : config) (s : State) (h : reachable cfg s) :
    members_inv s := by
  obtain ⟨lv, hlv⟩ := reachable_has_live cfg s h
  exact (live_reachable cfg s lv hlv).2

theorem sample_s3_live : reachable_live sample.cfg sample.s3 [(2, 1), (1, 1), (0, 1)] :=
  reachable_live.step sample.s2 sample.s3 [(1, 1), (0, 1)] sample.camera
    (op.create (sample.builder 2 1 300 20))
    (reachable_live.step sample.s1 sample.s2 [(0, 1)] sample.camera
      (op.create (sample.builder 0 5 20 20))
      (reachable_live.step (init sample.cfg sample.mats) sample.s1 [] sample.camera
        (op.create (sample.builder 1 5 10 10)) (reachable_live.init sample.mats) rfl)
      rfl)
    rfl

/-- C14: in every reachable state the sort index holds exactly the live
records, each once: the `(identity, reference count)` entries of its records
are, up to order, the table of live records kept beside the manager (a record
is live from the `create` that returned it until its reference count drops to
zero); no identity occurs twice; every identity was handed out by the pool and
every count is positive. In such a state a `create` that returns an identity
inserts one new record, of that identity, which no member had;
`set_bg_priority` and `set_z_order` keep the members; `decrease_usages` of the
last reference removes exactly the released record, and any other
`decrease_usages` removes none. Every state reached by the public operations
comes with such a table. -/
theorem sort_index_holds_exactly_the_live_records (cfg : config) (s : State)
    (lv : List (Nat × Int)) (h : reachable_live cfg s lv) :
    ((items s.layers).map member_info).Perm lv ∧
    ((items s.layers).map (fun it => it.id)).Nodup ∧
    (∀ it ∈ items s.layers, it.id < s.data.items_pool_size ∧ 0 < it.usages) ∧
    (∀ (cam : fixed_point) (b : sprite_builder) (id : Nat),
      (create cfg cam b s).1 = some id →
        (∀ x ∈ items s.layers, x.id ≠ id) ∧
        ∃ new : item, new.id = id ∧
          (items (create cfg cam b s).2.layers).Perm (new :: items s.layers)) ∧
    (∀ (id : Nat) (p : Int) (s' : State), set_bg_priority cfg id p s = some s' →
      ((items s'.layers).map member_info).Perm ((items s.layers).map member_info)) ∧
    (∀ (id : Nat) (z : Int) (s' : State), set_z_order cfg id z s = some s' →
      ((items s'.layers).map member_info).Perm ((items s.layers).map member_info)) ∧
    (∀ (id : Nat) (it : item), find id s.layers = some it →
      (it.usages = 1 →
        (items s.layers).Perm (it :: items (decrease_usages id s).layers) ∧
        ∀ x ∈ items (decrease_usages id s).layers, x.id ≠ id) ∧
      (it.usages ≠ 1 →
        (items (decrease_usages id s).layers).map (fun x => x.id) =
          (items s.layers).map (fun x => x.id))) ∧
    (∀ t : State, reachable cfg t → ∃ l, reachable_live cfg t l) := by
  obtain ⟨hperm, hinv⟩ := live_reachable cfg s lv h
  have hids := members_inv_ids s hinv
  have hmem : ∀ it ∈ items s.layers, it.id < s.data.items_pool_size ∧ 0 < it.usages :=
    fun it hit => hinv.2 (member_info it) (List.mem_map_of_mem _ hit)
  refine ⟨hperm, hids, hmem, ?_, ?_, ?_, ?_, reachable_has_live cfg⟩
  · intro cam b id hid
    rcases create_result cfg cam b s with ⟨h1, _⟩ | ⟨new, h1, h2, h3, _⟩
    · rw [h1] at hid; cases hid
    · rw [h1, Option.some.injEq] at hid
      subst hid
      refine ⟨?_, new, congrArg Prod.fst h2, ?_⟩
      · intro x hx
        exact Nat.ne_of_lt (hmem x hx).1
      · rw [h3]
        exact items_insert_perm new s.layers
  · intro id p s' ha
    exact (live_step_members cfg ⟨⟨0⟩, ⟨0⟩⟩ (op.set_bg_priority id p) s s' hinv ha).1
  · intro id z s' ha
    exact (live_step_members cfg ⟨⟨0⟩, ⟨0⟩⟩ (op.set_z_order id z) s s' hinv ha).1
  · intro id it hfind
    refine ⟨?_, ?_⟩
    · intro hu
      have hz : it.usages - 1 = 0 := by omega
      have hl : (decrease_usages id s).layers = erase id s.layers := by
        unfold decrease_usages
        simp only [hfind, hz, if_true]
      rw [hl]
      refine ⟨items_perm_cons_erase id s.layers it hids hfind, ?_⟩
      intro x hx
      rw [items_erase] at hx
      have := (List.mem_filter.mp hx).2
      simpa using this
    · intro hu
      have hz : ¬ it.usages - 1 = 0 := by omega
      have hl : (decrease_usages id s).layers =
          replace { it with usages := it.usages - 1 } s.layers := by
        unfold decrease_usages
        simp only [hfind, hz, if_false]
      rw [hl]
      exact items_replace_map (fun x => x.id) id s.layers it _ hids hfind rfl rfl

theorem sort_index_holds_exactly_the_live_records_witness :
    ((items sample.s3.layers).map member_info).Perm [(2, 1), (1, 1), (0, 1)] ∧
    ((items sample.s3.layers).map (fun it => it.id)).Nodup ∧
    (∀ it ∈ items sample.s3.layers,
      it.id < sample.s3.data.items_pool_size ∧ 0 < it.usages) :=
  ⟨(sort_index_holds_exactly_the_live_records sample.cfg sample.s3 _ sample_s3_live).1,
   (sort_index_holds_exactly_the_live_records sample.cfg sample.s3 _ sample_s3_live).2.1,
   (sort_index_holds_exactly_the_live_records sample.cfg sample.s3 _ sample_s3_live).2.2.1⟩

end sprites_manager

/-! ### Attaching a transform that changes nothing -/

namespace sorted_sprites

theorem replace_self (id : Nat) (ls : List layer) (it : item)
    (hn : ((items ls).map (fun it => it.id)).Nodup) (hfind : find id ls = some it) :
    replace it ls = ls := by
  have hmem := find_mem id ls it hfind
  unfold replace
  conv_rhs => rw [← List.map_id ls]
  apply List.map_congr_left
  intro l hl
  have hsecond : l.second.map (fun x => if x.id = it.id then it else x) = l.second := by
    conv_rhs => rw [← List.map_id l.second]
    apply List.map_congr_left
    intro x hx
    have hx' : x ∈ items ls := mem_items.mpr ⟨l, hl, hx⟩
    simp only [id_eq]
    split
    · rename_i hid
      exact eq_of_id_eq hn hmem hx' hid.symm
    · rfl
  rw [hsecond]
  rfl

end sorted_sprites

namespace sprites_manager
open sorted_sprites

theorem with_item_unchanged (id : Nat) (f : item → static_data → item × static_data)
    (s : State) (hn : ((items s.layers).map (fun it => it.id)).Nodup)
    (hf : ∀ it, find id s.layers = some it → f it s.data = (it, s.data)) :
    with_item id f s = s := by
  unfold with_item
  cases hfind : find id s.layers with
  | none => rfl
  | some it =>
    simp only [hf it hfind]
    rw [replace_self id s.layers it hn hfind]

theorem sample_s9_reachable : reachable sample.cfg sample.s9 :=
  reachable.step sample.s4 sample.s9 sample.camera
    (op.set_remove_affine_mat_when_not_needed 1 true) sample_s4_reachable rfl

theorem sample_s10_reachable : reachable sample.cfg sample.s10 :=
  reachable.step sample.s4 sample.s10 sample.camera (op.set_affine_mat_ptr 0 (some 1))
    sample_s4_reachable rfl

/-- C19: in a reachable state, `set_affine_mat_ptr` with an identity transform
on a record that removes its transform when it is not needed and holds none
changes nothing: the whole manager state (records, table, pending range,
flags) is the one before the call, and the record still holds no
transform. -/
theorem attach_identity_to_detaching_record_is_noop (cfg : config) (s : State)
    (camera_position : fixed_point) (id a : Nat) (h : reachable cfg s)
    (hpolicy : remove_affine_mat_when_not_needed id s = some true)
    (hnone : affine_mat_ptr id s = some none)
    (hidentity : sprite_affine_mats_manager.is_identity s.affine_mats a = true) :
    set_affine_mat_ptr camera_position id (some a) s = s ∧
    affine_mat_ptr id (set_affine_mat_ptr camera_position id (some a) s) = some none := by
  have hs : set_affine_mat_ptr camera_position id (some a) s = s := by
    unfold set_affine_mat_ptr
    apply with_item_unchanged id _ s (members_inv_ids s (members_inv_reachable cfg s h))
    intro it hfind
    have h1 : it.remove_affine_mat_when_not_needed = true := by
      simpa [remove_affine_mat_when_not_needed, hfind] using hpolicy
    have h2 : it.affine_mat_ptr = none := by
      simpa [affine_mat_ptr, hfind] using hnone
    simp [h1, h2, hidentity]
  rw [hs]
  exact ⟨rfl, hnone⟩

theorem attach_identity_to_detaching_record_is_noop_witness :
    remove_affine_mat_when_not_needed 1 sample.s9 = some true ∧
    affine_mat_ptr 1 sample.s9 = some none ∧
    sprite_affine_mats_manager.is_identity sample.s9.affine_mats 0 = true ∧
    set_affine_mat_ptr sample.camera 1 (some 0) sample.s9 = sample.s9 :=
  ⟨by decide, by decide, by decide,
   (attach_identity_to_detaching_record_is_noop sample.cfg sample.s9 sample.camera 1 0
      sample_s9_reachable (by decide) (by decide) (by decide)).1⟩

/-- C20: in a reachable state, `set_affine_mat_ptr` with the transform the
record already holds changes nothing: the whole manager state is the one
before the call. -/
theorem attach_held_transform_is_noop (cfg : config) (s : State)
    (camera_position : fixed_point) (id a : Nat) (h : reachable cfg s)
    (hheld : affine_mat_ptr id s = some (some a)) :
    set_affine_mat_ptr camera_position id (some a) s = s := by
  unfold set_affine_mat_ptr
  apply with_item_unchanged id _ s (members_inv_ids s (members_inv_reachable cfg s h))
  intro it hfind
  have h1 : it.affine_mat_ptr = some a := by
    simpa [affine_mat_ptr, hfind] using hheld
  simp [h1]

theorem attach_held_transform_is_noop_witness :
    affine_mat_ptr 0 sample.s10 = some (some 1) ∧
    set_affine_mat_ptr sample.camera 0 (some 1) sample.s10 = sample.s10 :=
  ⟨by decide,
   attach_held_transform_is_noop sample.cfg sample.s10 sample.camera 0 1
     sample_s10_reachable (by decide)⟩

end sprites_manager

/-! ### Releasing an on-screen record -/

namespace sprites_manager
open sorted_sprites

theorem mem_snd_range' (P : List (Nat × Int)) (n : Nat)
    (hidx : P.map (fun e => e.2) = (List.range' n P.length).map (fun (i : Nat) => (i : Int)))
    (e : Nat × Int) (he : e ∈ P) : (n : Int) ≤ e.2 := by
  have : e.2 ∈ P.map (fun e => e.2) := List.mem_map_of_mem _ he
  rw [hidx] at this
  simp only [List.mem_map, List.mem_range'_1] at this
  obtain ⟨i, hi, hie⟩ := this
  omega

/-- Taking one entry out of a list of slots `n, n + 1, ...` and moving the
slots above it down by one gives the slots `n, n + 1, ...` again. -/
theorem compact_shift (P : List (Nat × Int)) (n r : Nat) (k : Int)
    (hidx : P.map (fun e => e.2) = (List.range' n P.length).map (fun (i : Nat) => (i : Int)))
    (hnodup : (P.map (fun e => e.1)).Nodup) (hmem : (r, k) ∈ P) :
    (P.filter (fun e => e.1 != r)).map (fun e => if e.2 < k then e.2 else e.2 - 1) =
      (List.range' n (P.length - 1)).map (fun (i : Nat) => (i : Int)) := by
  induction P generalizing n with
  | nil => simp at hmem
  | cons x xs ih =>
    simp only [List.map_cons, List.length_cons, List.range'_succ, List.cons.injEq] at hidx
    obtain ⟨hx, hxs⟩ := hidx
    simp only [List.map_cons, List.nodup_cons, List.mem_map, not_exists, not_and] at hnodup
    obtain ⟨hnot, hnd⟩ := hnodup
    have hge := mem_snd_range' xs (n + 1) hxs
    rcases List.mem_cons.1 hmem with heq | hin
    · subst heq
      simp only at hx hnot
      have hfilter : xs.filter (fun e => e.1 != r) = xs := by
        rw [List.filter_eq_self]
        intro e he
        have := hnot e he
        simp only [bne_iff_ne, ne_eq]
        exact this
      simp only [List.filter_cons, bne_self_eq_false, Bool.false_eq_true, if_false, hfilter,
        List.length_cons, Nat.add_sub_cancel]
      have hmap : xs.map (fun e => if e.2 < k then e.2 else e.2 - 1) =
          (xs.map (fun e => e.2)).map (fun j => j - 1) := by
        rw [List.map_map]
        apply List.map_congr_left
        intro e he
        have := hge e he
        have hlt : ¬ e.2 < k := by omega
        simp only [Function.comp, hlt, if_false]
      rw [hmap, hxs, List.map_map]
      have hr : List.range' (n + 1) xs.length = (List.range' n xs.length).map (fun i => 1 + i) := by
        rw [List.map_add_range', Nat.add_comm]
      rw [hr, List.map_map]
      apply List.map_congr_left
      intro i _
      simp only [Function.comp]
      omega
    · have hne : x.1 ≠ r := fun h0 => hnot (r, k) hin h0.symm
      have hk := hge (r, k) hin
      simp only at hk
      have hlt : x.2 < k := by omega
      have hpos : 0 < xs.length := List.length_pos_of_mem hin
      have hlen : xs.length = (xs.length - 1) + 1 := by omega
      have hb : (x.1 != r) = true := by simpa using hne
      simp only [List.filter_cons, hb, if_true, List.map_cons, hlt, List.length_cons,
        Nat.add_sub_cancel]
      rw [ih (n + 1) hxs hnd hin]
      conv_rhs => rw [hlen, List.range'_succ]
      simp only [List.map_cons, hx]

theorem filter_on_screen_map_id (l l' : List item)
    (h : l.map (fun it => { it with handles_index := 0 }) =
      l'.map (fun it => { it with handles_index := 0 })) :
    (l.filter (fun it => it.on_screen)).map (fun it => it.id) =
      (l'.filter (fun it => it.on_screen)).map (fun it => it.id) := by
  have e : ∀ l : List item, (l.filter (fun it => it.on_screen)).map (fun it => it.id) =
      ((l.map (fun it => { it with handles_index := 0 })).filter
        (fun it => it.on_screen)).map (fun it => it.id) := by
    intro l
    induction l with
    | nil => rfl
    | cons x xs ih =>
      by_cases hx : x.on_screen = true <;> simp [List.filter_cons, hx, ih]
  rw [e l, e l', h]

/-- Releasing the last reference to an on-screen record of a state with its
slots compact and nothing pending, and then `update()`. -/
theorem release_then_update (cfg : config) (camera_position : fixed_point) (s : State)
    (id : Nat) (it : item) (hcap : cfg.sprites_count ≤ 128)
    (hids : ((items s.layers).map (fun it => it.id)).Nodup)
    (hcheck : s.data.check_items_on_screen = false)
    (hmats : sprite_affine_mats_manager.updated s.affine_mats = false)
    (hcompact : ((items s.layers).filter (fun x => x.on_screen)).map
        (fun x => x.handles_index) =
      (List.range (visible_count (items s.layers))).map (fun (i : Nat) => (i : Int)))
    (hlast : s.data.last_visible_items_count = (visible_count (items s.layers) : Int))
    (hlen : s.data.handles.length = cfg.sprites_count)
    (hN : visible_count (items s.layers) ≤ cfg.sprites_count)
    (hfind : find id s.layers = some it) (husages : it.usages = 1)
    (hon : it.on_screen = true) :
    (decrease_usages id s).data.rebuild_handles = true ∧
    ∃ s2, update cfg camera_position (decrease_usages id s) = some s2 ∧
      ((items s2.layers).filter (fun x => x.on_screen)).map
          (fun x => (x.id, x.handles_index)) =
        ((items s.layers).filter (fun x => x.on_screen && x.id != id)).map
          (fun x => (x.id, if x.handles_index < it.handles_index then x.handles_index
                           else x.handles_index - 1)) ∧
      s2.data.handles[visible_count (items s.layers) - 1]? =
        some hw.sprites.hidden_handle := by
  have hz : it.usages - 1 = 0 := by omega
  have hs1 : decrease_usages id s =
      { s with data := { s.data with rebuild_handles := true },
               layers := erase id s.layers } := by
    unfold decrease_usages
    simp only [hfind, hz, hon, if_true]
  rw [hs1]
  refine ⟨rfl, ?_⟩
  generalize hs1def : ({ s with data := { s.data with rebuild_handles := true },
                                layers := erase id s.layers } : State) = s1
  have hl1 : items s1.layers = (items s.layers).filter (fun x => x.id != id) := by
    rw [← hs1def]; exact items_erase id s.layers
  have hd1 : s1.data.rebuild_handles = true := by rw [← hs1def]
  have hh1 : s1.data.handles = s.data.handles := by rw [← hs1def]
  have hlast1 : s1.data.last_visible_items_count = s.data.last_visible_items_count := by
    rw [← hs1def]
  have hupd : update cfg camera_position s1 = _rebuild_handles cfg s1 := by
    rw [← hs1def]
    simp [update, _check_affine_mats, _check_items_on_screen, hmats, hcheck]
  rw [hupd]
  -- the on-screen records before the release, as (identity, slot)
  have hmem := find_mem id s.layers it hfind
  have hid := find_id id s.layers it hfind
  have hvc : visible_count (items s.layers) =
      ((items s.layers).filter (fun x => x.on_screen)).length := rfl
  generalize hO : (items s.layers).filter (fun x => x.on_screen) = O at hcompact hvc
  have hPidx : (O.map (fun x => (x.id, x.handles_index))).map (fun e => e.2) =
      (List.range' 0 (O.map (fun x => (x.id, x.handles_index))).length).map
        (fun (i : Nat) => (i : Int)) := by
    rw [List.map_map, List.length_map, ← hvc, ← List.range_eq_range']
    exact hcompact
  have hPnodup : ((O.map (fun x => (x.id, x.handles_index))).map (fun e => e.1)).Nodup := by
    rw [List.map_map, ← hO]
    exact hids.sublist ((List.filter_sublist _).map _)
  have hPmem : (id, it.handles_index) ∈ O.map (fun x => (x.id, x.handles_index)) := by
    rw [← hO, ← hid]
    exact List.mem_map_of_mem (fun x : item => (x.id, x.handles_index))
      (List.mem_filter.mpr ⟨hmem, by simpa using hon⟩)
  have hshift := compact_shift _ 0 id it.handles_index hPidx hPnodup hPmem
  rw [List.filter_map, List.map_map, List.length_map, ← hvc] at hshift
  -- the on-screen records after the release
  have hfO : (items s1.layers).filter (fun x => x.on_screen) =
      O.filter (fun x => x.id != id) := by
    rw [hl1, ← hO, List.filter_filter, List.filter_filter]
    apply List.filter_congr
    intro x _
    exact Bool.and_comm _ _
  have hvc1 : visible_count (items s1.layers) = visible_count (items s.layers) - 1 := by
    have := congrArg List.length hshift
    simp only [List.length_map, List.length_range'] at this
    unfold visible_count
    rw [hfO]
    exact this
  have hNpos : 0 < visible_count (items s.layers) := by
    rw [hvc]
    obtain ⟨x, hx, _⟩ := List.mem_map.mp hPmem
    exact List.length_pos_of_mem hx
  -- the recompaction
  obtain ⟨q, hq⟩ := rebuild_loop_some cfg (items s1.layers) 0 s1.data.handles (by omega)
  obtain ⟨r, hr, hi, h2⟩ := for_each_item_checked_of_flat _ _ _ _ hq
  obtain ⟨s2, hs2, hl, _, _, _, _, _, _, hhandles, _⟩ :=
    _rebuild_handles_result cfg s1 r hd1 hr
  obtain ⟨k1, k2, k3, _, k5⟩ := rebuild_loop_spec cfg (items s1.layers) 0 s1.data.handles q hq
  refine ⟨s2, hs2, ?_, ?_⟩
  · rw [hl, hi]
    have hidsq := filter_on_screen_map_id q.1 (items s1.layers) k2
    have hidxq : (q.1.filter (fun x => x.on_screen)).map (fun x => x.handles_index) =
        (List.range' 0 (visible_count (items s.layers) - 1)).map
          (fun (i : Nat) => (i : Int)) := by
      rw [k3, hvc1]
      apply List.map_congr_left
      intro i hi0
      have := (List.mem_range'_1.mp hi0).2
      exact int8_t_of_lt i (by omega)
    have hrhs : (items s.layers).filter (fun x => x.on_screen && x.id != id) =
        O.filter (fun x => x.id != id) := by
      rw [← hO, List.filter_filter]
      apply List.filter_congr
      intro x _
      exact Bool.and_comm _ _
    rw [hrhs, ← List.zip_map', ← List.zip_map', hidsq, hidxq, hfO, ← hshift]
    rfl
  · rw [hhandles, h2, k1, hlast1, hlast, hvc1]
    have hpos : ((visible_count (items s.layers) : Int) -
        ((0 + (visible_count (items s.layers) - 1) : Nat) : Int)) > 0 := by omega
    rw [if_pos hpos, hide_getElem?]
    have hlenq : q.2.2.length = cfg.sprites_count := by rw [k5, hh1, hlen]
    split
    · rfl
    · rename_i hc
      exfalso
      apply hc
      rw [hlenq]
      omega

end sprites_manager

/-! ### Compact slots in the reachable states -/

namespace sprites_manager
open sorted_sprites

theorem on_screen_slots_of_slot_info (l l' : List item)
    (h : l'.map slot_info = l.map slot_info) :
    (l'.filter (fun x => x.on_screen)).map (fun x => x.handles_index) =
      (l.filter (fun x => x.on_screen)).map (fun x => x.handles_index) ∧
    visible_count l' = visible_count l := by
  have e : ∀ l : List item, (l.filter (fun x => x.on_screen)).map (fun x => x.handles_index) =
      ((l.map slot_info).filter (fun e => e.2.2)).map (fun e => e.2.1) := by
    intro l
    rw [List.filter_map, List.map_map]
    rfl
  have h1 : (l'.filter (fun x => x.on_screen)).map (fun x => x.handles_index) =
      (l.filter (fun x => x.on_screen)).map (fun x => x.handles_index) := by
    rw [e l', e l, h]
  refine ⟨h1, ?_⟩
  have := congrArg List.length h1
  simpa [visible_count] using this

theorem compact_inv_soft (cfg : config) (s s' : State) (h : compact_inv cfg s)
    (hlen : s'.data.handles.length = s.data.handles.length)
    (hsoft : s'.data.rebuild_handles = false →
      s.data.rebuild_handles = false ∧
      (items s'.layers).map slot_info = (items s.layers).map slot_info ∧
      s'.data.last_visible_items_count = s.data.last_visible_items_count) :
    compact_inv cfg s' := by
  refine ⟨hlen.trans h.1, ?_⟩
  intro hflag
  obtain ⟨h1, h2, h3⟩ := hsoft hflag
  obtain ⟨c1, c2⟩ := h.2 h1
  obtain ⟨e1, e2⟩ := on_screen_slots_of_slot_info _ _ h2
  rw [e1, e2, h3]
  exact ⟨c1, c2⟩

theorem compact_inv_soft_filter (cfg : config) (s s' : State) (h : compact_inv cfg s)
    (hlen : s'.data.handles.length = s.data.handles.length)
    (hsoft : s'.data.rebuild_handles = false →
      s.data.rebuild_handles = false ∧
      (items s'.layers).filter (fun x => x.on_screen) =
        (items s.layers).filter (fun x => x.on_screen) ∧
      s'.data.last_visible_items_count = s.data.last_visible_items_count) :
    compact_inv cfg s' := by
  refine ⟨hlen.trans h.1, ?_⟩
  intro hflag
  obtain ⟨h1, h2, h3⟩ := hsoft hflag
  obtain ⟨c1, c2⟩ := h.2 h1
  have hvc : visible_count (items s'.layers) = visible_count (items s.layers) := by
    unfold visible_count
    rw [h2]
  rw [h2, hvc, h3]
  exact ⟨c1, c2⟩

theorem _update_handles_length (it : item) (d : static_data) :
    (_update_handles it d).handles.length = d.handles.length := by
  unfold _update_handles
  simp only
  split
  · simp only [List.length_set]
  · rfl

theorem table_set_position_item (camera_position position : fixed_point) :
    keeps_table (set_position_item camera_position position) := by
  intro it d
  unfold set_position_item
  simp only
  split
  · exact ⟨(_update_handles_frame _ d).2.2.2, _update_handles_length _ d⟩
  · exact ⟨(_update_handles_frame _ d).2.2.2, _update_handles_length _ d⟩

theorem table_update_handles (g : item → item) :
    keeps_table (fun it d => (g it, _update_handles (g it) d)) := by
  intro it d
  exact ⟨(_update_handles_frame _ d).2.2.2, _update_handles_length _ d⟩

theorem table_assign_affine_mat (camera_position : fixed_point) (m : affine_mats_state)
    (a : Nat) : keeps_table (_assign_affine_mat camera_position m a) := by
  intro it d
  unfold _assign_affine_mat
  simp only
  split
  · exact table_set_position_item camera_position _ _ d
  · exact ⟨(_update_handles_frame _ d).2.2.2, _update_handles_length _ d⟩

theorem table_remove_affine_mat (camera_position : fixed_point) (m : affine_mats_state) :
    keeps_table (_remove_affine_mat camera_position m) := by
  intro it d
  unfold _remove_affine_mat
  split
  · exact ⟨rfl, rfl⟩
  · simp only
    split
    · exact table_set_position_item camera_position _ _ d
    · exact ⟨(_update_handles_frame _ d).2.2.2, _update_handles_length _ d⟩

theorem table_check_affine_mats_item (camera_position : fixed_point) (m : affine_mats_state) :
    keeps_table (_check_affine_mats_item camera_position m) := by
  intro it d
  unfold _check_affine_mats_item
  split
  · exact ⟨rfl, rfl⟩
  · split
    · split
      · exact table_remove_affine_mat camera_position m it d
      · split
        · simp only
          split
          · exact table_set_position_item camera_position _ _ d
          · exact ⟨rfl, rfl⟩
        · exact ⟨rfl, rfl⟩
    · exact ⟨rfl, rfl⟩

theorem keeps_compact_of_frame (f : item → static_data → item × static_data)
    (hf : frame_fn f) (ht : keeps_table f) : keeps_compact f := by
  intro it d
  obtain ⟨h1, h2, _⟩ := hf it d
  obtain ⟨t1, t2⟩ := ht it d
  have hid : (f it d).1.id = it.id := congrArg Prod.fst h1
  have hidx : (f it d).1.handles_index = it.handles_index :=
    congrArg (fun e : Nat × Int × Bool => e.2.1) h1
  have hon : (f it d).1.on_screen = it.on_screen :=
    congrArg (fun e : Nat × Int × Bool => e.2.2) h1
  exact ⟨hid, hidx, t2, fun h0 => ⟨by rw [← h2]; exact h0, hon, t1⟩⟩

theorem compact_inv_replace (cfg : config) (id : Nat) (s : State) (it it' : item)
    (d : static_data) (h : compact_inv cfg s)
    (hn : ((items s.layers).map (fun it => it.id)).Nodup)
    (hfind : find id s.layers = some it) (hid : it'.id = it.id)
    (hidx : it'.handles_index = it.handles_index)
    (hlen : d.handles.length = s.data.handles.length)
    (hsoft : d.rebuild_handles = false →
      s.data.rebuild_handles = false ∧ it'.on_screen = it.on_screen ∧
      d.last_visible_items_count = s.data.last_visible_items_count) :
    compact_inv cfg { s with data := d, layers := replace it' s.layers } := by
  refine compact_inv_soft cfg s _ h hlen ?_
  intro hflag
  obtain ⟨h1, h2, h3⟩ := hsoft hflag
  exact ⟨h1, items_replace_map slot_info id s.layers it it' hn hfind hid
    (by simp only [slot_info, hid, hidx, h2]), h3⟩

theorem compact_inv_with_item (cfg : config) (id : Nat)
    (f : item → static_data → item × static_data) (s : State) (h : compact_inv cfg s)
    (hn : ((items s.layers).map (fun it => it.id)).Nodup) (hf : keeps_compact f) :
    compact_inv cfg (with_item id f s) := by
  unfold with_item
  cases hfind : find id s.layers with
  | none => exact h
  | some it =>
    obtain ⟨f1, f2, f3, f4⟩ := hf it s.data
    exact compact_inv_replace cfg id s it _ _ h hn hfind f1 f2 f3 f4

theorem compact_inv_for_each (cfg : config) (f : item → static_data → item × static_data)
    (s : State) (m : affine_mats_state) (h : compact_inv cfg s) (hf : frame_fn f)
    (ht : keeps_table f) :
    compact_inv cfg { s with data := (for_each_item f s.layers s.data).2,
                             layers := (for_each_item f s.layers s.data).1,
                             affine_mats := m } := by
  obtain ⟨h1, h2, _⟩ := for_each_item_frame f hf s.layers s.data
  refine compact_inv_soft cfg s _ h ?_ ?_
  · exact for_each_item_state (fun d => d.handles.length) f (fun it d => (ht it d).2)
      s.layers s.data
  · intro hflag
    refine ⟨by rw [← h2]; exact hflag, h1, ?_⟩
    exact for_each_item_state (fun d => d.last_visible_items_count) f
      (fun it d => (ht it d).1) s.layers s.data

end sprites_manager

namespace sorted_sprites

theorem filter_insert_of_false (p : item → Bool) (it : item) (hp : p it = false)
    (ls : List layer) : (items (insert it ls)).filter p = (items ls).filter p := by
  induction ls with
  | nil => simp [insert, items, hp]
  | cons l ls ih =>
    unfold insert
    split
    · simp [items, hp]
    · split
      · simp [items, List.filter_append, hp]
      · simp only [items, List.filter_append, ih]

end sorted_sprites

namespace sprites_manager
open sorted_sprites

theorem filter_erase_of_off (id : Nat) (ls : List layer) (it : item)
    (hn : ((items ls).map (fun it => it.id)).Nodup) (hfind : find id ls = some it)
    (hoff : it.on_screen = false) :
    (items (erase id ls)).filter (fun x => x.on_screen) =
      (items ls).filter (fun x => x.on_screen) := by
  have hid := find_id id ls it hfind
  have hmem := find_mem id ls it hfind
  rw [items_erase, List.filter_filter]
  apply List.filter_congr
  intro x hx
  by_cases hx' : x.id = id
  · have : x = it := eq_of_id_eq hn hx hmem (hx'.trans hid.symm)
    subst this
    simp [hoff]
  · have : (x.id != id) = true := by simpa using hx'
    simp [this]

theorem compact_inv_create (cfg : config) (camera_position : fixed_point)
    (b : sprite_builder) (s : State) (h : compact_inv cfg s) :
    compact_inv cfg (create cfg camera_position b s).2 := by
  unfold create
  split
  · exact h
  · split
    · exact h
    · split
      · exact h
      · rename_i _ t _ _ p _
        have hoff : (item.create camera_position s.affine_mats s.data.items_pool_size
            b t p).on_screen = false :=
          congrArg (fun e : Nat × Int × Bool => e.2.2)
            (item_create_slot_info camera_position s.affine_mats s.data.items_pool_size b t p)
        refine compact_inv_soft_filter cfg s _ h ?_ ?_
        · simp only
          split <;> rfl
        · intro hflag
          refine ⟨?_, filter_insert_of_false _ _ hoff s.layers, ?_⟩
          · simp only at hflag
            split at hflag <;> exact hflag
          · simp only
            split <;> rfl

theorem compact_inv_reinsert (cfg : config) (id : Nat) (s : State) (it it' : item)
    (h : compact_inv cfg s) (hn : ((items s.layers).map (fun it => it.id)).Nodup)
    (hfind : find id s.layers = some it) (hon : it'.on_screen = it.on_screen) :
    compact_inv cfg { s with
      data := if it'.on_screen then { s.data with rebuild_handles := true } else s.data,
      layers := insert it' (erase id s.layers) } := by
  refine compact_inv_soft_filter cfg s _ h ?_ ?_
  · simp only
    split <;> rfl
  · intro hflag
    simp only at hflag
    by_cases hon' : it'.on_screen = true
    · simp [hon'] at hflag
    · have hoff' : it'.on_screen = false := by simpa using hon'
      simp only [hoff', Bool.false_eq_true, if_false] at hflag ⊢
      refine ⟨hflag, ?_, trivial⟩
      rw [filter_insert_of_false _ _ hoff',
        filter_erase_of_off id s.layers it hn hfind (by rw [← hon]; exact hoff')]

theorem compact_inv_decrease_usages (cfg : config) (id : Nat) (s : State)
    (h : compact_inv cfg s) (hn : ((items s.layers).map (fun it => it.id)).Nodup) :
    compact_inv cfg (decrease_usages id s) := by
  unfold decrease_usages
  cases hfind : find id s.layers with
  | none => exact h
  | some it =>
    simp only
    split
    · refine compact_inv_soft_filter cfg s _ h ?_ ?_
      · simp only
        split <;> rfl
      · intro hflag
        simp only at hflag
        by_cases hon : it.on_screen = true
        · simp [hon] at hflag
        · have hoff : it.on_screen = false := by simpa using hon
          simp only [hoff, Bool.false_eq_true, if_false] at hflag ⊢
          exact ⟨hflag, filter_erase_of_off id s.layers it hn hfind hoff, trivial⟩
    · exact compact_inv_replace cfg id s it _ s.data h hn hfind rfl rfl rfl
        (fun h0 => ⟨h0, rfl, rfl⟩)

theorem compact_inv_check_affine_mats (cfg : config) (camera_position : fixed_point)
    (s : State) (h : compact_inv cfg s) :
    compact_inv cfg (_check_affine_mats camera_position s) := by
  unfold _check_affine_mats
  split
  · exact compact_inv_for_each cfg _ s _ h (frame_check_affine_mats_item camera_position _)
      (table_check_affine_mats_item camera_position _)
  · exact h

theorem compact_inv_check_items_on_screen (cfg : config) (camera_position : fixed_point)
    (s : State) (h : compact_inv cfg s) :
    compact_inv cfg (_check_items_on_screen cfg camera_position s) := by
  unfold _check_items_on_screen
  split
  · have hi := for_each_item_items (_check_items_on_screen_item cfg camera_position)
      s.layers s.data.rebuild_handles
    have h1 : items (for_each_item (_check_items_on_screen_item cfg camera_position)
        s.layers s.data.rebuild_handles).1 =
        (for_each_in_layer (_check_items_on_screen_item cfg camera_position)
          (items s.layers) s.data.rebuild_handles).1 := by rw [← hi]
    have h2 : (for_each_item (_check_items_on_screen_item cfg camera_position)
        s.layers s.data.rebuild_handles).2 =
        (for_each_in_layer (_check_items_on_screen_item cfg camera_position)
          (items s.layers) s.data.rebuild_handles).2 := by rw [← hi]
    obtain ⟨_, c2⟩ := check_items_on_screen_loop cfg camera_position (items s.layers)
      s.data.rebuild_handles
    refine compact_inv_soft cfg s _ h rfl ?_
    intro hflag
    simp only [h2] at hflag
    obtain ⟨k1, k2⟩ := c2 hflag
    refine ⟨k1, ?_, rfl⟩
    simp only [h1]
    exact k2
  · exact h

theorem hide_length (count start : Nat) (hs : List handle) :
    (hw.sprites.hide count start hs).length = hs.length := by
  induction count generalizing start hs with
  | zero => rfl
  | succ c ih => simp only [hw.sprites.hide, ih, List.length_set]

theorem compact_inv_rebuild (cfg : config) (s s' : State) (hcap : cfg.sprites_count ≤ 128)
    (h : compact_inv cfg s) (hs' : _rebuild_handles cfg s = some s') :
    compact_inv cfg s' := by
  by_cases hflag : s.data.rebuild_handles = true
  · cases hr : for_each_item_checked (_rebuild_handles_item cfg) s.layers
        (0, s.data.handles) with
    | none => simp [_rebuild_handles, hflag, hr] at hs'
    | some r =>
      obtain ⟨s2, hs2, hl, _, _, _, _, _, hlast, hhandles, _⟩ :=
        _rebuild_handles_result cfg s r hflag hr
      rw [hs2, Option.some.injEq] at hs'
      subst hs'
      have hq := flat_of_for_each_item_checked _ _ _ _ hr
      have hb := rebuild_loop_bound cfg _ _ _ _ hq
      obtain ⟨_, g2, _, _, _, g6⟩ :=
        rebuild_loop_slots cfg (items s.layers) s.data.handles _ (by omega) hq
      obtain ⟨k1, _, _, _, k5⟩ := rebuild_loop_spec cfg (items s.layers) 0 s.data.handles _ hq
      simp only at g2 g6 k1 k5
      refine ⟨?_, ?_⟩
      · rw [hhandles]
        split
        · rw [hide_length, k5]; exact h.1
        · rw [k5]; exact h.1
      · intro _
        rw [hl, hlast, k1]
        exact ⟨g2, by rw [g6]; simp⟩
  · simp only [_rebuild_handles, hflag] at hs'
    simp only [Bool.false_eq_true, if_false, Option.some.injEq] at hs'
    rw [← hs']
    exact h

theorem compact_inv_update (cfg : config) (camera_position : fixed_point) (s s' : State)
    (hcap : cfg.sprites_count ≤ 128) (h : compact_inv cfg s)
    (hs' : update cfg camera_position s = some s') : compact_inv cfg s' := by
  unfold update at hs'
  exact compact_inv_rebuild cfg _ s' hcap
    (compact_inv_check_items_on_screen cfg camera_position _
      (compact_inv_check_affine_mats cfg camera_position s h)) hs'

theorem compact_inv_set_resource (cfg : config) (id : Nat) (s : State) (it it' : item)
    (h : compact_inv cfg s) (hn : ((items s.layers).map (fun it => it.id)).Nodup)
    (hfind : find id s.layers = some it) (hinfo : slot_info it' = slot_info it) :
    compact_inv cfg { s with data := _update_handles it' s.data,
                             layers := replace it' s.layers } :=
  compact_inv_replace cfg id s it it' _ h hn hfind (congrArg Prod.fst hinfo)
    (congrArg (fun e : Nat × Int × Bool => e.2.1) hinfo) (_update_handles_length it' s.data)
    (fun h0 => ⟨by rw [← (_update_handles_frame it' s.data).1]; exact h0,
      congrArg (fun e : Nat × Int × Bool => e.2.2) hinfo,
      (_update_handles_frame it' s.data).2.2.2⟩)

theorem compact_set_position_item (camera_position position : fixed_point) :
    keeps_compact (set_position_item camera_position position) :=
  keeps_compact_of_frame _ (frame_set_position_item camera_position position)
    (table_set_position_item camera_position position)

theorem compact_remove_affine_mat (camera_position : fixed_point) (m : affine_mats_state) :
    keeps_compact (_remove_affine_mat camera_position m) :=
  keeps_compact_of_frame _ (frame_remove_affine_mat camera_position m)
    (table_remove_affine_mat camera_position m)

theorem compact_assign_affine_mat (camera_position : fixed_point) (m : affine_mats_state)
    (a : Nat) : keeps_compact (_assign_affine_mat camera_position m a) :=
  keeps_compact_of_frame _ (frame_assign_affine_mat camera_position m a)
    (table_assign_affine_mat camera_position m a)

theorem compact_inv_step (cfg : config) (camera_position : fixed_point) (o : op)
    (s s' : State) (hcap : cfg.sprites_count ≤ 128) (h : compact_inv cfg s)
    (hm : members_inv s) (ha : o.apply cfg camera_position s = some s') :
    compact_inv cfg s' := by
  have hn := members_inv_ids s hm
  cases o with
  | create b =>
    simp only [op.apply, Option.some.injEq] at ha
    rw [← ha]; exact compact_inv_create cfg camera_position b s h
  | increase_usages id =>
    simp only [op.apply, Option.some.injEq] at ha
    rw [← ha]
    exact compact_inv_with_item cfg id _ s h hn
      (fun it d => ⟨rfl, rfl, rfl, fun h0 => ⟨h0, rfl, rfl⟩⟩)
  | decrease_usages id =>
    simp only [op.apply, Option.some.injEq] at ha
    rw [← ha]; exact compact_inv_decrease_usages cfg id s h hn
  | set_tiles_ptr id t =>
    simp only [op.apply, sprites_manager.set_tiles_ptr] at ha
    cases hfind : find id s.layers with
    | none => simp only [hfind, Option.some.injEq] at ha; rw [← ha]; exact h
    | some it =>
      simp only [hfind] at ha
      split at ha
      · split at ha
        · rw [Option.some.injEq] at ha
          rw [← ha]
          exact compact_inv_set_resource cfg id s it _ h hn hfind rfl
        · simp at ha
      · rw [Option.some.injEq] at ha; rw [← ha]; exact h
  | set_palette_ptr id p =>
    simp only [op.apply, sprites_manager.set_palette_ptr] at ha
    cases hfind : find id s.layers with
    | none => simp only [hfind, Option.some.injEq] at ha; rw [← ha]; exact h
    | some it =>
      simp only [hfind] at ha
      split at ha
      · split at ha
        · rw [Option.some.injEq] at ha
          rw [← ha]
          exact compact_inv_set_resource cfg id s it _ h hn hfind rfl
        · simp at ha
      · rw [Option.some.injEq] at ha; rw [← ha]; exact h
  | set_position id p =>
    simp only [op.apply, Option.some.injEq] at ha
    rw [← ha]
    exact compact_inv_with_item cfg id _ s h hn (compact_set_position_item camera_position p)
  | set_bg_priority id p =>
    simp only [op.apply, sprites_manager.set_bg_priority] at ha
    split at ha
    · cases hfind : find id s.layers with
      | none => simp only [hfind, Option.some.injEq] at ha; rw [← ha]; exact h
      | some it =>
        simp only [hfind] at ha
        split at ha
        · rw [Option.some.injEq] at ha
          rw [← ha]
          refine compact_inv_reinsert cfg id s it _ h hn hfind ?_
          rfl
        · rw [Option.some.injEq] at ha; rw [← ha]; exact h
    · simp at ha
  | set_z_order id z =>
    simp only [op.apply, sprites_manager.set_z_order] at ha
    split at ha
    · cases hfind : find id s.layers with
      | none => simp only [hfind, Option.some.injEq] at ha; rw [← ha]; exact h
      | some it =>
        simp only [hfind] at ha
        split at ha
        · rw [Option.some.injEq] at ha
          rw [← ha]
          refine compact_inv_reinsert cfg id s it _ h hn hfind ?_
          rfl
        · rw [Option.some.injEq] at ha; rw [← ha]; exact h
    · simp at ha
  | set_horizontal_flip id v =>
    simp only [op.apply, sprites_manager.set_horizontal_flip, Option.some.injEq] at ha
    rw [← ha]
    cases hfind : find id s.layers with
    | none => exact h
    | some it =>
      simp only
      split
      · exact h
      · exact compact_inv_set_resource cfg id s it _ h hn hfind rfl
  | set_vertical_flip id v =>
    simp only [op.apply, sprites_manager.set_vertical_flip, Option.some.injEq] at ha
    rw [← ha]
    cases hfind : find id s.layers with
    | none => exact h
    | some it =>
      simp only
      split
      · exact h
      · exact compact_inv_set_resource cfg id s it _ h hn hfind rfl
  | set_mosaic_enabled id v =>
    simp only [op.apply, Option.some.injEq] at ha
    rw [← ha]
    exact compact_inv_with_item cfg id _ s h hn
      (keeps_compact_of_frame _
        (frame_update_handles
          (fun it => { it with handle := hw.sprites.set_mosaic_enabled v it.handle })
          (fun it => rfl))
        (table_update_handles _))
  | set_double_size_mode id mode =>
    simp only [op.apply, Option.some.injEq] at ha
    rw [← ha]
    refine compact_inv_with_item cfg id _ s h hn ?_
    intro it d
    simp only
    split
    · split
      · exact compact_set_position_item camera_position _ _ d
      · exact ⟨rfl, rfl, rfl, fun h0 => ⟨h0, rfl, rfl⟩⟩
    · exact ⟨rfl, rfl, rfl, fun h0 => ⟨h0, rfl, rfl⟩⟩
  | set_visible id v =>
    simp only [op.apply, Option.some.injEq] at ha
    rw [← ha]
    refine compact_inv_with_item cfg id _ s h hn ?_
    intro it d
    simp only
    split
    · exact ⟨rfl, rfl, rfl, fun h0 => ⟨h0, rfl, rfl⟩⟩
    · refine ⟨rfl, rfl, by split <;> rfl, ?_⟩
      by_cases hon : it.on_screen = true
      · simp [hon]
      · simp only [hon]
        intro h0
        exact ⟨h0, by simp [hon], rfl⟩
  | set_ignore_camera id v =>
    simp only [op.apply, Option.some.injEq] at ha
    rw [← ha]
    refine compact_inv_with_item cfg id _ s h hn ?_
    intro it d
    exact compact_set_position_item camera_position _ _ d
  | set_affine_mat_ptr id a =>
    simp only [op.apply, Option.some.injEq] at ha
    rw [← ha]
    refine compact_inv_with_item cfg id _ s h hn ?_
    intro it d
    simp only
    split
    · split
      · exact ⟨rfl, rfl, rfl, fun h0 => ⟨h0, rfl, rfl⟩⟩
      · split
        · split
          · exact compact_remove_affine_mat camera_position _ it d
          · exact ⟨rfl, rfl, rfl, fun h0 => ⟨h0, rfl, rfl⟩⟩
        · exact compact_assign_affine_mat camera_position _ _ it d
    · split
      · exact compact_remove_affine_mat camera_position _ it d
      · exact ⟨rfl, rfl, rfl, fun h0 => ⟨h0, rfl, rfl⟩⟩
  | set_remove_affine_mat_when_not_needed id v =>
    simp only [op.apply, Option.some.injEq] at ha
    rw [← ha]
    refine compact_inv_with_item cfg id _ s h hn ?_
    intro it d
    simp only
    split
    · split
      · exact compact_remove_affine_mat camera_position _ _ d
      · exact ⟨rfl, rfl, rfl, fun h0 => ⟨h0, rfl, rfl⟩⟩
    · exact ⟨rfl, rfl, rfl, fun h0 => ⟨h0, rfl, rfl⟩⟩
  | update_camera =>
    simp only [op.apply, Option.some.injEq] at ha
    rw [← ha]
    refine compact_inv_for_each cfg _ s s.affine_mats h ?_ ?_
    · intro it d
      simp only
      split
      · exact frame_set_position_item camera_position _ _ d
      · exact ⟨rfl, rfl, rfl⟩
    · intro it d
      simp only
      split
      · exact table_set_position_item camera_position _ _ d
      · exact ⟨rfl, rfl⟩
  | update =>
    exact compact_inv_update cfg camera_position s s' hcap h ha
  | commit =>
    simp only [op.apply, Option.some.injEq] at ha
    rw [← ha]
    unfold sprites_manager.commit
    simp only
    split <;> exact h

theorem compact_inv_init (cfg : config) (m : affine_mats_state) :
    compact_inv cfg (init cfg m) := by
  simp [compact_inv, compact_ok, init, items, visible_count]

theorem compact_inv_reachable (cfg : config) (s : State) (hcap : cfg.sprites_count ≤ 128)
    (h : reachable cfg s) : compact_inv cfg s := by
  induction h with
  | init m => exact compact_inv_init cfg m
  | step s s' camera_position o hs ha ih =>
    exact compact_inv_step cfg camera_position o s s' hcap ih
      (members_inv_reachable cfg s hs) ha
  | pool s m _ ih => exact ih

theorem find_of_mem (ls : List layer) (x : item)
    (hn : ((items ls).map (fun it => it.id)).Nodup) (hx : x ∈ items ls) :
    find x.id ls = some x := by
  cases h : find x.id ls with
  | none => exact absurd rfl (find_none_ne x.id ls h x hx)
  | some y =>
    have hy := find_mem x.id ls y h
    have hid := find_id x.id ls y h
    rw [eq_of_id_eq hn hy hx hid]

/-- C12: in a reachable state with nothing pending (no recompaction, no
visibility evaluation, no change of the transform pool), releasing the last
reference to a record that is on screen with slot `k` sets the recompaction
flag, and the `update()` that follows completes with: the on-screen records
are the former ones without the released record, in the same order, each with
its former slot `j` if `j < k` and with `j - 1` otherwise; so every former
on-screen record with slot `j > k` has slot `j - 1` and every one with `j < k`
keeps slot `j`; and the former last slot, of index one less than the former
number of on-screen records, holds the hidden sentinel. -/
theorem release_on_screen_record_compacts_slots (cfg : config)
    (camera_position : fixed_point) (s : State) (id : Nat) (it : item)
    (hcap : cfg.sprites_count ≤ 128) (h : reachable cfg s)
    (hflag : s.data.rebuild_handles = false)
    (hcheck : s.data.check_items_on_screen = false)
    (hmats : sprite_affine_mats_manager.updated s.affine_mats = false)
    (hfind : find id s.layers = some it) (husages : it.usages = 1)
    (hon : it.on_screen = true) :
    (decrease_usages id s).data.rebuild_handles = true ∧
    ∃ s2, update cfg camera_position (decrease_usages id s) = some s2 ∧
      ((items s2.layers).filter (fun x => x.on_screen)).map
          (fun x => (x.id, x.handles_index)) =
        ((items s.layers).filter (fun x => x.on_screen && x.id != id)).map
          (fun x => (x.id, if x.handles_index < it.handles_index then x.handles_index
                           else x.handles_index - 1)) ∧
      (∀ x ∈ items s.layers, x.on_screen = true → x.id ≠ id →
        ∃ x', find x.id s2.layers = some x' ∧ x'.on_screen = true ∧
          (it.handles_index < x.handles_index → x'.handles_index = x.handles_index - 1) ∧
          (x.handles_index < it.handles_index → x'.handles_index = x.handles_index)) ∧
      s2.data.handles[visible_count (items s.layers) - 1]? =
        some hw.sprites.hidden_handle := by
  have hm := members_inv_reachable cfg s h
  have hids := members_inv_ids s hm
  obtain ⟨hlen, hc⟩ := compact_inv_reachable cfg s hcap h
  obtain ⟨hcompact, hlast⟩ := hc hflag
  have hslots := slots_inv_reachable cfg s hcap h
  -- the number of on-screen records is at most the capacity
  have hmem := find_mem id s.layers it hfind
  have hN : visible_count (items s.layers) ≤ cfg.sprites_count := by
    have hpos : 0 < visible_count (items s.layers) :=
      List.length_pos_of_mem (List.mem_filter.mpr ⟨hmem, by simpa using hon⟩)
    have hin : ((visible_count (items s.layers) - 1 : Nat) : Int) ∈
        (List.range (visible_count (items s.layers))).map (fun (i : Nat) => (i : Int)) :=
      List.mem_map.mpr ⟨_, List.mem_range.mpr (by omega), rfl⟩
    rw [← hcompact] at hin
    obtain ⟨x, hx, hxi⟩ := List.mem_map.mp hin
    have hx' := (List.mem_filter.mp hx).1
    have := hslots.2.2.1 (slot_info x) (List.mem_map_of_mem _ hx')
      (by simp only [slot_info]; omega)
    simp only [slot_info] at this
    omega
  obtain ⟨h1, s2, h2, h3, h5⟩ := release_then_update cfg camera_position s id it hcap hids
    hcheck hmats hcompact hlast hlen hN hfind husages hon
  refine ⟨h1, s2, h2, h3, ?_, h5⟩
  have hr2 : reachable cfg s2 :=
    reachable.step _ s2 camera_position op.update
      (reachable.step s _ camera_position (op.decrease_usages id) h rfl) h2
  have hids2 := members_inv_ids s2 (members_inv_reachable cfg s2 hr2)
  intro x hx hxon hxid
  have hin : (x.id, if x.handles_index < it.handles_index then x.handles_index
      else x.handles_index - 1) ∈
      ((items s.layers).filter (fun x => x.on_screen && x.id != id)).map
        (fun x => (x.id, if x.handles_index < it.handles_index then x.handles_index
                         else x.handles_index - 1)) :=
    List.mem_map.mpr ⟨x, List.mem_filter.mpr ⟨hx, by simp [hxon, hxid]⟩, rfl⟩
  rw [← h3] at hin
  obtain ⟨x', hx', he⟩ := List.mem_map.mp hin
  obtain ⟨hx'mem, hx'on⟩ := List.mem_filter.mp hx'
  simp only [Prod.mk.injEq] at he
  obtain ⟨he1, he2⟩ := he
  refine ⟨x', ?_, by simpa using hx'on, ?_, ?_⟩
  · rw [← he1]
    exact find_of_mem s2.layers x' hids2 hx'mem
  · intro hgt
    have hnlt : ¬ x.handles_index < it.handles_index := by omega
    rw [he2, if_neg hnlt]
  · intro hlt
    rw [he2, if_pos hlt]

theorem release_on_screen_record_compacts_slots_witness :
    sample.s4.data.rebuild_handles = false ∧
    find 1 sample.s4.layers = some sample.r2 ∧
    sample.r2.handles_index = 0 ∧
    (decrease_usages 1 sample.s4).data.rebuild_handles = true ∧
    ∃ s2, update sample.cfg sample.camera (decrease_usages 1 sample.s4) = some s2 ∧
      ((items sample.s4.layers).filter (fun x => x.on_screen)).map
          (fun x => (x.id, x.handles_index)) = [(1, 0), (0, 1)] ∧
      ((items s2.layers).filter (fun x => x.on_screen)).map
          (fun x => (x.id, x.handles_index)) = [(0, 0)] ∧
      s2.data.handles[1]? = some hw.sprites.hidden_handle := by
  obtain ⟨h1, s2, h2, h3, _, h5⟩ :=
    release_on_screen_record_compacts_slots sample.cfg sample.camera sample.s4 1 sample.r2
      (by decide) sample_s4_reachable (by decide) (by decide) (by decide) (by decide)
      (by decide) (by decide)
  exact ⟨by decide, by decide, by decide, h1, s2, h2, by decide, h3.trans (by decide), h5⟩

end sprites_manager

end btn

namespace btn

/-! ### Attaching and detaching transforms -/

namespace sprites_manager
open sorted_sprites

theorem find_with_item (id : Nat) (f : item → static_data → item × static_data) (s : State)
    (it : item) (hfind : find id s.layers = some it) (hid : (f it s.data).1.id = it.id) :
    find id (with_item id f s).layers = some (f it s.data).1 := by
  unfold with_item
  simp only [hfind]
  exact find_replace id s.layers it _ hfind (by rw [hid]; exact find_id id s.layers it hfind)

theorem set_position_item_affine_mat_ptr (camera_position position : fixed_point) (it : item)
    (d : static_data) :
    (set_position_item camera_position position it d).1.affine_mat_ptr = it.affine_mat_ptr ∧
    (set_position_item camera_position position it d).1.remove_affine_mat_when_not_needed =
      it.remove_affine_mat_when_not_needed := by
  unfold set_position_item
  simp only
  split <;> exact ⟨rfl, rfl⟩

theorem _assign_affine_mat_ptr (camera_position : fixed_point) (m : affine_mats_state)
    (a : Nat) (it : item) (d : static_data) :
    (_assign_affine_mat camera_position m a it d).1.affine_mat_ptr = some a ∧
    (_assign_affine_mat camera_position m a it d).1.remove_affine_mat_when_not_needed =
      it.remove_affine_mat_when_not_needed := by
  unfold _assign_affine_mat
  simp only
  split
  · exact ⟨(set_position_item_affine_mat_ptr camera_position _ _ d).1,
      (set_position_item_affine_mat_ptr camera_position _ _ d).2⟩
  · exact ⟨rfl, rfl⟩

theorem _remove_affine_mat_ptr (camera_position : fixed_point) (m : affine_mats_state)
    (it : item) (d : static_data) :
    (_remove_affine_mat camera_position m it d).1.affine_mat_ptr = none ∧
    (_remove_affine_mat camera_position m it d).1.remove_affine_mat_when_not_needed =
      it.remove_affine_mat_when_not_needed := by
  unfold _remove_affine_mat
  split
  · rename_i h
    exact ⟨h, rfl⟩
  · simp only
    split
    · exact ⟨(set_position_item_affine_mat_ptr camera_position _ _ d).1,
        (set_position_item_affine_mat_ptr camera_position _ _ d).2⟩
    · exact ⟨rfl, rfl⟩

theorem sample_s11_reachable : reachable sample.cfg sample.s11 :=
  reachable.pool sample.s4 sample.mats2 sample_s4_reachable

theorem sample_s12_reachable : reachable sample.cfg sample.s12 :=
  reachable.step _ sample.s12 sample.camera (op.set_affine_mat_ptr 1 (some 1))
    (reachable.step sample.s11 _ sample.camera
      (op.set_remove_affine_mat_when_not_needed 1 true) sample_s11_reachable rfl) rfl

theorem sample_s13_reachable : reachable sample.cfg sample.s13 :=
  reachable.step _ sample.s13 sample.camera op.update
    (reachable.step sample.s11 _ sample.camera (op.set_affine_mat_ptr 0 (some 0))
      sample_s11_reachable rfl) (by decide)

/-- C21 (as stated, refuted): in a reachable state, record 1 has the
detach-on-identity policy enabled and holds the transform 1; the transform 2
is an identity that the record does not hold; after
`set_affine_mat_ptr(1, 2)` the record holds no transform, not the
transform 2. -/
theorem attach_identity_detaches_held_transform :
    reachable sample.cfg sample.s12 ∧
    remove_affine_mat_when_not_needed 1 sample.s12 = some true ∧
    affine_mat_ptr 1 sample.s12 = some (some 1) ∧
    sprite_affine_mats_manager.is_identity sample.s12.affine_mats 2 = true ∧
    affine_mat_ptr 1 (set_affine_mat_ptr sample.camera 1 (some 2) sample.s12) = some none :=
  ⟨sample_s12_reachable, by decide, by decide, by decide, by decide⟩

/-- C21 (amended): for a live record and a transform `t`, after
`set_affine_mat_ptr(id, t)` the record holds `t`, unless the detach-on-identity
policy is enabled, `t` is the identity and the record did not already hold
`t`: then the record holds no transform afterwards. -/
theorem attachment_kept_unless_identity_detached (camera_position : fixed_point) (s : State)
    (id a : Nat) (it : item) (hfind : find id s.layers = some it) :
    (it.affine_mat_ptr = some a →
      affine_mat_ptr id (set_affine_mat_ptr camera_position id (some a) s) = some (some a)) ∧
    (it.affine_mat_ptr ≠ some a →
      (it.remove_affine_mat_when_not_needed &&
        sprite_affine_mats_manager.is_identity s.affine_mats a) = true →
      affine_mat_ptr id (set_affine_mat_ptr camera_position id (some a) s) = some none) ∧
    (it.affine_mat_ptr ≠ some a →
      (it.remove_affine_mat_when_not_needed &&
        sprite_affine_mats_manager.is_identity s.affine_mats a) = false →
      affine_mat_ptr id (set_affine_mat_ptr camera_position id (some a) s) = some (some a)) := by
  have key : ∀ f : item → static_data → item × static_data,
      (f it s.data).1.id = it.id →
      affine_mat_ptr id (with_item id f s) = some (f it s.data).1.affine_mat_ptr := by
    intro f hid
    unfold affine_mat_ptr
    rw [find_with_item id f s it hfind hid]
    rfl
  refine ⟨?_, ?_, ?_⟩
  · intro hheld
    unfold set_affine_mat_ptr
    rw [key _ (by simp only [hheld, if_true])]
    simp only [hheld, if_true]
  · intro hne hpol
    unfold set_affine_mat_ptr
    rw [key]
    · simp only [hne, if_false, hpol, if_true]
      cases hptr : it.affine_mat_ptr with
      | none => simp [hptr]
      | some b =>
        simp only [Option.isSome_some, if_true]
        exact congrArg some (_remove_affine_mat_ptr camera_position s.affine_mats it s.data).1
    · simp only [hne, if_false, hpol, if_true]
      split
      · exact congrArg Prod.fst (frame_remove_affine_mat camera_position s.affine_mats it
          s.data).1
      · rfl
  · intro hne hpol
    unfold set_affine_mat_ptr
    rw [key]
    · simp only [hne, if_false, hpol, Bool.false_eq_true]
      exact congrArg some (_assign_affine_mat_ptr camera_position s.affine_mats a it s.data).1
    · simp only [hne, if_false, hpol, Bool.false_eq_true]
      exact congrArg Prod.fst (frame_assign_affine_mat camera_position s.affine_mats a it
        s.data).1

theorem attachment_kept_unless_identity_detached_witness :
    find 1 sample.s11.layers = some sample.r2 ∧
    sample.r2.affine_mat_ptr ≠ some 1 ∧
    affine_mat_ptr 1 (set_affine_mat_ptr sample.camera 1 (some 1) sample.s11) =
      some (some 1) :=
  ⟨by decide, by decide,
   (attachment_kept_unless_identity_detached sample.camera sample.s11 1 1 sample.r2
      (by decide)).2.2 (by decide) (by decide)⟩

/-- C22 (evaluation of the code): record 0 is visible, in automatic
wide-bounding-box mode, holds the double-size transform 0 and is not flagged
for evaluation; attaching the normal-size transform 1 changes its
wide-bounding-box flag from true to false, and neither the record nor the
manager is flagged for a visibility evaluation: `_assign_affine_mat` re-runs
the position placement only when the new flag is true. -/
theorem attach_clearing_double_size_skips_placement :
    reachable sample.cfg sample.s13 ∧
    visible 0 sample.s13 = some true ∧
    double_size 0 sample.s13 = some true ∧
    double_size 0 (set_affine_mat_ptr sample.camera 0 (some 1) sample.s13) = some false ∧
    affine_mat_ptr 0 (set_affine_mat_ptr sample.camera 0 (some 1) sample.s13) =
      some (some 1) ∧
    (find 0 (set_affine_mat_ptr sample.camera 0 (some 1) sample.s13).layers).map
      (fun it => it.check_on_screen) = some false ∧
    (set_affine_mat_ptr sample.camera 0 (some 1) sample.s13).data.check_items_on_screen =
      false :=
  ⟨sample_s13_reachable, by decide, by decide, by decide, by decide, by decide, by decide⟩

/-! ### The pending range -/

/-- C25: a recompaction (a completed `_rebuild_handles` with the flag set)
stores the new visible count; if the maximum `K` of the new and of the
previous visible count is positive, the pending range becomes `[0, K - 1]`;
if both counts are zero the pending range is left as it was. -/
theorem recompaction_sets_pending_range (cfg : config) (s s' : State)
    (hflag : s.data.rebuild_handles = true) (hs' : _rebuild_handles cfg s = some s') :
    s'.data.last_visible_items_count = (visible_count (items s.layers) : Int) ∧
    (0 < max (visible_count (items s.layers) : Int) s.data.last_visible_items_count →
      s'.data.first_index_to_commit = 0 ∧
      s'.data.last_index_to_commit =
        max (visible_count (items s.layers) : Int) s.data.last_visible_items_count - 1) ∧
    ((visible_count (items s.layers) : Int) = 0 → s.data.last_visible_items_count = 0 →
      s'.data.first_index_to_commit = s.data.first_index_to_commit ∧
      s'.data.last_index_to_commit = s.data.last_index_to_commit) := by
  cases hr : for_each_item_checked (_rebuild_handles_item cfg) s.layers
      (0, s.data.handles) with
  | none => simp [_rebuild_handles, hflag, hr] at hs'
  | some r =>
    obtain ⟨s2, hs2, _, _, _, _, _, _, hlast, _, hpos, hzero⟩ :=
      _rebuild_handles_result cfg s r hflag hr
    rw [hs2, Option.some.injEq] at hs'
    subst hs'
    have hq := flat_of_for_each_item_checked _ _ _ _ hr
    obtain ⟨k1, _⟩ := rebuild_loop_spec cfg (items s.layers) 0 s.data.handles _ hq
    simp only at k1
    rw [k1, Nat.zero_add] at hlast hpos hzero
    refine ⟨hlast, ?_, ?_⟩
    · intro hK
      rw [max_comm] at hK ⊢
      exact hpos (by omega)
    · intro h1 h2
      exact hzero (by rw [h1, h2]; rfl)

theorem recompaction_sets_pending_range_witness :
    sample.s6.data.rebuild_handles = true ∧
    visible_count (items sample.s6.layers) = 1 ∧
    sample.s6.data.last_visible_items_count = 2 ∧
    ∃ s', _rebuild_handles sample.cfg sample.s6 = some s' ∧
      s'.data.first_index_to_commit = 0 ∧ s'.data.last_index_to_commit = 1 := by
  refine ⟨by decide, by decide, by decide, (_rebuild_handles sample.cfg sample.s6).getD
    sample.s6, by decide, ?_⟩
  exact (recompaction_sets_pending_range sample.cfg sample.s6 _ (by decide)
    (by decide)).2.1 (by decide)

end sprites_manager

end btn

namespace btn

namespace sprites_manager
open sorted_sprites

/-- The pending range after `_update_handles`, from the pending range before
and the slot index of the record. -/
theorem _update_handles_range (it : item) (d : static_data) :
    ((_update_handles it d).first_index_to_commit, (_update_handles it d).last_index_to_commit) =
      (if it.handles_index ≥ 0 then
        (min d.first_index_to_commit it.handles_index,
         max d.last_index_to_commit it.handles_index)
       else (d.first_index_to_commit, d.last_index_to_commit)) := by
  unfold _update_handles
  simp only
  split <;> rfl

theorem foldl_update_handles_range (l : List item) (d : static_data) :
    ((l.foldl (fun d it => _update_handles it d) d).first_index_to_commit,
     (l.foldl (fun d it => _update_handles it d) d).last_index_to_commit) =
      l.foldl (fun (r : Int × Int) it =>
        if it.handles_index ≥ 0 then (min r.1 it.handles_index, max r.2 it.handles_index)
        else r) (d.first_index_to_commit, d.last_index_to_commit) := by
  induction l generalizing d with
  | nil => rfl
  | cons x xs ih =>
    simp only [List.foldl_cons]
    rw [ih, _update_handles_range]

theorem foldl_range_bounds (l : List item) (r : Int × Int) :
    (∀ k : Int, (l.foldl (fun (r : Int × Int) it =>
        if it.handles_index ≥ 0 then (min r.1 it.handles_index, max r.2 it.handles_index)
        else r) r).1 ≤ k ↔
      (r.1 ≤ k ∨ ∃ it ∈ l, 0 ≤ it.handles_index ∧ it.handles_index ≤ k)) ∧
    (∀ k : Int, k ≤ (l.foldl (fun (r : Int × Int) it =>
        if it.handles_index ≥ 0 then (min r.1 it.handles_index, max r.2 it.handles_index)
        else r) r).2 ↔
      (k ≤ r.2 ∨ ∃ it ∈ l, 0 ≤ it.handles_index ∧ k ≤ it.handles_index)) := by
  induction l generalizing r with
  | nil => simp
  | cons x xs ih =>
    simp only [List.foldl_cons]
    obtain ⟨i1, i2⟩ := ih (if x.handles_index ≥ 0 then
      (min r.1 x.handles_index, max r.2 x.handles_index) else r)
    refine ⟨?_, ?_⟩
    · intro k
      rw [i1 k]
      by_cases hx : x.handles_index ≥ 0
      · simp only [hx, if_true, List.mem_cons, exists_eq_or_imp, min_le_iff]
        constructor
        · rintro ((h | h) | h)
          · exact Or.inl h
          · exact Or.inr (Or.inl ⟨trivial, h⟩)
          · exact Or.inr (Or.inr h)
        · rintro (h | ⟨_, h⟩ | h)
          · exact Or.inl (Or.inl h)
          · exact Or.inl (Or.inr h)
          · exact Or.inr h
      · simp only [hx, if_false, List.mem_cons, exists_eq_or_imp]
        constructor
        · rintro (h | h)
          · exact Or.inl h
          · exact Or.inr (Or.inr h)
        · rintro (h | ⟨h0, _⟩ | h)
          · exact Or.inl h
          · exact h0.elim
          · exact Or.inr h
    · intro k
      rw [i2 k]
      by_cases hx : x.handles_index ≥ 0
      · simp only [hx, if_true, List.mem_cons, exists_eq_or_imp, le_max_iff]
        constructor
        · rintro ((h | h) | h)
          · exact Or.inl h
          · exact Or.inr (Or.inl ⟨trivial, h⟩)
          · exact Or.inr (Or.inr h)
        · rintro (h | ⟨_, h⟩ | h)
          · exact Or.inl (Or.inl h)
          · exact Or.inl (Or.inr h)
          · exact Or.inr h
      · simp only [hx, if_false, List.mem_cons, exists_eq_or_imp]
        constructor
        · rintro (h | h)
          · exact Or.inl h
          · exact Or.inr (Or.inr h)
        · rintro (h | ⟨h0, _⟩ | h)
          · exact Or.inl h
          · exact h0.elim
          · exact Or.inr h

/-- C27: marking slots (`_update_handles` on records with these slot indexes)
merges them into the pending range by min and max, so the order does not
matter: marking the records of a list and of any permutation of it, from the
same state, gives the same pending range; marking two lists one after the
other gives the same range in either order; the range reached is
`[min, max]` over the former range and the slots marked (its first index is
at most `k` exactly when the former first index or a marked slot is, and
symmetrically for the last index); and marking a valid slot `i` on the empty
range (`first` = table capacity, `last` = 0) gives `[i, i]`. -/
theorem dirty_range_merge_is_order_independent (cfg : config) (d : static_data)
    (l1 l2 : List item) :
    (l1.Perm l2 →
      ((l1.foldl (fun d it => _update_handles it d) d).first_index_to_commit,
       (l1.foldl (fun d it => _update_handles it d) d).last_index_to_commit) =
      ((l2.foldl (fun d it => _update_handles it d) d).first_index_to_commit,
       (l2.foldl (fun d it => _update_handles it d) d).last_index_to_commit)) ∧
    (((l1 ++ l2).foldl (fun d it => _update_handles it d) d).first_index_to_commit,
     ((l1 ++ l2).foldl (fun d it => _update_handles it d) d).last_index_to_commit) =
    (((l2 ++ l1).foldl (fun d it => _update_handles it d) d).first_index_to_commit,
     ((l2 ++ l1).foldl (fun d it => _update_handles it d) d).last_index_to_commit) ∧
    (∀ k : Int, (l1.foldl (fun d it => _update_handles it d) d).first_index_to_commit ≤ k ↔
      (d.first_index_to_commit ≤ k ∨ ∃ it ∈ l1, 0 ≤ it.handles_index ∧ it.handles_index ≤ k)) ∧
    (∀ k : Int, k ≤ (l1.foldl (fun d it => _update_handles it d) d).last_index_to_commit ↔
      (k ≤ d.last_index_to_commit ∨ ∃ it ∈ l1, 0 ≤ it.handles_index ∧ k ≤ it.handles_index)) ∧
    (∀ it : item, d.first_index_to_commit = cfg.sprites_count → d.last_index_to_commit = 0 →
      0 ≤ it.handles_index → it.handles_index < cfg.sprites_count →
      (_update_handles it d).first_index_to_commit = it.handles_index ∧
      (_update_handles it d).last_index_to_commit = it.handles_index) := by
  have hperm : ∀ a b : List item, a.Perm b →
      ((a.foldl (fun d it => _update_handles it d) d).first_index_to_commit,
       (a.foldl (fun d it => _update_handles it d) d).last_index_to_commit) =
      ((b.foldl (fun d it => _update_handles it d) d).first_index_to_commit,
       (b.foldl (fun d it => _update_handles it d) d).last_index_to_commit) := by
    intro a b hp
    rw [foldl_update_handles_range, foldl_update_handles_range]
    apply List.Perm.foldl_eq' hp
    intro x _ y _ r
    by_cases hx : x.handles_index ≥ 0 <;> by_cases hy : y.handles_index ≥ 0 <;>
      simp only [hx, hy, if_true, if_false]
    rw [min_right_comm, sup_right_comm]
  have hb := foldl_range_bounds l1 (d.first_index_to_commit, d.last_index_to_commit)
  rw [← foldl_update_handles_range] at hb
  refine ⟨hperm l1 l2, hperm _ _ List.perm_append_comm, hb.1, hb.2, ?_⟩
  intro it h1 h2 h3 h4
  have hr := _update_handles_range it d
  rw [if_pos h3, h1, h2] at hr
  have e1 := congrArg Prod.fst hr
  have e2 := congrArg Prod.snd hr
  simp only at e1 e2
  rw [e1, e2]
  exact ⟨min_eq_right (le_of_lt h4), max_eq_right h3⟩

theorem dirty_range_merge_is_order_independent_witness :
    [sample.r0, sample.r2].Perm [sample.r2, sample.r0] ∧
    (([sample.r0, sample.r2].foldl (fun d it => _update_handles it d)
        (commit sample.cfg sample.s4).data).first_index_to_commit,
     ([sample.r0, sample.r2].foldl (fun d it => _update_handles it d)
        (commit sample.cfg sample.s4).data).last_index_to_commit) =
    (([sample.r2, sample.r0].foldl (fun d it => _update_handles it d)
        (commit sample.cfg sample.s4).data).first_index_to_commit,
     ([sample.r2, sample.r0].foldl (fun d it => _update_handles it d)
        (commit sample.cfg sample.s4).data).last_index_to_commit) ∧
    (([sample.r0, sample.r2].foldl (fun d it => _update_handles it d)
        (commit sample.cfg sample.s4).data).first_index_to_commit,
     ([sample.r0, sample.r2].foldl (fun d it => _update_handles it d)
        (commit sample.cfg sample.s4).data).last_index_to_commit) = (0, 1) :=
  ⟨List.Perm.swap _ _ _,
   (dirty_range_merge_is_order_independent sample.cfg (commit sample.cfg sample.s4).data
      [sample.r0, sample.r2] [sample.r2, sample.r0]).1 (List.Perm.swap _ _ _),
   by decide⟩

end sprites_manager

end btn
namespace btn

/-! ### The detach-on-identity policy -/

namespace sprite_affine_mats_manager

theorem is_identity_update (m : affine_mats_state) (id : Nat) :
    is_identity (update m) id = is_identity m id := by
  unfold is_identity mat update
  simp only [List.getD_eq_getElem?_getD, List.getElem?_map]
  cases m.mats[id]? <;> rfl

end sprite_affine_mats_manager

namespace sprites_manager
open sorted_sprites

/-- The record holds no identity transform while its detach-on-identity policy
is enabled. -/
theorem check_affine_mats_item_detaches (camera_position : fixed_point)
    (m : affine_mats_state) (it : item) (d : static_data)
    (h : it.remove_affine_mat_when_not_needed = true → ∀ b, it.affine_mat_ptr = some b →
      sprite_affine_mats_manager.is_identity m b = true →
      sprite_affine_mats_manager.updated_id m b = true) :
    (_check_affine_mats_item camera_position m it d).1.remove_affine_mat_when_not_needed = true →
    ∀ b, (_check_affine_mats_item camera_position m it d).1.affine_mat_ptr = some b →
      sprite_affine_mats_manager.is_identity m b = false := by
  unfold _check_affine_mats_item
  cases hptr : it.affine_mat_ptr with
  | none =>
    intro _ b hb
    simp [hptr] at hb
  | some a =>
    simp only
    by_cases hu : sprite_affine_mats_manager.updated_id m a = true
    · rw [if_pos hu]
      cases hp : (it.remove_affine_mat_when_not_needed &&
          sprite_affine_mats_manager.is_identity m a) with
      | true =>
        simp only [if_true]
        intro _ b hb
        rw [(_remove_affine_mat_ptr camera_position m it d).1] at hb
        cases hb
      | false =>
        simp only [Bool.false_eq_true, if_false]
        have hfin : ∀ x : item, x.remove_affine_mat_when_not_needed =
            it.remove_affine_mat_when_not_needed → x.affine_mat_ptr = some a →
            x.remove_affine_mat_when_not_needed = true → ∀ b, x.affine_mat_ptr = some b →
            sprite_affine_mats_manager.is_identity m b = false := by
          intro x hx1 hx2 hx3 b hb
          rw [hx2, Option.some.injEq] at hb
          subst hb
          rw [hx1] at hx3
          simpa [hx3] using hp
        split
        · split
          · exact hfin _ (set_position_item_affine_mat_ptr _ _ _ _).2
              (set_position_item_affine_mat_ptr _ _ _ _).1
          · exact hfin it rfl hptr
        · exact hfin it rfl hptr
    · rw [if_neg hu]
      intro hpol b hb
      rw [hptr, Option.some.injEq] at hb
      subst hb
      cases hi : sprite_affine_mats_manager.is_identity m a with
      | false => rfl
      | true => exact absurd (h hpol a hptr hi) hu

end sprites_manager

end btn
namespace btn

namespace sprites_manager
open sorted_sprites

theorem with_item_affine_mats (id : Nat) (f : item → static_data → item × static_data)
    (s : State) : (with_item id f s).affine_mats = s.affine_mats := by
  unfold with_item
  cases find id s.layers <;> rfl

theorem _rebuild_handles_affine_mats (cfg : config) (s s' : State)
    (hs' : _rebuild_handles cfg s = some s') : s'.affine_mats = s.affine_mats := by
  by_cases hflag : s.data.rebuild_handles = true
  · cases hr : for_each_item_checked (_rebuild_handles_item cfg) s.layers
        (0, s.data.handles) with
    | none => simp [_rebuild_handles, hflag, hr] at hs'
    | some r =>
      obtain ⟨s2, hs2, _, hm, _⟩ := _rebuild_handles_result cfg s r hflag hr
      rw [hs2, Option.some.injEq] at hs'
      subst hs'
      exact hm
  · simp only [_rebuild_handles, hflag] at hs'
    simp only [Bool.false_eq_true, if_false, Option.some.injEq] at hs'
    rw [← hs']

theorem _check_items_on_screen_keeps (cfg : config) (camera_position : fixed_point)
    (s : State) :
    (_check_items_on_screen cfg camera_position s).affine_mats = s.affine_mats ∧
    (items (_check_items_on_screen cfg camera_position s).layers).map
        (fun x => (x.affine_mat_ptr, x.remove_affine_mat_when_not_needed)) =
      (items s.layers).map (fun x => (x.affine_mat_ptr, x.remove_affine_mat_when_not_needed)) := by
  unfold _check_items_on_screen
  split
  · refine ⟨rfl, ?_⟩
    apply for_each_item_map
    intro it rb
    unfold _check_items_on_screen_item
    split
    · simp only
      split <;> rfl
    · rfl
  · exact ⟨rfl, rfl⟩

theorem sample_s14_reachable : reachable sample.cfg sample.s14 :=
  reachable.pool sample.s12 sample.mats3 sample_s12_reachable

/-- C23 (as stated, refuted): in a reachable state, record 1 has the
detach-on-identity policy enabled and holds the transform 1, which the pool
has turned into the identity; `set_affine_mat_ptr(1, 1)` returns at once, and
after it the record still holds the identity transform 1. -/
theorem attach_held_identity_keeps_it :
    reachable sample.cfg sample.s14 ∧
    remove_affine_mat_when_not_needed 1
      (set_affine_mat_ptr sample.camera 1 (some 1) sample.s14) = some true ∧
    affine_mat_ptr 1 (set_affine_mat_ptr sample.camera 1 (some 1) sample.s14) =
      some (some 1) ∧
    sprite_affine_mats_manager.is_identity
      (set_affine_mat_ptr sample.camera 1 (some 1) sample.s14).affine_mats 1 = true :=
  ⟨sample_s14_reachable, by decide, by decide, by decide⟩

/-- C23 (amended): with the detach-on-identity policy enabled, a live record
holds no identity transform after `set_affine_mat_ptr(id, t)` returns unless
it already held `t` (the call then changes nothing), nor after
`set_remove_affine_mat_when_not_needed(id, true)` returns; and no record with
the policy enabled holds an identity transform after `update()` returns,
given that before the call the pool reports as changed every identity
transform that such a record holds. -/
theorem no_identity_transform_under_detach_policy (cfg : config)
    (camera_position : fixed_point) (s : State) (id : Nat) (it : item)
    (hfind : find id s.layers = some it) :
    (∀ (t : Option Nat) (it' : item), it.affine_mat_ptr ≠ t ∨ t = none →
      find id (set_affine_mat_ptr camera_position id t s).layers = some it' →
      it'.remove_affine_mat_when_not_needed = true → ∀ b, it'.affine_mat_ptr = some b →
      sprite_affine_mats_manager.is_identity
        (set_affine_mat_ptr camera_position id t s).affine_mats b = false) ∧
    (∀ it' : item,
      find id (set_remove_affine_mat_when_not_needed camera_position id true s).layers =
        some it' →
      it'.remove_affine_mat_when_not_needed = true ∧ ∀ b, it'.affine_mat_ptr = some b →
      sprite_affine_mats_manager.is_identity
        (set_remove_affine_mat_when_not_needed camera_position id true s).affine_mats b =
          false) ∧
    (∀ s' : State, update cfg camera_position s = some s' →
      (∀ x ∈ items s.layers, x.remove_affine_mat_when_not_needed = true →
        ∀ b, x.affine_mat_ptr = some b →
        sprite_affine_mats_manager.is_identity s.affine_mats b = true →
        sprite_affine_mats_manager.updated s.affine_mats = true ∧
        sprite_affine_mats_manager.updated_id s.affine_mats b = true) →
      ∀ x' ∈ items s'.layers, x'.remove_affine_mat_when_not_needed = true →
        ∀ b, x'.affine_mat_ptr = some b →
        sprite_affine_mats_manager.is_identity s'.affine_mats b = false) := by
  refine ⟨?_, ?_, ?_⟩
  · intro t it' ht hfind' hpol b hb
    cases t with
    | none =>
      have e : set_affine_mat_ptr camera_position id none s =
          with_item id (fun it d =>
            if it.affine_mat_ptr.isSome then
              _remove_affine_mat camera_position s.affine_mats it d
            else (it, d)) s := rfl
      rw [e] at hfind' ⊢
      rw [with_item_affine_mats]
      rw [find_with_item id _ s it hfind (by
        split
        · exact congrArg Prod.fst (frame_remove_affine_mat camera_position s.affine_mats
            it s.data).1
        · rfl), Option.some.injEq] at hfind'
      subst hfind'
      split at hb
      · rw [(_remove_affine_mat_ptr camera_position s.affine_mats it s.data).1] at hb
        cases hb
      · rename_i hn
        rw [hb] at hn
        simp at hn
    | some a =>
      have hne : ¬ it.affine_mat_ptr = some a := by
        rcases ht with h | h
        · exact h
        · cases h
      have e : set_affine_mat_ptr camera_position id (some a) s =
          with_item id (fun it d =>
            if it.affine_mat_ptr = some a then (it, d)
            else if it.remove_affine_mat_when_not_needed
                && sprite_affine_mats_manager.is_identity s.affine_mats a then
              if it.affine_mat_ptr.isSome then
                _remove_affine_mat camera_position s.affine_mats it d
              else (it, d)
            else _assign_affine_mat camera_position s.affine_mats a it d) s := rfl
      rw [e] at hfind' ⊢
      rw [with_item_affine_mats]
      rw [find_with_item id _ s it hfind (by
        split
        · rfl
        · split
          · split
            · exact congrArg Prod.fst (frame_remove_affine_mat camera_position s.affine_mats
                it s.data).1
            · rfl
          · exact congrArg Prod.fst (frame_assign_affine_mat camera_position s.affine_mats _
              it s.data).1), Option.some.injEq] at hfind'
      subst hfind'
      simp only [hne, if_false] at hb hpol
      cases hp : (it.remove_affine_mat_when_not_needed &&
          sprite_affine_mats_manager.is_identity s.affine_mats a) with
      | true =>
        simp only [hp, if_true] at hb
        split at hb
        · rw [(_remove_affine_mat_ptr camera_position s.affine_mats it s.data).1] at hb
          cases hb
        · rename_i hn
          rw [hb] at hn
          simp at hn
      | false =>
        simp only [hp, Bool.false_eq_true, if_false] at hb hpol
        rw [(_assign_affine_mat_ptr camera_position s.affine_mats a it s.data).1,
          Option.some.injEq] at hb
        rw [(_assign_affine_mat_ptr camera_position s.affine_mats a it s.data).2] at hpol
        subst hb
        simpa [hpol] using hp
  · intro it' hfind'
    unfold set_remove_affine_mat_when_not_needed at hfind' ⊢
    rw [with_item_affine_mats]
    rw [find_with_item id _ s it hfind (by
      simp only
      split
      · split
        · exact congrArg Prod.fst (frame_remove_affine_mat camera_position s.affine_mats
            _ s.data).1
        · rfl
      · rfl), Option.some.injEq] at hfind'
    subst hfind'
    simp only
    cases hptr : it.affine_mat_ptr with
    | none => exact ⟨rfl, fun b hb => by cases hb⟩
    | some a =>
      simp only [Bool.true_and]
      cases hi : sprite_affine_mats_manager.is_identity s.affine_mats a with
      | true =>
        simp only [if_true]
        refine ⟨(_remove_affine_mat_ptr camera_position s.affine_mats _ s.data).2, ?_⟩
        intro b hb
        rw [(_remove_affine_mat_ptr camera_position s.affine_mats _ s.data).1] at hb
        cases hb
      | false =>
        simp only [Bool.false_eq_true, if_false]
        refine ⟨trivial, ?_⟩
        intro b hb
        cases hb
        exact hi
  · intro s' hs' hrep x' hx' hpol b hb
    unfold update at hs'
    have hm3 := _rebuild_handles_affine_mats cfg _ s' hs'
    have hi3 := rebuild_handles_items cfg _ s' hs'
    obtain ⟨hm2, hi2⟩ := _check_items_on_screen_keeps cfg camera_position
      (_check_affine_mats camera_position s)
    -- the record before the recompaction and the visibility pass
    have hmem : ({ x' with handles_index := 0 } : item) ∈
        (items s'.layers).map (fun it => { it with handles_index := 0 }) :=
      List.mem_map.2 ⟨x', hx', rfl⟩
    rw [hi3] at hmem
    obtain ⟨x2, hx2, he2⟩ := List.mem_map.1 hmem
    have e1 : x2.affine_mat_ptr = x'.affine_mat_ptr := by
      have h0 := congrArg item.affine_mat_ptr he2
      exact h0
    have e2 : x2.remove_affine_mat_when_not_needed = x'.remove_affine_mat_when_not_needed := by
      have h0 := congrArg item.remove_affine_mat_when_not_needed he2
      exact h0
    have hmem2 : (x2.affine_mat_ptr, x2.remove_affine_mat_when_not_needed) ∈
        (items (_check_items_on_screen cfg camera_position
          (_check_affine_mats camera_position s)).layers).map
          (fun x => (x.affine_mat_ptr, x.remove_affine_mat_when_not_needed)) :=
      List.mem_map.2 ⟨x2, hx2, rfl⟩
    rw [hi2] at hmem2
    obtain ⟨x1, hx1, he1⟩ := List.mem_map.1 hmem2
    simp only [Prod.mk.injEq] at he1
    rw [hm3, hm2]
    have hpol1 : x1.remove_affine_mat_when_not_needed = true := by rw [he1.2, e2]; exact hpol
    have hb1 : x1.affine_mat_ptr = some b := by rw [he1.1, e1]; exact hb
    -- the reconciliation of the transforms
    unfold _check_affine_mats at hx1 ⊢
    by_cases hu : sprite_affine_mats_manager.updated s.affine_mats = true
    · rw [if_pos hu] at hx1 ⊢
      simp only
      rw [sprite_affine_mats_manager.is_identity_update]
      have hflat := for_each_item_items
        (_check_affine_mats_item camera_position s.affine_mats) s.layers s.data
      have hx1' : x1 ∈ (for_each_in_layer
          (_check_affine_mats_item camera_position s.affine_mats) (items s.layers)
          s.data).1 := by
        rw [← hflat]
        exact hx1
      exact for_each_in_layer_pointwise
        (_check_affine_mats_item camera_position s.affine_mats)
        (fun it => it.remove_affine_mat_when_not_needed = true → ∀ b,
          it.affine_mat_ptr = some b →
          sprite_affine_mats_manager.is_identity s.affine_mats b = true →
          sprite_affine_mats_manager.updated_id s.affine_mats b = true)
        (fun it => it.remove_affine_mat_when_not_needed = true → ∀ b,
          it.affine_mat_ptr = some b →
          sprite_affine_mats_manager.is_identity s.affine_mats b = false)
        (fun it d hP => check_affine_mats_item_detaches camera_position s.affine_mats it d hP)
        (items s.layers) s.data
        (fun it hit hp b hb hi => (hrep it hit hp b hb hi).2) x1 hx1' hpol1 b hb1
    · rw [if_neg hu] at hx1 ⊢
      cases hi : sprite_affine_mats_manager.is_identity s.affine_mats b with
      | false => rfl
      | true => exact absurd (hrep x1 hx1 hpol1 b hb1 hi).1 hu

theorem no_identity_transform_under_detach_policy_witness :
    find 1 sample.s14.layers = some sample.r3 ∧
    (∃ x ∈ items sample.s14.layers, x.remove_affine_mat_when_not_needed = true ∧
      ∃ b, x.affine_mat_ptr = some b ∧
        sprite_affine_mats_manager.is_identity sample.s14.affine_mats b = true) ∧
    ∀ x' ∈ items sample.s15.layers, x'.remove_affine_mat_when_not_needed = true →
      ∀ b, x'.affine_mat_ptr = some b →
      sprite_affine_mats_manager.is_identity sample.s15.affine_mats b = false :=
  ⟨by decide, ⟨sample.r3, by decide, by decide, 1, by decide, by decide⟩,
   (no_identity_transform_under_detach_policy sample.cfg sample.camera sample.s14 1 sample.r3
      (by decide)).2.2 sample.s15 (by decide) (by decide)⟩

end sprites_manager

end btn

namespace btn

/-! ### Induction over the reachable states -/

namespace sprites_manager
open sorted_sprites

theorem _update_handles_congr (a b : item) (d : static_data)
    (h1 : a.handles_index = b.handles_index) (h2 : a.handle = b.handle) :
    _update_handles a d = _update_handles b d := by
  unfold _update_handles
  simp only [h1, h2]

theorem tidy_keep (it it' : item) (d : static_data) (hc : same_core it' it)
    (hh : it'.handle = it.handle) : tidy_result it d (it', d) := by
  obtain ⟨c1, c2, c3, c4, c5, c6, c7⟩ := hc
  exact ⟨c1, c2, c3, c4, c5, c6, rfl, rfl, rfl, Or.inl ⟨c7, rfl⟩, Or.inl ⟨hh, rfl, rfl, rfl⟩⟩

theorem tidy_update (it it' : item) (d : static_data) (hc : same_core it' it) :
    tidy_result it d (it', _update_handles it' d) := by
  obtain ⟨c1, c2, c3, c4, c5, c6, c7⟩ := hc
  obtain ⟨f1, f2, f3, f4⟩ := _update_handles_frame it' d
  exact ⟨c1, c2, c3, c4, c5, c6, f2, f4, f1, Or.inl ⟨c7, f3⟩, Or.inr ⟨rfl, rfl, rfl⟩⟩

theorem tidy_set_position_item (camera_position position : fixed_point) (it it' : item)
    (d : static_data) (hc : same_core it' it) :
    tidy_result it d (set_position_item camera_position position it' d) := by
  obtain ⟨c1, c2, c3, c4, c5, c6, c7⟩ := hc
  unfold set_position_item
  simp only
  split
  · rename_i hv
    refine ⟨c1, c2, c3, c4, c5, c6, (_update_handles_frame _ d).2.1,
      (_update_handles_frame _ d).2.2.2, (_update_handles_frame _ d).1,
      Or.inr ⟨by rw [← c6]; exact hv, rfl, rfl⟩, Or.inr ⟨?_, ?_, ?_⟩⟩
    · simp only [_update_handles]
    · simp only [_update_handles]
    · simp only [_update_handles]
  · exact tidy_update it _ d ⟨c1, c2, c3, c4, c5, c6, c7⟩

theorem same_core_refl (it : item) : same_core it it := ⟨rfl, rfl, rfl, rfl, rfl, rfl, rfl⟩

theorem tidy_assign_affine_mat (camera_position : fixed_point) (m : affine_mats_state)
    (a : Nat) (it it' : item) (d : static_data) (hc : same_core it' it) :
    tidy_result it d (_assign_affine_mat camera_position m a it' d) := by
  unfold _assign_affine_mat
  simp only
  split
  · exact tidy_set_position_item camera_position _ it _ d hc
  · exact tidy_update it _ d hc

theorem tidy_remove_affine_mat (camera_position : fixed_point) (m : affine_mats_state)
    (it it' : item) (d : static_data) (hc : same_core it' it) (hh : it'.handle = it.handle) :
    tidy_result it d (_remove_affine_mat camera_position m it' d) := by
  unfold _remove_affine_mat
  split
  · exact tidy_keep it it' d hc hh
  · simp only
    split
    · exact tidy_set_position_item camera_position _ it _ d hc
    · exact tidy_update it _ d hc

theorem tidy_check_affine_mats_item (camera_position : fixed_point) (m : affine_mats_state)
    (it : item) (d : static_data) :
    tidy_result it d (_check_affine_mats_item camera_position m it d) := by
  unfold _check_affine_mats_item
  split
  · exact tidy_keep it it d (same_core_refl it) rfl
  · split
    · split
      · exact tidy_remove_affine_mat camera_position m it it d (same_core_refl it) rfl
      · split
        · simp only
          split
          · exact tidy_set_position_item camera_position _ it _ d (same_core_refl it)
          · exact tidy_keep it it d (same_core_refl it) rfl
        · exact tidy_keep it it d (same_core_refl it) rfl
    · exact tidy_keep it it d (same_core_refl it) rfl

theorem frame_of_tidy (f : item → static_data → item × static_data)
    (hf : ∀ it d, tidy_result it d (f it d)) : frame_fn f := by
  intro it d
  obtain ⟨c1, c2, _, _, c5, _, f1, _, f3, _⟩ := hf it d
  exact ⟨by simp only [slot_info, c1, c2, c5], f3, f1⟩

end sprites_manager

end btn
namespace btn

namespace sprites_manager
open sorted_sprites

/-- Induction over the reachable states by the shape of the step: a property
holds in every reachable state if it holds initially; is kept by a change of
the transform pool, by `create`, by writing back one record after a mutation
described by `tidy_result`, by the release of a record, by the re-insertion
of a record with a new key, by `set_visible`, by a loop of such mutations
over all records, by `update()` and by `commit()`. -/
theorem reachable_induction (cfg : config) (Inv : State → Prop)
    (h_init : ∀ m, Inv (init cfg m))
    (h_pool : ∀ s m, reachable cfg s → Inv s → Inv { s with affine_mats := m })
    (h_create : ∀ s cam b, reachable cfg s → Inv s → Inv (create cfg cam b s).2)
    (h_replace : ∀ s id it r, reachable cfg s → Inv s → find id s.layers = some it →
      tidy_result it s.data r → Inv { s with data := r.2, layers := replace r.1 s.layers })
    (h_erase : ∀ s id it, reachable cfg s → Inv s → find id s.layers = some it →
      Inv { s with
        data := if it.on_screen then { s.data with rebuild_handles := true } else s.data,
        layers := erase id s.layers })
    (h_reinsert : ∀ s id it h p z, reachable cfg s → Inv s → find id s.layers = some it →
      Inv { s with
        data := if it.on_screen then { s.data with rebuild_handles := true } else s.data,
        layers := sorted_sprites.insert
          ({ it with handle := h, bg_priority := p, z_order := z } : item)
          (erase id s.layers) })
    (h_visible : ∀ s id v, reachable cfg s → Inv s → Inv (set_visible id v s))
    (h_loop : ∀ s f, reachable cfg s → Inv s → (∀ it d, tidy_result it d (f it d)) →
      Inv { s with data := (for_each_item f s.layers s.data).2,
                   layers := (for_each_item f s.layers s.data).1 })
    (h_update : ∀ s s' cam, reachable cfg s → Inv s → update cfg cam s = some s' → Inv s')
    (h_commit : ∀ s, reachable cfg s → Inv s → Inv (commit cfg s))
    (s : State) (hs : reachable cfg s) : Inv s := by
  induction hs with
  | init m => exact h_init m
  | pool s m hs ih => exact h_pool s m hs ih
  | step s s' camera_position o hs ha ih =>
    have hwith : ∀ (id : Nat) (f : item → static_data → item × static_data),
        (∀ it d, tidy_result it d (f it d)) → Inv (with_item id f s) := by
      intro id f hf
      unfold with_item
      cases hfind : find id s.layers with
      | none => exact ih
      | some it => exact h_replace s id it _ hs ih hfind (hf it s.data)
    cases o with
    | create b =>
      simp only [op.apply, Option.some.injEq] at ha
      rw [← ha]; exact h_create s camera_position b hs ih
    | increase_usages id =>
      simp only [op.apply, Option.some.injEq] at ha
      rw [← ha]
      exact hwith id _ (fun it d => tidy_keep it _ d ⟨rfl, rfl, rfl, rfl, rfl, rfl, rfl⟩ rfl)
    | decrease_usages id =>
      simp only [op.apply, Option.some.injEq] at ha
      rw [← ha]
      unfold decrease_usages
      cases hfind : find id s.layers with
      | none => exact ih
      | some it =>
        simp only
        split
        · exact h_erase s id it hs ih hfind
        · exact h_replace s id it ({ it with usages := it.usages - 1 }, s.data) hs ih hfind
            (tidy_keep it _ _ ⟨rfl, rfl, rfl, rfl, rfl, rfl, rfl⟩ rfl)
    | set_tiles_ptr id t =>
      simp only [op.apply, sprites_manager.set_tiles_ptr] at ha
      cases hfind : find id s.layers with
      | none => simp only [hfind, Option.some.injEq] at ha; rw [← ha]; exact ih
      | some it =>
        simp only [hfind] at ha
        split at ha
        · split at ha
          · rw [Option.some.injEq] at ha
            rw [← ha]
            exact h_replace s id it (_, _update_handles _ s.data) hs ih hfind
              (tidy_update it _ _ ⟨rfl, rfl, rfl, rfl, rfl, rfl, rfl⟩)
          · simp at ha
        · rw [Option.some.injEq] at ha; rw [← ha]; exact ih
    | set_palette_ptr id p =>
      simp only [op.apply, sprites_manager.set_palette_ptr] at ha
      cases hfind : find id s.layers with
      | none => simp only [hfind, Option.some.injEq] at ha; rw [← ha]; exact ih
      | some it =>
        simp only [hfind] at ha
        split at ha
        · split at ha
          · rw [Option.some.injEq] at ha
            rw [← ha]
            exact h_replace s id it (_, _update_handles _ s.data) hs ih hfind
              (tidy_update it _ _ ⟨rfl, rfl, rfl, rfl, rfl, rfl, rfl⟩)
          · simp at ha
        · rw [Option.some.injEq] at ha; rw [← ha]; exact ih
    | set_position id p =>
      simp only [op.apply, Option.some.injEq] at ha
      rw [← ha]
      exact hwith id _ (fun it d =>
        tidy_set_position_item camera_position p it it d (same_core_refl it))
    | set_bg_priority id p =>
      simp only [op.apply, sprites_manager.set_bg_priority] at ha
      split at ha
      · cases hfind : find id s.layers with
        | none => simp only [hfind, Option.some.injEq] at ha; rw [← ha]; exact ih
        | some it =>
          simp only [hfind] at ha
          split at ha
          · rw [Option.some.injEq] at ha
            rw [← ha]
            exact h_reinsert s id it _ _ _ hs ih hfind
          · rw [Option.some.injEq] at ha; rw [← ha]; exact ih
      · simp at ha
    | set_z_order id z =>
      simp only [op.apply, sprites_manager.set_z_order] at ha
      split at ha
      · cases hfind : find id s.layers with
        | none => simp only [hfind, Option.some.injEq] at ha; rw [← ha]; exact ih
        | some it =>
          simp only [hfind] at ha
          split at ha
          · rw [Option.some.injEq] at ha
            rw [← ha]
            exact h_reinsert s id it it.handle it.bg_priority z hs ih hfind
          · rw [Option.some.injEq] at ha; rw [← ha]; exact ih
      · simp at ha
    | set_horizontal_flip id v =>
      simp only [op.apply, sprites_manager.set_horizontal_flip, Option.some.injEq] at ha
      rw [← ha]
      cases hfind : find id s.layers with
      | none => exact ih
      | some it =>
        simp only
        split
        · exact h_pool s _ hs ih
        · exact h_replace s id it (_, _update_handles _ s.data) hs ih hfind
            (tidy_update it _ _ ⟨rfl, rfl, rfl, rfl, rfl, rfl, rfl⟩)
    | set_vertical_flip id v =>
      simp only [op.apply, sprites_manager.set_vertical_flip, Option.some.injEq] at ha
      rw [← ha]
      cases hfind : find id s.layers with
      | none => exact ih
      | some it =>
        simp only
        split
        · exact h_pool s _ hs ih
        · exact h_replace s id it (_, _update_handles _ s.data) hs ih hfind
            (tidy_update it _ _ ⟨rfl, rfl, rfl, rfl, rfl, rfl, rfl⟩)
    | set_mosaic_enabled id v =>
      simp only [op.apply, Option.some.injEq] at ha
      rw [← ha]
      exact hwith id _ (fun it d => tidy_update it _ d ⟨rfl, rfl, rfl, rfl, rfl, rfl, rfl⟩)
    | set_double_size_mode id mode =>
      simp only [op.apply, Option.some.injEq] at ha
      rw [← ha]
      refine hwith id _ ?_
      intro it d
      simp only
      split
      · split
        · exact tidy_set_position_item camera_position _ it _ d
            ⟨rfl, rfl, rfl, rfl, rfl, rfl, rfl⟩
        · exact tidy_keep it _ d ⟨rfl, rfl, rfl, rfl, rfl, rfl, rfl⟩ rfl
      · exact tidy_keep it _ d ⟨rfl, rfl, rfl, rfl, rfl, rfl, rfl⟩ rfl
    | set_visible id v =>
      simp only [op.apply, Option.some.injEq] at ha
      rw [← ha]
      exact h_visible s id v hs ih
    | set_ignore_camera id v =>
      simp only [op.apply, Option.some.injEq] at ha
      rw [← ha]
      refine hwith id _ ?_
      intro it d
      exact tidy_set_position_item camera_position _ it _ d ⟨rfl, rfl, rfl, rfl, rfl, rfl, rfl⟩
    | set_affine_mat_ptr id a =>
      simp only [op.apply, Option.some.injEq] at ha
      rw [← ha]
      refine hwith id _ ?_
      intro it d
      cases a with
      | some a =>
        simp only
        split
        · exact tidy_keep it it d (same_core_refl it) rfl
        · split
          · split
            · exact tidy_remove_affine_mat camera_position _ it it d (same_core_refl it) rfl
            · exact tidy_keep it it d (same_core_refl it) rfl
          · exact tidy_assign_affine_mat camera_position _ _ it it d (same_core_refl it)
      | none =>
        simp only
        split
        · exact tidy_remove_affine_mat camera_position _ it it d (same_core_refl it) rfl
        · exact tidy_keep it it d (same_core_refl it) rfl
    | set_remove_affine_mat_when_not_needed id v =>
      simp only [op.apply, Option.some.injEq] at ha
      rw [← ha]
      refine hwith id _ ?_
      intro it d
      simp only
      split
      · split
        · exact tidy_remove_affine_mat camera_position _ it _ d
            ⟨rfl, rfl, rfl, rfl, rfl, rfl, rfl⟩ rfl
        · exact tidy_keep it _ d ⟨rfl, rfl, rfl, rfl, rfl, rfl, rfl⟩ rfl
      · exact tidy_keep it _ d ⟨rfl, rfl, rfl, rfl, rfl, rfl, rfl⟩ rfl
    | update_camera =>
      simp only [op.apply, Option.some.injEq] at ha
      rw [← ha]
      refine h_loop s _ hs ih ?_
      intro it d
      split
      · exact tidy_set_position_item camera_position _ it it d (same_core_refl it)
      · exact tidy_keep it it d (same_core_refl it) rfl
    | update => exact h_update s s' camera_position hs ih ha
    | commit =>
      simp only [op.apply, Option.some.injEq] at ha
      rw [← ha]
      exact h_commit s hs ih

end sprites_manager

end btn

namespace btn

/-! ### The sort index in every reachable state -/

namespace sorted_sprites

theorem well_formed_of_keys (ls ls' : List layer)
    (h : ls'.map (fun l => (l.first, l.second.map sort_key)) =
      ls.map (fun l => (l.first, l.second.map sort_key)))
    (hw : well_formed ls) : well_formed ls' := by
  have key : ∀ l : List layer, well_formed l ↔
      (l.map (fun l => (l.first, l.second.map sort_key))).Pairwise
        (fun a b => key_lt a.1 b.1 = true) ∧
      ∀ e ∈ l.map (fun l => (l.first, l.second.map sort_key)), ∀ k ∈ e.2, k = e.1 := by
    intro l
    unfold well_formed
    rw [List.pairwise_map]
    constructor
    · rintro ⟨h1, h2⟩
      refine ⟨h1, ?_⟩
      intro e he k hk
      rw [List.mem_map] at he
      obtain ⟨l0, hl0, rfl⟩ := he
      simp only [List.mem_map] at hk
      obtain ⟨x, hx, rfl⟩ := hk
      exact h2 l0 hl0 x hx
    · rintro ⟨h1, h2⟩
      refine ⟨h1, ?_⟩
      intro l0 hl0 x hx
      exact h2 _ (List.mem_map_of_mem _ hl0) _ (List.mem_map_of_mem _ hx)
  rw [key] at hw ⊢
  rw [h]
  exact hw

theorem for_each_item_keys {σ : Type} (body : item → σ → item × σ)
    (hb : ∀ it d, sort_key (body it d).1 = sort_key it) (ls : List layer) (d : σ) :
    (for_each_item body ls d).1.map (fun l => (l.first, l.second.map sort_key)) =
      ls.map (fun l => (l.first, l.second.map sort_key)) := by
  induction ls generalizing d with
  | nil => rfl
  | cons l ls ih =>
    simp only [for_each_item, List.map_cons]
    rw [ih, for_each_in_layer_map sort_key body hb]

theorem for_each_in_layer_checked_map {σ β : Type} (g : item → β)
    (body : item → σ → Option (item × σ))
    (hb : ∀ it d r, body it d = some r → g r.1 = g it) (l : List item) (d : σ)
    (q : List item × σ) (h : for_each_in_layer_checked body l d = some q) :
    q.1.map g = l.map g := by
  induction l generalizing d q with
  | nil =>
    simp only [for_each_in_layer_checked, Option.some.injEq] at h
    rw [← h]
  | cons x xs ih =>
    rw [for_each_in_layer_checked_cons] at h
    cases h1 : body x d with
    | none => simp [h1] at h
    | some r =>
      cases h2 : for_each_in_layer_checked body xs r.2 with
      | none => simp [h1, h2] at h
      | some q0 =>
        rw [h1, Option.some_bind, h2, Option.map_some', Option.some.injEq] at h
        rw [← h]
        simp only [List.map_cons]
        rw [hb x d r h1, ih r.2 q0 h2]

theorem for_each_item_checked_keys {σ : Type} (body : item → σ → Option (item × σ))
    (hb : ∀ it d r, body it d = some r → sort_key r.1 = sort_key it) (ls : List layer) (d : σ)
    (q : List layer × σ) (h : for_each_item_checked body ls d = some q) :
    q.1.map (fun l => (l.first, l.second.map sort_key)) =
      ls.map (fun l => (l.first, l.second.map sort_key)) := by
  induction ls generalizing d q with
  | nil =>
    simp only [for_each_item_checked, Option.some.injEq] at h
    rw [← h]
  | cons l ls ih =>
    rw [for_each_item_checked_cons] at h
    cases h1 : for_each_in_layer_checked body l.second d with
    | none => simp [h1] at h
    | some r =>
      cases h2 : for_each_item_checked body ls r.2 with
      | none => simp [h1, h2] at h
      | some q0 =>
        rw [h1, Option.some_bind, h2, Option.map_some', Option.some.injEq] at h
        rw [← h]
        simp only [List.map_cons]
        rw [ih r.2 q0 h2, for_each_in_layer_checked_map sort_key body hb l.second d r h1]

theorem items_insert_split (it : item) (ls : List layer) (h : well_formed ls) :
    ∃ A B, items ls = A ++ B ∧ items (insert it ls) = A ++ it :: B ∧
      (∀ x ∈ A, key_le (sort_key x) (sort_key it)) ∧
      (∀ x ∈ B, key_lt (sort_key it) (sort_key x) = true) := by
  induction ls with
  | nil => exact ⟨[], [], rfl, rfl, by simp, by simp⟩
  | cons l ls ih =>
    simp only [insert]
    split
    · rename_i hlt
      refine ⟨[], items (l :: ls), rfl, ?_, by simp, ?_⟩
      · simp [items]
      · intro x hx
        simp only [items, List.mem_append] at hx
        rcases hx with hx | hx
        · rw [h.2 l (List.mem_cons_self _ _) x hx]; exact hlt
        · exact key_lt_trans hlt (well_formed_tail_gt h x hx)
    · split
      · rename_i hlt heq
        refine ⟨l.second, items ls, rfl, ?_, ?_, ?_⟩
        · simp [items]
        · intro x hx
          rw [h.2 l (List.mem_cons_self _ _) x hx, heq]
          unfold key_le
          omega
        · intro x hx
          rw [← heq]
          exact well_formed_tail_gt h x hx
      · rename_i hlt hne
        obtain ⟨A, B, h1, h2, h3, h4⟩ := ih (well_formed_tail h)
        refine ⟨l.second ++ A, B, ?_, ?_, ?_, h4⟩
        · simp only [items, h1, List.append_assoc]
        · simp only [items, h2, List.append_assoc]
        · intro x hx
          rw [List.mem_append] at hx
          rcases hx with hx | hx
          · rw [h.2 l (List.mem_cons_self _ _) x hx]
            exact key_le_of_lt (key_lt_of_not hlt hne)
          · exact h3 x hx

end sorted_sprites

namespace sprites_manager
open sorted_sprites

theorem tidy_sort_key (it : item) (d : static_data) (r : item × static_data)
    (h : tidy_result it d r) : r.1.id = it.id ∧ sort_key r.1 = sort_key it := by
  obtain ⟨h1, _, h3, h4, _⟩ := h
  exact ⟨h1, by simp only [sort_key, h3, h4]⟩

theorem _check_items_on_screen_item_key (cfg : config) (camera_position : fixed_point)
    (it : item) (rb : Bool) :
    sort_key (_check_items_on_screen_item cfg camera_position it rb).1 = sort_key it := by
  unfold _check_items_on_screen_item
  split
  · simp only
    split <;> rfl
  · rfl

theorem _rebuild_handles_item_key (cfg : config) (it : item) (st : Nat × List handle)
    (r : item × (Nat × List handle)) (h : _rebuild_handles_item cfg it st = some r) :
    sort_key r.1 = sort_key it := by
  unfold _rebuild_handles_item at h
  simp only at h
  split at h
  · split at h
    · rw [Option.some.injEq] at h; rw [← h]; rfl
    · simp at h
  · rw [Option.some.injEq] at h; rw [← h]; rfl

theorem well_formed_update (cfg : config) (camera_position : fixed_point) (s s' : State)
    (hw : well_formed s.layers) (hs' : update cfg camera_position s = some s') :
    well_formed s'.layers := by
  unfold update at hs'
  have h1 : well_formed (_check_affine_mats camera_position s).layers := by
    unfold _check_affine_mats
    split
    · exact well_formed_of_keys _ _ (for_each_item_keys _
        (fun it d => (tidy_sort_key it d _ (tidy_check_affine_mats_item _ _ it d)).2) _ _) hw
    · exact hw
  have h2 : well_formed (_check_items_on_screen cfg camera_position
      (_check_affine_mats camera_position s)).layers := by
    unfold _check_items_on_screen
    split
    · exact well_formed_of_keys _ _ (for_each_item_keys _
        (fun it d => _check_items_on_screen_item_key cfg camera_position it d) _ _) h1
    · exact h1
  revert hs'
  generalize _check_items_on_screen cfg camera_position
    (_check_affine_mats camera_position s) = t at h2
  intro hs'
  unfold _rebuild_handles at hs'
  split at hs'
  · simp only at hs'
    split at hs'
    · simp at hs'
    · rename_i r hr
      rw [Option.some.injEq] at hs'
      rw [← hs']
      exact well_formed_of_keys _ _ (for_each_item_checked_keys _
        (fun it d r h => _rebuild_handles_item_key cfg it d r h) _ _ r hr) h2
  · rw [Option.some.injEq] at hs'
    rw [← hs']
    exact h2

theorem commit_layers (cfg : config) (s : State) : (commit cfg s).layers = s.layers := by
  unfold commit
  simp only
  split <;> rfl

theorem well_formed_reachable (cfg : config) (s : State) (h : reachable cfg s) :
    well_formed s.layers := by
  refine reachable_induction cfg (fun s => well_formed s.layers) ?_ ?_ ?_ ?_ ?_ ?_ ?_ ?_ ?_ ?_
    s h
  · intro m; exact well_formed_nil
  · intro s m _ hw; exact hw
  · intro s cam b _ hw
    rcases create_result cfg cam b s with ⟨_, h2⟩ | ⟨new, _, _, h3, _⟩
    · rw [h2]; exact hw
    · show well_formed (create cfg cam b s).2.layers
      rw [h3]; exact well_formed_insert new _ hw
  · intro s id it r hs hw hfind ht
    exact well_formed_replace id _ it r.1 hw (members_inv_ids s (members_inv_reachable cfg s hs))
      hfind (tidy_sort_key it _ r ht).1 (tidy_sort_key it _ r ht).2
  · intro s id it _ hw _
    exact well_formed_erase id _ hw
  · intro s id it h p z _ hw _
    exact well_formed_insert _ _ (well_formed_erase id _ hw)
  · intro s id v hs hw
    unfold set_visible with_item
    cases hfind : find id s.layers with
    | none => exact hw
    | some it =>
      simp only
      split
      · exact well_formed_replace id _ it _ hw
          (members_inv_ids s (members_inv_reachable cfg s hs)) hfind rfl rfl
      · exact well_formed_replace id _ it _ hw
          (members_inv_ids s (members_inv_reachable cfg s hs)) hfind rfl rfl
  · intro s f _ hw hf
    exact well_formed_of_keys _ _ (for_each_item_keys f
      (fun it d => (tidy_sort_key it d _ (hf it d)).2) _ _) hw
  · intro s s' cam _ hw hs'
    exact well_formed_update cfg cam s s' hw hs'
  · intro s _ hw
    show well_formed (commit cfg s).layers
    rw [commit_layers]
    exact hw

theorem filter_id_of_split (id : Nat) (l A B : List item) (x : item) (hx : x.id = id)
    (h : A ++ B = l.filter (fun y => y.id != id)) :
    (A ++ x :: B).filter (fun y => y.id == id) = [x] := by
  have hA : ∀ y ∈ A ++ B, (y.id == id) = false := by
    intro y hy
    rw [h, List.mem_filter] at hy
    simpa using hy.2
  have h1 : A.filter (fun y => y.id == id) = [] := by
    rw [List.filter_eq_nil_iff]
    intro y hy
    simp [hA y (List.mem_append_left _ hy)]
  have h2 : B.filter (fun y => y.id == id) = [] := by
    rw [List.filter_eq_nil_iff]
    intro y hy
    simp [hA y (List.mem_append_right _ hy)]
  rw [List.filter_append, h1, List.filter_cons, h2]
  simp [hx]

theorem reinsert_spec (id : Nat) (ls : List layer) (it' : item) (hid : it'.id = id)
    (hw : well_formed ls) :
    ∃ A B, find id (insert it' (erase id ls)) = some it' ∧
      items (insert it' (erase id ls)) = A ++ it' :: B ∧
      A ++ B = (items ls).filter (fun x => x.id != id) ∧
      (∀ x ∈ A, key_le (sort_key x) (sort_key it')) ∧
      (∀ x ∈ B, key_lt (sort_key it') (sort_key x) = true) ∧
      (items (insert it' (erase id ls))).filter (fun x => x.id == id) = [it'] ∧
      (items (insert it' (erase id ls))).Pairwise
        (fun a b => key_le (sort_key a) (sort_key b)) := by
  obtain ⟨A, B, h1, h2, h3, h4⟩ := items_insert_split it' (erase id ls) (well_formed_erase id ls hw)
  rw [items_erase] at h1
  refine ⟨A, B, find_insert_erase id ls it' hid, h2, h1.symm, h3, h4, ?_,
    sorted_of_well_formed _ (well_formed_insert _ _ (well_formed_erase id ls hw))⟩
  rw [h2]
  exact filter_id_of_split id (items ls) A B it' hid h1.symm

end sprites_manager

end btn
namespace btn

namespace sprites_manager
open sorted_sprites

/-- C30: in a reachable state, `set_bg_priority(id, p)` with a valid `p` and
`set_z_order(id, z)` with a valid `z` on a live record complete. With a value
different from the current one the record has the key `(p, old z)` resp.
`(old priority, z)`; the traversal is `A ++ record :: B`, where `A ++ B` is the
old traversal without the record (the other records, unchanged and in their old
order), every record of `A` has a key not above the new key and every record
of `B` a key above it; the record occurs exactly once; the traversal is in
ascending key order; and a recompaction is scheduled if the record is on
screen. With a value equal to the current one the state is unchanged. -/
theorem reorder_is_atomic_and_complete (cfg : config) (s : State) (id : Nat) (it : item)
    (hs : reachable cfg s) (hfind : find id s.layers = some it) :
    (∀ p : Int, 0 ≤ p → p ≤ max_bg_priority cfg →
      (p = it.bg_priority → set_bg_priority cfg id p s = some s) ∧
      (p ≠ it.bg_priority → ∃ s' it' A B,
        set_bg_priority cfg id p s = some s' ∧
        find id s'.layers = some it' ∧ sort_key it' = (p, it.z_order) ∧
        items s'.layers = A ++ it' :: B ∧
        A ++ B = (items s.layers).filter (fun x => x.id != id) ∧
        (∀ x ∈ A, key_le (sort_key x) (sort_key it')) ∧
        (∀ x ∈ B, key_lt (sort_key it') (sort_key x) = true) ∧
        (items s'.layers).filter (fun x => x.id == id) = [it'] ∧
        (items s'.layers).Pairwise (fun a b => key_le (sort_key a) (sort_key b)) ∧
        (it.on_screen = true → s'.data.rebuild_handles = true))) ∧
    (∀ z : Int, 0 ≤ z → z < z_orders cfg →
      (z = it.z_order → set_z_order cfg id z s = some s) ∧
      (z ≠ it.z_order → ∃ s' it' A B,
        set_z_order cfg id z s = some s' ∧
        find id s'.layers = some it' ∧ sort_key it' = (it.bg_priority, z) ∧
        items s'.layers = A ++ it' :: B ∧
        A ++ B = (items s.layers).filter (fun x => x.id != id) ∧
        (∀ x ∈ A, key_le (sort_key x) (sort_key it')) ∧
        (∀ x ∈ B, key_lt (sort_key it') (sort_key x) = true) ∧
        (items s'.layers).filter (fun x => x.id == id) = [it'] ∧
        (items s'.layers).Pairwise (fun a b => key_le (sort_key a) (sort_key b)) ∧
        (it.on_screen = true → s'.data.rebuild_handles = true))) := by
  have hwf := well_formed_reachable cfg s hs
  have hid := find_id id s.layers it hfind
  constructor
  · intro p hp0 hp1
    have hvalid : p ≥ 0 ∧ p ≤ max_bg_priority cfg := ⟨hp0, hp1⟩
    constructor
    · intro he
      unfold set_bg_priority
      rw [if_pos hvalid]
      simp only [hfind]
      rw [if_neg (fun h => h he)]
    · intro hne
      obtain ⟨A, B, h1, h2, h3, h4, h5, h6, h7⟩ := reinsert_spec id s.layers
        (({ it with handle := hw.sprites.set_bg_priority p it.handle } : item).update_sort_key
          p it.z_order) hid hwf
      refine ⟨{ s with
          data := if it.on_screen then { s.data with rebuild_handles := true } else s.data,
          layers := sorted_sprites.insert
            (({ it with handle := hw.sprites.set_bg_priority p it.handle } : item).update_sort_key
              p it.z_order) (erase id s.layers) },
        ({ it with handle := hw.sprites.set_bg_priority p it.handle } : item).update_sort_key
          p it.z_order, A, B, ?_, h1, rfl, h2, h3, h4, h5, h6, h7, ?_⟩
      · unfold set_bg_priority
        rw [if_pos hvalid]
        simp only [hfind]
        rw [if_pos hne]
        rfl
      · intro hon
        show (if it.on_screen = true then
          ({ s.data with rebuild_handles := true } : static_data) else s.data).rebuild_handles
          = true
        rw [if_pos hon]
  · intro z hz0 hz1
    have hvalid : z ≥ 0 ∧ z < z_orders cfg := ⟨hz0, hz1⟩
    constructor
    · intro he
      unfold set_z_order
      rw [if_pos hvalid]
      simp only [hfind]
      rw [if_neg (fun h => h he)]
    · intro hne
      obtain ⟨A, B, h1, h2, h3, h4, h5, h6, h7⟩ := reinsert_spec id s.layers
        (it.update_sort_key it.bg_priority z) hid hwf
      refine ⟨{ s with
          data := if it.on_screen then { s.data with rebuild_handles := true } else s.data,
          layers := sorted_sprites.insert (it.update_sort_key it.bg_priority z)
            (erase id s.layers) },
        it.update_sort_key it.bg_priority z, A, B, ?_, h1, rfl, h2, h3, h4, h5, h6, h7, ?_⟩
      · unfold set_z_order
        rw [if_pos hvalid]
        simp only [hfind]
        rw [if_pos hne]
        rfl
      · intro hon
        show (if it.on_screen = true then
          ({ s.data with rebuild_handles := true } : static_data) else s.data).rebuild_handles
          = true
        rw [if_pos hon]

theorem reorder_is_atomic_and_complete_witness :
    reachable sample.cfg sample.s4 ∧ find 0 sample.s4.layers = some sample.r0 ∧
    (∀ p : Int, 0 ≤ p → p ≤ max_bg_priority sample.cfg →
      (p = sample.r0.bg_priority → set_bg_priority sample.cfg 0 p sample.s4 = some sample.s4) ∧
      (p ≠ sample.r0.bg_priority → ∃ s' it' A B,
        set_bg_priority sample.cfg 0 p sample.s4 = some s' ∧
        find 0 s'.layers = some it' ∧ sort_key it' = (p, sample.r0.z_order) ∧
        items s'.layers = A ++ it' :: B ∧
        A ++ B = (items sample.s4.layers).filter (fun x => x.id != 0) ∧
        (∀ x ∈ A, key_le (sort_key x) (sort_key it')) ∧
        (∀ x ∈ B, key_lt (sort_key it') (sort_key x) = true) ∧
        (items s'.layers).filter (fun x => x.id == 0) = [it'] ∧
        (items s'.layers).Pairwise (fun a b => key_le (sort_key a) (sort_key b)) ∧
        (sample.r0.on_screen = true → s'.data.rebuild_handles = true))) ∧
    (∀ z : Int, 0 ≤ z → z < z_orders sample.cfg →
      (z = sample.r0.z_order → set_z_order sample.cfg 0 z sample.s4 = some sample.s4) ∧
      (z ≠ sample.r0.z_order → ∃ s' it' A B,
        set_z_order sample.cfg 0 z sample.s4 = some s' ∧
        find 0 s'.layers = some it' ∧ sort_key it' = (sample.r0.bg_priority, z) ∧
        items s'.layers = A ++ it' :: B ∧
        A ++ B = (items sample.s4.layers).filter (fun x => x.id != 0) ∧
        (∀ x ∈ A, key_le (sort_key x) (sort_key it')) ∧
        (∀ x ∈ B, key_lt (sort_key it') (sort_key x) = true) ∧
        (items s'.layers).filter (fun x => x.id == 0) = [it'] ∧
        (items s'.layers).Pairwise (fun a b => key_le (sort_key a) (sort_key b)) ∧
        (sample.r0.on_screen = true → s'.data.rebuild_handles = true))) :=
  ⟨sample_s4_reachable, by decide,
    reorder_is_atomic_and_complete sample.cfg sample.s4 0 sample.r0 sample_s4_reachable
      (by decide)⟩

end sprites_manager

end btn

namespace btn

/-! ### The evaluation flags in every reachable state -/

namespace sorted_sprites

theorem find_for_each_in_layer {σ : Type} (body : item → σ → item × σ)
    (hid : ∀ it d, (body it d).1.id = it.id) (l : List item) (d : σ) (id : Nat) (it : item)
    (h : l.find? (fun x => x.id == id) = some it) :
    ∃ d0, (for_each_in_layer body l d).1.find? (fun x => x.id == id) = some (body it d0).1 := by
  induction l generalizing d with
  | nil => simp at h
  | cons x xs ih =>
    simp only [for_each_in_layer]
    have hid' : ((body x d).1.id == id) = (x.id == id) := by rw [hid]
    cases hx : (x.id == id) with
    | true =>
      simp only [List.find?_cons, hx, Option.some.injEq] at h
      subst h
      refine ⟨d, ?_⟩
      simp only [List.find?_cons, hid', hx]
    | false =>
      simp only [List.find?_cons, hx] at h
      obtain ⟨d0, h0⟩ := ih (body x d).2 h
      refine ⟨d0, ?_⟩
      simp only [List.find?_cons, hid', hx]
      exact h0

theorem find_for_each_item {σ : Type} (body : item → σ → item × σ)
    (hid : ∀ it d, (body it d).1.id = it.id) (ls : List layer) (d : σ) (id : Nat) (it : item)
    (h : find id ls = some it) :
    ∃ d0, find id (for_each_item body ls d).1 = some (body it d0).1 := by
  have hi := for_each_item_items body ls d
  have h1 : items (for_each_item body ls d).1 = (for_each_in_layer body (items ls) d).1 := by
    rw [← hi]
  unfold find
  rw [h1]
  exact find_for_each_in_layer body hid (items ls) d id it h

theorem find_of_map_eq {β : Type} (g : item → β) (p : β → Bool) (id : Nat)
    (hp : ∀ x : item, (x.id == id) = p (g x)) (l l' : List item)
    (h : l'.map g = l.map g) (a : item) (ha : l.find? (fun x => x.id == id) = some a) :
    ∃ b, l'.find? (fun x => x.id == id) = some b ∧ g b = g a := by
  induction l generalizing l' with
  | nil => simp at ha
  | cons x xs ih =>
    cases l' with
    | nil => simp at h
    | cons y ys =>
      simp only [List.map_cons, List.cons.injEq] at h
      have hid' : (y.id == id) = (x.id == id) := by rw [hp, h.1, ← hp]
      cases hx : (x.id == id) with
      | true =>
        simp only [List.find?_cons, hx, Option.some.injEq] at ha
        subst ha
        refine ⟨y, ?_, h.1⟩
        simp only [List.find?_cons, hid', hx]
      | false =>
        simp only [List.find?_cons, hx] at ha
        obtain ⟨b, hb1, hb2⟩ := ih ys h.2 ha
        refine ⟨b, ?_, hb2⟩
        simp only [List.find?_cons, hid', hx]
        exact hb1

end sorted_sprites

namespace sprites_manager
open sorted_sprites

theorem tidy_flags (it : item) (d : static_data) (r : item × static_data)
    (h : tidy_result it d r) :
    (d.check_items_on_screen = true → r.2.check_items_on_screen = true) ∧
    (r.1.check_on_screen = true →
      it.check_on_screen = true ∨ r.2.check_items_on_screen = true) ∧
    (it.check_on_screen = true → r.1.check_on_screen = true) := by
  obtain ⟨_, _, _, _, _, _, _, _, _, h10, _⟩ := h
  rcases h10 with ⟨a, b⟩ | ⟨_, a, b⟩
  · exact ⟨fun h0 => by rw [b]; exact h0, fun h0 => Or.inl (by rw [← a]; exact h0),
      fun h0 => by rw [a]; exact h0⟩
  · exact ⟨fun _ => b, fun _ => Or.inr b, fun _ => a⟩

theorem for_each_in_layer_flags (f : item → static_data → item × static_data)
    (hf : ∀ it d, tidy_result it d (f it d)) (l : List item) (d : static_data)
    (h : ∀ x ∈ l, x.check_on_screen = true → d.check_items_on_screen = true) :
    (d.check_items_on_screen = true →
      (for_each_in_layer f l d).2.check_items_on_screen = true) ∧
    ∀ x ∈ (for_each_in_layer f l d).1, x.check_on_screen = true →
      (for_each_in_layer f l d).2.check_items_on_screen = true := by
  induction l generalizing d with
  | nil =>
    refine ⟨fun h0 => h0, ?_⟩
    intro x hx
    simp [for_each_in_layer] at hx
  | cons y ys ih =>
    obtain ⟨t1, t2, _⟩ := tidy_flags y d _ (hf y d)
    have hrest : ∀ x ∈ ys, x.check_on_screen = true →
        (f y d).2.check_items_on_screen = true :=
      fun x hx hc => t1 (h x (List.mem_cons_of_mem _ hx) hc)
    obtain ⟨i1, i2⟩ := ih (f y d).2 hrest
    simp only [for_each_in_layer]
    refine ⟨fun h0 => i1 (t1 h0), ?_⟩
    intro x hx hc
    rcases List.mem_cons.1 hx with rfl | hx
    · rcases t2 hc with h0 | h0
      · exact i1 (t1 (h y (List.mem_cons_self _ _) h0))
      · exact i1 h0
    · exact i2 x hx hc

theorem flags_inv_for_each (f : item → static_data → item × static_data)
    (hf : ∀ it d, tidy_result it d (f it d)) (ls : List layer) (d : static_data)
    (h : ∀ x ∈ items ls, x.check_on_screen = true → d.check_items_on_screen = true) :
    ∀ x ∈ items (for_each_item f ls d).1, x.check_on_screen = true →
      (for_each_item f ls d).2.check_items_on_screen = true := by
  have hi := for_each_item_items f ls d
  have h1 : items (for_each_item f ls d).1 = (for_each_in_layer f (items ls) d).1 := by
    rw [← hi]
  have h2 : (for_each_item f ls d).2 = (for_each_in_layer f (items ls) d).2 := by
    rw [← hi]
  rw [h1, h2]
  exact (for_each_in_layer_flags f hf (items ls) d h).2

theorem flags_inv_check_affine_mats (camera_position : fixed_point) (s : State)
    (h : flags_inv s) : flags_inv (_check_affine_mats camera_position s) := by
  unfold _check_affine_mats
  split
  · exact flags_inv_for_each _ (fun it d => tidy_check_affine_mats_item _ _ it d) _ _ h
  · exact h

theorem check_items_on_screen_item_clears (cfg : config) (camera_position : fixed_point)
    (it : item) (rb : Bool) :
    (_check_items_on_screen_item cfg camera_position it rb).1.check_on_screen = false ∨
    ((_check_items_on_screen_item cfg camera_position it rb).1 = it ∧
      it.check_on_screen = false) := by
  unfold _check_items_on_screen_item
  split
  · simp only
    split <;> exact Or.inl rfl
  · rename_i hc
    exact Or.inr ⟨rfl, by simpa using hc⟩

theorem check_items_on_screen_clears (cfg : config) (camera_position : fixed_point)
    (s : State) (h : flags_inv s) :
    (∀ it ∈ items (_check_items_on_screen cfg camera_position s).layers,
      it.check_on_screen = false) ∧
    (_check_items_on_screen cfg camera_position s).data.check_items_on_screen = false := by
  unfold _check_items_on_screen
  split
  · refine ⟨?_, rfl⟩
    simp only
    have hi := for_each_item_items (_check_items_on_screen_item cfg camera_position)
      s.layers s.data.rebuild_handles
    have h1 : items (for_each_item (_check_items_on_screen_item cfg camera_position)
        s.layers s.data.rebuild_handles).1 =
        (for_each_in_layer (_check_items_on_screen_item cfg camera_position)
          (items s.layers) s.data.rebuild_handles).1 := by rw [← hi]
    rw [h1]
    refine for_each_in_layer_pointwise _ (fun _ => True) _ ?_ (items s.layers) _
      (fun _ _ => trivial)
    intro it rb _
    rcases check_items_on_screen_item_clears cfg camera_position it rb with h0 | ⟨h0, h1⟩
    · exact h0
    · rw [h0]; exact h1
  · rename_i hg
    have hg' : s.data.check_items_on_screen = false := by simpa using hg
    refine ⟨?_, hg'⟩
    intro it hit
    by_contra hc
    exact hg (h it hit (by simpa using hc))

theorem _rebuild_handles_check_flag (cfg : config) (s s' : State)
    (hs' : _rebuild_handles cfg s = some s') :
    s'.data.check_items_on_screen = s.data.check_items_on_screen := by
  by_cases hflag : s.data.rebuild_handles = true
  · cases hr : for_each_item_checked (_rebuild_handles_item cfg) s.layers
        (0, s.data.handles) with
    | none => simp [_rebuild_handles, hflag, hr] at hs'
    | some r =>
      obtain ⟨s2, hs2, _, _, _, _, hc, _⟩ := _rebuild_handles_result cfg s r hflag hr
      rw [hs2, Option.some.injEq] at hs'
      subst hs'
      exact hc
  · simp only [_rebuild_handles, hflag] at hs'
    simp only [Bool.false_eq_true, if_false, Option.some.injEq] at hs'
    rw [← hs']

theorem update_flags_clear (cfg : config) (camera_position : fixed_point) (s s' : State)
    (h : flags_inv s) (hs' : update cfg camera_position s = some s') :
    (∀ it ∈ items s'.layers, it.check_on_screen = false) ∧
    s'.data.check_items_on_screen = false := by
  unfold update at hs'
  obtain ⟨c1, c2⟩ := check_items_on_screen_clears cfg camera_position _
    (flags_inv_check_affine_mats camera_position s h)
  refine ⟨?_, by rw [_rebuild_handles_check_flag cfg _ s' hs']; exact c2⟩
  intro it hit
  have hmap := rebuild_handles_items cfg _ s' hs'
  have hmem : ({ it with handles_index := 0 } : item) ∈
      (items s'.layers).map (fun it => { it with handles_index := 0 }) :=
    List.mem_map.2 ⟨it, hit, rfl⟩
  rw [hmap] at hmem
  obtain ⟨it0, hit0, he⟩ := List.mem_map.1 hmem
  have e1 : it0.check_on_screen = it.check_on_screen := by
    have h0 := congrArg item.check_on_screen he
    exact h0
  rw [← e1]
  exact c1 it0 hit0

theorem commit_check_flag (cfg : config) (s : State) :
    (commit cfg s).data.check_items_on_screen = s.data.check_items_on_screen := by
  unfold commit
  simp only
  split <;> rfl

theorem flags_inv_reachable (cfg : config) (s : State) (h : reachable cfg s) :
    flags_inv s := by
  refine reachable_induction cfg flags_inv ?_ ?_ ?_ ?_ ?_ ?_ ?_ ?_ ?_ ?_ s h
  · intro m it hit
    simp [init, items] at hit
  · intro s m _ hi; exact hi
  · intro s cam b _ hi
    unfold create
    split
    · exact hi
    · split
      · exact hi
      · split
        · exact hi
        · intro x hx hc
          simp only at hx ⊢
          rcases List.mem_cons.1 ((items_insert_perm _ _).subset hx) with rfl | hx
          · have hv : b.visible = true := by
              have e : ∀ t p, (item.create cam s.affine_mats s.data.items_pool_size b t
                  p).check_on_screen = b.visible := by
                intro t p
                unfold item.create
                simp only
                split <;> rfl
              rw [← e]; exact hc
            rw [if_pos hv]
          · have := hi x hx hc
            split
            · rfl
            · exact this
  · intro s id it r hs hi hfind ht
    obtain ⟨t1, t2, _⟩ := tidy_flags it s.data r ht
    intro x hx hc
    simp only at hx ⊢
    rw [items_replace, List.mem_map] at hx
    obtain ⟨y, hy, rfl⟩ := hx
    split at hc
    · rcases t2 hc with h0 | h0
      · exact t1 (hi it (find_mem id _ it hfind) h0)
      · exact h0
    · exact t1 (hi y hy hc)
  · intro s id it _ hi _ x hx hc
    simp only at hx ⊢
    rw [items_erase, List.mem_filter] at hx
    have := hi x hx.1 hc
    split
    · exact this
    · exact this
  · intro s id it h p z _ hi hfind x hx hc
    simp only at hx ⊢
    have h0 : s.data.check_items_on_screen = true := by
      rcases List.mem_cons.1 ((items_insert_perm _ _).subset hx) with rfl | hx
      · exact hi it (find_mem id _ it hfind) hc
      · rw [items_erase, List.mem_filter] at hx
        exact hi x hx.1 hc
    split
    · exact h0
    · exact h0
  · intro s id v _ hi
    unfold set_visible with_item
    cases hfind : find id s.layers with
    | none => exact hi
    | some it =>
      cases v with
      | true => intro x _ _; rfl
      | false =>
        intro x hx hc
        simp only [Bool.false_eq_true, if_false] at hx ⊢
        rw [items_replace, List.mem_map] at hx
        obtain ⟨y, hy, rfl⟩ := hx
        have h0 : s.data.check_items_on_screen = true := by
          split at hc
          · cases hc
          · exact hi y hy hc
        split
        · exact h0
        · exact h0
  · intro s f _ hi hf
    exact flags_inv_for_each f hf _ _ hi
  · intro s s' cam _ hi hs' x hx hc
    rw [(update_flags_clear cfg cam s s' hi hs').1 x hx] at hc
    cases hc
  · intro s _ hi x hx hc
    rw [commit_layers] at hx
    rw [commit_check_flag]
    exact hi x hx hc

end sprites_manager

end btn
namespace btn

/-! ### The visibility pass -/

namespace sprites_manager
open sorted_sprites

theorem sample_s17_reachable : reachable sample.cfg sample.s17 :=
  reachable.pool sample.s16 sample.mats4
    (reachable.step _ sample.s16 sample.camera op.update
      (reachable.step _ _ sample.camera
        (op.set_position 0 ⟨fixed.of_int (-6), fixed.of_int 10⟩)
        (reachable.step sample.s11 _ sample.camera (op.set_affine_mat_ptr 0 (some 0))
          sample_s11_reachable rfl)
        rfl)
      (by decide))

theorem compute_on_screen_congr (cfg : config) (camera_position : fixed_point) (a b : item)
    (h1 : a.position = b.position) (h2 : a.ignore_camera = b.ignore_camera)
    (h3 : a.handle = b.handle) :
    compute_on_screen cfg camera_position a = compute_on_screen cfg camera_position b := by
  unfold compute_on_screen
  rw [h1, h2, h3]

theorem find_check_affine_mats (camera_position : fixed_point) (s : State) (id : Nat)
    (it : item) (hfind : find id s.layers = some it) :
    ∃ it1, find id (_check_affine_mats camera_position s).layers = some it1 ∧
      it1.on_screen = it.on_screen ∧
      (it.check_on_screen = true → it1.check_on_screen = true) ∧
      (sprite_affine_mats_manager.updated s.affine_mats = false → it1 = it) := by
  unfold _check_affine_mats
  split
  · rename_i hu
    obtain ⟨d0, h0⟩ := find_for_each_item
      (_check_affine_mats_item camera_position s.affine_mats)
      (fun x d => (tidy_check_affine_mats_item camera_position s.affine_mats x d).1)
      s.layers s.data id it hfind
    have ht := tidy_check_affine_mats_item camera_position s.affine_mats it d0
    refine ⟨_, h0, ht.2.2.2.2.1, (tidy_flags it d0 _ ht).2.2, ?_⟩
    intro hn
    rw [hn] at hu
    cases hu
  · exact ⟨it, hfind, rfl, fun h => h, fun _ => rfl⟩

theorem check_items_on_screen_item_fields (cfg : config) (camera_position : fixed_point)
    (it : item) (rb : Bool) :
    (_check_items_on_screen_item cfg camera_position it rb).1.id = it.id ∧
    (_check_items_on_screen_item cfg camera_position it rb).1.position = it.position ∧
    (_check_items_on_screen_item cfg camera_position it rb).1.handle = it.handle ∧
    (_check_items_on_screen_item cfg camera_position it rb).1.ignore_camera =
      it.ignore_camera ∧
    (_check_items_on_screen_item cfg camera_position it rb).1.handles_index =
      it.handles_index ∧
    (it.check_on_screen = false →
      (_check_items_on_screen_item cfg camera_position it rb).1 = it) := by
  unfold _check_items_on_screen_item
  split
  · rename_i hc
    simp only
    split <;> exact ⟨rfl, rfl, rfl, rfl, rfl, fun h => by rw [h] at hc; cases hc⟩
  · exact ⟨rfl, rfl, rfl, rfl, rfl, fun _ => rfl⟩

theorem find_check_items_on_screen (cfg : config) (camera_position : fixed_point)
    (s : State) (id : Nat) (it : item) (hfl : flags_inv s)
    (hfind : find id s.layers = some it) :
    ∃ it2, find id (_check_items_on_screen cfg camera_position s).layers = some it2 ∧
      it2.position = it.position ∧ it2.handle = it.handle ∧
      it2.ignore_camera = it.ignore_camera ∧
      (it.check_on_screen = true →
        it2.on_screen = compute_on_screen cfg camera_position it) ∧
      (it.check_on_screen = false → it2 = it) := by
  unfold _check_items_on_screen
  split
  · obtain ⟨rb, h0⟩ := find_for_each_item (_check_items_on_screen_item cfg camera_position)
      (fun x d => (check_items_on_screen_item_fields cfg camera_position x d).1)
      s.layers s.data.rebuild_handles id it hfind
    obtain ⟨_, f2, f3, f4, _, f6⟩ := check_items_on_screen_item_fields cfg camera_position it rb
    exact ⟨_, h0, f2, f3, f4,
      fun hc => check_item_on_screen_flagged cfg camera_position it rb hc, f6⟩
  · rename_i hg
    refine ⟨it, hfind, rfl, rfl, rfl, ?_, fun _ => rfl⟩
    intro hc
    exact absurd (hfl it (find_mem id _ it hfind) hc) hg

theorem find_rebuild_handles (cfg : config) (s s' : State) (id : Nat) (it : item)
    (hs' : _rebuild_handles cfg s = some s') (hfind : find id s.layers = some it) :
    ∃ it', find id s'.layers = some it' ∧ it'.position = it.position ∧
      it'.handle = it.handle ∧ it'.ignore_camera = it.ignore_camera ∧
      it'.on_screen = it.on_screen := by
  obtain ⟨b, hb, he⟩ := find_of_map_eq (fun x : item => ({ x with handles_index := 0 } : item))
    (fun y => y.id == id) id (fun _ => rfl) (items s.layers) (items s'.layers)
    (rebuild_handles_items cfg s s' hs') it hfind
  refine ⟨b, hb, ?_, ?_, ?_, ?_⟩
  · have h0 := congrArg item.position he
    exact h0
  · have h0 := congrArg item.handle he
    exact h0
  · have h0 := congrArg item.ignore_camera he
    exact h0
  · have h0 := congrArg item.on_screen he
    exact h0

/-- C28 (counterexample): in the reachable state `sample.s17` record 0 is on
screen and not flagged for evaluation when `update()` is called; the transform
pool reports that its transform shrank to normal size, the transform pass of
`update()` flags the record, and the visibility pass finds it off screen. -/
theorem update_reevaluates_record_flagged_by_transform_pass :
    reachable sample.cfg sample.s17 ∧
    find 0 sample.s17.layers = some sample.r4 ∧
    sample.r4.check_on_screen = false ∧ sample.r4.on_screen = true ∧
    update sample.cfg sample.camera sample.s17 = some sample.s18 ∧
    (find 0 sample.s18.layers).map (fun it => it.on_screen) = some false :=
  ⟨sample_s17_reachable, by decide, by decide, by decide, by decide, by decide⟩

/-- C28 (amended): let `update()` complete from a reachable state. Its
transform pass keeps the `on_screen` value of every record and leaves a
flagged record flagged (it is the identity when the transform pool reports no
change). For every record flagged when the visibility pass starts, `on_screen`
afterwards equals `(x + w > 0 and x < width and y + h > 0 and y < height)` with
`x = integer(px - camera_x) - w/2`, `y = integer(py - camera_y) - h/2` (camera
not subtracted if `ignore_camera`); every record not flagged then keeps its
`on_screen` value; afterwards no record is flagged and the needs-evaluation
flag is false. -/
theorem visibility_pass_evaluates_flagged_records (cfg : config)
    (camera_position : fixed_point) (s s' : State)
    (hs : reachable cfg s) (hs' : update cfg camera_position s = some s') :
    (∀ id it, find id s.layers = some it →
      ∃ it1 it', find id (_check_affine_mats camera_position s).layers = some it1 ∧
        find id s'.layers = some it' ∧
        (it.check_on_screen = true → it1.check_on_screen = true) ∧
        (sprite_affine_mats_manager.updated s.affine_mats = false → it1 = it) ∧
        (it1.check_on_screen = true →
          it'.on_screen = decide
            ((footprint_x camera_position it' + (hw.sprites.dimensions it'.handle).width > 0 ∧
              footprint_x camera_position it' < cfg.display_width) ∧
            (footprint_y camera_position it' + (hw.sprites.dimensions it'.handle).height > 0 ∧
              footprint_y camera_position it' < cfg.display_height))) ∧
        (it1.check_on_screen = false → it'.on_screen = it.on_screen)) ∧
    (∀ it' ∈ items s'.layers, it'.check_on_screen = false) ∧
    s'.data.check_items_on_screen = false := by
  have hfl := flags_inv_reachable cfg s hs
  refine ⟨?_, update_flags_clear cfg camera_position s s' hfl hs'⟩
  intro id it hfind
  unfold update at hs'
  obtain ⟨it1, g1, g2, g3, g4⟩ := find_check_affine_mats camera_position s id it hfind
  obtain ⟨it2, k1, k2, k3, k4, k5, k6⟩ := find_check_items_on_screen cfg camera_position _ id
    it1 (flags_inv_check_affine_mats camera_position s hfl) g1
  obtain ⟨it', m1, m2, m3, m4, m5⟩ := find_rebuild_handles cfg _ s' id it2 hs' k1
  refine ⟨it1, it', g1, m1, g3, g4, ?_, ?_⟩
  · intro hc
    rw [m5, k5 hc, ← compute_on_screen_eq]
    exact compute_on_screen_congr cfg camera_position it1 it'
      (by rw [m2, k2]) (by rw [m4, k4]) (by rw [m3, k3])
  · intro hc
    rw [m5, k6 hc, g2]

theorem visibility_pass_evaluates_flagged_records_witness :
    reachable sample.cfg sample.s17 ∧
    update sample.cfg sample.camera sample.s17 = some sample.s18 ∧
    (∀ id it, find id sample.s17.layers = some it →
      ∃ it1 it', find id (_check_affine_mats sample.camera sample.s17).layers = some it1 ∧
        find id sample.s18.layers = some it' ∧
        (it.check_on_screen = true → it1.check_on_screen = true) ∧
        (sprite_affine_mats_manager.updated sample.s17.affine_mats = false → it1 = it) ∧
        (it1.check_on_screen = true →
          it'.on_screen = decide
            ((footprint_x sample.camera it' + (hw.sprites.dimensions it'.handle).width > 0 ∧
              footprint_x sample.camera it' < sample.cfg.display_width) ∧
            (footprint_y sample.camera it' + (hw.sprites.dimensions it'.handle).height > 0 ∧
              footprint_y sample.camera it' < sample.cfg.display_height))) ∧
        (it1.check_on_screen = false → it'.on_screen = it.on_screen)) ∧
    (∀ it' ∈ items sample.s18.layers, it'.check_on_screen = false) ∧
    sample.s18.data.check_items_on_screen = false :=
  ⟨sample_s17_reachable, by decide,
    visibility_pass_evaluates_flagged_records sample.cfg sample.camera sample.s17 sample.s18
      sample_s17_reachable (by decide)⟩

end sprites_manager

end btn
namespace btn

namespace sprites_manager
open sorted_sprites

theorem check_items_on_screen_item_flag (cfg : config) (camera_position : fixed_point)
    (it : item) (rb : Bool) :
    ((_check_items_on_screen_item cfg camera_position it rb).2 = true ↔
      rb = true ∨
      (it.check_on_screen = true ∧ compute_on_screen cfg camera_position it ≠ it.on_screen)) ∧
    ((_check_items_on_screen_item cfg camera_position it rb).1.on_screen ≠ it.on_screen ↔
      (it.check_on_screen = true ∧
        compute_on_screen cfg camera_position it ≠ it.on_screen)) := by
  unfold _check_items_on_screen_item
  by_cases hc : it.check_on_screen = true
  · by_cases hne : compute_on_screen cfg camera_position it = it.on_screen
    · simp [hc, hne]
    · simp [hc, hne]
  · simp [hc]

theorem check_items_on_screen_loop_flag (cfg : config) (camera_position : fixed_point)
    (l : List item) (rb : Bool) :
    (for_each_in_layer (_check_items_on_screen_item cfg camera_position) l rb).2 = true ↔
      rb = true ∨ ∃ it ∈ l, it.check_on_screen = true ∧
        compute_on_screen cfg camera_position it ≠ it.on_screen := by
  induction l generalizing rb with
  | nil => simp [for_each_in_layer]
  | cons x xs ih =>
    simp only [for_each_in_layer]
    rw [ih, (check_items_on_screen_item_flag cfg camera_position x rb).1]
    simp only [List.mem_cons, exists_eq_or_imp, or_assoc]

theorem check_items_on_screen_flag (cfg : config) (camera_position : fixed_point)
    (s : State) (hfl : flags_inv s) :
    (_check_items_on_screen cfg camera_position s).data.rebuild_handles = true ↔
      s.data.rebuild_handles = true ∨ ∃ it ∈ items s.layers, it.check_on_screen = true ∧
        compute_on_screen cfg camera_position it ≠ it.on_screen := by
  unfold _check_items_on_screen
  split
  · have hi := for_each_item_items (_check_items_on_screen_item cfg camera_position)
      s.layers s.data.rebuild_handles
    have h2 : (for_each_item (_check_items_on_screen_item cfg camera_position)
        s.layers s.data.rebuild_handles).2 =
        (for_each_in_layer (_check_items_on_screen_item cfg camera_position)
          (items s.layers) s.data.rebuild_handles).2 := by rw [← hi]
    simp only
    rw [h2]
    exact check_items_on_screen_loop_flag cfg camera_position (items s.layers) _
  · rename_i hg
    constructor
    · intro h; exact Or.inl h
    · rintro (h | ⟨it, hit, hc, _⟩)
      · exact h
      · exact absurd (hfl it hit hc) hg

theorem check_items_on_screen_quiet (cfg : config) (camera_position : fixed_point)
    (s : State) (hrb : s.data.rebuild_handles = false)
    (hq : ∀ it ∈ items s.layers, it.check_on_screen = true →
      compute_on_screen cfg camera_position it = it.on_screen) :
    (_check_items_on_screen cfg camera_position s).data.rebuild_handles = false ∧
    (_check_items_on_screen cfg camera_position s).data.handles = s.data.handles ∧
    (_check_items_on_screen cfg camera_position s).data.first_index_to_commit =
      s.data.first_index_to_commit ∧
    (_check_items_on_screen cfg camera_position s).data.last_index_to_commit =
      s.data.last_index_to_commit ∧
    (items (_check_items_on_screen cfg camera_position s).layers).map
        (fun it => (it.id, it.handles_index, it.on_screen)) =
      (items s.layers).map (fun it => (it.id, it.handles_index, it.on_screen)) := by
  unfold _check_items_on_screen
  split
  · have hi := for_each_item_items (_check_items_on_screen_item cfg camera_position)
      s.layers s.data.rebuild_handles
    have h1 : items (for_each_item (_check_items_on_screen_item cfg camera_position)
        s.layers s.data.rebuild_handles).1 =
        (for_each_in_layer (_check_items_on_screen_item cfg camera_position)
          (items s.layers) s.data.rebuild_handles).1 := by rw [← hi]
    have h2 : (for_each_item (_check_items_on_screen_item cfg camera_position)
        s.layers s.data.rebuild_handles).2 =
        (for_each_in_layer (_check_items_on_screen_item cfg camera_position)
          (items s.layers) s.data.rebuild_handles).2 := by rw [← hi]
    have hflag : (for_each_in_layer (_check_items_on_screen_item cfg camera_position)
        (items s.layers) s.data.rebuild_handles).2 = false := by
      cases hb : (for_each_in_layer (_check_items_on_screen_item cfg camera_position)
          (items s.layers) s.data.rebuild_handles).2 with
      | false => rfl
      | true =>
        rcases (check_items_on_screen_loop_flag cfg camera_position _ _).1 hb with
          h | ⟨it, hit, hc, hne⟩
        · rw [hrb] at h; cases h
        · exact absurd (hq it hit hc) hne
    refine ⟨?_, rfl, rfl, rfl, ?_⟩
    · simp only
      rw [h2]
      exact hflag
    · simp only
      rw [h1]
      have hl := (check_items_on_screen_loop cfg camera_position (items s.layers)
        s.data.rebuild_handles).2 hflag
      have := congrArg (List.map (fun e : Nat × Int × Bool => (e.1, e.2.1, e.2.2))) hl.2
      simpa [List.map_map, Function.comp_def, slot_info] using this
  · exact ⟨hrb, rfl, rfl, rfl, rfl⟩

/-- C29: in the state in which `update()` runs the visibility pass (a
reachable state after the transform pass), the recompaction flag is true after
`_check_items_on_screen` if and only if it was already true or at least one
flagged record's computed `on_screen` differs from its stored value, and the
pass changes the `on_screen` value of exactly those records. If the transform
pool reports no change, no recompaction is pending and no flagged record's
computed `on_screen` differs from its stored value, `update()` completes and
leaves the table, every slot index and the pending range unchanged. -/
theorem visibility_pass_schedules_recompaction_iff_needed (cfg : config)
    (camera_position : fixed_point) (s : State) (hs : reachable cfg s) :
    ((_check_items_on_screen cfg camera_position
        (_check_affine_mats camera_position s)).data.rebuild_handles = true ↔
      (_check_affine_mats camera_position s).data.rebuild_handles = true ∨
      ∃ it ∈ items (_check_affine_mats camera_position s).layers,
        it.check_on_screen = true ∧
        compute_on_screen cfg camera_position it ≠ it.on_screen) ∧
    (∀ id it, find id (_check_affine_mats camera_position s).layers = some it →
      ∃ it2, find id (_check_items_on_screen cfg camera_position
          (_check_affine_mats camera_position s)).layers = some it2 ∧
        (it2.on_screen ≠ it.on_screen ↔
          (it.check_on_screen = true ∧
            compute_on_screen cfg camera_position it ≠ it.on_screen))) ∧
    (sprite_affine_mats_manager.updated s.affine_mats = false →
      s.data.rebuild_handles = false →
      (∀ it ∈ items s.layers, it.check_on_screen = true →
        compute_on_screen cfg camera_position it = it.on_screen) →
      ∃ s', update cfg camera_position s = some s' ∧
        s'.data.handles = s.data.handles ∧
        s'.data.first_index_to_commit = s.data.first_index_to_commit ∧
        s'.data.last_index_to_commit = s.data.last_index_to_commit ∧
        (items s'.layers).map (fun it => (it.id, it.handles_index, it.on_screen)) =
          (items s.layers).map (fun it => (it.id, it.handles_index, it.on_screen))) := by
  have hfl := flags_inv_check_affine_mats camera_position s (flags_inv_reachable cfg s hs)
  refine ⟨check_items_on_screen_flag cfg camera_position _ hfl, ?_, ?_⟩
  · intro id it hfind
    obtain ⟨it2, k1, _, _, _, k5, k6⟩ := find_check_items_on_screen cfg camera_position _ id
      it hfl hfind
    refine ⟨it2, k1, ?_⟩
    by_cases hc : it.check_on_screen = true
    · rw [k5 hc]
      exact ⟨fun h => ⟨hc, h⟩, fun h => h.2⟩
    · have hc' : it.check_on_screen = false := by simpa using hc
      rw [k6 hc']
      exact ⟨fun h => absurd rfl h, fun h => absurd h.1 hc⟩
  · intro hu hrb hq
    have ht : _check_affine_mats camera_position s = s := by
      unfold _check_affine_mats
      rw [hu]
      rfl
    obtain ⟨q1, q2, q3, q4, q5⟩ := check_items_on_screen_quiet cfg camera_position s hrb hq
    refine ⟨_check_items_on_screen cfg camera_position s, ?_, q2, q3, q4, q5⟩
    unfold update
    rw [ht]
    unfold _rebuild_handles
    rw [q1]
    rfl

theorem visibility_pass_schedules_recompaction_iff_needed_witness :
    reachable sample.cfg sample.s4 ∧
    ((_check_items_on_screen sample.cfg sample.camera
        (_check_affine_mats sample.camera sample.s4)).data.rebuild_handles = true ↔
      (_check_affine_mats sample.camera sample.s4).data.rebuild_handles = true ∨
      ∃ it ∈ items (_check_affine_mats sample.camera sample.s4).layers,
        it.check_on_screen = true ∧
        compute_on_screen sample.cfg sample.camera it ≠ it.on_screen) ∧
    (∀ id it, find id (_check_affine_mats sample.camera sample.s4).layers = some it →
      ∃ it2, find id (_check_items_on_screen sample.cfg sample.camera
          (_check_affine_mats sample.camera sample.s4)).layers = some it2 ∧
        (it2.on_screen ≠ it.on_screen ↔
          (it.check_on_screen = true ∧
            compute_on_screen sample.cfg sample.camera it ≠ it.on_screen))) ∧
    sprite_affine_mats_manager.updated sample.s4.affine_mats = false ∧
    sample.s4.data.rebuild_handles = false ∧
    (∀ it ∈ items sample.s4.layers, it.check_on_screen = true →
      compute_on_screen sample.cfg sample.camera it = it.on_screen) ∧
    ∃ s', update sample.cfg sample.camera sample.s4 = some s' ∧
      s'.data.handles = sample.s4.data.handles ∧
      s'.data.first_index_to_commit = sample.s4.data.first_index_to_commit ∧
      s'.data.last_index_to_commit = sample.s4.data.last_index_to_commit ∧
      (items s'.layers).map (fun it => (it.id, it.handles_index, it.on_screen)) =
        (items sample.s4.layers).map
          (fun it => (it.id, it.handles_index, it.on_screen)) :=
  ⟨sample_s4_reachable,
    (visibility_pass_schedules_recompaction_iff_needed sample.cfg sample.camera sample.s4
      sample_s4_reachable).1,
    (visibility_pass_schedules_recompaction_iff_needed sample.cfg sample.camera sample.s4
      sample_s4_reachable).2.1,
    by decide, by decide, by decide,
    (visibility_pass_schedules_recompaction_iff_needed sample.cfg sample.camera sample.s4
      sample_s4_reachable).2.2 (by decide) (by decide) (by decide)⟩

end sprites_manager

end btn

namespace btn

/-! ### The table in every reachable state -/

namespace sprites_manager
open sorted_sprites

theorem slot_index_inj (l : List item)
    (hn : ((l.map (fun x => x.handles_index)).filter (fun i => decide (0 ≤ i))).Nodup) :
    ∀ x ∈ l, ∀ y ∈ l, 0 ≤ x.handles_index → x.handles_index = y.handles_index → x = y := by
  rw [List.filter_map] at hn
  intro x hx y hy h0 he
  refine List.inj_on_of_nodup_map hn (List.mem_filter.2 ⟨hx, ?_⟩)
    (List.mem_filter.2 ⟨hy, ?_⟩) he
  · simpa using h0
  · simpa [← he] using h0

theorem slots_inv_table (cfg : config) (s : State) (h : slots_inv cfg s) :
    (((items s.layers).map (fun x => x.handles_index)).filter
      (fun i => decide (0 ≤ i))).Nodup ∧
    (∀ x ∈ items s.layers, 0 ≤ x.handles_index →
      x.handles_index < (cfg.sprites_count : Int)) ∧
    (s.data.rebuild_handles = false → ∀ x ∈ items s.layers, 0 ≤ x.handles_index →
      x.on_screen = true) := by
  obtain ⟨_, _, h3, h4, h5⟩ := h
  refine ⟨?_, ?_, ?_⟩
  · simpa [List.map_map, Function.comp_def, slot_info] using h4
  · intro x hx h0
    exact h3 (slot_info x) (List.mem_map.2 ⟨x, hx, rfl⟩) h0
  · intro hf x hx h0
    exact h5 hf (slot_info x) (List.mem_map.2 ⟨x, hx, rfl⟩) h0

theorem tidy_table (it : item) (d : static_data) (r : item × static_data)
    (h : tidy_result it d r) :
    r.1.handles_index = it.handles_index ∧
    r.2.rebuild_handles = d.rebuild_handles ∧
    r.2.handles.length = d.handles.length ∧
    (∀ k : Nat, (0 ≤ it.handles_index → it.handles_index.toNat ≠ k) →
      r.2.handles[k]? = d.handles[k]?) ∧
    ((0 ≤ it.handles_index → it.handles_index.toNat < d.handles.length) →
      (0 ≤ it.handles_index → d.handles[it.handles_index.toNat]? = some it.handle) →
      0 ≤ r.1.handles_index → r.2.handles[r.1.handles_index.toNat]? = some r.1.handle) := by
  obtain ⟨_, h2, _, _, _, _, _, _, h9, _, h11⟩ := h
  refine ⟨h2, h9, ?_, ?_, ?_⟩
  · rcases h11 with ⟨_, e, _⟩ | ⟨e, _⟩
    · rw [e]
    · rw [e, _update_handles_length]
  · intro k hk
    rcases h11 with ⟨_, e, _⟩ | ⟨e, _⟩
    · rw [e]
    · rw [e]
      unfold _update_handles
      simp only
      split
      · rename_i h0
        rw [h2] at h0 ⊢
        simp only
        rw [List.getElem?_set_ne (hk h0)]
      · rfl
  · intro hb ht h0
    rcases h11 with ⟨e1, e, _⟩ | ⟨e, _⟩
    · rw [e, e1, h2]
      rw [h2] at h0
      exact ht h0
    · rw [e]
      unfold _update_handles
      simp only
      rw [if_pos h0]
      simp only
      rw [h2] at h0 ⊢
      exact List.getElem?_set_self (hb h0)

theorem for_each_in_layer_table (f : item → static_data → item × static_data)
    (hf : ∀ it d, tidy_result it d (f it d)) (l : List item) (d : static_data)
    (hn : ((l.map (fun x => x.handles_index)).filter (fun i => decide (0 ≤ i))).Nodup)
    (hb : ∀ x ∈ l, 0 ≤ x.handles_index → x.handles_index.toNat < d.handles.length) :
    (for_each_in_layer f l d).2.handles.length = d.handles.length ∧
    (for_each_in_layer f l d).2.rebuild_handles = d.rebuild_handles ∧
    (∀ k : Nat, (∀ x ∈ l, 0 ≤ x.handles_index → x.handles_index.toNat ≠ k) →
      (for_each_in_layer f l d).2.handles[k]? = d.handles[k]?) ∧
    (table_ok l d.handles →
      table_ok (for_each_in_layer f l d).1 (for_each_in_layer f l d).2.handles) := by
  induction l generalizing d with
  | nil =>
    refine ⟨rfl, rfl, fun _ _ => rfl, ?_⟩
    intro _ x hx
    simp [for_each_in_layer] at hx
  | cons y ys ih =>
    obtain ⟨s0, sf, s1, s2, s3⟩ := tidy_table y d _ (hf y d)
    have hinj := slot_index_inj (y :: ys) hn
    have hn' : ((ys.map (fun x => x.handles_index)).filter
        (fun i => decide (0 ≤ i))).Nodup := by
      simp only [List.map_cons, List.filter_cons] at hn
      split at hn
      · exact (List.nodup_cons.1 hn).2
      · exact hn
    have hne : ∀ x ∈ ys, 0 ≤ x.handles_index → 0 ≤ y.handles_index →
        y.handles_index.toNat ≠ x.handles_index.toNat := by
      intro x hx h0 h1 he
      have e : y.handles_index = x.handles_index := by omega
      simp only [List.map_cons, List.filter_cons, h1, decide_True, if_true,
        List.nodup_cons] at hn
      apply hn.1
      rw [e]
      exact List.mem_filter.2 ⟨List.mem_map.2 ⟨x, hx, rfl⟩, by simpa using h0⟩
    obtain ⟨i1, ifl, i2, i3⟩ := ih (f y d).2 hn'
      (fun x hx h0 => by rw [s1]; exact hb x (List.mem_cons_of_mem _ hx) h0)
    simp only [for_each_in_layer]
    refine ⟨i1.trans s1, ifl.trans sf, ?_, ?_⟩
    · intro k hk
      rw [i2 k (fun x hx h0 => hk x (List.mem_cons_of_mem _ hx) h0)]
      exact s2 k (fun h0 => hk y (List.mem_cons_self _ _) h0)
    · intro ht x hx h0
      rcases List.mem_cons.1 hx with rfl | hx
      · rw [i2 _ (fun x hx hx0 => by
          rw [s0]
          rw [s0] at h0
          exact fun e => hne x hx hx0 h0 e.symm)]
        exact s3 (hb y (List.mem_cons_self _ _)) (ht y (List.mem_cons_self _ _)) h0
      · refine i3 ?_ x hx h0
        intro z hz hz0
        rw [s2 _ (fun h1 => hne z hz hz0 h1)]
        exact ht z (List.mem_cons_of_mem _ hz) hz0

end sprites_manager

end btn
namespace btn

namespace sprites_manager
open sorted_sprites

theorem table_ok_rebuild (cfg : config) (s s' : State) (hcap : cfg.sprites_count ≤ 128)
    (hlen : s.data.handles.length = cfg.sprites_count)
    (hflag : s.data.rebuild_handles = true)
    (hs' : _rebuild_handles cfg s = some s') :
    table_ok (items s'.layers) s'.data.handles := by
  cases hr : for_each_item_checked (_rebuild_handles_item cfg) s.layers (0, s.data.handles) with
  | none => simp [_rebuild_handles, hflag, hr] at hs'
  | some r =>
    obtain ⟨s2, hs2, hl, _, _, _, _, _, _, hhandles, _⟩ :=
      _rebuild_handles_result cfg s r hflag hr
    rw [hs2, Option.some.injEq] at hs'
    subst hs'
    have hq := flat_of_for_each_item_checked _ _ _ _ hr
    have hb := rebuild_loop_bound cfg _ _ _ _ hq
    have hvc : visible_count (items s.layers) ≤ cfg.sprites_count := by omega
    obtain ⟨g1, g2, _, _, _, g6⟩ :=
      rebuild_loop_slots cfg (items s.layers) s.data.handles _ (by omega) hq
    obtain ⟨k1, _, _, _, _⟩ := rebuild_loop_spec cfg (items s.layers) 0 s.data.handles _ hq
    have gh := rebuild_loop_visible_handles cfg (items s.layers) 0 s.data.handles _ hq
    simp only at g1 g2 g6 k1 gh
    intro it hit h0
    rw [hl] at hit
    have hon := (g1 it hit).1 h0
    have hmem : it ∈ (items r.1).filter (fun it => it.on_screen) :=
      List.mem_filter.2 ⟨hit, hon⟩
    obtain ⟨j, hj⟩ := List.mem_iff_getElem?.1 hmem
    have hjlt : j < visible_count (items r.1) := by
      have := (List.getElem?_eq_some.1 hj).1
      exact this
    have hidx : it.handles_index = (j : Int) := by
      have e1 : (((items r.1).filter (fun it => it.on_screen)).map
          (fun it => it.handles_index))[j]? = some it.handles_index := by
        rw [List.getElem?_map, hj]; rfl
      rw [g2, List.getElem?_map, List.getElem?_range hjlt] at e1
      simpa using e1.symm
    have hhd : (((items r.1).filter (fun it => it.on_screen)).map
        (fun it => it.handle))[j]? = some it.handle := by
      rw [List.getElem?_map, hj]; rfl
    have htoNat : it.handles_index.toNat = j := by omega
    rw [htoNat]
    have hrj : r.2.2[j]? = some it.handle := by
      rw [rebuild_loop_handles cfg (items s.layers) 0 s.data.handles _ hq (by omega) j]
      rw [if_pos (by omega)]
      simp only [Nat.sub_zero]
      rw [← gh]
      exact hhd
    rw [hhandles]
    split
    · rw [hide_getElem?]
      rw [if_neg (by omega)]
      exact hrj
    · exact hrj

theorem table_ok_replace (cfg : config) (s : State) (id : Nat) (it : item)
    (r : item × static_data) (hsl : slots_inv cfg s)
    (hlen : s.data.handles.length = cfg.sprites_count)
    (hfind : find id s.layers = some it) (ht : tidy_result it s.data r)
    (h : table_ok (items s.layers) s.data.handles) :
    table_ok (items (replace r.1 s.layers)) r.2.handles := by
  obtain ⟨s0, _, _, s2, s3⟩ := tidy_table it s.data r ht
  obtain ⟨d1, d2, _⟩ := slots_inv_table cfg s hsl
  have hmem := find_mem id _ it hfind
  intro y hy h0
  rw [items_replace, List.mem_map] at hy
  obtain ⟨x, hx, rfl⟩ := hy
  split at h0
  · rename_i hxid
    rw [if_pos hxid]
    refine s3 (fun h1 => ?_) (h it hmem) h0
    have := d2 it hmem h1
    omega
  · rename_i hxid
    rw [if_neg hxid]
    rw [s2 _ (fun h1 e => ?_)]
    · exact h x hx h0
    · apply hxid
      have e' : it.handles_index = x.handles_index := by omega
      rw [← slot_index_inj _ d1 it hmem x hx h1 e', ht.1]

theorem table_ok_sublist (l l' : List item) (hs : List handle)
    (hsub : ∀ x ∈ l', x ∈ l) (h : table_ok l hs) : table_ok l' hs :=
  fun x hx h0 => h x (hsub x hx) h0

theorem update_clears_rebuild_flag (cfg : config) (camera_position : fixed_point)
    (s s' : State) (hs' : update cfg camera_position s = some s') :
    s'.data.rebuild_handles = false := by
  unfold update at hs'
  revert hs'
  generalize _check_items_on_screen cfg camera_position
    (_check_affine_mats camera_position s) = t
  intro hs'
  by_cases hflag : t.data.rebuild_handles = true
  · cases hr : for_each_item_checked (_rebuild_handles_item cfg) t.layers
        (0, t.data.handles) with
    | none => simp [_rebuild_handles, hflag, hr] at hs'
    | some r =>
      obtain ⟨s2, hs2, _, _, _, hrb, _⟩ := _rebuild_handles_result cfg t r hflag hr
      rw [hs2, Option.some.injEq] at hs'
      subst hs'
      exact hrb
  · simp only [_rebuild_handles, hflag] at hs'
    simp only [Bool.false_eq_true, if_false, Option.some.injEq] at hs'
    rw [← hs']
    simpa using hflag

theorem commit_table (cfg : config) (s : State) :
    (commit cfg s).data.handles = s.data.handles ∧
    (commit cfg s).data.rebuild_handles = s.data.rebuild_handles ∧
    (commit cfg s).data.last_visible_items_count = s.data.last_visible_items_count := by
  unfold commit
  simp only
  split <;> exact ⟨rfl, rfl, rfl⟩

end sprites_manager

end btn
namespace btn

namespace sprites_manager
open sorted_sprites

theorem table_inv_update (cfg : config) (camera_position : fixed_point) (s s' : State)
    (hcap : cfg.sprites_count ≤ 128) (hs : reachable cfg s) (h : table_inv s)
    (hs' : update cfg camera_position s = some s') : table_inv s' := by
  intro _
  have hsl := slots_inv_reachable cfg s hcap hs
  have hco := compact_inv_reachable cfg s hcap hs
  obtain ⟨d1, d2, _⟩ := slots_inv_table cfg s hsl
  unfold update at hs'
  -- the transform pass
  have h1 : (_check_affine_mats camera_position s).data.handles.length =
        cfg.sprites_count ∧
      (_check_affine_mats camera_position s).data.rebuild_handles = s.data.rebuild_handles ∧
      (s.data.rebuild_handles = false →
        table_ok (items (_check_affine_mats camera_position s).layers)
          (_check_affine_mats camera_position s).data.handles) := by
    unfold _check_affine_mats
    split
    · have hi := for_each_item_items
        (_check_affine_mats_item camera_position s.affine_mats) s.layers s.data
      have e1 : items (for_each_item (_check_affine_mats_item camera_position s.affine_mats)
          s.layers s.data).1 = (for_each_in_layer
          (_check_affine_mats_item camera_position s.affine_mats) (items s.layers) s.data).1 := by
        rw [← hi]
      have e2 : (for_each_item (_check_affine_mats_item camera_position s.affine_mats)
          s.layers s.data).2 = (for_each_in_layer
          (_check_affine_mats_item camera_position s.affine_mats) (items s.layers) s.data).2 := by
        rw [← hi]
      obtain ⟨l1, l2, _, l4⟩ := for_each_in_layer_table
        (_check_affine_mats_item camera_position s.affine_mats)
        (fun it d => tidy_check_affine_mats_item _ _ it d) (items s.layers) s.data d1
        (fun x hx h0 => by
          have := d2 x hx h0
          rw [hco.1]
          omega)
      simp only
      rw [e1, e2]
      exact ⟨l1.trans hco.1, l2, fun hf => l4 (h hf)⟩
    · exact ⟨hco.1, rfl, h⟩
  -- the visibility pass
  have h2 : ∀ t : State, t.data.handles.length = cfg.sprites_count →
      (_check_items_on_screen cfg camera_position t).data.handles.length =
        cfg.sprites_count ∧
      ((_check_items_on_screen cfg camera_position t).data.rebuild_handles = false →
        t.data.rebuild_handles = false ∧
        (table_ok (items t.layers) t.data.handles →
          table_ok (items (_check_items_on_screen cfg camera_position t).layers)
            (_check_items_on_screen cfg camera_position t).data.handles)) := by
    intro t ht
    unfold _check_items_on_screen
    split
    · refine ⟨ht, ?_⟩
      simp only
      intro hf
      have hi := for_each_item_items (_check_items_on_screen_item cfg camera_position)
        t.layers t.data.rebuild_handles
      have e1 : items (for_each_item (_check_items_on_screen_item cfg camera_position)
          t.layers t.data.rebuild_handles).1 =
          (for_each_in_layer (_check_items_on_screen_item cfg camera_position)
            (items t.layers) t.data.rebuild_handles).1 := by rw [← hi]
      have e2 : (for_each_item (_check_items_on_screen_item cfg camera_position)
          t.layers t.data.rebuild_handles).2 =
          (for_each_in_layer (_check_items_on_screen_item cfg camera_position)
            (items t.layers) t.data.rebuild_handles).2 := by rw [← hi]
      rw [e2] at hf
      have hrb : t.data.rebuild_handles = false := by
        cases hb : t.data.rebuild_handles with
        | false => rfl
        | true =>
          have := (check_items_on_screen_loop_flag cfg camera_position (items t.layers)
            t.data.rebuild_handles).2 (Or.inl hb)
          rw [hf] at this
          cases this
      refine ⟨hrb, ?_⟩
      intro htab
      rw [e1]
      intro y hy h0
      have hall : ∀ rb : Bool, ∀ y ∈ (for_each_in_layer
          (_check_items_on_screen_item cfg camera_position) (items t.layers) rb).1,
          0 ≤ y.handles_index → t.data.handles[y.handles_index.toNat]? = some y.handle := by
        intro rb
        refine for_each_in_layer_pointwise _
          (fun x => 0 ≤ x.handles_index → t.data.handles[x.handles_index.toNat]? = some x.handle)
          (fun y => 0 ≤ y.handles_index → t.data.handles[y.handles_index.toNat]? = some y.handle)
          ?_ (items t.layers) rb (fun x hx => htab x hx)
        intro x rb0 hx0
        obtain ⟨_, _, f3, _, f5, _⟩ := check_items_on_screen_item_fields cfg camera_position x
          rb0
        rw [f3, f5]
        exact hx0
      exact hall _ y hy h0
    · exact ⟨ht, fun hf => ⟨hf, fun htab => htab⟩⟩
  obtain ⟨p1, p2⟩ := h2 _ h1.1
  revert hs' p1 p2
  generalize _check_items_on_screen cfg camera_position
    (_check_affine_mats camera_position s) = p
  intro hs' p1 p2
  by_cases hflag : p.data.rebuild_handles = true
  · exact table_ok_rebuild cfg p s' hcap p1 hflag hs'
  · have hflag' : p.data.rebuild_handles = false := by simpa using hflag
    simp only [_rebuild_handles, hflag] at hs'
    simp only [Bool.false_eq_true, if_false, Option.some.injEq] at hs'
    rw [← hs']
    obtain ⟨q1, q2⟩ := p2 hflag'
    rw [h1.2.1] at q1
    exact q2 (h1.2.2 q1)

theorem table_inv_reachable (cfg : config) (hcap : cfg.sprites_count ≤ 128) (s : State)
    (h : reachable cfg s) : table_inv s := by
  refine reachable_induction cfg table_inv ?_ ?_ ?_ ?_ ?_ ?_ ?_ ?_ ?_ ?_ s h
  · intro m _ it hit
    simp [init, items] at hit
  · intro s m _ hi; exact hi
  · intro s cam b _ hi
    unfold create
    split
    · exact hi
    · split
      · exact hi
      · split
        · exact hi
        · intro hf x hx h0
          simp only at hx hf ⊢
          have hf' : s.data.rebuild_handles = false := by
            split at hf
            · exact hf
            · exact hf
          have hh : ∀ d : static_data, d = (if b.visible = true then
              ({ ({ s.data with items_pool_size := s.data.items_pool_size + 1 } : static_data)
                  with check_items_on_screen := true } : static_data)
              else { s.data with items_pool_size := s.data.items_pool_size + 1 }) →
              d.handles = s.data.handles := by
            intro d hd
            rw [hd]
            split <;> rfl
          rw [hh _ rfl]
          rcases List.mem_cons.1 ((items_insert_perm _ _).subset hx) with rfl | hx
          · exfalso
            have e : ∀ t p, (item.create cam s.affine_mats s.data.items_pool_size b t
                p).handles_index = -1 := by
              intro t p
              unfold item.create
              simp only
              split <;> rfl
            rw [e] at h0
            omega
          · exact hi hf' x hx h0
  · intro s id it r hs hi hfind ht hf
    simp only at hf ⊢
    have hf' : s.data.rebuild_handles = false := by
      rw [← (tidy_table it s.data r ht).2.1]; exact hf
    exact table_ok_replace cfg s id it r (slots_inv_reachable cfg s hcap hs)
      (compact_inv_reachable cfg s hcap hs).1 hfind ht (hi hf')
  · intro s id it _ hi _ hf
    simp only at hf ⊢
    have hf' : s.data.rebuild_handles = false ∧
        (if it.on_screen = true then ({ s.data with rebuild_handles := true } : static_data)
          else s.data).handles = s.data.handles := by
      split at hf
      · cases hf
      · rename_i hon
        rw [if_neg hon]
        exact ⟨hf, rfl⟩
    rw [hf'.2]
    refine table_ok_sublist _ _ _ ?_ (hi hf'.1)
    intro x hx
    rw [items_erase, List.mem_filter] at hx
    exact hx.1
  · intro s id it h p z hs hi hfind hf
    simp only at hf ⊢
    have hoff : it.on_screen = false ∧ s.data.rebuild_handles = false := by
      split at hf
      · cases hf
      · rename_i hon
        exact ⟨by simpa using hon, hf⟩
    have hon : ¬ it.on_screen = true := by rw [hoff.1]; simp
    rw [if_neg hon]
    obtain ⟨_, _, d3⟩ := slots_inv_table cfg s (slots_inv_reachable cfg s hcap hs)
    intro x hx h0
    rcases List.mem_cons.1 ((items_insert_perm _ _).subset hx) with rfl | hx
    · exfalso
      have := d3 hoff.2 it (find_mem id _ it hfind) h0
      rw [hoff.1] at this
      cases this
    · rw [items_erase, List.mem_filter] at hx
      exact hi hoff.2 x hx.1 h0
  · intro s id v _ hi
    unfold set_visible with_item
    cases hfind : find id s.layers with
    | none => exact hi
    | some it =>
      cases v with
      | true =>
        intro hf x hx h0
        simp only [if_true] at hx hf ⊢
        rw [items_replace, List.mem_map] at hx
        obtain ⟨y, hy, rfl⟩ := hx
        split at h0
        · rename_i hyid
          rw [if_pos hyid]
          exact hi hf it (find_mem id _ it hfind) h0
        · rename_i hyid
          rw [if_neg hyid]
          exact hi hf y hy h0
      | false =>
        intro hf x hx h0
        simp only [Bool.false_eq_true, if_false] at hx hf ⊢
        have hf' : s.data.rebuild_handles = false ∧
            (if it.on_screen = true then ({ s.data with rebuild_handles := true } : static_data)
              else s.data).handles = s.data.handles := by
          split at hf
          · cases hf
          · rename_i hon
            rw [if_neg hon]
            exact ⟨hf, rfl⟩
        rw [hf'.2]
        rw [items_replace, List.mem_map] at hx
        obtain ⟨y, hy, rfl⟩ := hx
        split at h0
        · rename_i hyid
          rw [if_pos hyid]
          exact hi hf'.1 it (find_mem id _ it hfind) h0
        · rename_i hyid
          rw [if_neg hyid]
          exact hi hf'.1 y hy h0
  · intro s f hs hi hf hflag
    simp only at hflag ⊢
    have hsl := slots_inv_reachable cfg s hcap hs
    have hco := compact_inv_reachable cfg s hcap hs
    obtain ⟨d1, d2, _⟩ := slots_inv_table cfg s hsl
    have hit := for_each_item_items f s.layers s.data
    have e1 : items (for_each_item f s.layers s.data).1 =
        (for_each_in_layer f (items s.layers) s.data).1 := by rw [← hit]
    have e2 : (for_each_item f s.layers s.data).2 =
        (for_each_in_layer f (items s.layers) s.data).2 := by rw [← hit]
    obtain ⟨_, l2, _, l4⟩ := for_each_in_layer_table f hf (items s.layers) s.data d1
      (fun x hx h0 => by
        have := d2 x hx h0
        rw [hco.1]
        omega)
    rw [e2] at hflag
    rw [e1, e2]
    exact l4 (hi (by rw [← l2]; exact hflag))
  · intro s s' cam hs hi hs'
    exact table_inv_update cfg cam s s' hcap hs hi hs'
  · intro s _ hi hf
    rw [commit_layers, (commit_table cfg s).1]
    rw [(commit_table cfg s).2.1] at hf
    exact hi hf

/-- C24: with a table of at most 128 slots, in every reachable state in which
no recompaction is pending, the table entry of every record with an assigned
slot `i` equals the record's attribute block; and after every `update()` that
completes no recompaction is pending, so the table is in step with every
record that has a slot. -/
theorem table_never_left_stale (cfg : config) (s : State)
    (hcap : cfg.sprites_count ≤ 128) (hs : reachable cfg s) :
    (s.data.rebuild_handles = false →
      ∀ it ∈ items s.layers, 0 ≤ it.handles_index →
        s.data.handles[it.handles_index.toNat]? = some it.handle) ∧
    (∀ camera_position s', update cfg camera_position s = some s' →
      s'.data.rebuild_handles = false ∧
      ∀ it ∈ items s'.layers, 0 ≤ it.handles_index →
        s'.data.handles[it.handles_index.toNat]? = some it.handle) := by
  refine ⟨table_inv_reachable cfg hcap s hs, ?_⟩
  intro camera_position s' hs'
  have hflag := update_clears_rebuild_flag cfg camera_position s s' hs'
  exact ⟨hflag, table_inv_reachable cfg hcap s'
    (reachable.step s s' camera_position op.update hs hs') hflag⟩

theorem table_never_left_stale_witness :
    sample.cfg.sprites_count ≤ 128 ∧ reachable sample.cfg sample.s10 ∧
    sample.s10.data.rebuild_handles = false ∧
    (∀ it ∈ items sample.s10.layers, 0 ≤ it.handles_index →
      sample.s10.data.handles[it.handles_index.toNat]? = some it.handle) ∧
    (∀ camera_position s', update sample.cfg camera_position sample.s10 = some s' →
      s'.data.rebuild_handles = false ∧
      ∀ it ∈ items s'.layers, 0 ≤ it.handles_index →
        s'.data.handles[it.handles_index.toNat]? = some it.handle) :=
  ⟨by decide, sample_s10_reachable, by decide,
    (table_never_left_stale sample.cfg sample.s10 (by decide) sample_s10_reachable).1
      (by decide),
    (table_never_left_stale sample.cfg sample.s10 (by decide) sample_s10_reachable).2⟩

end sprites_manager

end btn

namespace btn

namespace sprites_manager
open sorted_sprites

/-- Case analysis of one public operation by the shape of its effect: a
relation between the state before and the state after holds for every
operation that completes if it holds when the state is unchanged, for a change
of the transform pool, for `create`, for writing back one record after a
mutation described by `tidy_result`, for the release of a record, for the
re-insertion of a record with a new key, for `set_visible`, for a loop of such
mutations over all records, for `update()` and for `commit()`. -/
theorem step_cases (cfg : config) (P : op → State → State → Prop)
    (h_refl : ∀ o s, P o s s)
    (h_pool : ∀ o s m, P o s { s with affine_mats := m })
    (h_create : ∀ o s cam b, P o s (create cfg cam b s).2)
    (h_replace : ∀ o s id it r, find id s.layers = some it →
      tidy_result it s.data r → P o s { s with data := r.2, layers := replace r.1 s.layers })
    (h_erase : ∀ o s id it, find id s.layers = some it →
      P o s { s with
        data := if it.on_screen then { s.data with rebuild_handles := true } else s.data,
        layers := erase id s.layers })
    (h_reinsert : ∀ o s id it h p z, find id s.layers = some it →
      P o s { s with
        data := if it.on_screen then { s.data with rebuild_handles := true } else s.data,
        layers := sorted_sprites.insert
          ({ it with handle := h, bg_priority := p, z_order := z } : item)
          (erase id s.layers) })
    (h_visible : ∀ o s id v, P o s (set_visible id v s))
    (h_loop : ∀ o s f, (∀ it d, tidy_result it d (f it d)) →
      P o s { s with data := (for_each_item f s.layers s.data).2,
                     layers := (for_each_item f s.layers s.data).1 })
    (h_update : ∀ s s' cam, update cfg cam s = some s' → P op.update s s')
    (h_commit : ∀ s, P op.commit s (commit cfg s))
    (camera_position : fixed_point) (o : op) (s s' : State)
    (ha : o.apply cfg camera_position s = some s') : P o s s' := by
  have hwith : ∀ (o : op) (id : Nat) (f : item → static_data → item × static_data),
      (∀ it d, tidy_result it d (f it d)) → P o s (with_item id f s) := by
    intro o id f hf
    unfold with_item
    cases hfind : find id s.layers with
    | none => exact h_refl o s
    | some it => exact h_replace o s id it _ hfind (hf it s.data)
  cases o with
  | create b =>
    simp only [op.apply, Option.some.injEq] at ha
    rw [← ha]; exact h_create _ s camera_position b
  | increase_usages id =>
    simp only [op.apply, Option.some.injEq] at ha
    rw [← ha]
    exact hwith _ id _ (fun it d => tidy_keep it _ d ⟨rfl, rfl, rfl, rfl, rfl, rfl, rfl⟩ rfl)
  | decrease_usages id =>
    simp only [op.apply, Option.some.injEq] at ha
    rw [← ha]
    unfold decrease_usages
    cases hfind : find id s.layers with
    | none => exact h_refl _ s
    | some it =>
      simp only
      split
      · exact h_erase _ s id it hfind
      · exact h_replace _ s id it ({ it with usages := it.usages - 1 }, s.data) hfind
          (tidy_keep it _ _ ⟨rfl, rfl, rfl, rfl, rfl, rfl, rfl⟩ rfl)
  | set_tiles_ptr id t =>
    simp only [op.apply, sprites_manager.set_tiles_ptr] at ha
    cases hfind : find id s.layers with
    | none => simp only [hfind, Option.some.injEq] at ha; rw [← ha]; exact h_refl _ s
    | some it =>
      simp only [hfind] at ha
      split at ha
      · split at ha
        · rw [Option.some.injEq] at ha
          rw [← ha]
          exact h_replace _ s id it (_, _update_handles _ s.data) hfind
            (tidy_update it _ _ ⟨rfl, rfl, rfl, rfl, rfl, rfl, rfl⟩)
        · simp at ha
      · rw [Option.some.injEq] at ha; rw [← ha]; exact h_refl _ s
  | set_palette_ptr id p =>
    simp only [op.apply, sprites_manager.set_palette_ptr] at ha
    cases hfind : find id s.layers with
    | none => simp only [hfind, Option.some.injEq] at ha; rw [← ha]; exact h_refl _ s
    | some it =>
      simp only [hfind] at ha
      split at ha
      · split at ha
        · rw [Option.some.injEq] at ha
          rw [← ha]
          exact h_replace _ s id it (_, _update_handles _ s.data) hfind
            (tidy_update it _ _ ⟨rfl, rfl, rfl, rfl, rfl, rfl, rfl⟩)
        · simp at ha
      · rw [Option.some.injEq] at ha; rw [← ha]; exact h_refl _ s
  | set_position id p =>
    simp only [op.apply, Option.some.injEq] at ha
    rw [← ha]
    exact hwith _ id _ (fun it d =>
      tidy_set_position_item camera_position p it it d (same_core_refl it))
  | set_bg_priority id p =>
    simp only [op.apply, sprites_manager.set_bg_priority] at ha
    split at ha
    · cases hfind : find id s.layers with
      | none => simp only [hfind, Option.some.injEq] at ha; rw [← ha]; exact h_refl _ s
      | some it =>
        simp only [hfind] at ha
        split at ha
        · rw [Option.some.injEq] at ha
          rw [← ha]
          exact h_reinsert _ s id it _ _ _ hfind
        · rw [Option.some.injEq] at ha; rw [← ha]; exact h_refl _ s
    · simp at ha
  | set_z_order id z =>
    simp only [op.apply, sprites_manager.set_z_order] at ha
    split at ha
    · cases hfind : find id s.layers with
      | none => simp only [hfind, Option.some.injEq] at ha; rw [← ha]; exact h_refl _ s
      | some it =>
        simp only [hfind] at ha
        split at ha
        · rw [Option.some.injEq] at ha
          rw [← ha]
          exact h_reinsert _ s id it it.handle it.bg_priority z hfind
        · rw [Option.some.injEq] at ha; rw [← ha]; exact h_refl _ s
    · simp at ha
  | set_horizontal_flip id v =>
    simp only [op.apply, sprites_manager.set_horizontal_flip, Option.some.injEq] at ha
    rw [← ha]
    cases hfind : find id s.layers with
    | none => exact h_refl _ s
    | some it =>
      simp only
      split
      · exact h_pool _ s _
      · exact h_replace _ s id it (_, _update_handles _ s.data) hfind
          (tidy_update it _ _ ⟨rfl, rfl, rfl, rfl, rfl, rfl, rfl⟩)
  | set_vertical_flip id v =>
    simp only [op.apply, sprites_manager.set_vertical_flip, Option.some.injEq] at ha
    rw [← ha]
    cases hfind : find id s.layers with
    | none => exact h_refl _ s
    | some it =>
      simp only
      split
      · exact h_pool _ s _
      · exact h_replace _ s id it (_, _update_handles _ s.data) hfind
          (tidy_update it _ _ ⟨rfl, rfl, rfl, rfl, rfl, rfl, rfl⟩)
  | set_mosaic_enabled id v =>
    simp only [op.apply, Option.some.injEq] at ha
    rw [← ha]
    exact hwith _ id _ (fun it d => tidy_update it _ d ⟨rfl, rfl, rfl, rfl, rfl, rfl, rfl⟩)
  | set_double_size_mode id mode =>
    simp only [op.apply, Option.some.injEq] at ha
    rw [← ha]
    refine hwith _ id _ ?_
    intro it d
    simp only
    split
    · split
      · exact tidy_set_position_item camera_position _ it _ d
          ⟨rfl, rfl, rfl, rfl, rfl, rfl, rfl⟩
      · exact tidy_keep it _ d ⟨rfl, rfl, rfl, rfl, rfl, rfl, rfl⟩ rfl
    · exact tidy_keep it _ d ⟨rfl, rfl, rfl, rfl, rfl, rfl, rfl⟩ rfl
  | set_visible id v =>
    simp only [op.apply, Option.some.injEq] at ha
    rw [← ha]
    exact h_visible _ s id v
  | set_ignore_camera id v =>
    simp only [op.apply, Option.some.injEq] at ha
    rw [← ha]
    refine hwith _ id _ ?_
    intro it d
    exact tidy_set_position_item camera_position _ it _ d ⟨rfl, rfl, rfl, rfl, rfl, rfl, rfl⟩
  | set_affine_mat_ptr id a =>
    simp only [op.apply, Option.some.injEq] at ha
    rw [← ha]
    refine hwith _ id _ ?_
    intro it d
    cases a with
    | some a =>
      simp only
      split
      · exact tidy_keep it it d (same_core_refl it) rfl
      · split
        · split
          · exact tidy_remove_affine_mat camera_position _ it it d (same_core_refl it) rfl
          · exact tidy_keep it it d (same_core_refl it) rfl
        · exact tidy_assign_affine_mat camera_position _ _ it it d (same_core_refl it)
    | none =>
      simp only
      split
      · exact tidy_remove_affine_mat camera_position _ it it d (same_core_refl it) rfl
      · exact tidy_keep it it d (same_core_refl it) rfl
  | set_remove_affine_mat_when_not_needed id v =>
    simp only [op.apply, Option.some.injEq] at ha
    rw [← ha]
    refine hwith _ id _ ?_
    intro it d
    simp only
    split
    · split
      · exact tidy_remove_affine_mat camera_position _ it _ d
          ⟨rfl, rfl, rfl, rfl, rfl, rfl, rfl⟩ rfl
      · exact tidy_keep it _ d ⟨rfl, rfl, rfl, rfl, rfl, rfl, rfl⟩ rfl
    · exact tidy_keep it _ d ⟨rfl, rfl, rfl, rfl, rfl, rfl, rfl⟩ rfl
  | update_camera =>
    simp only [op.apply, Option.some.injEq] at ha
    rw [← ha]
    refine h_loop _ s _ ?_
    intro it d
    split
    · exact tidy_set_position_item camera_position _ it it d (same_core_refl it)
    · exact tidy_keep it it d (same_core_refl it) rfl
  | update => exact h_update s s' camera_position ha
  | commit =>
    simp only [op.apply, Option.some.injEq] at ha
    rw [← ha]
    exact h_commit s

end sprites_manager

end btn
namespace btn

/-! ### The pending dirty range -/

namespace sprites_manager
open sorted_sprites

theorem tidy_range (it : item) (d : static_data) (r : item × static_data)
    (h : tidy_result it d r) (B : Int) (hb : 0 ≤ it.handles_index → it.handles_index < B) :
    r.2.first_index_to_commit ≤ d.first_index_to_commit ∧
    d.last_index_to_commit ≤ r.2.last_index_to_commit ∧
    r.2.last_visible_items_count = d.last_visible_items_count ∧
    (0 ≤ d.first_index_to_commit → d.last_index_to_commit < max 1 B →
      0 ≤ r.2.first_index_to_commit ∧ r.2.last_index_to_commit < max 1 B) := by
  obtain ⟨_, h2, _, _, _, _, _, h8, _, _, h11⟩ := h
  rcases h11 with ⟨_, _, e1, e2⟩ | ⟨_, e1, e2⟩
  · rw [e1, e2]
    exact ⟨le_refl _, le_refl _, h8, fun a b => ⟨a, b⟩⟩
  · have hr := _update_handles_range r.1 d
    rw [h2] at hr
    by_cases h0 : it.handles_index ≥ 0
    · rw [if_pos h0] at hr
      have hr1 := congrArg Prod.fst hr
      have hr2 := congrArg Prod.snd hr
      simp only at hr1 hr2
      rw [e1, e2, hr1, hr2]
      refine ⟨min_le_left _ _, le_max_left _ _, h8, ?_⟩
      intro a b
      have hlt := hb h0
      have hB : max 1 B = B := max_eq_right (by omega)
      rw [hB] at b ⊢
      exact ⟨le_min a h0, max_lt b hlt⟩
    · rw [if_neg h0] at hr
      have hr1 := congrArg Prod.fst hr
      have hr2 := congrArg Prod.snd hr
      simp only at hr1 hr2
      rw [e1, e2, hr1, hr2]
      exact ⟨le_refl _, le_refl _, h8, fun a b => ⟨a, b⟩⟩

theorem for_each_in_layer_range (f : item → static_data → item × static_data)
    (hf : ∀ it d, tidy_result it d (f it d)) (B : Int) (l : List item) (d : static_data)
    (hb : ∀ x ∈ l, 0 ≤ x.handles_index → x.handles_index < B) :
    (for_each_in_layer f l d).2.first_index_to_commit ≤ d.first_index_to_commit ∧
    d.last_index_to_commit ≤ (for_each_in_layer f l d).2.last_index_to_commit ∧
    (for_each_in_layer f l d).2.last_visible_items_count = d.last_visible_items_count ∧
    (0 ≤ d.first_index_to_commit → d.last_index_to_commit < max 1 B →
      0 ≤ (for_each_in_layer f l d).2.first_index_to_commit ∧
      (for_each_in_layer f l d).2.last_index_to_commit < max 1 B) := by
  induction l generalizing d with
  | nil => exact ⟨le_refl _, le_refl _, rfl, fun a b => ⟨a, b⟩⟩
  | cons y ys ih =>
    obtain ⟨t1, t2, t3, t4⟩ := tidy_range y d _ (hf y d) B (hb y (List.mem_cons_self _ _))
    obtain ⟨i1, i2, i3, i4⟩ := ih (f y d).2 (fun x hx => hb x (List.mem_cons_of_mem _ hx))
    simp only [for_each_in_layer]
    exact ⟨le_trans i1 t1, le_trans t2 i2, i3.trans t3,
      fun a b => i4 (t4 a b).1 (t4 a b).2⟩

theorem for_each_item_range (f : item → static_data → item × static_data)
    (hf : ∀ it d, tidy_result it d (f it d)) (s : State) (hu : slots_in_use s) :
    (for_each_item f s.layers s.data).2.first_index_to_commit ≤
      s.data.first_index_to_commit ∧
    s.data.last_index_to_commit ≤ (for_each_item f s.layers s.data).2.last_index_to_commit ∧
    (for_each_item f s.layers s.data).2.last_visible_items_count =
      s.data.last_visible_items_count ∧
    (0 ≤ s.data.first_index_to_commit →
      s.data.last_index_to_commit < max 1 s.data.last_visible_items_count →
      0 ≤ (for_each_item f s.layers s.data).2.first_index_to_commit ∧
      (for_each_item f s.layers s.data).2.last_index_to_commit <
        max 1 s.data.last_visible_items_count) := by
  have hi := for_each_item_items f s.layers s.data
  have e2 : (for_each_item f s.layers s.data).2 =
      (for_each_in_layer f (items s.layers) s.data).2 := by rw [← hi]
  rw [e2]
  exact for_each_in_layer_range f hf _ (items s.layers) s.data hu

theorem tidy_slot (it : item) (d : static_data) (r : item × static_data)
    (h : tidy_result it d r) : r.1.handles_index = it.handles_index := h.2.1

theorem check_affine_mats_range (camera_position : fixed_point) (s : State)
    (hu : slots_in_use s) :
    (_check_affine_mats camera_position s).data.first_index_to_commit ≤
      s.data.first_index_to_commit ∧
    s.data.last_index_to_commit ≤
      (_check_affine_mats camera_position s).data.last_index_to_commit ∧
    (_check_affine_mats camera_position s).data.last_visible_items_count =
      s.data.last_visible_items_count ∧
    (pending_bounded s → pending_bounded (_check_affine_mats camera_position s)) ∧
    (items (_check_affine_mats camera_position s).layers).map (fun x => x.handles_index) =
      (items s.layers).map (fun x => x.handles_index) := by
  unfold _check_affine_mats
  split
  · obtain ⟨a1, a2, a3, a4⟩ := for_each_item_range
      (_check_affine_mats_item camera_position s.affine_mats)
      (fun it d => tidy_check_affine_mats_item _ _ it d) s hu
    refine ⟨a1, a2, a3, ?_, ?_⟩
    · intro hb
      unfold pending_bounded
      simp only
      rw [a3]
      exact a4 hb.1 hb.2
    · exact for_each_item_map (fun x => x.handles_index) _
        (fun it d => tidy_slot it d _ (tidy_check_affine_mats_item _ _ it d)) _ _
  · exact ⟨le_refl _, le_refl _, rfl, fun h => h, rfl⟩

theorem check_items_on_screen_range (cfg : config) (camera_position : fixed_point)
    (s : State) :
    (_check_items_on_screen cfg camera_position s).data.first_index_to_commit =
      s.data.first_index_to_commit ∧
    (_check_items_on_screen cfg camera_position s).data.last_index_to_commit =
      s.data.last_index_to_commit ∧
    (_check_items_on_screen cfg camera_position s).data.last_visible_items_count =
      s.data.last_visible_items_count ∧
    (items (_check_items_on_screen cfg camera_position s).layers).map
        (fun x => x.handles_index) = (items s.layers).map (fun x => x.handles_index) := by
  unfold _check_items_on_screen
  split
  · refine ⟨rfl, rfl, rfl, ?_⟩
    exact for_each_item_map (fun x => x.handles_index) _
      (fun it d => (check_items_on_screen_item_fields cfg camera_position it d).2.2.2.2.1) _ _
  · exact ⟨rfl, rfl, rfl, rfl⟩

theorem slots_in_use_of_map (s s' : State)
    (hm : (items s'.layers).map (fun x => x.handles_index) =
      (items s.layers).map (fun x => x.handles_index))
    (hl : s'.data.last_visible_items_count = s.data.last_visible_items_count)
    (h : slots_in_use s) : slots_in_use s' := by
  intro x hx h0
  have hmem : x.handles_index ∈ (items s'.layers).map (fun x => x.handles_index) :=
    List.mem_map.2 ⟨x, hx, rfl⟩
  rw [hm] at hmem
  obtain ⟨y, hy, he⟩ := List.mem_map.1 hmem
  rw [hl, ← he]
  exact h y hy (by rw [he]; exact h0)

theorem slots_in_use_rebuild (cfg : config) (s s' : State) (hcap : cfg.sprites_count ≤ 128)
    (h : slots_in_use s) (hs' : _rebuild_handles cfg s = some s') : slots_in_use s' := by
  by_cases hflag : s.data.rebuild_handles = true
  · cases hr : for_each_item_checked (_rebuild_handles_item cfg) s.layers
        (0, s.data.handles) with
    | none => simp [_rebuild_handles, hflag, hr] at hs'
    | some r =>
      obtain ⟨s2, hs2, hl, _, _, _, _, _, hlast, _⟩ := _rebuild_handles_result cfg s r hflag hr
      rw [hs2, Option.some.injEq] at hs'
      subst hs'
      have hq := flat_of_for_each_item_checked _ _ _ _ hr
      have hb := rebuild_loop_bound cfg _ _ _ _ hq
      obtain ⟨g1, g2, _, _, _, g6⟩ :=
        rebuild_loop_slots cfg (items s.layers) s.data.handles _ (by omega) hq
      obtain ⟨k1, _⟩ := rebuild_loop_spec cfg (items s.layers) 0 s.data.handles _ hq
      simp only at g1 g2 g6 k1
      intro it hit h0
      rw [hl] at hit
      have hon := (g1 it hit).1 h0
      have hmem : it.handles_index ∈
          ((items r.1).filter (fun it => it.on_screen)).map (fun it => it.handles_index) :=
        List.mem_map.2 ⟨it, List.mem_filter.2 ⟨hit, hon⟩, rfl⟩
      rw [g2] at hmem
      obtain ⟨k, hk, hk'⟩ := List.mem_map.1 hmem
      rw [List.mem_range] at hk
      rw [hlast, k1, ← hk']
      omega
  · simp only [_rebuild_handles, hflag] at hs'
    simp only [Bool.false_eq_true, if_false, Option.some.injEq] at hs'
    rw [← hs']
    exact h

theorem slots_in_use_update (cfg : config) (camera_position : fixed_point) (s s' : State)
    (hcap : cfg.sprites_count ≤ 128) (h : slots_in_use s)
    (hs' : update cfg camera_position s = some s') : slots_in_use s' := by
  unfold update at hs'
  obtain ⟨_, _, a3, _, a5⟩ := check_affine_mats_range camera_position s h
  obtain ⟨_, _, b3, b4⟩ := check_items_on_screen_range cfg camera_position
    (_check_affine_mats camera_position s)
  exact slots_in_use_rebuild cfg _ s' hcap
    (slots_in_use_of_map s _ (b4.trans a5) (b3.trans a3) h) hs'

theorem create_range (cfg : config) (camera_position : fixed_point) (b : sprite_builder)
    (s : State) :
    (create cfg camera_position b s).2.data.first_index_to_commit =
      s.data.first_index_to_commit ∧
    (create cfg camera_position b s).2.data.last_index_to_commit =
      s.data.last_index_to_commit ∧
    (create cfg camera_position b s).2.data.last_visible_items_count =
      s.data.last_visible_items_count ∧
    ∀ x ∈ items (create cfg camera_position b s).2.layers,
      x ∈ items s.layers ∨ x.handles_index = -1 := by
  unfold create
  split
  · exact ⟨rfl, rfl, rfl, fun x hx => Or.inl hx⟩
  · split
    · exact ⟨rfl, rfl, rfl, fun x hx => Or.inl hx⟩
    · split
      · exact ⟨rfl, rfl, rfl, fun x hx => Or.inl hx⟩
      · simp only
        refine ⟨by split <;> rfl, by split <;> rfl, by split <;> rfl, ?_⟩
        intro x hx
        rcases List.mem_cons.1 ((items_insert_perm _ _).subset hx) with rfl | hx
        · right
          unfold item.create
          simp only
          split <;> rfl
        · exact Or.inl hx

theorem flag_range (d : static_data) (c : Prop) [Decidable c] :
    (if c then ({ d with rebuild_handles := true } : static_data)
      else d).first_index_to_commit = d.first_index_to_commit ∧
    (if c then ({ d with rebuild_handles := true } : static_data)
      else d).last_index_to_commit = d.last_index_to_commit ∧
    (if c then ({ d with rebuild_handles := true } : static_data)
      else d).last_visible_items_count = d.last_visible_items_count := by
  split <;> exact ⟨rfl, rfl, rfl⟩

theorem mem_items_replace (it' : item) (ls : List layer) (x : item)
    (hx : x ∈ items (replace it' ls)) : x = it' ∨ x ∈ items ls := by
  rw [items_replace, List.mem_map] at hx
  obtain ⟨y, hy, rfl⟩ := hx
  split
  · exact Or.inl rfl
  · exact Or.inr hy

theorem set_visible_range (id : Nat) (v : Bool) (s : State) :
    (set_visible id v s).data.first_index_to_commit = s.data.first_index_to_commit ∧
    (set_visible id v s).data.last_index_to_commit = s.data.last_index_to_commit ∧
    (set_visible id v s).data.last_visible_items_count = s.data.last_visible_items_count ∧
    ∀ x ∈ items (set_visible id v s).layers,
      ∃ y ∈ items s.layers, x.handles_index = y.handles_index := by
  unfold set_visible with_item
  cases hfind : find id s.layers with
  | none => exact ⟨rfl, rfl, rfl, fun x hx => ⟨x, hx, rfl⟩⟩
  | some it =>
    have hmem := find_mem id _ it hfind
    have hm : ∀ it' : item, it'.handles_index = it.handles_index →
        ∀ x ∈ items (replace it' s.layers),
          ∃ y ∈ items s.layers, x.handles_index = y.handles_index := by
      intro it' h1 x hx
      rcases mem_items_replace it' _ x hx with rfl | hx
      · exact ⟨it, hmem, h1⟩
      · exact ⟨x, hx, rfl⟩
    cases v with
    | true => exact ⟨rfl, rfl, rfl, hm _ rfl⟩
    | false =>
      simp only [Bool.false_eq_true, if_false]
      obtain ⟨f1, f2, f3⟩ := flag_range s.data (it.on_screen = true)
      exact ⟨f1, f2, f3, hm _ rfl⟩

theorem slots_in_use_of_mem (s s' : State)
    (hm : ∀ x ∈ items s'.layers,
      (∃ y ∈ items s.layers, x.handles_index = y.handles_index) ∨ x.handles_index = -1)
    (hl : s'.data.last_visible_items_count = s.data.last_visible_items_count)
    (h : slots_in_use s) : slots_in_use s' := by
  intro x hx h0
  rcases hm x hx with ⟨y, hy, he⟩ | he
  · rw [hl, he]
    exact h y hy (by rw [← he]; exact h0)
  · omega

theorem slots_in_use_reachable (cfg : config) (hcap : cfg.sprites_count ≤ 128) (s : State)
    (h : reachable cfg s) : slots_in_use s := by
  refine reachable_induction cfg slots_in_use ?_ ?_ ?_ ?_ ?_ ?_ ?_ ?_ ?_ ?_ s h
  · intro m it hit
    simp [init, items] at hit
  · intro s m _ hi; exact hi
  · intro s cam b _ hi
    obtain ⟨_, _, c3, c4⟩ := create_range cfg cam b s
    refine slots_in_use_of_mem s _ ?_ c3 hi
    intro x hx
    rcases c4 x hx with h0 | h0
    · exact Or.inl ⟨x, h0, rfl⟩
    · exact Or.inr h0
  · intro s id it r _ hi hfind ht
    refine slots_in_use_of_mem s _ ?_ ht.2.2.2.2.2.2.2.1 hi
    intro x hx
    rcases mem_items_replace r.1 _ x hx with rfl | hx
    · exact Or.inl ⟨it, find_mem id _ it hfind, ht.2.1⟩
    · exact Or.inl ⟨x, hx, rfl⟩
  · intro s id it _ hi _
    refine slots_in_use_of_mem s _ ?_ (flag_range s.data (it.on_screen = true)).2.2 hi
    intro x hx
    simp only at hx
    rw [items_erase, List.mem_filter] at hx
    exact Or.inl ⟨x, hx.1, rfl⟩
  · intro s id it h p z _ hi hfind
    refine slots_in_use_of_mem s _ ?_ (flag_range s.data (it.on_screen = true)).2.2 hi
    intro x hx
    simp only at hx
    rcases List.mem_cons.1 ((items_insert_perm _ _).subset hx) with rfl | hx
    · exact Or.inl ⟨it, find_mem id _ it hfind, rfl⟩
    · rw [items_erase, List.mem_filter] at hx
      exact Or.inl ⟨x, hx.1, rfl⟩
  · intro s id v _ hi
    obtain ⟨_, _, v3, v4⟩ := set_visible_range id v s
    exact slots_in_use_of_mem s _ (fun x hx => Or.inl (v4 x hx)) v3 hi
  · intro s f _ hi hf
    refine slots_in_use_of_map s _ ?_ (for_each_item_range f hf s hi).2.2.1 hi
    exact for_each_item_map (fun x => x.handles_index) f
      (fun it d => tidy_slot it d _ (hf it d)) _ _
  · intro s s' cam _ hi hs'
    exact slots_in_use_update cfg cam s s' hcap hi hs'
  · intro s _ hi
    refine slots_in_use_of_map s _ ?_ (commit_table cfg s).2.2 hi
    rw [commit_layers]

theorem pending_step (cfg : config) (camera_position : fixed_point) (o : op) (s s' : State)
    (ho1 : o ≠ op.update) (ho2 : o ≠ op.commit) (hu : slots_in_use s)
    (ha : o.apply cfg camera_position s = some s') :
    pending_kept s s' ∧ (pending_bounded s → pending_bounded s') := by
  refine step_cases cfg
    (fun o s s' => o ≠ op.update → o ≠ op.commit → slots_in_use s →
      pending_kept s s' ∧ (pending_bounded s → pending_bounded s'))
    ?_ ?_ ?_ ?_ ?_ ?_ ?_ ?_ ?_ ?_ camera_position o s s' ha ho1 ho2 hu
  · intro _ s _ _ _
    exact ⟨fun i hi => hi, fun hb => hb⟩
  · intro _ s m _ _ _
    exact ⟨fun i hi => hi, fun hb => hb⟩
  · intro _ s cam b _ _ _
    obtain ⟨c1, c2, c3, _⟩ := create_range cfg cam b s
    unfold pending_kept pending pending_bounded
    rw [c1, c2, c3]
    exact ⟨fun i hi => hi, fun hb => hb⟩
  · intro _ s id it r hfind ht _ _ hu
    obtain ⟨t1, t2, t3, t4⟩ := tidy_range it s.data r ht s.data.last_visible_items_count
      (hu it (find_mem id _ it hfind))
    unfold pending_kept pending pending_bounded
    simp only
    rw [t3]
    exact ⟨fun i hi => ⟨le_trans t1 hi.1, le_trans hi.2 t2⟩, fun hb => t4 hb.1 hb.2⟩
  · intro _ s id it _ _ _ _
    obtain ⟨f1, f2, f3⟩ := flag_range s.data (it.on_screen = true)
    unfold pending_kept pending pending_bounded
    simp only
    rw [f1, f2, f3]
    exact ⟨fun i hi => hi, fun hb => hb⟩
  · intro _ s id it h p z _ _ _ _
    obtain ⟨f1, f2, f3⟩ := flag_range s.data (it.on_screen = true)
    unfold pending_kept pending pending_bounded
    simp only
    rw [f1, f2, f3]
    exact ⟨fun i hi => hi, fun hb => hb⟩
  · intro _ s id v _ _ _
    obtain ⟨v1, v2, v3, _⟩ := set_visible_range id v s
    unfold pending_kept pending pending_bounded
    rw [v1, v2, v3]
    exact ⟨fun i hi => hi, fun hb => hb⟩
  · intro _ s f hf _ _ hu
    obtain ⟨t1, t2, t3, t4⟩ := for_each_item_range f hf s hu
    unfold pending_kept pending pending_bounded
    simp only
    rw [t3]
    exact ⟨fun i hi => ⟨le_trans t1 hi.1, le_trans hi.2 t2⟩, fun hb => t4 hb.1 hb.2⟩
  · intro s s' cam _ h _ _
    exact absurd rfl h
  · intro s _ h _
    exact absurd rfl h

end sprites_manager

end btn
namespace btn

namespace sprites_manager
open sorted_sprites

theorem pending_update (cfg : config) (camera_position : fixed_point) (s s' : State)
    (hu : slots_in_use s) (hs' : update cfg camera_position s = some s') :
    ((_check_items_on_screen cfg camera_position
        (_check_affine_mats camera_position s)).data.rebuild_handles = true →
      ∀ it ∈ items s.layers, 0 ≤ it.handles_index → pending s' it.handles_index) ∧
    (pending_bounded s → pending_kept s s') := by
  unfold update at hs'
  obtain ⟨a1, a2, a3, a4, _⟩ := check_affine_mats_range camera_position s hu
  obtain ⟨b1, b2, b3, _⟩ := check_items_on_screen_range cfg camera_position
    (_check_affine_mats camera_position s)
  rw [← b1] at a1
  rw [← b2] at a2
  have c3 := b3.trans a3
  have a4' : pending_bounded s →
      0 ≤ (_check_items_on_screen cfg camera_position
        (_check_affine_mats camera_position s)).data.first_index_to_commit ∧
      (_check_items_on_screen cfg camera_position
        (_check_affine_mats camera_position s)).data.last_index_to_commit <
        max 1 s.data.last_visible_items_count := by
    intro hb
    have := a4 hb
    unfold pending_bounded at this
    rw [a3, ← b1, ← b2] at this
    exact this
  revert hs' a1 a2 c3 a4'
  generalize _check_items_on_screen cfg camera_position
    (_check_affine_mats camera_position s) = p
  intro hs' a1 a2 c3 a4'
  by_cases hflag : p.data.rebuild_handles = true
  · cases hr : for_each_item_checked (_rebuild_handles_item cfg) p.layers
        (0, p.data.handles) with
    | none => simp [_rebuild_handles, hflag, hr] at hs'
    | some r =>
      obtain ⟨s2, hs2, _, _, _, _, _, _, _, _, hne, heq⟩ :=
        _rebuild_handles_result cfg p r hflag hr
      rw [hs2, Option.some.injEq] at hs'
      subst hs'
      rw [c3] at hne heq
      have hM1 : s.data.last_visible_items_count ≤
          max s.data.last_visible_items_count (r.2.1 : Int) := le_max_left _ _
      have hM2 : (r.2.1 : Int) ≤ max s.data.last_visible_items_count (r.2.1 : Int) :=
        le_max_right _ _
      refine ⟨?_, ?_⟩
      · intro _ it hit h0
        have hlt := hu it hit h0
        obtain ⟨e1, e2⟩ := hne (by omega)
        unfold pending
        rw [e1, e2]
        omega
      · intro hb i hi
        obtain ⟨q1, q2⟩ := a4' hb
        have hi1 : p.data.first_index_to_commit ≤ i := le_trans a1 hi.1
        have hi2 : i ≤ p.data.last_index_to_commit := le_trans hi.2 a2
        by_cases hM : max s.data.last_visible_items_count (r.2.1 : Int) = 0
        · obtain ⟨e1, e2⟩ := heq hM
          unfold pending
          rw [e1, e2]
          exact ⟨hi1, hi2⟩
        · obtain ⟨e1, e2⟩ := hne hM
          unfold pending
          rw [e1, e2]
          rcases max_choice (1 : Int) s.data.last_visible_items_count with h1 | h1
          · rw [h1] at q2
            have : (0 : Int) ≤ (r.2.1 : Int) := Int.ofNat_nonneg _
            omega
          · rw [h1] at q2
            omega
  · simp only [_rebuild_handles, hflag] at hs'
    simp only [Bool.false_eq_true, if_false, Option.some.injEq] at hs'
    rw [← hs']
    refine ⟨fun h => absurd h hflag, ?_⟩
    intro _ i hi
    exact ⟨le_trans a1 hi.1, le_trans hi.2 a2⟩

theorem pending_commit (cfg : config) (s : State) :
    (∀ i, pending s i → i < (cfg.sprites_count : Int) →
      ∃ t, (commit cfg s).transfers = t :: s.transfers ∧ t.1 ≤ i ∧ i < t.1 + t.2) ∧
    ((s.data.first_index_to_commit < (cfg.sprites_count : Int) ∨ pending_bounded s) →
      pending_bounded (commit cfg s)) := by
  unfold commit
  simp only
  cases hcd : (sprite_affine_mats_manager.retrieve_commit_data s.affine_mats).1 with
  | none =>
    simp only
    refine ⟨?_, ?_⟩
    · intro i hi hlt
      have h1 : s.data.first_index_to_commit < (cfg.sprites_count : Int) :=
        lt_of_le_of_lt hi.1 hlt
      rw [if_pos h1]
      refine ⟨_, rfl, hi.1, ?_⟩
      have := hi.2
      omega
    · intro h
      split
      · exact ⟨Int.ofNat_nonneg _, lt_of_lt_of_le Int.zero_lt_one (le_max_left _ _)⟩
      · rename_i hn
        rcases h with h | h
        · exact absurd h hn
        · exact h
  | some cd =>
    simp only
    refine ⟨?_, ?_⟩
    · intro i hi hlt
      have h0 : min s.data.first_index_to_commit
          (cd.1 * (cfg.sprites_count : Int).tdiv (cfg.affine_mats_count : Int)) ≤
          s.data.first_index_to_commit := min_le_left _ _
      have h1 : min s.data.first_index_to_commit
          (cd.1 * (cfg.sprites_count : Int).tdiv (cfg.affine_mats_count : Int)) <
          (cfg.sprites_count : Int) :=
        lt_of_le_of_lt (le_trans h0 hi.1) hlt
      rw [if_pos h1]
      refine ⟨_, rfl, le_trans h0 hi.1, ?_⟩
      have h2 : s.data.last_index_to_commit ≤ max s.data.last_index_to_commit
          (cd.1 * (cfg.sprites_count : Int).tdiv (cfg.affine_mats_count : Int) +
            cd.2 * (cfg.sprites_count : Int).tdiv (cfg.affine_mats_count : Int) - 1) :=
        le_max_left _ _
      have := hi.2
      simp only
      omega
    · intro h
      split
      · exact ⟨Int.ofNat_nonneg _, lt_of_lt_of_le Int.zero_lt_one (le_max_left _ _)⟩
      · rename_i hn
        rcases h with h | h
        · exfalso
          apply hn
          exact lt_of_le_of_lt (min_le_left _ _) h
        · exact h

theorem sample_s21_reachable : reachable sample.cfg sample.s21 :=
  reachable.step sample.s20 sample.s21 sample.camera (op.set_z_order 0 7)
    (reachable.step _ sample.s20 sample.camera op.update
      (reachable.step sample.s19 _ sample.camera (op.set_visible 1 false)
        (reachable.step sample.s4 sample.s19 sample.camera op.commit sample_s4_reachable rfl)
        rfl)
      (by decide))
    (by decide)

/-- C26 (counterexample): after `commit()` (state `sample.s19`) record 1 is
hidden and `update()` runs: the recompaction writes the hidden sentinel into
slot 1 and stores the pending range `[0, 1]` (state `sample.s20`). The z-order
of record 0 is changed and `update()` runs again with no `commit()` in
between: the second recompaction stores `[0, 0]`, so slot 1 is no longer
pending, and the next `commit()` transfers slot 0 only. -/
theorem second_update_cuts_pending_range :
    reachable sample.cfg sample.s21 ∧
    sample.s20.data.handles[1]? = some hw.sprites.hidden_handle ∧
    sample.s19.data.handles[1]? ≠ some hw.sprites.hidden_handle ∧
    pending sample.s20 1 ∧ pending sample.s21 1 ∧
    update sample.cfg sample.camera sample.s21 = some sample.s22 ∧
    ¬ pending sample.s22 1 ∧
    sample.s22.data.handles[1]? = some hw.sprites.hidden_handle ∧
    (commit sample.cfg sample.s22).transfers = (0, 1) :: sample.s19.transfers :=
  ⟨sample_s21_reachable, by decide, by decide, by decide, by decide, by decide, by decide,
    by decide, by decide⟩

/-- C26 (amended): with a table of at most 128 slots, in every reachable state
each assigned slot index is smaller than `last_visible_items_count`. When
`update()` runs a recompaction, every slot assigned before it (the slots a
setter can have marked) lies in the range the recompaction stores; and if the
pending range does not reach beyond `last_visible_items_count` before
`update()`, every pending slot is still pending after it. Every operation
other than `update()` and `commit()` keeps every pending slot pending and
keeps the pending range inside `last_visible_items_count`, which also holds
initially and after every `commit()` that transfers. `commit()` transfers
every pending slot of the table. -/
theorem pending_range_kept_between_commits (cfg : config) (s : State)
    (hcap : cfg.sprites_count ≤ 128) (hs : reachable cfg s) :
    (∀ it ∈ items s.layers, 0 ≤ it.handles_index →
      it.handles_index < s.data.last_visible_items_count) ∧
    (∀ camera_position s', update cfg camera_position s = some s' →
      ((_check_items_on_screen cfg camera_position
          (_check_affine_mats camera_position s)).data.rebuild_handles = true →
        ∀ it ∈ items s.layers, 0 ≤ it.handles_index → pending s' it.handles_index) ∧
      (pending_bounded s → pending_kept s s')) ∧
    (∀ camera_position o s', o ≠ op.update → o ≠ op.commit →
      o.apply cfg camera_position s = some s' →
      pending_kept s s' ∧ (pending_bounded s → pending_bounded s')) ∧
    (∀ i, pending s i → i < (cfg.sprites_count : Int) →
      ∃ t, (commit cfg s).transfers = t :: s.transfers ∧ t.1 ≤ i ∧ i < t.1 + t.2) ∧
    ((s.data.first_index_to_commit < (cfg.sprites_count : Int) ∨ pending_bounded s) →
      pending_bounded (commit cfg s)) ∧
    (∀ m, pending_bounded (init cfg m)) := by
  have hu := slots_in_use_reachable cfg hcap s hs
  refine ⟨hu, ?_, ?_, (pending_commit cfg s).1, (pending_commit cfg s).2, ?_⟩
  · intro camera_position s' hs'
    exact pending_update cfg camera_position s s' hu hs'
  · intro camera_position o s' ho1 ho2 ha
    exact pending_step cfg camera_position o s s' ho1 ho2 hu ha
  · intro m
    exact ⟨Int.ofNat_nonneg _, lt_of_lt_of_le Int.zero_lt_one (le_max_left _ _)⟩

theorem pending_range_kept_between_commits_witness :
    sample.cfg.sprites_count ≤ 128 ∧ reachable sample.cfg sample.s6 ∧
    (∀ it ∈ items sample.s6.layers, 0 ≤ it.handles_index →
      it.handles_index < sample.s6.data.last_visible_items_count) ∧
    (∀ camera_position s', update sample.cfg camera_position sample.s6 = some s' →
      ((_check_items_on_screen sample.cfg camera_position
          (_check_affine_mats camera_position sample.s6)).data.rebuild_handles = true →
        ∀ it ∈ items sample.s6.layers, 0 ≤ it.handles_index →
          pending s' it.handles_index) ∧
      (pending_bounded sample.s6 → pending_kept sample.s6 s')) ∧
    (∀ camera_position o s', o ≠ op.update → o ≠ op.commit →
      o.apply sample.cfg camera_position sample.s6 = some s' →
      pending_kept sample.s6 s' ∧ (pending_bounded sample.s6 → pending_bounded s')) ∧
    (∀ i, pending sample.s6 i → i < (sample.cfg.sprites_count : Int) →
      ∃ t, (commit sample.cfg sample.s6).transfers = t :: sample.s6.transfers ∧
        t.1 ≤ i ∧ i < t.1 + t.2) ∧
    ((sample.s6.data.first_index_to_commit < (sample.cfg.sprites_count : Int) ∨
        pending_bounded sample.s6) → pending_bounded (commit sample.cfg sample.s6)) ∧
    (∀ m, pending_bounded (init sample.cfg m)) ∧
    pending_bounded sample.s6 ∧
    update sample.cfg sample.camera sample.s6 = some sample.s7 ∧
    pending_kept sample.s6 sample.s7 :=
  ⟨by decide, sample_s6_reachable,
    (pending_range_kept_between_commits sample.cfg sample.s6 (by decide)
      sample_s6_reachable).1,
    (pending_range_kept_between_commits sample.cfg sample.s6 (by decide)
      sample_s6_reachable).2.1,
    (pending_range_kept_between_commits sample.cfg sample.s6 (by decide)
      sample_s6_reachable).2.2.1,
    (pending_range_kept_between_commits sample.cfg sample.s6 (by decide)
      sample_s6_reachable).2.2.2.1,
    (pending_range_kept_between_commits sample.cfg sample.s6 (by decide)
      sample_s6_reachable).2.2.2.2.1,
    (pending_range_kept_between_commits sample.cfg sample.s6 (by decide)
      sample_s6_reachable).2.2.2.2.2,
    by decide, by decide,
    ((pending_range_kept_between_commits sample.cfg sample.s6 (by decide)
      sample_s6_reachable).2.1 sample.camera sample.s7 (by decide)).2 (by decide)⟩

end sprites_manager

end btn

namespace btn

/-! ### `fixed_point` arithmetic -/

namespace fixed

end fixed

namespace fixed_point

end fixed_point

namespace sprites_manager
open sorted_sprites

/-! ### Slot indexes -/

/-- C38: under the assertion of the recompaction,
`visible_items_count < hw::sprites::count()`, with a table of at most 128
slots, `int8_t(visible_items_count)` equals `visible_items_count` and is not
negative, so it is not the value -1 of a record without a slot; the loop body
of `_rebuild_handles` stores exactly `visible_items_count` in the record. -/
theorem slot_index_survives_int8 (cfg : config) (visible_items_count : Nat)
    (hcap : cfg.sprites_count ≤ 128)
    (hassert : visible_items_count < cfg.sprites_count) :
    int8_t (visible_items_count : Int) = (visible_items_count : Int) ∧
    0 ≤ int8_t (visible_items_count : Int) ∧
    int8_t (visible_items_count : Int) ≠ -1 ∧
    ∀ (it : item) (hs : List handle), it.on_screen = true →
      ∃ r, _rebuild_handles_item cfg it (visible_items_count, hs) = some r ∧
        r.1.handles_index = (visible_items_count : Int) ∧ r.1.handles_index ≠ -1 := by
  have h := int8_t_of_lt visible_items_count (by omega)
  refine ⟨h, by rw [h]; omega, by rw [h]; omega, ?_⟩
  intro it hs hon
  unfold _rebuild_handles_item
  simp only [hon, if_true, hassert]
  exact ⟨_, rfl, h, by simp only; rw [h]; omega⟩

theorem slot_index_survives_int8_witness :
    sample.cfg.sprites_count ≤ 128 ∧ 3 < sample.cfg.sprites_count ∧
    int8_t ((3 : Nat) : Int) = ((3 : Nat) : Int) ∧
    0 ≤ int8_t ((3 : Nat) : Int) ∧
    int8_t ((3 : Nat) : Int) ≠ -1 ∧
    ∀ (it : item) (hs : List handle), it.on_screen = true →
      ∃ r, _rebuild_handles_item sample.cfg it (3, hs) = some r ∧
        r.1.handles_index = ((3 : Nat) : Int) ∧ r.1.handles_index ≠ -1 :=
  ⟨by decide, by decide, slot_index_survives_int8 sample.cfg 3 (by decide) (by decide)⟩

theorem _update_handles_unassigned (it : item) (d : static_data)
    (h : it.handles_index < 0) : _update_handles it d = d := by
  unfold _update_handles
  simp only
  rw [if_neg (by omega)]

/-- C39: for a live record without a slot (slot index -1, or any negative
index), `set_position`, `set_tiles_ptr`, `set_palette_ptr`,
`set_mosaic_enabled`, `set_horizontal_flip` and `set_vertical_flip` leave
every table entry and the pending range as they are. -/
theorem mutation_without_slot_leaves_table (camera_position : fixed_point) (s : State)
    (id : Nat) (it : item)
    (hfind : find id s.layers = some it) (hidx : it.handles_index < 0) :
    (∀ p, table_untouched s (set_position camera_position id p s)) ∧
    (∀ tiles s', set_tiles_ptr id tiles s = some s' → table_untouched s s') ∧
    (∀ palette s', set_palette_ptr id palette s = some s' → table_untouched s s') ∧
    (∀ v, table_untouched s (set_mosaic_enabled id v s)) ∧
    (∀ v, table_untouched s (set_horizontal_flip id v s)) ∧
    (∀ v, table_untouched s (set_vertical_flip id v s)) := by
  have hneg : ¬ it.handles_index ≥ 0 := by omega
  refine ⟨?_, ?_, ?_, ?_, ?_, ?_⟩
  · intro p
    simp only [set_position, with_item, hfind, set_position_item, _update_handles, hneg,
      if_false]
    split <;> exact ⟨rfl, rfl, rfl⟩
  · intro tiles s' hs'
    simp only [set_tiles_ptr, hfind, _update_handles, hneg, if_false] at hs'
    split at hs'
    · split at hs'
      · rw [Option.some.injEq] at hs'
        rw [← hs']
        exact ⟨rfl, rfl, rfl⟩
      · simp at hs'
    · rw [Option.some.injEq] at hs'
      rw [← hs']
      exact ⟨rfl, rfl, rfl⟩
  · intro palette s' hs'
    simp only [set_palette_ptr, hfind, _update_handles, hneg, if_false] at hs'
    split at hs'
    · split at hs'
      · rw [Option.some.injEq] at hs'
        rw [← hs']
        exact ⟨rfl, rfl, rfl⟩
      · simp at hs'
    · rw [Option.some.injEq] at hs'
      rw [← hs']
      exact ⟨rfl, rfl, rfl⟩
  · intro v
    simp only [set_mosaic_enabled, with_item, hfind, _update_handles, hneg, if_false]
    exact ⟨rfl, rfl, rfl⟩
  · intro v
    simp only [set_horizontal_flip, hfind, _update_handles, hneg, if_false]
    split <;> exact ⟨rfl, rfl, rfl⟩
  · intro v
    simp only [set_vertical_flip, hfind, _update_handles, hneg, if_false]
    split <;> exact ⟨rfl, rfl, rfl⟩

theorem mutation_without_slot_leaves_table_witness :
    find 2 sample.s4.layers = some sample.r5 ∧ sample.r5.handles_index = -1 ∧
    (∀ p, table_untouched sample.s4 (set_position sample.camera 2 p sample.s4)) ∧
    (∀ tiles s', set_tiles_ptr 2 tiles sample.s4 = some s' →
      table_untouched sample.s4 s') ∧
    (∀ palette s', set_palette_ptr 2 palette sample.s4 = some s' →
      table_untouched sample.s4 s') ∧
    (∀ v, table_untouched sample.s4 (set_mosaic_enabled 2 v sample.s4)) ∧
    (∀ v, table_untouched sample.s4 (set_horizontal_flip 2 v sample.s4)) ∧
    (∀ v, table_untouched sample.s4 (set_vertical_flip 2 v sample.s4)) :=
  ⟨by decide, by decide,
    mutation_without_slot_leaves_table sample.camera sample.s4 2 sample.r5 (by decide)
      (by decide)⟩

end sprites_manager

end btn
namespace btn

namespace sprites_manager
open sorted_sprites

/-! ### Detaching a transform and the transform pass -/

theorem set_position_item_fields (camera_position position : fixed_point) (it : item)
    (d : static_data) :
    (set_position_item camera_position position it d).1.handle =
      hw.sprites.set_position
        (if ! it.ignore_camera then position.sub_assign camera_position
          else position).x.integer
        (if ! it.ignore_camera then position.sub_assign camera_position
          else position).y.integer it.handle ∧
    (set_position_item camera_position position it d).1.position = position ∧
    (set_position_item camera_position position it d).1.visible = it.visible ∧
    (set_position_item camera_position position it d).1.ignore_camera = it.ignore_camera ∧
    (set_position_item camera_position position it d).1.id = it.id ∧
    (set_position_item camera_position position it d).1.double_size_mode =
      it.double_size_mode ∧
    (it.visible = true →
      (set_position_item camera_position position it d).1.check_on_screen = true) ∧
    (it.visible = false →
      (set_position_item camera_position position it d).1.check_on_screen =
        it.check_on_screen) := by
  unfold set_position_item
  simp only
  split
  · rename_i hv
    exact ⟨rfl, rfl, rfl, rfl, rfl, rfl, fun _ => rfl, fun h => by rw [h] at hv; cases hv⟩
  · rename_i hv
    exact ⟨rfl, rfl, rfl, rfl, rfl, rfl, fun h => absurd h hv, fun _ => rfl⟩

theorem _remove_affine_mat_handle (camera_position : fixed_point) (m : affine_mats_state)
    (it : item) (d : static_data) (a : Nat) (hptr : it.affine_mat_ptr = some a) :
    (_remove_affine_mat camera_position m it d).1.id = it.id ∧
    (_remove_affine_mat camera_position m it d).1.affine_mat_ptr = none ∧
    (_remove_affine_mat camera_position m it d).1.handle.affine_mat_id = none ∧
    (_remove_affine_mat camera_position m it d).1.handle.double_size = false ∧
    (_remove_affine_mat camera_position m it d).1.handle.horizontal_flip =
      sprite_affine_mats_manager.horizontal_flip m a ∧
    (_remove_affine_mat camera_position m it d).1.handle.vertical_flip =
      sprite_affine_mats_manager.vertical_flip m a := by
  unfold _remove_affine_mat
  simp only [hptr]
  split
  · obtain ⟨f1, _, _, _, f5, _⟩ := set_position_item_fields camera_position it.position
      { it with
        handle := hw.sprites.remove_affine_mat
          (hw.sprites.set_vertical_flip (sprite_affine_mats_manager.vertical_flip m a)
            (hw.sprites.set_horizontal_flip
              (sprite_affine_mats_manager.horizontal_flip m a) it.handle))
        affine_mat_ptr := none } d
    refine ⟨f5, (set_position_item_affine_mat_ptr camera_position _ _ d).1, ?_, ?_, ?_, ?_⟩ <;>
      rw [f1] <;> rfl
  · exact ⟨rfl, rfl, rfl, rfl, rfl, rfl⟩

/-- C31: `set_affine_mat_ptr(id, none)` on a live record that holds a transform
leaves the record without a transform, with the transform linkage and the
wide-bounding-box flag of its attribute block cleared, and `horizontal_flip(id)`
and `vertical_flip(id)` return the same values after the call as before it. -/
theorem detach_clears_transform_and_keeps_flips (camera_position : fixed_point)
    (s : State) (id a : Nat) (it : item)
    (hfind : find id s.layers = some it) (hptr : it.affine_mat_ptr = some a) :
    (∃ it', find id (set_affine_mat_ptr camera_position id none s).layers = some it' ∧
      it'.affine_mat_ptr = none ∧ it'.handle.affine_mat_id = none ∧
      it'.handle.double_size = false) ∧
    horizontal_flip id (set_affine_mat_ptr camera_position id none s) =
      horizontal_flip id s ∧
    vertical_flip id (set_affine_mat_ptr camera_position id none s) =
      vertical_flip id s := by
  have e : set_affine_mat_ptr camera_position id none s =
      with_item id (fun it d =>
        if it.affine_mat_ptr.isSome then _remove_affine_mat camera_position s.affine_mats it d
        else (it, d)) s := rfl
  have hsome : it.affine_mat_ptr.isSome = true := by rw [hptr]; rfl
  obtain ⟨r1, r2, r3, r4, r5, r6⟩ := _remove_affine_mat_handle camera_position s.affine_mats
    it s.data a hptr
  have hf : find id (set_affine_mat_ptr camera_position id none s).layers =
      some (_remove_affine_mat camera_position s.affine_mats it s.data).1 := by
    rw [e]
    have := find_with_item id (fun it d =>
        if it.affine_mat_ptr.isSome then _remove_affine_mat camera_position s.affine_mats it d
        else (it, d)) s it hfind (by simp only [hsome, if_true]; exact r1)
    simpa only [hsome, if_true] using this
  refine ⟨⟨_, hf, r2, r3, r4⟩, ?_, ?_⟩
  · unfold horizontal_flip
    rw [hf, hfind]
    simp only [Option.map_some', r2, hptr, r5]
  · unfold vertical_flip
    rw [hf, hfind]
    simp only [Option.map_some', r2, hptr, r6]

theorem detach_clears_transform_and_keeps_flips_witness :
    find 0 sample.s10.layers = some sample.r6 ∧ sample.r6.affine_mat_ptr = some 1 ∧
    (∃ it', find 0 (set_affine_mat_ptr sample.camera 0 none sample.s10).layers = some it' ∧
      it'.affine_mat_ptr = none ∧ it'.handle.affine_mat_id = none ∧
      it'.handle.double_size = false) ∧
    horizontal_flip 0 (set_affine_mat_ptr sample.camera 0 none sample.s10) =
      horizontal_flip 0 sample.s10 ∧
    vertical_flip 0 (set_affine_mat_ptr sample.camera 0 none sample.s10) =
      vertical_flip 0 sample.s10 :=
  ⟨by decide, by decide,
    detach_clears_transform_and_keeps_flips sample.camera sample.s10 0 1 sample.r6
      (by decide) (by decide)⟩

theorem _check_affine_mats_item_skips (camera_position : fixed_point)
    (m : affine_mats_state) (it : item) (d : static_data)
    (h : it.affine_mat_ptr = none ∨
      ∃ a, it.affine_mat_ptr = some a ∧ sprite_affine_mats_manager.updated_id m a = false) :
    _check_affine_mats_item camera_position m it d = (it, d) := by
  unfold _check_affine_mats_item
  rcases h with h | ⟨a, h1, h2⟩
  · simp only [h]
  · simp only [h1, h2, Bool.false_eq_true, if_false]

/-- C32: if the transform pool reports no change, the transform pass of
`update()` leaves the whole state as it is; and when it reports a change, the
pass leaves every record as it is that holds no transform or whose transform
is not reported changed: the loop body returns the record and the manager data
unchanged, and the record is found unchanged after the pass. -/
theorem transform_reconciliation_is_gated (camera_position : fixed_point) (s : State) :
    (sprite_affine_mats_manager.updated s.affine_mats = false →
      _check_affine_mats camera_position s = s) ∧
    (∀ (it : item) (d : static_data),
      (it.affine_mat_ptr = none ∨ ∃ a, it.affine_mat_ptr = some a ∧
        sprite_affine_mats_manager.updated_id s.affine_mats a = false) →
      _check_affine_mats_item camera_position s.affine_mats it d = (it, d)) ∧
    (∀ id it, find id s.layers = some it →
      (it.affine_mat_ptr = none ∨ ∃ a, it.affine_mat_ptr = some a ∧
        sprite_affine_mats_manager.updated_id s.affine_mats a = false) →
      find id (_check_affine_mats camera_position s).layers = some it) := by
  refine ⟨?_, ?_, ?_⟩
  · intro hu
    unfold _check_affine_mats
    rw [hu]
    rfl
  · intro it d h
    exact _check_affine_mats_item_skips camera_position s.affine_mats it d h
  · intro id it hfind h
    unfold _check_affine_mats
    split
    · obtain ⟨d0, h0⟩ := find_for_each_item
        (_check_affine_mats_item camera_position s.affine_mats)
        (fun x d => (tidy_check_affine_mats_item camera_position s.affine_mats x d).1)
        s.layers s.data id it hfind
      rw [_check_affine_mats_item_skips camera_position s.affine_mats it d0 h] at h0
      exact h0
    · exact hfind

theorem transform_reconciliation_is_gated_witness :
    sprite_affine_mats_manager.updated sample.s4.affine_mats = false ∧
    _check_affine_mats sample.camera sample.s4 = sample.s4 ∧
    sprite_affine_mats_manager.updated sample.s17.affine_mats = true ∧
    find 1 sample.s17.layers = some sample.r2 ∧ sample.r2.affine_mat_ptr = none ∧
    find 1 (_check_affine_mats sample.camera sample.s17).layers = some sample.r2 :=
  ⟨by decide,
    (transform_reconciliation_is_gated sample.camera sample.s4).1 (by decide),
    by decide, by decide, by decide,
    (transform_reconciliation_is_gated sample.camera sample.s17).2.2 1 sample.r2
      (by decide) (Or.inl (by decide))⟩

end sprites_manager

end btn

namespace btn

namespace sprites_manager
open sorted_sprites

/-! ### Reference counts -/

theorem replace_replace (a b : item) (ls : List layer) (h : a.id = b.id) :
    replace b (replace a ls) = replace b ls := by
  unfold replace
  rw [List.map_map]
  apply List.map_congr_left
  intro l _
  simp only [Function.comp, List.map_map]
  congr 1
  apply List.map_congr_left
  intro x _
  simp only [Function.comp]
  by_cases hx : x.id = a.id
  · rw [if_pos hx, if_pos h, if_pos (hx.trans h)]
  · rw [if_neg hx, if_neg (fun e => hx (e.trans h.symm))]

/-- C35: in a reachable state, `increase_usages` followed by `decrease_usages`
on a live record gives back the state before the two calls (the usage count,
the sort index, the rebuild flag and every other field); and `decrease_usages`
on a live record with a count above 1 changes nothing but the count of that
record, which drops by one. -/
theorem usage_count_round_trip (cfg : config) (s : State) (id : Nat) (it : item)
    (hs : reachable cfg s) (hfind : find id s.layers = some it) :
    decrease_usages id (increase_usages id s) = s ∧
    (1 < it.usages →
      decrease_usages id s =
        { s with layers := replace { it with usages := it.usages - 1 } s.layers } ∧
      find id (decrease_usages id s).layers = some { it with usages := it.usages - 1 } ∧
      items (decrease_usages id s).layers =
        (items s.layers).map
          (fun x => if x.id = id then { it with usages := it.usages - 1 } else x)) := by
  have hm := members_inv_reachable cfg s hs
  have hn := members_inv_ids s hm
  have hid := find_id id _ it hfind
  have hpos : 0 < it.usages :=
    (hm.2 (member_info it) (List.mem_map.2 ⟨it, find_mem id _ it hfind, rfl⟩)).2
  refine ⟨?_, ?_⟩
  · have e1 : increase_usages id s =
        { s with layers := replace { it with usages := it.usages + 1 } s.layers } := by
      simp only [increase_usages, with_item, hfind]
    have hf1 : find id (increase_usages id s).layers =
        some { it with usages := it.usages + 1 } := by
      rw [e1]
      exact find_replace id _ it _ hfind hid
    unfold decrease_usages
    rw [hf1]
    simp only
    have hne : ¬ (it.usages + 1 - 1 = 0) := by omega
    rw [if_neg hne, e1]
    simp only
    rw [replace_replace { it with usages := it.usages + 1 }
      { it with usages := it.usages + 1 - 1 } s.layers rfl]
    have hit : ({ it with usages := it.usages + 1 - 1 } : item) = it := by
      have : it.usages + 1 - 1 = it.usages := by omega
      rw [this]
    rw [hit, replace_self id _ it hn hfind]
  · intro h1
    have hne : ¬ (it.usages - 1 = 0) := by omega
    have e : decrease_usages id s =
        { s with layers := replace { it with usages := it.usages - 1 } s.layers } := by
      simp only [decrease_usages, hfind, hne, if_false]
    refine ⟨e, ?_, ?_⟩
    · rw [e]
      exact find_replace id _ it _ hfind hid
    · rw [e]
      simp only
      rw [items_replace]
      apply List.map_congr_left
      intro x _
      simp only [hid]

theorem usage_count_round_trip_witness :
    reachable sample.cfg sample.s4 ∧ find 0 sample.s4.layers = some sample.r0 ∧
    decrease_usages 0 (increase_usages 0 sample.s4) = sample.s4 ∧
    (1 < sample.r0.usages →
      decrease_usages 0 sample.s4 =
        { sample.s4 with
          layers := replace { sample.r0 with usages := sample.r0.usages - 1 }
            sample.s4.layers } ∧
      find 0 (decrease_usages 0 sample.s4).layers =
        some { sample.r0 with usages := sample.r0.usages - 1 } ∧
      items (decrease_usages 0 sample.s4).layers =
        (items sample.s4.layers).map
          (fun x => if x.id = 0 then { sample.r0 with usages := sample.r0.usages - 1 }
            else x)) :=
  ⟨sample_s4_reachable, by decide,
    usage_count_round_trip sample.cfg sample.s4 0 sample.r0 sample_s4_reachable (by decide)⟩

end sprites_manager

end btn

namespace btn

namespace sprites_manager
open sorted_sprites

/-! ### Records hidden by the user -/

theorem tidy_hidden (it : item) (d : static_data) (r : item × static_data)
    (h : tidy_result it d r) (hi : hidden_ok it) : hidden_ok r.1 := by
  obtain ⟨_, _, _, _, h5, h6, _, _, _, h10, _⟩ := h
  intro hv
  rw [h6] at hv
  obtain ⟨a, b⟩ := hi hv
  refine ⟨by rw [h5]; exact a, ?_⟩
  rcases h10 with ⟨e, _⟩ | ⟨e, _⟩
  · rw [e]; exact b
  · rw [hv] at e; cases e

theorem check_items_on_screen_item_hidden (cfg : config) (camera_position : fixed_point)
    (it : item) (rb : Bool) (hi : hidden_ok it) :
    hidden_ok (_check_items_on_screen_item cfg camera_position it rb).1 := by
  by_cases hv : it.visible = true
  · intro hv'
    have e : (_check_items_on_screen_item cfg camera_position it rb).1.visible =
        it.visible := by
      unfold _check_items_on_screen_item
      split
      · simp only
        split <;> rfl
      · rfl
    rw [e, hv] at hv'
    cases hv'
  · have hv' : it.visible = false := by simpa using hv
    obtain ⟨_, b⟩ := hi hv'
    rw [(check_items_on_screen_item_fields cfg camera_position it rb).2.2.2.2.2 b]
    exact hi

theorem hidden_ok_of_eq (a b : item)
    (h : ({ a with handles_index := 0 } : item) = { b with handles_index := 0 })
    (hb : hidden_ok b) : hidden_ok a := by
  have e1 : a.visible = b.visible := by
    have h0 := congrArg item.visible h
    exact h0
  have e2 : a.on_screen = b.on_screen := by
    have h0 := congrArg item.on_screen h
    exact h0
  have e3 : a.check_on_screen = b.check_on_screen := by
    have h0 := congrArg item.check_on_screen h
    exact h0
  intro hv
  rw [e2, e3]
  exact hb (by rw [← e1]; exact hv)

theorem hidden_inv_for_each (f : item → static_data → item × static_data)
    (hf : ∀ it d, tidy_result it d (f it d)) (ls : List layer) (d : static_data)
    (h : ∀ x ∈ items ls, hidden_ok x) :
    ∀ x ∈ items (for_each_item f ls d).1, hidden_ok x := by
  have hi := for_each_item_items f ls d
  have h1 : items (for_each_item f ls d).1 = (for_each_in_layer f (items ls) d).1 := by
    rw [← hi]
  rw [h1]
  exact for_each_in_layer_pointwise f hidden_ok hidden_ok
    (fun it d0 hit => tidy_hidden it d0 _ (hf it d0) hit) (items ls) d h

theorem hidden_inv_update (cfg : config) (camera_position : fixed_point) (s s' : State)
    (h : hidden_inv s) (hs' : update cfg camera_position s = some s') : hidden_inv s' := by
  unfold update at hs'
  have h1 : hidden_inv (_check_affine_mats camera_position s) := by
    unfold _check_affine_mats
    split
    · exact hidden_inv_for_each _ (fun it d => tidy_check_affine_mats_item _ _ it d) _ _ h
    · exact h
  have h2 : hidden_inv (_check_items_on_screen cfg camera_position
      (_check_affine_mats camera_position s)) := by
    unfold _check_items_on_screen
    split
    · have hi := for_each_item_items (_check_items_on_screen_item cfg camera_position)
        (_check_affine_mats camera_position s).layers
        (_check_affine_mats camera_position s).data.rebuild_handles
      have e1 : items (for_each_item (_check_items_on_screen_item cfg camera_position)
          (_check_affine_mats camera_position s).layers
          (_check_affine_mats camera_position s).data.rebuild_handles).1 =
          (for_each_in_layer (_check_items_on_screen_item cfg camera_position)
            (items (_check_affine_mats camera_position s).layers)
            (_check_affine_mats camera_position s).data.rebuild_handles).1 := by rw [← hi]
      intro x hx
      simp only at hx
      rw [e1] at hx
      exact for_each_in_layer_pointwise _ hidden_ok hidden_ok
        (fun it rb hit => check_items_on_screen_item_hidden cfg camera_position it rb hit)
        _ _ h1 x hx
    · exact h1
  intro it hit
  have hmap := rebuild_handles_items cfg _ s' hs'
  have hmem : ({ it with handles_index := 0 } : item) ∈
      (items s'.layers).map (fun it => { it with handles_index := 0 }) :=
    List.mem_map.2 ⟨it, hit, rfl⟩
  rw [hmap] at hmem
  obtain ⟨it0, hit0, he⟩ := List.mem_map.1 hmem
  exact hidden_ok_of_eq it it0 he.symm (h2 it0 hit0)

theorem hidden_inv_reachable (cfg : config) (s : State) (h : reachable cfg s) :
    hidden_inv s := by
  refine reachable_induction cfg hidden_inv ?_ ?_ ?_ ?_ ?_ ?_ ?_ ?_ ?_ ?_ s h
  · intro m it hit
    simp [init, items] at hit
  · intro s m _ hi; exact hi
  · intro s cam b _ hi
    unfold create
    split
    · exact hi
    · split
      · exact hi
      · split
        · exact hi
        · intro x hx
          simp only at hx
          rcases List.mem_cons.1 ((items_insert_perm _ _).subset hx) with rfl | hx
          · have e : ∀ t p,
                (item.create cam s.affine_mats s.data.items_pool_size b t p).visible =
                  b.visible ∧
                (item.create cam s.affine_mats s.data.items_pool_size b t p).on_screen =
                  false ∧
                (item.create cam s.affine_mats s.data.items_pool_size b t
                  p).check_on_screen = b.visible := by
              intro t p
              unfold item.create
              simp only
              split <;> exact ⟨rfl, rfl, rfl⟩
            intro hv
            obtain ⟨e1, e2, e3⟩ := e _ _
            rw [e1] at hv
            exact ⟨e2, by rw [e3]; exact hv⟩
          · exact hi x hx
  · intro s id it r _ hi hfind ht x hx
    rcases mem_items_replace r.1 _ x hx with rfl | hx
    · exact tidy_hidden it _ _ ht (hi it (find_mem id _ it hfind))
    · exact hi x hx
  · intro s id it _ hi _ x hx
    simp only at hx
    rw [items_erase, List.mem_filter] at hx
    exact hi x hx.1
  · intro s id it h p z _ hi hfind x hx
    simp only at hx
    rcases List.mem_cons.1 ((items_insert_perm _ _).subset hx) with rfl | hx
    · exact hi it (find_mem id _ it hfind)
    · rw [items_erase, List.mem_filter] at hx
      exact hi x hx.1
  · intro s id v _ hi
    unfold set_visible with_item
    cases hfind : find id s.layers with
    | none => exact hi
    | some it =>
      intro x hx
      simp only at hx
      rcases mem_items_replace _ _ x hx with rfl | hx
      · cases v with
        | true =>
          intro hv
          simp only [if_true] at hv
          cases hv
        | false =>
          intro _
          exact ⟨rfl, rfl⟩
      · exact hi x hx
  · intro s f _ hi hf
    exact hidden_inv_for_each f hf _ _ hi
  · intro s s' cam _ hi hs'
    exact hidden_inv_update cfg cam s s' hi hs'
  · intro s _ hi x hx
    rw [commit_layers] at hx
    exact hi x hx

end sprites_manager

end btn
namespace btn

namespace sprites_manager
open sorted_sprites

theorem update_keeps_visible (cfg : config) (camera_position : fixed_point) (s s' : State)
    (hs' : update cfg camera_position s = some s') :
    (items s'.layers).map (fun x => (x.id, x.visible)) =
      (items s.layers).map (fun x => (x.id, x.visible)) := by
  unfold update at hs'
  have h1 : (items (_check_affine_mats camera_position s).layers).map
      (fun x => (x.id, x.visible)) = (items s.layers).map (fun x => (x.id, x.visible)) := by
    unfold _check_affine_mats
    split
    · exact for_each_item_map (fun x => (x.id, x.visible)) _
        (fun it d => by
          have ht := tidy_check_affine_mats_item camera_position s.affine_mats it d
          exact Prod.ext ht.1 ht.2.2.2.2.2.1) _ _
    · rfl
  have h2 : ∀ t : State, (items (_check_items_on_screen cfg camera_position t).layers).map
      (fun x => (x.id, x.visible)) = (items t.layers).map (fun x => (x.id, x.visible)) := by
    intro t
    unfold _check_items_on_screen
    split
    · exact for_each_item_map (fun x => (x.id, x.visible)) _
        (fun it rb => by
          unfold _check_items_on_screen_item
          split
          · simp only
            split <;> rfl
          · rfl) _ _
    · rfl
  have h3 := rebuild_handles_items cfg _ s' hs'
  have h4 := congrArg (List.map (fun x : item => (x.id, x.visible))) h3
  simp only [List.map_map, Function.comp_def] at h4
  rw [h4, h2, h1]

theorem find_update_visible (cfg : config) (camera_position : fixed_point) (s s' : State)
    (id : Nat) (it : item) (hs' : update cfg camera_position s = some s')
    (hfind : find id s.layers = some it) :
    ∃ it', find id s'.layers = some it' ∧ it'.visible = it.visible := by
  obtain ⟨b, hb, he⟩ := find_of_map_eq (fun x : item => (x.id, x.visible))
    (fun e => e.1 == id) id (fun _ => rfl) (items s.layers) (items s'.layers)
    (update_keeps_visible cfg camera_position s s' hs') it hfind
  exact ⟨b, hb, congrArg Prod.snd he⟩

/-- C36: in every reachable state a record with `visible == false` has
`on_screen == false` and `check_on_screen == false` (the record constructor,
as modelled, starts a record off screen and flags it only if it is visible);
and, with a table of at most 128 slots, after `set_visible(id, false)` on a live
record followed by `update()` the record is hidden, off screen and without a
slot, whatever its position. -/
theorem hidden_records_are_never_on_screen (cfg : config) (s : State)
    (hcap : cfg.sprites_count ≤ 128) (hs : reachable cfg s) :
    (∀ it ∈ items s.layers, it.visible = false →
      it.on_screen = false ∧ it.check_on_screen = false) ∧
    (∀ camera_position id it s', find id s.layers = some it →
      update cfg camera_position (set_visible id false s) = some s' →
      ∃ it', find id s'.layers = some it' ∧ it'.visible = false ∧
        it'.on_screen = false ∧ it'.check_on_screen = false ∧ it'.handles_index < 0) := by
  refine ⟨hidden_inv_reachable cfg s hs, ?_⟩
  intro camera_position id it s' hfind hs'
  have hid := find_id id _ it hfind
  have hr1 : reachable cfg (set_visible id false s) :=
    reachable.step s _ camera_position (op.set_visible id false) hs rfl
  have hr2 : reachable cfg s' :=
    reachable.step _ s' camera_position op.update hr1 hs'
  have hf1 : ∃ it1, find id (set_visible id false s).layers = some it1 ∧
      it1.visible = false := by
    simp only [set_visible, with_item, hfind, Bool.false_eq_true, if_false]
    exact ⟨_, find_replace id _ it _ hfind hid, rfl⟩
  obtain ⟨it1, g1, g2⟩ := hf1
  obtain ⟨it', k1, k2⟩ := find_update_visible cfg camera_position _ s' id it1 hs' g1
  have hv : it'.visible = false := by rw [k2]; exact g2
  have hmem := find_mem id _ it' k1
  obtain ⟨a, b⟩ := hidden_inv_reachable cfg s' hr2 it' hmem hv
  refine ⟨it', k1, hv, a, b, ?_⟩
  obtain ⟨_, _, d3⟩ := slots_inv_table cfg s' (slots_inv_reachable cfg s' hcap hr2)
  by_contra hneg
  have h0 : 0 ≤ it'.handles_index := by omega
  have := d3 (update_clears_rebuild_flag cfg camera_position _ s' hs') it' hmem h0
  rw [a] at this
  cases this

theorem hidden_records_are_never_on_screen_witness :
    sample.cfg.sprites_count ≤ 128 ∧ reachable sample.cfg sample.s4 ∧
    (∀ it ∈ items sample.s4.layers, it.visible = false →
      it.on_screen = false ∧ it.check_on_screen = false) ∧
    find 1 sample.s4.layers = some sample.r2 ∧
    update sample.cfg sample.camera (set_visible 1 false sample.s4) = some sample.s7 ∧
    ∃ it', find 1 sample.s7.layers = some it' ∧ it'.visible = false ∧
      it'.on_screen = false ∧ it'.check_on_screen = false ∧ it'.handles_index < 0 :=
  ⟨by decide, sample_s4_reachable,
    (hidden_records_are_never_on_screen sample.cfg sample.s4 (by decide)
      sample_s4_reachable).1,
    by decide, by decide,
    (hidden_records_are_never_on_screen sample.cfg sample.s4 (by decide)
      sample_s4_reachable).2 sample.camera 1 sample.r2 sample.s7 (by decide) (by decide)⟩

/-! ### Placement -/

theorem set_position_item_mirror (camera_position position : fixed_point) (it : item)
    (d : static_data) :
    (set_position_item camera_position position it d).1.handle.x =
      (if it.ignore_camera then position.x.integer
        else (position.x.sub camera_position.x).integer) ∧
    (set_position_item camera_position position it d).1.handle.y =
      (if it.ignore_camera then position.y.integer
        else (position.y.sub camera_position.y).integer) := by
  rw [(set_position_item_fields camera_position position it d).1]
  cases it.ignore_camera <;> exact ⟨rfl, rfl⟩

/-- C34: in a reachable state, after `set_position(id, p)` on a live record
`position(id) == p`, the position in the attribute block is
`(integer(p.x - cam.x), integer(p.y - cam.y))`, or `(integer(p.x), integer(p.y))`
when `ignore_camera` is set, and the record is flagged for evaluation if and
only if it is visible; `set_ignore_camera(id, v)` sets the flag to `v`, places
the attribute block by the same rule for the new flag at the unchanged
`position(id)`, and flags the record if and only if it is visible. -/
theorem set_position_stores_and_mirrors (cfg : config) (camera_position : fixed_point)
    (s : State) (id : Nat) (it : item)
    (hs : reachable cfg s) (hfind : find id s.layers = some it) :
    (∀ p, position id (set_position camera_position id p s) = some p ∧
      ∃ it', find id (set_position camera_position id p s).layers = some it' ∧
        it'.position = p ∧
        it'.handle.x = (if it.ignore_camera then p.x.integer
          else (p.x.sub camera_position.x).integer) ∧
        it'.handle.y = (if it.ignore_camera then p.y.integer
          else (p.y.sub camera_position.y).integer) ∧
        it'.visible = it.visible ∧ it'.ignore_camera = it.ignore_camera ∧
        (it'.check_on_screen = true ↔ it'.visible = true)) ∧
    (∀ v, position id (set_ignore_camera camera_position id v s) = position id s ∧
      ∃ it', find id (set_ignore_camera camera_position id v s).layers = some it' ∧
        it'.ignore_camera = v ∧ it'.position = it.position ∧
        it'.handle.x = (if v then it.position.x.integer
          else (it.position.x.sub camera_position.x).integer) ∧
        it'.handle.y = (if v then it.position.y.integer
          else (it.position.y.sub camera_position.y).integer) ∧
        it'.visible = it.visible ∧
        (it'.check_on_screen = true ↔ it'.visible = true)) := by
  have hh := hidden_inv_reachable cfg s hs it (find_mem id _ it hfind)
  have flag : ∀ (p : fixed_point) (x : item) (d : static_data),
      x.visible = it.visible → x.check_on_screen = it.check_on_screen →
      ((set_position_item camera_position p x d).1.check_on_screen = true ↔
        (set_position_item camera_position p x d).1.visible = true) := by
    intro p x d hxv hxc
    obtain ⟨_, _, f3, _, _, _, f7, f8⟩ := set_position_item_fields camera_position p x d
    rw [f3]
    constructor
    · intro hc
      by_contra hv
      have hv' : x.visible = false := by simpa using hv
      rw [f8 hv', hxc, (hh (by rw [← hxv]; exact hv')).2] at hc
      cases hc
    · intro hv
      exact f7 hv
  refine ⟨?_, ?_⟩
  · intro p
    obtain ⟨_, f2, f3, f4, f5, _⟩ := set_position_item_fields camera_position p it s.data
    obtain ⟨m1, m2⟩ := set_position_item_mirror camera_position p it s.data
    have hf : find id (set_position camera_position id p s).layers =
        some (set_position_item camera_position p it s.data).1 := by
      unfold set_position
      exact find_with_item id _ s it hfind f5
    refine ⟨?_, _, hf, f2, m1, m2, f3, f4, flag p it s.data rfl rfl⟩
    unfold position
    rw [hf]
    simp only [Option.map_some', f2]
  · intro v
    obtain ⟨_, f2, f3, f4, f5, _⟩ := set_position_item_fields camera_position it.position
      { it with ignore_camera := v } s.data
    obtain ⟨m1, m2⟩ := set_position_item_mirror camera_position it.position
      { it with ignore_camera := v } s.data
    have hf : find id (set_ignore_camera camera_position id v s).layers =
        some (set_position_item camera_position it.position
          { it with ignore_camera := v } s.data).1 := by
      unfold set_ignore_camera
      exact find_with_item id _ s it hfind f5
    refine ⟨?_, _, hf, f4, f2, m1, m2, f3,
      flag it.position { it with ignore_camera := v } s.data rfl rfl⟩
    unfold position
    rw [hf, hfind]
    simp only [Option.map_some', f2]

theorem sample_s7_reachable : reachable sample.cfg sample.s7 :=
  reachable.step sample.s6 sample.s7 sample.camera op.update sample_s6_reachable (by decide)

theorem set_position_stores_and_mirrors_witness :
    reachable sample.cfg sample.s7 ∧ find 1 sample.s7.layers = some sample.r1 ∧
    (∀ p, position 1 (set_position sample.camera 1 p sample.s7) = some p ∧
      ∃ it', find 1 (set_position sample.camera 1 p sample.s7).layers = some it' ∧
        it'.position = p ∧
        it'.handle.x = (if sample.r1.ignore_camera then p.x.integer
          else (p.x.sub sample.camera.x).integer) ∧
        it'.handle.y = (if sample.r1.ignore_camera then p.y.integer
          else (p.y.sub sample.camera.y).integer) ∧
        it'.visible = sample.r1.visible ∧ it'.ignore_camera = sample.r1.ignore_camera ∧
        (it'.check_on_screen = true ↔ it'.visible = true)) ∧
    (∀ v, position 1 (set_ignore_camera sample.camera 1 v sample.s7) =
        position 1 sample.s7 ∧
      ∃ it', find 1 (set_ignore_camera sample.camera 1 v sample.s7).layers = some it' ∧
        it'.ignore_camera = v ∧ it'.position = sample.r1.position ∧
        it'.handle.x = (if v then sample.r1.position.x.integer
          else (sample.r1.position.x.sub sample.camera.x).integer) ∧
        it'.handle.y = (if v then sample.r1.position.y.integer
          else (sample.r1.position.y.sub sample.camera.y).integer) ∧
        it'.visible = sample.r1.visible ∧
        (it'.check_on_screen = true ↔ it'.visible = true)) :=
  ⟨sample_s7_reachable, by decide,
    set_position_stores_and_mirrors sample.cfg sample.camera sample.s7 1 sample.r1
      sample_s7_reachable (by decide)⟩

end sprites_manager

end btn

namespace btn

namespace sprites_manager
open sorted_sprites

/-! ### Resynchronisation of the double-size flag -/

theorem _check_affine_mats_item_resync (camera_position : fixed_point)
    (m : affine_mats_state) (it : item) (d : static_data) (a : Nat)
    (hptr : it.affine_mat_ptr = some a)
    (hua : sprite_affine_mats_manager.updated_id m a = true)
    (hauto : it.double_size_mode = sprite_double_size_mode.AUTO)
    (hkeep : (it.remove_affine_mat_when_not_needed &&
      sprite_affine_mats_manager.is_identity m a) = false) :
    (_check_affine_mats_item camera_position m it d).1.handle.double_size =
      sprite_affine_mats_manager.double_size m a ∧
    (_check_affine_mats_item camera_position m it d).1.position = it.position ∧
    (_check_affine_mats_item camera_position m it d).1.ignore_camera = it.ignore_camera ∧
    (it.handle.double_size ≠ sprite_affine_mats_manager.double_size m a →
      (_check_affine_mats_item camera_position m it d).1.handle.x =
        (if it.ignore_camera then it.position.x.integer
          else (it.position.x.sub camera_position.x).integer) ∧
      (_check_affine_mats_item camera_position m it d).1.handle.y =
        (if it.ignore_camera then it.position.y.integer
          else (it.position.y.sub camera_position.y).integer) ∧
      (it.visible = true →
        (_check_affine_mats_item camera_position m it d).1.check_on_screen = true)) := by
  have key : ∀ h : handle,
      h.double_size = sprite_affine_mats_manager.double_size m a →
      (set_position_item camera_position it.position { it with handle := h } d).1.handle.double_size =
        sprite_affine_mats_manager.double_size m a ∧
      (set_position_item camera_position it.position { it with handle := h } d).1.position =
        it.position ∧
      (set_position_item camera_position it.position { it with handle := h } d).1.ignore_camera =
        it.ignore_camera ∧
      (set_position_item camera_position it.position { it with handle := h } d).1.handle.x =
        (if it.ignore_camera then it.position.x.integer
          else (it.position.x.sub camera_position.x).integer) ∧
      (set_position_item camera_position it.position { it with handle := h } d).1.handle.y =
        (if it.ignore_camera then it.position.y.integer
          else (it.position.y.sub camera_position.y).integer) ∧
      (it.visible = true →
        (set_position_item camera_position it.position { it with handle := h }
          d).1.check_on_screen = true) := by
    intro h hh
    obtain ⟨f1, f2, _, f4, _, _, f7, _⟩ := set_position_item_fields camera_position it.position
      { it with handle := h } d
    obtain ⟨m1, m2⟩ := set_position_item_mirror camera_position it.position
      { it with handle := h } d
    refine ⟨?_, f2, f4, m1, m2, f7⟩
    rw [f1]
    exact hh
  unfold _check_affine_mats_item
  split
  · rename_i h
    rw [hptr] at h
    cases h
  · rename_i b h
    rw [hptr, Option.some.injEq] at h
    subst h
    rw [if_pos hua, if_neg (by rw [hkeep]; exact Bool.false_ne_true), if_pos hauto]
    by_cases he : it.handle.double_size = sprite_affine_mats_manager.double_size m a
    · have hb : ¬ (it.handle.double_size != sprite_affine_mats_manager.double_size m a) =
          true := by simp [he]
      simp only
      rw [if_neg hb]
      exact ⟨he, rfl, rfl, fun h => absurd he h⟩
    · have hb : (it.handle.double_size != sprite_affine_mats_manager.double_size m a) =
          true := by simpa using he
      simp only
      rw [if_pos hb]
      obtain ⟨k1, k2, k3, k4, k5, k6⟩ := key
        (hw.sprites.set_affine_mat a (sprite_affine_mats_manager.double_size m a) it.handle)
        rfl
      exact ⟨k1, k2, k3, fun _ => ⟨k4, k5, k6⟩⟩

/-- C33: let `update()` complete from a reachable state in which the transform
pool reports a change and reports the transform `a` changed. For every live
record that holds `a`, is in AUTO double-size mode and is not detached by this
`update()` (its detach policy is off or `a` is not the identity), the
double-size flag of the attribute block afterwards equals the size class the
pool reports for `a`; and if the flag changed, the attribute block is placed at
the camera-adjusted position of the record and, if the record is visible, its
`on_screen` value is the one computed by the visibility pass of this
`update()`. -/
theorem changed_transform_resyncs_double_size (cfg : config)
    (camera_position : fixed_point) (s s' : State) (id a : Nat) (it : item)
    (hs : reachable cfg s) (hs' : update cfg camera_position s = some s')
    (hfind : find id s.layers = some it) (hptr : it.affine_mat_ptr = some a)
    (hu : sprite_affine_mats_manager.updated s.affine_mats = true)
    (hua : sprite_affine_mats_manager.updated_id s.affine_mats a = true)
    (hauto : it.double_size_mode = sprite_double_size_mode.AUTO)
    (hkeep : (it.remove_affine_mat_when_not_needed &&
      sprite_affine_mats_manager.is_identity s.affine_mats a) = false) :
    ∃ it', find id s'.layers = some it' ∧
      it'.handle.double_size = sprite_affine_mats_manager.double_size s.affine_mats a ∧
      it'.position = it.position ∧
      (it.handle.double_size ≠ sprite_affine_mats_manager.double_size s.affine_mats a →
        it'.handle.x = (if it.ignore_camera then it.position.x.integer
          else (it.position.x.sub camera_position.x).integer) ∧
        it'.handle.y = (if it.ignore_camera then it.position.y.integer
          else (it.position.y.sub camera_position.y).integer) ∧
        (it.visible = true → it'.on_screen = compute_on_screen cfg camera_position it')) := by
  have hfl := flags_inv_check_affine_mats camera_position s (flags_inv_reachable cfg s hs)
  unfold update at hs'
  have hf1 : ∃ d0, find id (_check_affine_mats camera_position s).layers =
      some (_check_affine_mats_item camera_position s.affine_mats it d0).1 := by
    unfold _check_affine_mats
    rw [if_pos hu]
    exact find_for_each_item (_check_affine_mats_item camera_position s.affine_mats)
      (fun x d => (tidy_check_affine_mats_item camera_position s.affine_mats x d).1)
      s.layers s.data id it hfind
  obtain ⟨d0, g1⟩ := hf1
  obtain ⟨r1, r2, r3, r4⟩ := _check_affine_mats_item_resync camera_position s.affine_mats it
    d0 a hptr hua hauto hkeep
  obtain ⟨it2, k1, k2, k3, k4, k5, _⟩ := find_check_items_on_screen cfg camera_position _ id
    _ hfl g1
  obtain ⟨it', m1, m2, m3, m4, m5⟩ := find_rebuild_handles cfg _ s' id it2 hs' k1
  refine ⟨it', m1, by rw [m3, k3]; exact r1, by rw [m2, k2]; exact r2, ?_⟩
  intro hne
  obtain ⟨x1, x2, x3⟩ := r4 hne
  refine ⟨by rw [m3, k3]; exact x1, by rw [m3, k3]; exact x2, ?_⟩
  intro hv
  rw [m5, k5 (x3 hv)]
  exact compute_on_screen_congr cfg camera_position _ it'
    (by rw [m2, k2]) (by rw [m4, k4]) (by rw [m3, k3])

theorem changed_transform_resyncs_double_size_witness :
    reachable sample.cfg sample.s17 ∧
    update sample.cfg sample.camera sample.s17 = some sample.s18 ∧
    find 0 sample.s17.layers = some sample.r7 ∧ sample.r7.affine_mat_ptr = some 0 ∧
    sample.r7.handle.double_size ≠
      sprite_affine_mats_manager.double_size sample.s17.affine_mats 0 ∧
    sample.r7.visible = true ∧
    ∃ it', find 0 sample.s18.layers = some it' ∧
      it'.handle.double_size =
        sprite_affine_mats_manager.double_size sample.s17.affine_mats 0 ∧
      it'.position = sample.r7.position ∧
      (sample.r7.handle.double_size ≠
          sprite_affine_mats_manager.double_size sample.s17.affine_mats 0 →
        it'.handle.x = (if sample.r7.ignore_camera then sample.r7.position.x.integer
          else (sample.r7.position.x.sub sample.camera.x).integer) ∧
        it'.handle.y = (if sample.r7.ignore_camera then sample.r7.position.y.integer
          else (sample.r7.position.y.sub sample.camera.y).integer) ∧
        (sample.r7.visible = true →
          it'.on_screen = compute_on_screen sample.cfg sample.camera it')) :=
  ⟨sample_s17_reachable, by decide, by decide, by decide, by decide, by decide,
    changed_transform_resyncs_double_size sample.cfg sample.camera sample.s17 sample.s18 0 0
      sample.r7 sample_s17_reachable (by decide) (by decide) (by decide) (by decide)
      (by decide) (by decide) (by decide)⟩

end sprites_manager

end btn

namespace btn

namespace sprites_manager
open sorted_sprites

/-! ### The transfer issued by `commit()` -/

theorem range_ok_congr (cap : Nat) (d d' : static_data)
    (h1 : d'.first_index_to_commit = d.first_index_to_commit)
    (h2 : d'.last_index_to_commit = d.last_index_to_commit) (h : range_ok cap d) :
    range_ok cap d' := by
  unfold range_ok at h ⊢
  rw [h1, h2]
  exact h

theorem tidy_range_ok (cap : Nat) (it : item) (d : static_data) (r : item × static_data)
    (ht : tidy_result it d r)
    (hb : 0 ≤ it.handles_index → it.handles_index < (cap : Int))
    (h : range_ok cap d) : range_ok cap r.2 := by
  obtain ⟨_, h2, _, _, _, _, _, _, _, _, h11⟩ := ht
  rcases h11 with ⟨_, _, e1, e2⟩ | ⟨_, e1, e2⟩
  · exact range_ok_congr cap d r.2 e1 e2 h
  · have hr := _update_handles_range r.1 d
    rw [h2] at hr
    by_cases h0 : it.handles_index ≥ 0
    · rw [if_pos h0] at hr
      have hr1 := congrArg Prod.fst hr
      have hr2 := congrArg Prod.snd hr
      simp only at hr1 hr2
      have hlt := hb h0
      unfold range_ok at h ⊢
      rw [e1, e2, hr1, hr2]
      have m1 := min_le_left d.first_index_to_commit it.handles_index
      have m2 := min_le_right d.first_index_to_commit it.handles_index
      have m3 := le_max_left d.last_index_to_commit it.handles_index
      have m4 := le_max_right d.last_index_to_commit it.handles_index
      rcases min_choice d.first_index_to_commit it.handles_index with c1 | c1 <;>
        rcases max_choice d.last_index_to_commit it.handles_index with c2 | c2 <;>
        rw [c1, c2] <;> rw [c1] at m1 m2 <;> rw [c2] at m3 m4 <;> omega
    · rw [if_neg h0] at hr
      have hr1 := congrArg Prod.fst hr
      have hr2 := congrArg Prod.snd hr
      simp only at hr1 hr2
      exact range_ok_congr cap d r.2 (e1.trans hr1) (e2.trans hr2) h

theorem for_each_in_layer_data_inv (P : static_data → Prop)
    (f : item → static_data → item × static_data) (l : List item) (d : static_data)
    (hstep : ∀ x ∈ l, ∀ d0, P d0 → P (f x d0).2) (h : P d) :
    P (for_each_in_layer f l d).2 := by
  induction l generalizing d with
  | nil => exact h
  | cons y ys ih =>
    simp only [for_each_in_layer]
    exact ih _ (fun x hx => hstep x (List.mem_cons_of_mem _ hx))
      (hstep y (List.mem_cons_self _ _) d h)

theorem range_ok_for_each (cap : Nat) (f : item → static_data → item × static_data)
    (hf : ∀ it d, tidy_result it d (f it d)) (ls : List layer) (d : static_data)
    (hb : ∀ x ∈ items ls, 0 ≤ x.handles_index → x.handles_index < (cap : Int))
    (h : range_ok cap d) : range_ok cap (for_each_item f ls d).2 := by
  have hi := for_each_item_items f ls d
  have e2 : (for_each_item f ls d).2 = (for_each_in_layer f (items ls) d).2 := by rw [← hi]
  rw [e2]
  exact for_each_in_layer_data_inv (range_ok cap) f (items ls) d
    (fun x hx d0 h0 => tidy_range_ok cap x d0 _ (hf x d0) (hb x hx) h0) h

theorem commit_range (cfg : config) (s : State) :
    ((commit cfg s).data.first_index_to_commit = (cfg.sprites_count : Int) ∧
      (commit cfg s).data.last_index_to_commit = 0) ∨
    ((commit cfg s).data.first_index_to_commit = s.data.first_index_to_commit ∧
      (commit cfg s).data.last_index_to_commit = s.data.last_index_to_commit) := by
  unfold commit
  simp only
  split
  · exact Or.inl ⟨rfl, rfl⟩
  · exact Or.inr ⟨rfl, rfl⟩

theorem range_inv_update (cfg : config) (camera_position : fixed_point) (s s' : State)
    (hcap : cfg.sprites_count ≤ 128) (hs : reachable cfg s) (h : range_inv cfg s)
    (hs' : update cfg camera_position s = some s') : range_inv cfg s' := by
  have hu := slots_in_use_reachable cfg hcap s hs
  obtain ⟨_, d2, _⟩ := slots_inv_table cfg s (slots_inv_reachable cfg s hcap hs)
  unfold update at hs'
  obtain ⟨_, _, a3, _, _⟩ := check_affine_mats_range camera_position s hu
  have h1 : range_ok cfg.sprites_count (_check_affine_mats camera_position s).data := by
    unfold _check_affine_mats
    split
    · exact range_ok_for_each cfg.sprites_count _
        (fun it d => tidy_check_affine_mats_item _ _ it d) _ _ d2 h.1
    · exact h.1
  obtain ⟨b1, b2, b3, _⟩ := check_items_on_screen_range cfg camera_position
    (_check_affine_mats camera_position s)
  have h2 := range_ok_congr cfg.sprites_count _ _ b1 b2 h1
  have c3 := b3.trans a3
  revert hs' h2 c3
  generalize _check_items_on_screen cfg camera_position
    (_check_affine_mats camera_position s) = p
  intro hs' h2 c3
  by_cases hflag : p.data.rebuild_handles = true
  · cases hr : for_each_item_checked (_rebuild_handles_item cfg) p.layers
        (0, p.data.handles) with
    | none => simp [_rebuild_handles, hflag, hr] at hs'
    | some r =>
      obtain ⟨s2, hs2, _, _, _, _, _, _, hlast, _, hne, heq⟩ :=
        _rebuild_handles_result cfg p r hflag hr
      rw [hs2, Option.some.injEq] at hs'
      subst hs'
      have hq := flat_of_for_each_item_checked _ _ _ _ hr
      have hb := rebuild_loop_bound cfg _ _ _ _ hq
      obtain ⟨k1, _⟩ := rebuild_loop_spec cfg (items p.layers) 0 p.data.handles _ hq
      simp only at k1
      have hcount : (r.2.1 : Int) ≤ (cfg.sprites_count : Int) := by omega
      have hprev := h.2
      rw [c3] at hne heq
      have hM1 := le_max_left s.data.last_visible_items_count (r.2.1 : Int)
      have hM2 := le_max_right s.data.last_visible_items_count (r.2.1 : Int)
      have hM3 : max s.data.last_visible_items_count (r.2.1 : Int) ≤
          (cfg.sprites_count : Int) := max_le hprev hcount
      refine ⟨?_, by rw [hlast]; exact hcount⟩
      by_cases hM : max s.data.last_visible_items_count (r.2.1 : Int) = 0
      · obtain ⟨e1, e2⟩ := heq hM
        exact range_ok_congr cfg.sprites_count _ _ e1 e2 h2
      · obtain ⟨e1, e2⟩ := hne hM
        unfold range_ok
        rw [e1, e2]
        right
        have : (0 : Int) ≤ (r.2.1 : Int) := Int.ofNat_nonneg _
        omega
  · simp only [_rebuild_handles, hflag] at hs'
    simp only [Bool.false_eq_true, if_false, Option.some.injEq] at hs'
    rw [← hs']
    exact ⟨h2, by rw [c3]; exact h.2⟩

theorem range_inv_reachable (cfg : config) (hcap : cfg.sprites_count ≤ 128) (s : State)
    (h : reachable cfg s) : range_inv cfg s := by
  refine reachable_induction cfg (range_inv cfg) ?_ ?_ ?_ ?_ ?_ ?_ ?_ ?_ ?_ ?_ s h
  · intro m
    exact ⟨Or.inl ⟨rfl, rfl⟩, Int.ofNat_nonneg _⟩
  · intro s m _ hi; exact hi
  · intro s cam b _ hi
    obtain ⟨c1, c2, c3, _⟩ := create_range cfg cam b s
    exact ⟨range_ok_congr _ _ _ c1 c2 hi.1, by rw [c3]; exact hi.2⟩
  · intro s id it r hs hi hfind ht
    obtain ⟨_, d2, _⟩ := slots_inv_table cfg s (slots_inv_reachable cfg s hcap hs)
    refine ⟨tidy_range_ok _ it s.data r ht (d2 it (find_mem id _ it hfind)) hi.1, ?_⟩
    simp only
    rw [ht.2.2.2.2.2.2.2.1]
    exact hi.2
  · intro s id it _ hi _
    obtain ⟨f1, f2, f3⟩ := flag_range s.data (it.on_screen = true)
    exact ⟨range_ok_congr _ _ _ f1 f2 hi.1, by simp only; rw [f3]; exact hi.2⟩
  · intro s id it h p z _ hi _
    obtain ⟨f1, f2, f3⟩ := flag_range s.data (it.on_screen = true)
    exact ⟨range_ok_congr _ _ _ f1 f2 hi.1, by simp only; rw [f3]; exact hi.2⟩
  · intro s id v _ hi
    obtain ⟨v1, v2, v3, _⟩ := set_visible_range id v s
    exact ⟨range_ok_congr _ _ _ v1 v2 hi.1, by rw [v3]; exact hi.2⟩
  · intro s f hs hi hf
    obtain ⟨_, d2, _⟩ := slots_inv_table cfg s (slots_inv_reachable cfg s hcap hs)
    refine ⟨range_ok_for_each _ f hf _ _ d2 hi.1, ?_⟩
    simp only
    rw [(for_each_item_range f hf s (slots_in_use_reachable cfg hcap s hs)).2.2.1]
    exact hi.2
  · intro s s' cam hs hi hs'
    exact range_inv_update cfg cam s s' hcap hs hi hs'
  · intro s _ hi
    refine ⟨?_, by rw [(commit_table cfg s).2.2]; exact hi.2⟩
    rcases commit_range cfg s with ⟨e1, e2⟩ | ⟨e1, e2⟩
    · exact Or.inl ⟨e1, e2⟩
    · exact range_ok_congr _ _ _ e1 e2 hi.1

theorem commit_transfer_bounds (cfg : config) (s : State)
    (h : range_ok cfg.sprites_count s.data) (t : Int × Int)
    (ht : (commit cfg s).transfers = t :: s.transfers) :
    (s.affine_mats.commit_data = none → 0 ≤ t.1 ∧ 1 ≤ t.2 ∧ t.1 + t.2 ≤ cfg.sprites_count) ∧
    (∀ (offset count : Int) (k : Nat), s.affine_mats.commit_data = some (offset, count) →
      0 ≤ offset → 1 ≤ count → offset + count ≤ (cfg.affine_mats_count : Int) →
      cfg.sprites_count = k * cfg.affine_mats_count →
      0 ≤ t.1 ∧ 1 ≤ t.2 ∧ t.1 + t.2 ≤ cfg.sprites_count) := by
  unfold range_ok at h
  refine ⟨?_, ?_⟩
  · intro hcd
    unfold commit at ht
    simp only [sprite_affine_mats_manager.retrieve_commit_data, hcd] at ht
    split at ht
    · rename_i hlt
      simp only [List.cons.injEq, and_true] at ht
      rw [← ht]
      simp only
      omega
    · exact absurd ht.symm (List.cons_ne_self _ _)
  · intro offset count k hcd ho hc hoc hk
    have hkI : (cfg.sprites_count : Int) = (k : Int) * (cfg.affine_mats_count : Int) := by
      rw [hk]; push_cast; rfl
    have htc : (cfg.affine_mats_count : Int) ≠ 0 := by omega
    have hmul : (cfg.sprites_count : Int).tdiv (cfg.affine_mats_count : Int) = (k : Int) := by
      rw [hkI]
      exact Int.mul_tdiv_cancel _ htc
    have hk0 : (0 : Int) ≤ (k : Int) := Int.ofNat_nonneg _
    have hkz : ((k : Int) = 0 ∧ (cfg.sprites_count : Int) = 0) ∨ 1 ≤ (k : Int) := by
      rcases Nat.eq_zero_or_pos k with h0 | h0
      · left
        rw [hkI, h0]
        exact ⟨rfl, by simp⟩
      · right
        omega
    have hA : 0 ≤ offset * (k : Int) := mul_nonneg ho hk0
    have hB : (k : Int) ≤ count * (k : Int) := by
      have := mul_le_mul_of_nonneg_right hc hk0
      simpa using this
    have hAB : offset * (k : Int) + count * (k : Int) ≤ (cfg.sprites_count : Int) := by
      have := mul_le_mul_of_nonneg_right hoc hk0
      rw [add_mul] at this
      rw [hkI, mul_comm (k : Int) (cfg.affine_mats_count : Int)]
      exact this
    unfold commit at ht
    simp only [sprite_affine_mats_manager.retrieve_commit_data, hcd, hmul] at ht
    have m1 := min_le_left s.data.first_index_to_commit (offset * (k : Int))
    have m2 := min_le_right s.data.first_index_to_commit (offset * (k : Int))
    have m3 := le_max_left s.data.last_index_to_commit
      (offset * (k : Int) + count * (k : Int) - 1)
    have m4 := le_max_right s.data.last_index_to_commit
      (offset * (k : Int) + count * (k : Int) - 1)
    have c1 := min_choice s.data.first_index_to_commit (offset * (k : Int))
    have c2 := max_choice s.data.last_index_to_commit
      (offset * (k : Int) + count * (k : Int) - 1)
    clear hk hkI hmul
    revert ht m1 m2 m3 m4 c1 c2
    generalize min s.data.first_index_to_commit (offset * (k : Int)) = lo
    generalize max s.data.last_index_to_commit
      (offset * (k : Int) + count * (k : Int) - 1) = hi
    generalize offset * (k : Int) = A at hA hAB
    generalize count * (k : Int) = B at hB hAB
    intro ht m1 m2 m3 m4 c1 c2
    split at ht
    · rename_i hlt
      simp only [List.cons.injEq, and_true] at ht
      rw [← ht]
      simp only
      omega
    · exact absurd ht.symm (List.cons_ne_self _ _)

/-- C37: with a table of at most 128 slots, in every reachable state the
stored pending range is either empty (`first` is the capacity, `last` is 0) or
satisfies `0 <= first <= last < capacity`; and a transfer issued by `commit()`
has `first >= 0`, length at least 1 and `first + length <= capacity`, when the
transform pool reports no range, or a range `(offset, count)` with
`offset >= 0`, `count >= 1` and `offset + count` at most the transform
capacity, the sprite capacity being a multiple of the transform capacity. -/
theorem commit_transfers_inside_table (cfg : config) (s : State)
    (hcap : cfg.sprites_count ≤ 128) (hs : reachable cfg s) :
    ((s.data.first_index_to_commit = (cfg.sprites_count : Int) ∧
        s.data.last_index_to_commit = 0) ∨
      (0 ≤ s.data.first_index_to_commit ∧
        s.data.first_index_to_commit ≤ s.data.last_index_to_commit ∧
        s.data.last_index_to_commit < (cfg.sprites_count : Int))) ∧
    (∀ t, (commit cfg s).transfers = t :: s.transfers →
      (s.affine_mats.commit_data = none →
        0 ≤ t.1 ∧ 1 ≤ t.2 ∧ t.1 + t.2 ≤ cfg.sprites_count) ∧
      (∀ (offset count : Int) (k : Nat),
        s.affine_mats.commit_data = some (offset, count) →
        0 ≤ offset → 1 ≤ count → offset + count ≤ (cfg.affine_mats_count : Int) →
        cfg.sprites_count = k * cfg.affine_mats_count →
        0 ≤ t.1 ∧ 1 ≤ t.2 ∧ t.1 + t.2 ≤ cfg.sprites_count)) := by
  have h := (range_inv_reachable cfg hcap s hs).1
  exact ⟨h, fun t ht => commit_transfer_bounds cfg s h t ht⟩

theorem sample_s5_reachable : reachable sample.cfg sample.s5 :=
  reachable.pool sample.s4 _ sample_s4_reachable

theorem commit_transfers_inside_table_witness :
    sample.cfg.sprites_count ≤ 128 ∧ reachable sample.cfg sample.s5 ∧
    (0 ≤ sample.s5.data.first_index_to_commit ∧
      sample.s5.data.first_index_to_commit ≤ sample.s5.data.last_index_to_commit ∧
      sample.s5.data.last_index_to_commit < (sample.cfg.sprites_count : Int)) ∧
    (commit sample.cfg sample.s5).transfers = (0, 4) :: sample.s5.transfers ∧
    sample.s5.affine_mats.commit_data = some (1, 1) ∧
    sample.cfg.sprites_count = 2 * sample.cfg.affine_mats_count ∧
    (0 ≤ ((0, 4) : Int × Int).1 ∧ 1 ≤ ((0, 4) : Int × Int).2 ∧
      ((0, 4) : Int × Int).1 + ((0, 4) : Int × Int).2 ≤ sample.cfg.sprites_count) :=
  ⟨by decide, sample_s5_reachable, by decide, by decide, by decide, by decide,
    ((commit_transfers_inside_table sample.cfg sample.s5 (by decide)
      sample_s5_reachable).2 (0, 4) (by decide)).2 1 1 2 (by decide) (by decide) (by decide)
      (by decide) (by decide)⟩

end sprites_manager

end btn

namespace btn
namespace sprites_manager
open sorted_sprites

/-! ### The visibility flag after `update()` -/

theorem reachable_of_reachable_placed (cfg : config) (camera_position : fixed_point)
    (s : State) (h : reachable_placed cfg camera_position s) : reachable cfg s := by
  induction h with
  | init c m => exact reachable.init m
  | step s s' c o _ _ _ ha ih => exact reachable.step s s' c o ih ha
  | camera s c c' _ ih => exact reachable.step s _ c' op.update_camera ih rfl
  | pool s c m _ ih => exact reachable.pool s m ih

/-- A record that agrees with a consistent record on the shape, the
double-size flag, the position and the visibility flags is consistent. -/
theorem evaluation_of_eq (cfg : config) (camera_position : fixed_point) (a b : item)
    (h : evaluation_pending_or_done cfg camera_position a)
    (h1 : b.handle.shape_width = a.handle.shape_width)
    (h2 : b.handle.shape_height = a.handle.shape_height)
    (h3 : b.handle.double_size = a.handle.double_size)
    (h4 : b.position = a.position) (h5 : b.ignore_camera = a.ignore_camera)
    (h6 : b.visible = a.visible) (h7 : b.on_screen = a.on_screen)
    (h8 : b.check_on_screen = a.check_on_screen) :
    evaluation_pending_or_done cfg camera_position b := by
  have hd : hw.sprites.dimensions b.handle = hw.sprites.dimensions a.handle := by
    unfold hw.sprites.dimensions
    rw [h1, h2, h3]
  unfold evaluation_pending_or_done
  rw [h1, h2, h6, h7, h8, footprint_congr cfg camera_position a b h4 h5 hd]
  exact h

/-- Placing a record at any position leaves it consistent: a visible record is
flagged, a hidden one stays off screen. -/
theorem evaluation_place (cfg : config) (camera_position position : fixed_point)
    (it : item) (d : static_data)
    (hshape : 0 < it.handle.shape_width ∧ 0 < it.handle.shape_height)
    (hoff : it.visible = false → it.on_screen = false ∧ it.check_on_screen = false) :
    evaluation_pending_or_done cfg camera_position
      (set_position_item camera_position position it d).1 :=
  (evaluation_set_position_item cfg camera_position
    ({ it with position := position } : item) d hshape hoff).1

/-- A record that ignores the camera is consistent wherever the camera is. -/
theorem evaluation_ignore_camera (cfg : config) (camera_position new_position : fixed_point)
    (it : item) (hi : it.ignore_camera = true)
    (h : evaluation_pending_or_done cfg camera_position it) :
    evaluation_pending_or_done cfg new_position it := by
  have hf : footprint_intersects_display cfg new_position it ↔
      footprint_intersects_display cfg camera_position it := by
    unfold footprint_intersects_display footprint_x footprint_y real_position
    simp only [hi, Bool.not_true, Bool.false_eq_true, if_false]
  unfold evaluation_pending_or_done at h ⊢
  rw [hf]
  exact h

theorem evaluation_replace (cfg : config) (camera_position : fixed_point) (ls : List layer)
    (it' : item)
    (hE : ∀ it ∈ items ls, evaluation_pending_or_done cfg camera_position it)
    (h : evaluation_pending_or_done cfg camera_position it') :
    ∀ it ∈ items (replace it' ls), evaluation_pending_or_done cfg camera_position it := by
  intro x hx
  rcases mem_items_replace it' ls x hx with rfl | hx
  · exact h
  · exact hE x hx

theorem evaluation_erase (cfg : config) (camera_position : fixed_point) (ls : List layer)
    (id : Nat)
    (hE : ∀ it ∈ items ls, evaluation_pending_or_done cfg camera_position it) :
    ∀ it ∈ items (erase id ls), evaluation_pending_or_done cfg camera_position it := by
  intro x hx
  rw [items_erase] at hx
  exact hE x (List.mem_of_mem_filter hx)

theorem evaluation_insert (cfg : config) (camera_position : fixed_point) (ls : List layer)
    (it' : item)
    (hE : ∀ it ∈ items ls, evaluation_pending_or_done cfg camera_position it)
    (h : evaluation_pending_or_done cfg camera_position it') :
    ∀ it ∈ items (sorted_sprites.insert it' ls),
      evaluation_pending_or_done cfg camera_position it := by
  intro x hx
  rcases List.mem_cons.1 ((items_insert_perm it' ls).subset hx) with rfl | hx
  · exact h
  · exact hE x hx

theorem evaluation_with_item (cfg : config) (camera_position : fixed_point) (id : Nat)
    (f : item → static_data → item × static_data) (s : State)
    (hE : ∀ it ∈ items s.layers, evaluation_pending_or_done cfg camera_position it)
    (hf : ∀ it, find id s.layers = some it →
      evaluation_pending_or_done cfg camera_position it →
      evaluation_pending_or_done cfg camera_position (f it s.data).1) :
    ∀ it ∈ items (with_item id f s).layers,
      evaluation_pending_or_done cfg camera_position it := by
  unfold with_item
  cases hfind : find id s.layers with
  | none => exact hE
  | some it =>
    exact evaluation_replace cfg camera_position s.layers _ hE
      (hf it hfind (hE it (find_mem id s.layers it hfind)))

theorem evaluation_for_each (cfg : config) (camera_position new_position : fixed_point)
    (f : item → static_data → item × static_data) (s : State)
    (hE : ∀ it ∈ items s.layers, evaluation_pending_or_done cfg camera_position it)
    (hf : ∀ it d, evaluation_pending_or_done cfg camera_position it →
      evaluation_pending_or_done cfg new_position (f it d).1) :
    ∀ it ∈ items (for_each_item f s.layers s.data).1,
      evaluation_pending_or_done cfg new_position it := by
  have hi := for_each_item_items f s.layers s.data
  have h1 : items (for_each_item f s.layers s.data).1 =
      (for_each_in_layer f (items s.layers) s.data).1 := by rw [← hi]
  rw [h1]
  exact for_each_in_layer_pointwise f _ _ hf (items s.layers) s.data hE

/-- A record that is off screen and flagged exactly when it is visible is
consistent. -/
theorem evaluation_fresh (cfg : config) (camera_position : fixed_point) (it : item)
    (hshape : 0 < it.handle.shape_width ∧ 0 < it.handle.shape_height)
    (hon : it.on_screen = false) (hc : it.check_on_screen = it.visible) :
    evaluation_pending_or_done cfg camera_position it := by
  refine ⟨hshape, fun h0 => hc ▸ h0, fun h0 => ?_⟩
  rw [hon, ← hc, h0]
  simp

theorem evaluation_create_item (cfg : config) (camera_position : fixed_point)
    (m : affine_mats_state) (id : Nat) (b : sprite_builder) (tiles : sprite_tiles_ptr)
    (palette : sprite_palette_ptr) (hshape : 0 < b.shape_width ∧ 0 < b.shape_height) :
    evaluation_pending_or_done cfg camera_position
      (item.create camera_position m id b tiles palette) := by
  apply evaluation_fresh
  · unfold item.create
    simp only
    split <;> exact hshape
  · unfold item.create
    simp only
    split <;> rfl
  · unfold item.create
    simp only
    split <;> rfl

theorem evaluation_set_visible_item (cfg : config) (camera_position : fixed_point)
    (it : item) (v : Bool) (d1 d2 : static_data)
    (h : evaluation_pending_or_done cfg camera_position it) :
    evaluation_pending_or_done cfg camera_position
      (if v = true then
        (({ it with visible := v, check_on_screen := true } : item), d1)
      else (({ it with visible := v, on_screen := false, check_on_screen := false } : item),
        d2)).1 := by
  cases v with
  | true => exact ⟨h.1, fun _ => rfl, fun h0 => absurd h0 (by simp)⟩
  | false =>
    refine ⟨h.1, fun h0 => absurd h0 (by simp), fun _ => ?_⟩
    simp

theorem evaluation_assign_affine_mat (cfg : config) (camera_position : fixed_point)
    (m : affine_mats_state) (a : Nat) (it : item) (d : static_data)
    (h : evaluation_pending_or_done cfg camera_position it)
    (hns : it.handle.double_size = true →
      (({ it with affine_mat_ptr := some a } : item).double_size m) = false →
      it.visible = false ∨ it.check_on_screen = true) :
    evaluation_pending_or_done cfg camera_position
      (_assign_affine_mat camera_position m a it d).1 := by
  unfold _assign_affine_mat
  simp only
  split
  · exact evaluation_place cfg camera_position _ _ d h.1
      (fun hv => evaluation_hidden cfg camera_position it h hv)
  · rename_i hds
    have hnew : (({ it with affine_mat_ptr := some a } : item).double_size m) = false := by
      simpa using hds
    by_cases hold : it.handle.double_size = true
    · rcases hns hold hnew with hv | hc
      · obtain ⟨h1, h2⟩ := evaluation_hidden cfg camera_position it h hv
        refine ⟨h.1, fun h0 => absurd (h2.symm.trans h0) Bool.false_ne_true, fun _ => ?_⟩
        constructor
        · intro h0; exact absurd (h1.symm.trans h0) Bool.false_ne_true
        · intro h0; exact absurd (hv.symm.trans h0.1) Bool.false_ne_true
      · exact ⟨h.1, h.2.1, fun h0 => absurd (hc.symm.trans h0) (by simp)⟩
    · have hold' : it.handle.double_size = false := by simpa using hold
      refine evaluation_of_eq cfg camera_position it _ h rfl rfl ?_ rfl rfl rfl rfl rfl
      show (({ it with affine_mat_ptr := some a } : item).double_size m) =
        it.handle.double_size
      rw [hnew, hold']

theorem evaluation_set_affine_mat_ptr (cfg : config) (camera_position : fixed_point)
    (id : Nat) (a : Option Nat) (s : State)
    (hE : ∀ it ∈ items s.layers, evaluation_pending_or_done cfg camera_position it)
    (hns : (op.set_affine_mat_ptr id a).skips_placement s = false) :
    ∀ it ∈ items (set_affine_mat_ptr camera_position id a s).layers,
      evaluation_pending_or_done cfg camera_position it := by
  unfold set_affine_mat_ptr
  refine evaluation_with_item cfg camera_position id _ s hE ?_
  intro it hfind h
  cases a with
  | none =>
    simp only
    split
    · exact (evaluation_remove_affine_mat cfg camera_position s.affine_mats it s.data h).1
    · exact h
  | some a =>
    simp only
    split
    · exact h
    · rename_i hne
      split
      · split
        · exact (evaluation_remove_affine_mat cfg camera_position s.affine_mats it s.data h).1
        · exact h
      · rename_i hrem
        refine evaluation_assign_affine_mat cfg camera_position s.affine_mats a it s.data h ?_
        intro hds hnew
        simp only [op.skips_placement, hfind] at hns
        have hrem' : (it.remove_affine_mat_when_not_needed
            && sprite_affine_mats_manager.is_identity s.affine_mats a) = false := by
          simpa using hrem
        rw [hds, hnew, hrem'] at hns
        cases hv : it.visible with
        | false => exact Or.inl rfl
        | true =>
          cases hc : it.check_on_screen with
          | true => exact Or.inr rfl
          | false =>
            rw [hv, hc] at hns
            simp [hne] at hns

theorem evaluation_check_items_on_screen_item (cfg : config) (camera_position : fixed_point)
    (hdw : 0 < cfg.display_width) (hdh : 0 < cfg.display_height) (it : item) (rb : Bool)
    (h : evaluation_pending_or_done cfg camera_position it) :
    evaluation_pending_or_done cfg camera_position
      (_check_items_on_screen_item cfg camera_position it rb).1 := by
  by_cases hc : it.check_on_screen = true
  · have hres := check_items_on_screen_item_result cfg camera_position hdw hdh it rb h
    have hrest : (_check_items_on_screen_item cfg camera_position it rb).1.handle = it.handle ∧
        (_check_items_on_screen_item cfg camera_position it rb).1.check_on_screen = false := by
      simp only [_check_items_on_screen_item, hc, if_true]
      split <;> exact ⟨rfl, rfl⟩
    refine ⟨?_, ?_, fun _ => hres⟩
    · rw [hrest.1]; exact h.1
    · intro h0
      rw [hrest.2] at h0
      exact absurd h0 (by simp)
  · have he : (_check_items_on_screen_item cfg camera_position it rb).1 = it := by
      simp only [_check_items_on_screen_item, hc]
      rfl
    rw [he]
    exact h

theorem evaluation_check_items_on_screen (cfg : config) (camera_position : fixed_point)
    (s : State) (hdw : 0 < cfg.display_width) (hdh : 0 < cfg.display_height)
    (hE : ∀ it ∈ items s.layers, evaluation_pending_or_done cfg camera_position it) :
    ∀ it ∈ items (_check_items_on_screen cfg camera_position s).layers,
      evaluation_pending_or_done cfg camera_position it := by
  unfold _check_items_on_screen
  split
  · simp only
    have hi := for_each_item_items (_check_items_on_screen_item cfg camera_position)
      s.layers s.data.rebuild_handles
    have h1 : items (for_each_item (_check_items_on_screen_item cfg camera_position)
        s.layers s.data.rebuild_handles).1 =
        (for_each_in_layer (_check_items_on_screen_item cfg camera_position)
          (items s.layers) s.data.rebuild_handles).1 := by rw [← hi]
    rw [h1]
    exact for_each_in_layer_pointwise _ _ _
      (fun it rb h => evaluation_check_items_on_screen_item cfg camera_position hdw hdh it rb h)
      (items s.layers) s.data.rebuild_handles hE
  · exact hE

/-- A completed `update()` keeps every record consistent. -/
theorem evaluation_update (cfg : config) (camera_position : fixed_point) (s s' : State)
    (hdw : 0 < cfg.display_width) (hdh : 0 < cfg.display_height)
    (hE : ∀ it ∈ items s.layers, evaluation_pending_or_done cfg camera_position it)
    (hfl : ∀ it ∈ items s.layers, it.check_on_screen = true →
      s.data.check_items_on_screen = true)
    (hs' : update cfg camera_position s = some s') :
    ∀ it ∈ items s'.layers, evaluation_pending_or_done cfg camera_position it := by
  intro it hit
  unfold update at hs'
  obtain ⟨a1, _⟩ := check_affine_mats_evaluation cfg camera_position s hE hfl
  have hQ := evaluation_check_items_on_screen cfg camera_position _ hdw hdh a1
  have hmap := rebuild_handles_items cfg _ s' hs'
  have hmem : ({ it with handles_index := 0 } : item) ∈
      (items s'.layers).map (fun it => { it with handles_index := 0 }) :=
    List.mem_map.2 ⟨it, hit, rfl⟩
  rw [hmap] at hmem
  obtain ⟨it0, hit0, he⟩ := List.mem_map.1 hmem
  have e1 : it0.on_screen = it.on_screen := by
    have h0 := congrArg item.on_screen he
    exact h0
  have e2 : it0.visible = it.visible := by
    have h0 := congrArg item.visible he
    exact h0
  have e3 : it0.position = it.position := by
    have h0 := congrArg item.position he
    exact h0
  have e4 : it0.ignore_camera = it.ignore_camera := by
    have h0 := congrArg item.ignore_camera he
    exact h0
  have e5 : it0.handle = it.handle := by
    have h0 := congrArg item.handle he
    exact h0
  have e6 : it0.check_on_screen = it.check_on_screen := by
    have h0 := congrArg item.check_on_screen he
    exact h0
  exact evaluation_of_eq cfg camera_position it0 it (hQ it0 hit0)
    (by rw [e5]) (by rw [e5]) (by rw [e5]) e3.symm e4.symm e2.symm e1.symm e6.symm

theorem evaluation_update_camera (cfg : config) (camera_position new_position : fixed_point)
    (s : State)
    (hE : ∀ it ∈ items s.layers, evaluation_pending_or_done cfg camera_position it) :
    ∀ it ∈ items (update_camera new_position s).layers,
      evaluation_pending_or_done cfg new_position it := by
  unfold update_camera
  refine evaluation_for_each cfg camera_position new_position _ s hE ?_
  intro it d h
  split
  · exact evaluation_place cfg new_position _ it d h.1
      (fun hv => evaluation_hidden cfg camera_position it h hv)
  · rename_i hi
    exact evaluation_ignore_camera cfg camera_position new_position it (by simpa using hi) h

theorem evaluation_set_double_size_mode (cfg : config) (camera_position : fixed_point)
    (id : Nat) (mode : sprite_double_size_mode) (s : State)
    (hE : ∀ it ∈ items s.layers, evaluation_pending_or_done cfg camera_position it) :
    ∀ it ∈ items (set_double_size_mode camera_position id mode s).layers,
      evaluation_pending_or_done cfg camera_position it := by
  unfold set_double_size_mode
  refine evaluation_with_item cfg camera_position id _ s hE ?_
  intro it _ h
  dsimp only
  split
  · split
    · exact evaluation_place cfg camera_position _ _ s.data h.1
        (fun hv => evaluation_hidden cfg camera_position it h hv)
    · exact evaluation_of_eq cfg camera_position it _ h rfl rfl rfl rfl rfl rfl rfl rfl
  · exact evaluation_of_eq cfg camera_position it _ h rfl rfl rfl rfl rfl rfl rfl rfl

theorem evaluation_set_remove_affine_mat_when_not_needed (cfg : config)
    (camera_position : fixed_point) (id : Nat) (v : Bool) (s : State)
    (hE : ∀ it ∈ items s.layers, evaluation_pending_or_done cfg camera_position it) :
    ∀ it ∈ items (set_remove_affine_mat_when_not_needed camera_position id v s).layers,
      evaluation_pending_or_done cfg camera_position it := by
  unfold set_remove_affine_mat_when_not_needed
  refine evaluation_with_item cfg camera_position id _ s hE ?_
  intro it _ h
  dsimp only
  split
  · split
    · refine (evaluation_remove_affine_mat cfg camera_position s.affine_mats _ s.data ?_).1
      exact evaluation_of_eq cfg camera_position it _ h rfl rfl rfl rfl rfl rfl rfl rfl
    · exact evaluation_of_eq cfg camera_position it _ h rfl rfl rfl rfl rfl rfl rfl rfl
  · exact evaluation_of_eq cfg camera_position it _ h rfl rfl rfl rfl rfl rfl rfl rfl

/-- In every state reached without the attach that skips the
placement, every record is consistent for the next visibility pass: it is flagged
only if visible, and if it is not flagged its `on_screen` flag is right for
the camera where it is. -/
theorem evaluation_reachable_placed (cfg : config) (camera_position : fixed_point)
    (s : State) (hdw : 0 < cfg.display_width) (hdh : 0 < cfg.display_height)
    (h : reachable_placed cfg camera_position s) :
    ∀ it ∈ items s.layers, evaluation_pending_or_done cfg camera_position it := by
  induction h with
  | init c m =>
    intro it hit
    simp [init, items] at hit
  | pool s c m _ ih => exact ih
  | camera s c c' _ ih => exact evaluation_update_camera cfg c c' s ih
  | step s s' c o hs hpos hns ha ih =>
    have hkeep : ∀ (id : Nat) (f : item → static_data → item × static_data),
        (∀ it d, (f it d).1.handle.shape_width = it.handle.shape_width ∧
          (f it d).1.handle.shape_height = it.handle.shape_height ∧
          (f it d).1.handle.double_size = it.handle.double_size ∧
          (f it d).1.position = it.position ∧ (f it d).1.ignore_camera = it.ignore_camera ∧
          (f it d).1.visible = it.visible ∧ (f it d).1.on_screen = it.on_screen ∧
          (f it d).1.check_on_screen = it.check_on_screen) →
        ∀ it ∈ items (with_item id f s).layers, evaluation_pending_or_done cfg c it := by
      intro id f hf
      refine evaluation_with_item cfg c id f s ih ?_
      intro it _ h0
      obtain ⟨h1, h2, h3, h4, h5, h6, h7, h8⟩ := hf it s.data
      exact evaluation_of_eq cfg c it _ h0 h1 h2 h3 h4 h5 h6 h7 h8
    cases o with
    | create b =>
      simp only [op.apply, Option.some.injEq] at ha
      rw [← ha]
      have hshape : 0 < b.shape_width ∧ 0 < b.shape_height := by
        simpa [op.positive_shape] using hpos
      unfold create
      split
      · exact ih
      · split
        · exact ih
        · split
          · exact ih
          · exact evaluation_insert cfg c s.layers _ ih
              (evaluation_create_item cfg c s.affine_mats _ b _ _ hshape)
    | increase_usages id =>
      simp only [op.apply, Option.some.injEq] at ha
      rw [← ha]
      exact hkeep id _ (fun it d => ⟨rfl, rfl, rfl, rfl, rfl, rfl, rfl, rfl⟩)
    | decrease_usages id =>
      simp only [op.apply, Option.some.injEq] at ha
      rw [← ha]
      unfold decrease_usages
      cases hfind : find id s.layers with
      | none => exact ih
      | some it =>
        simp only
        split
        · exact evaluation_erase cfg c s.layers id ih
        · exact evaluation_replace cfg c s.layers _ ih
            (evaluation_of_eq cfg c it _ (ih it (find_mem id s.layers it hfind))
              rfl rfl rfl rfl rfl rfl rfl rfl)
    | set_tiles_ptr id t =>
      simp only [op.apply, sprites_manager.set_tiles_ptr] at ha
      cases hfind : find id s.layers with
      | none => simp only [hfind, Option.some.injEq] at ha; rw [← ha]; exact ih
      | some it =>
        simp only [hfind] at ha
        split at ha
        · split at ha
          · rw [Option.some.injEq] at ha
            rw [← ha]
            exact evaluation_replace cfg c s.layers _ ih
              (evaluation_of_eq cfg c it _ (ih it (find_mem id s.layers it hfind))
                rfl rfl rfl rfl rfl rfl rfl rfl)
          · simp at ha
        · rw [Option.some.injEq] at ha; rw [← ha]; exact ih
    | set_palette_ptr id p =>
      simp only [op.apply, sprites_manager.set_palette_ptr] at ha
      cases hfind : find id s.layers with
      | none => simp only [hfind, Option.some.injEq] at ha; rw [← ha]; exact ih
      | some it =>
        simp only [hfind] at ha
        split at ha
        · split at ha
          · rw [Option.some.injEq] at ha
            rw [← ha]
            exact evaluation_replace cfg c s.layers _ ih
              (evaluation_of_eq cfg c it _ (ih it (find_mem id s.layers it hfind))
                rfl rfl rfl rfl rfl rfl rfl rfl)
          · simp at ha
        · rw [Option.some.injEq] at ha; rw [← ha]; exact ih
    | set_position id p =>
      simp only [op.apply, Option.some.injEq] at ha
      rw [← ha]
      unfold sprites_manager.set_position
      refine evaluation_with_item cfg c id _ s ih ?_
      intro it _ h0
      exact evaluation_place cfg c p it s.data h0.1
        (fun hv => evaluation_hidden cfg c it h0 hv)
    | set_bg_priority id p =>
      simp only [op.apply, sprites_manager.set_bg_priority] at ha
      split at ha
      · cases hfind : find id s.layers with
        | none => simp only [hfind, Option.some.injEq] at ha; rw [← ha]; exact ih
        | some it =>
          simp only [hfind] at ha
          split at ha
          · rw [Option.some.injEq] at ha
            rw [← ha]
            exact evaluation_insert cfg c _ _ (evaluation_erase cfg c s.layers id ih)
              (evaluation_of_eq cfg c it _ (ih it (find_mem id s.layers it hfind))
                rfl rfl rfl rfl rfl rfl rfl rfl)
          · rw [Option.some.injEq] at ha; rw [← ha]; exact ih
      · simp at ha
    | set_z_order id z =>
      simp only [op.apply, sprites_manager.set_z_order] at ha
      split at ha
      · cases hfind : find id s.layers with
        | none => simp only [hfind, Option.some.injEq] at ha; rw [← ha]; exact ih
        | some it =>
          simp only [hfind] at ha
          split at ha
          · rw [Option.some.injEq] at ha
            rw [← ha]
            exact evaluation_insert cfg c _ _ (evaluation_erase cfg c s.layers id ih)
              (evaluation_of_eq cfg c it _ (ih it (find_mem id s.layers it hfind))
                rfl rfl rfl rfl rfl rfl rfl rfl)
          · rw [Option.some.injEq] at ha; rw [← ha]; exact ih
      · simp at ha
    | set_horizontal_flip id v =>
      simp only [op.apply, Option.some.injEq] at ha
      rw [← ha]
      unfold sprites_manager.set_horizontal_flip
      cases hfind : find id s.layers with
      | none => exact ih
      | some it =>
        simp only
        split
        · exact ih
        · exact evaluation_replace cfg c s.layers _ ih
            (evaluation_of_eq cfg c it _ (ih it (find_mem id s.layers it hfind))
              rfl rfl rfl rfl rfl rfl rfl rfl)
    | set_vertical_flip id v =>
      simp only [op.apply, Option.some.injEq] at ha
      rw [← ha]
      unfold sprites_manager.set_vertical_flip
      cases hfind : find id s.layers with
      | none => exact ih
      | some it =>
        simp only
        split
        · exact ih
        · exact evaluation_replace cfg c s.layers _ ih
            (evaluation_of_eq cfg c it _ (ih it (find_mem id s.layers it hfind))
              rfl rfl rfl rfl rfl rfl rfl rfl)
    | set_mosaic_enabled id v =>
      simp only [op.apply, Option.some.injEq] at ha
      rw [← ha]
      exact hkeep id _ (fun it d => ⟨rfl, rfl, rfl, rfl, rfl, rfl, rfl, rfl⟩)
    | set_double_size_mode id mode =>
      simp only [op.apply, Option.some.injEq] at ha
      rw [← ha]
      exact evaluation_set_double_size_mode cfg c id mode s ih
    | set_visible id v =>
      simp only [op.apply, Option.some.injEq] at ha
      rw [← ha]
      unfold sprites_manager.set_visible
      refine evaluation_with_item cfg c id _ s ih ?_
      intro it _ h0
      exact evaluation_set_visible_item cfg c it v _ _ h0
    | set_ignore_camera id v =>
      simp only [op.apply, Option.some.injEq] at ha
      rw [← ha]
      unfold sprites_manager.set_ignore_camera
      refine evaluation_with_item cfg c id _ s ih ?_
      intro it _ h0
      exact evaluation_place cfg c _ _ s.data h0.1
        (fun hv => evaluation_hidden cfg c it h0 hv)
    | set_affine_mat_ptr id a =>
      simp only [op.apply, Option.some.injEq] at ha
      rw [← ha]
      exact evaluation_set_affine_mat_ptr cfg c id a s ih hns
    | set_remove_affine_mat_when_not_needed id v =>
      simp only [op.apply, Option.some.injEq] at ha
      rw [← ha]
      exact evaluation_set_remove_affine_mat_when_not_needed cfg c id v s ih
    | update_camera =>
      simp only [op.apply, Option.some.injEq] at ha
      rw [← ha]
      exact evaluation_update_camera cfg c c s ih
    | update =>
      simp only [op.apply] at ha
      exact evaluation_update cfg c s s' hdw hdh ih
        (flags_inv_reachable cfg s (reachable_of_reachable_placed cfg c s hs)) ha
    | commit =>
      simp only [op.apply, Option.some.injEq] at ha
      rw [← ha]
      unfold sprites_manager.commit
      simp only
      split <;> exact ih

theorem sample_s4_placed : reachable_placed sample.cfg sample.camera sample.s4 :=
  reachable_placed.step sample.s3 sample.s4 sample.camera op.update
    (reachable_placed.step sample.s2 sample.s3 sample.camera
      (op.create (sample.builder 2 1 300 20))
      (reachable_placed.step sample.s1 sample.s2 sample.camera
        (op.create (sample.builder 0 5 20 20))
        (reachable_placed.step (init sample.cfg sample.mats) sample.s1 sample.camera
          (op.create (sample.builder 1 5 10 10))
          (reachable_placed.init sample.camera sample.mats) (by decide) rfl rfl)
        (by decide) rfl rfl)
      (by decide) rfl rfl)
    rfl rfl (by decide)

theorem sample_s16_placed : reachable_placed sample.cfg sample.camera sample.s16 :=
  reachable_placed.step _ sample.s16 sample.camera op.update
    (reachable_placed.step _ _ sample.camera
      (op.set_position 0 ⟨fixed.of_int (-6), fixed.of_int 10⟩)
      (reachable_placed.step sample.s11 _ sample.camera (op.set_affine_mat_ptr 0 (some 0))
        (reachable_placed.pool sample.s4 sample.camera sample.mats2 sample_s4_placed)
        rfl (by decide) rfl)
      rfl rfl rfl)
    rfl rfl (by decide)

theorem sample_s26_placed : reachable_placed sample.cfg sample.camera sample.s26 :=
  reachable_placed.step _ sample.s26 sample.camera
    (op.set_position 0 ⟨fixed.of_int (-6), fixed.of_int 10⟩)
    (reachable_placed.step { sample.s6 with affine_mats := sample.mats2 } _ sample.camera
      (op.set_affine_mat_ptr 0 (some 0))
      (reachable_placed.pool sample.s6 sample.camera sample.mats2
        (reachable_placed.step sample.s4 sample.s6 sample.camera (op.set_visible 1 false)
          sample_s4_placed rfl rfl rfl))
      rfl (by decide) rfl)
    rfl rfl rfl

/-- The attach that skips the placement, evaluated: the state `s16` is reached
without it, and there record 0 is visible, not flagged, holds the double-size
transform 0 and is on screen, its doubled footprint `[-14, 2) x [2, 18)`
reaching into the display. `set_affine_mat_ptr(0, transform 1)`, a transform
of normal size, is that attach; after it `update()` completes and record 0 is
visible and still has `on_screen == true`, although its footprint with the
hardware dimensions, now `[-10, -2) x [6, 14)`, does not intersect the display
rectangle `[0, 240) x [0, 160)`. Detaching the transform instead
(`set_affine_mat_ptr(0, none)`) leaves the same footprint, and `update()`
then sets `on_screen` to false. -/
theorem update_keeps_stale_on_screen_after_skipped_placement :
    reachable_placed sample.cfg sample.camera sample.s16 ∧
    find 0 sample.s16.layers = some sample.r8 ∧
    sample.r8.on_screen = true ∧
    footprint_intersects_display sample.cfg sample.camera sample.r8 ∧
    (op.set_affine_mat_ptr 0 (some 1)).skips_placement sample.s16 = true ∧
    update sample.cfg sample.camera sample.s23 = some sample.s24 ∧
    find 0 sample.s24.layers = some sample.r9 ∧
    sample.r9.visible = true ∧
    sample.r9.on_screen = true ∧
    ¬ footprint_intersects_display sample.cfg sample.camera sample.r9 ∧
    update sample.cfg sample.camera
      (set_affine_mat_ptr sample.camera 0 none sample.s16) = some sample.s25 ∧
    (find 0 sample.s25.layers).map
      (fun it => (it.visible, it.on_screen, footprint_x sample.camera it,
        footprint_y sample.camera it, hw.sprites.dimensions it.handle)) =
      some (true, false, -10, 6, ⟨8, 8⟩) :=
  ⟨sample_s16_placed, by decide, by decide, ⟨0, 10, by decide⟩, by decide, by decide,
    by decide, by decide, by decide,
    fun h => absurd
      ((compute_on_screen_iff sample.cfg sample.camera sample.r9 (by decide) (by decide)
        (by decide) (by decide)).2 h) (by decide),
    by decide, by decide⟩

/-- C2 (amended): `update()` completes when the live records are at most
`hw::sprites::count()`, and after a completed `update()` every live record has
`on_screen == true` if and only if it is visible (`visible == true`) and its
camera-adjusted footprint (position minus camera offset unless
`ignore_camera`, centred, with the hardware dimensions) intersects the display
rectangle `[0, width) x [0, height)`. This holds in every state the manager
reaches from `init()` through its public operations, the camera moving only
together with `update_camera()`, with shapes and a display of positive size;
left out are the states reached through the attach that skips the placement
(`set_affine_mat_ptr` clearing the double-size flag of a visible record that
is not flagged for evaluation). -/
theorem update_sets_on_screen_iff_visible_and_in_display (cfg : config)
    (camera_position : fixed_point) (s : State)
    (hdw : 0 < cfg.display_width) (hdh : 0 < cfg.display_height)
    (hs : reachable_placed cfg camera_position s) :
    ((items s.layers).length ≤ cfg.sprites_count →
      ∃ s', update cfg camera_position s = some s') ∧
    ∀ s', update cfg camera_position s = some s' →
      ∀ it ∈ items s'.layers,
        (it.on_screen = true ↔
          it.visible = true ∧ footprint_intersects_display cfg camera_position it) := by
  exact update_settles_consistent_records cfg camera_position s hdw hdh
    (evaluation_reachable_placed cfg camera_position s hdw hdh hs)
    (flags_inv_reachable cfg s (reachable_of_reachable_placed cfg camera_position s hs))

theorem update_sets_on_screen_iff_visible_and_in_display_witness :
    reachable_placed sample.cfg sample.camera sample.s26 ∧
    ((items sample.s26.layers).length ≤ sample.cfg.sprites_count →
      ∃ s', update sample.cfg sample.camera sample.s26 = some s') ∧
    ∀ s', update sample.cfg sample.camera sample.s26 = some s' →
      ∀ it ∈ items s'.layers,
        (it.on_screen = true ↔
          it.visible = true ∧ footprint_intersects_display sample.cfg sample.camera it) :=
  ⟨sample_s26_placed,
    update_sets_on_screen_iff_visible_and_in_display sample.cfg sample.camera sample.s26
      (by decide) (by decide) sample_s26_placed⟩

/-- The camera move that is not announced, evaluated: record 0 of `s4`, at
`(10, 10)`, is on screen with the camera at the origin. With the camera at
`(1000, 0)` and no `update_camera()`, `update()` leaves it on screen although
its camera-adjusted footprint is left of the display; after `update_camera()`
the same `update()` sets `on_screen` to false. -/
theorem update_keeps_stale_on_screen_after_unannounced_camera_move :
    update sample.cfg sample.camera2 sample.s4 = some sample.s27 ∧
    (find 0 sample.s27.layers).map
      (fun it => (it.visible, it.on_screen, footprint_x sample.camera2 it,
        compute_on_screen sample.cfg sample.camera2 it)) = some (true, true, -994, false) ∧
    update sample.cfg sample.camera2 (update_camera sample.camera2 sample.s4) =
      some sample.s28 ∧
    (find 0 sample.s28.layers).map
      (fun it => (it.visible, it.on_screen, footprint_x sample.camera2 it,
        compute_on_screen sample.cfg sample.camera2 it)) = some (true, false, -994, false) :=
  ⟨by decide, by decide, by decide, by decide⟩

/-! ### The declared range of z-orders -/

/-- C15 (as stated, refuted): `-1` lies in the signed 16-bit range and record 0
is live in `s4`, yet `set_z_order(0, -1)` fails its assertion. -/
theorem set_z_order_rejects_minus_one :
    (-32767 : Int) ≤ -1 ∧ (-1 : Int) ≤ 32767 ∧
    (find 0 sample.s4.layers).isSome = true ∧
    set_z_order sample.cfg 0 (-1) sample.s4 = none :=
  ⟨by decide, by decide, by decide, by decide⟩

/-- C15 (amended): `set_z_order` accepts exactly the z-orders of the declared
range `0 <= z < z_orders()`. For a live record and every such `z` the call
completes without a fatal assertion and afterwards `z_order(id) == z`; for
every other `z`, negative or not below `z_orders()`, the call fails its
assertion. -/
theorem set_z_order_accepts_exactly_declared_range (cfg : config) (s : State) (id : Nat)
    (it : item) (z : Int) (hfind : find id s.layers = some it) :
    (0 ≤ z ∧ z < z_orders cfg →
      ∃ s', set_z_order cfg id z s = some s' ∧ z_order id s' = some z) ∧
    (¬ (0 ≤ z ∧ z < z_orders cfg) → set_z_order cfg id z s = none) := by
  constructor
  · intro hz
    have hvalid : z ≥ 0 ∧ z < z_orders cfg := hz
    by_cases he : z = it.z_order
    · refine ⟨s, ?_, ?_⟩
      · unfold set_z_order
        rw [if_pos hvalid]
        simp only [hfind]
        rw [if_neg (fun h => h he)]
      · unfold z_order
        rw [hfind, he]
        rfl
    · refine ⟨{ s with
          data := if it.on_screen then { s.data with rebuild_handles := true } else s.data,
          layers := sorted_sprites.insert (it.update_sort_key it.bg_priority z)
            (erase id s.layers) }, ?_, ?_⟩
      · unfold set_z_order
        rw [if_pos hvalid]
        simp only [hfind]
        rw [if_pos he]
        rfl
      · unfold z_order
        have hid : (it.update_sort_key it.bg_priority z).id = id :=
          find_id id s.layers it hfind
        show (find id (sorted_sprites.insert (it.update_sort_key it.bg_priority z)
          (erase id s.layers))).map (fun it => it.z_order) = some z
        rw [find_insert_erase id s.layers _ hid]
        rfl
  · intro hz
    unfold set_z_order
    rw [if_neg hz]

theorem set_z_order_accepts_exactly_declared_range_witness :
    find 0 sample.s4.layers = some sample.r0 ∧
    (∃ s', set_z_order sample.cfg 0 7 sample.s4 = some s' ∧ z_order 0 s' = some 7) ∧
    set_z_order sample.cfg 0 (-32767) sample.s4 = none ∧
    set_z_order sample.cfg 0 65535 sample.s4 = none :=
  ⟨by decide,
    (set_z_order_accepts_exactly_declared_range sample.cfg sample.s4 0 sample.r0 7
      (by decide)).1 (by decide),
    (set_z_order_accepts_exactly_declared_range sample.cfg sample.s4 0 sample.r0 (-32767)
      (by decide)).2 (by decide),
    (set_z_order_accepts_exactly_declared_range sample.cfg sample.s4 0 sample.r0 65535
      (by decide)).2 (by decide)⟩

end sprites_manager

end btn
